import Mathlib

/-!
PCZSM: paged store, ZSM event-stream interpreter and PSG translator

A shallow embedding of `source/ram.c` and `source/zsm.c` (the build with
`USE_BANKS`, i.e. the 16-bit target: 16 banks of 32768 bytes) and of
`source/saa1099.c` with the constants of `source/vera.h`.

Conventions of the embedding.

* Machine integers are `Nat` (or `Int` for `int32_t`), reduced explicitly
  where the C type truncates; a byte held in memory is a `Fin 256`.
* A pointer into a bank is a pair (block, offset); every bank is its own
  `malloc` block, identified by its index in `pp_banks`.
* Memory that was allocated but never written holds no value: a read there,
  and a read through a pointer outside its block, yields `none`, as does an
  index outside the `pp_banks` / `p_bank_sizes` arrays.
* The writer hooks are recorded in a call log carried by the player state.
* The `while` loop of `zsm_update` takes a fuel argument; running out of
  fuel yields `none`.
* The `outp` calls of the translator are recorded in a log carried by its
  state; the `malloc` of the frequency table is taken to succeed.
-/

namespace PCZSM

/-! ## ram.c -/

def RAM_BANK_MAX_BANKS : Nat := 16
def RAM_BANK_SHIFT : Nat := 15
def RAM_BANK_SIZE : Nat := 1 <<< RAM_BANK_SHIFT
def RAM_BANK_OFFSET_MASK : Nat := RAM_BANK_SIZE - 1
def RAM_BANK_INDEX_MASK : Nat := 0xF

inductive e_ram_seek_origin_t where
  | RAM_SEEK_ORIGIN_SET
  | RAM_SEEK_ORIGIN_CURRENT
  deriving DecidableEq, Repr

inductive e_ram_result_t where
  | RAM_LOAD_SUCCESS
  | RAM_LOAD_UNABLE_TO_OPEN_FILE
  | RAM_LOAD_INSUFFICIENT_MEMORY
  deriving DecidableEq, Repr

/-- A byte pointer: null, or an offset into the block of one bank. -/
inductive pointer where
  | null : pointer
  | loc (block : Nat) (off : Nat) : pointer
  deriving DecidableEq, Repr

/-- The `ram_t` record. `pp_banks[b]` lists the bytes of bank `b` that have
been written (a prefix of the block); `p_bank_sizes[b]` is the block size. -/
structure ram where
  pp_banks : List (List (Fin 256))
  p_bank_sizes : List Nat
  number_of_banks : Nat
  deriving DecidableEq, Repr

/-- The `ram_bank_t` cursor. -/
structure ram_bank_t where
  p_start : pointer
  p_end : pointer
  p_current : pointer
  bank : Nat
  deriving DecidableEq, Repr

/-- Reading one byte through a pointer. -/
def ram_deref (p_ram : ram) : pointer → Option Nat
  | pointer.null => none
  | pointer.loc block off =>
    (p_ram.pp_banks[block]?).bind (fun bytes => (bytes[off]?).map Fin.val)

/-- The number of banks computed by `ram_data_alloc_banks`, a `uint8_t`:
the quotient is truncated to 8 bits, then incremented when the size is not a
multiple of the bank size. -/
def alloc_number_of_banks (total_size : Nat) : Nat :=
  let number_of_banks := (total_size / RAM_BANK_SIZE) % 256
  if total_size &&& RAM_BANK_OFFSET_MASK ≠ 0 then (number_of_banks + 1) % 256 else number_of_banks

/-- Embedding of `ram_data_alloc_banks` on a zeroed `ram_t`, every `malloc`
succeeding: `none` stands for the result `false`. The blocks are allocated
but hold no byte yet. -/
def ram_data_alloc_banks (total_size : Nat) : Option ram :=
  let number_of_banks := alloc_number_of_banks total_size
  if number_of_banks > RAM_BANK_MAX_BANKS then none
  else if number_of_banks > 0 then
    some { pp_banks := List.replicate number_of_banks [],
           p_bank_sizes := List.replicate number_of_banks RAM_BANK_SIZE,
           number_of_banks := number_of_banks }
  else none

/-- The `fread` loop of `ram_load_file`: bank after bank receives the next
`p_bank_sizes[bank]` bytes of the file, or what is left of it. -/
def fread_banks : List Nat → List (Fin 256) → List (List (Fin 256))
  | [], _ => []
  | size :: sizes, file => file.take size :: fread_banks sizes (file.drop size)

/-- Embedding of `ram_load_file`; the argument is the content of the file,
`none` when it cannot be opened. -/
def ram_load_file (file : Option (List (Fin 256))) : e_ram_result_t × Option ram :=
  match file with
  | none => (e_ram_result_t.RAM_LOAD_UNABLE_TO_OPEN_FILE, none)
  | some bytes =>
    match ram_data_alloc_banks bytes.length with
    | some p_ram =>
      (e_ram_result_t.RAM_LOAD_SUCCESS,
        some { p_ram with pp_banks := fread_banks p_ram.p_bank_sizes bytes })
    | none =>
      (e_ram_result_t.RAM_LOAD_INSUFFICIENT_MEMORY,
        some { pp_banks := [], p_bank_sizes := [], number_of_banks := 0 })

/-- Embedding of `ram_get_address`: the pointer `&pp_banks[bank][bank_offset]`. -/
def ram_get_address (p_ram : ram) (offset : Nat) : Option pointer :=
  let bank := (offset >>> RAM_BANK_SHIFT) &&& RAM_BANK_INDEX_MASK
  let bank_offset := offset &&& RAM_BANK_OFFSET_MASK
  (p_ram.pp_banks[bank]?).map (fun _ => pointer.loc bank bank_offset)

/-- Embedding of `ram_get_bank`: binds the cursor to the start of the bank
named by its `bank` field. -/
def ram_get_bank (p_ram : ram) (p_ram_bank : ram_bank_t) : Option ram_bank_t :=
  let bank := p_ram_bank.bank
  match p_ram.pp_banks[bank]?, p_ram.p_bank_sizes[bank]? with
  | some _, some size =>
    some { p_start := pointer.loc bank 0, p_end := pointer.loc bank size,
           p_current := pointer.loc bank 0, bank := bank }
  | _, _ => none

/-- The two's complement bits of an `int32_t`, as a natural number. -/
def int32_bits (x : Int) : Nat := (x % 4294967296).toNat

/-- Conversion of an integer to `int32_t` (wrapping). -/
def to_int32 (x : Int) : Int := (x + 2147483648) % 4294967296 - 2147483648

/-- The pointer difference `p - q`, defined inside one block. -/
def pointer_diff : pointer → pointer → Option Nat
  | pointer.loc b p, pointer.loc c q => if b = c ∧ q ≤ p then some (p - q) else none
  | _, _ => none

/-- Embedding of `ram_seek_bank`. -/
def ram_seek_bank (p_ram : ram) (offset : Int) (seek_origin : e_ram_seek_origin_t)
    (p_ram_bank : ram_bank_t) : Option ram_bank_t :=
  let target : Option (Nat × Nat) :=
    match seek_origin with
    | e_ram_seek_origin_t.RAM_SEEK_ORIGIN_SET =>
      some ((int32_bits offset >>> RAM_BANK_SHIFT) &&& RAM_BANK_INDEX_MASK,
            int32_bits offset &&& RAM_BANK_OFFSET_MASK)
    | e_ram_seek_origin_t.RAM_SEEK_ORIGIN_CURRENT =>
      (pointer_diff p_ram_bank.p_current p_ram_bank.p_start).map (fun bank_absolute_position =>
        let abosolute_position : Nat :=
          ((p_ram_bank.bank <<< RAM_BANK_SHIFT) + bank_absolute_position) % 4294967296
        let new_absolute_position : Int := to_int32 ((abosolute_position : Int) + offset)
        if new_absolute_position < 0 then
          let mirrored : Nat := int32_bits (to_int32 (-new_absolute_position))
          (((mirrored >>> RAM_BANK_SHIFT) &&& RAM_BANK_INDEX_MASK) + 1,
           (RAM_BANK_SIZE - (mirrored &&& RAM_BANK_OFFSET_MASK)) % 65536)
        else
          ((int32_bits new_absolute_position >>> RAM_BANK_SHIFT) &&& RAM_BANK_INDEX_MASK,
           int32_bits new_absolute_position &&& RAM_BANK_OFFSET_MASK))
  target.bind (fun (bank, bank_offset) =>
    match p_ram.pp_banks[bank]?, p_ram.p_bank_sizes[bank]? with
    | some _, some size =>
      some { p_start := pointer.loc bank 0, p_end := pointer.loc bank size,
             p_current := pointer.loc bank bank_offset, bank := bank }
    | _, _ => none)

/-! ## zsm.c -/

def ZSM_CMD_PSG_WRITE_00 : Nat := 0x00
def ZSM_CMD_PSG_WRITE_3F : Nat := 0x3F
def ZSM_CMD_EXT : Nat := 0x40
def ZSM_CMD_FM_WRITE_41 : Nat := 0x41
def ZSM_CMD_FM_WRITE_7F : Nat := 0x7F
def ZSM_CMD_EOF : Nat := 0x80
def ZSM_CMD_DELAY_81 : Nat := 0x81
def ZSM_CMD_DELAY_FF : Nat := 0xFF

def ZSM_VERSION_01 : Nat := 0x01
def ZSM_REPEAT_FOREVER_COUNT : Nat := 0xFF
def ZSM_REPEAT_COUNT_MASK : Nat := 0xFF
def ZSM_MASK_CMD_DATA_EXT : Nat := 0x3F
def ZSM_MASK_CMD_DATA_PSG_ADDRESS : Nat := 0x3F
def ZSM_MASK_CMD_DATA_FM_PAIRS : Nat := 0x3F
def ZSM_MASK_CMD_DATA_DELAY : Nat := 0x7F
def ZSM_REPEAT_FOREVER : Nat := 0x8000

inductive e_zsm_result_t where
  | ZSM_SUCCESS
  | ZSM_BAD_DATA_POINTER
  | ZSM_UNSUPPORTED_VERSION
  | ZSM_NOTHING_TO_PLAY
  deriving DecidableEq, Repr

/-- A YM2151 writer: the module's own null sink, or a function of the caller. -/
inductive ym2151_write_func_t where
  | zsm_ym2151_write_func_null
  | func (id : Nat)
  deriving DecidableEq, Repr

/-- A VERA PSG writer: the module's own null sink, or a function of the caller. -/
inductive vera_psg_write_func_t where
  | zsm_vera_psg_func_null
  | func (id : Nat)
  deriving DecidableEq, Repr

/-- One call made through a writer hook: the function called and its arguments. -/
inductive write_call where
  | ym2151 (f : ym2151_write_func_t) (address data : Nat)
  | vera_psg (f : vera_psg_write_func_t) (address data : Nat)
  deriving DecidableEq, Repr

/-- The module-level variables of zsm.c, with the log of the writer calls. -/
structure zsm_globals where
  g_p_ym2151_write_func : ym2151_write_func_t
  g_p_vera_psg_write_func : vera_psg_write_func_t
  g_p_zsm_ram_handle : Option ram
  g_play_stream : Bool
  g_zsm_repeat : Nat
  g_delay_ticks : Nat
  g_repeat_count : Nat
  g_ram_bank : ram_bank_t
  calls : List write_call
  deriving DecidableEq, Repr

/-- The variables as the C initialisers leave them. -/
def zsm_globals_initial : zsm_globals :=
  { g_p_ym2151_write_func := ym2151_write_func_t.zsm_ym2151_write_func_null,
    g_p_vera_psg_write_func := vera_psg_write_func_t.zsm_vera_psg_func_null,
    g_p_zsm_ram_handle := none,
    g_play_stream := false,
    g_zsm_repeat := 0,
    g_delay_ticks := 0,
    g_repeat_count := 0,
    g_ram_bank := { p_start := pointer.null, p_end := pointer.null,
                    p_current := pointer.null, bank := 0 },
    calls := [] }

/-- Pointer plus a byte count. -/
def pointer_add : pointer → Nat → pointer
  | pointer.null, _ => pointer.null
  | pointer.loc block off, n => pointer.loc block (off + n)

/-- A little-endian `uint16_t` field read through a byte pointer. -/
def read_uint16 (p_ram : ram) (p : pointer) : Option Nat :=
  (ram_deref p_ram p).bind (fun lo =>
    (ram_deref p_ram (pointer_add p 1)).map (fun hi => lo + 256 * hi))

/-- The macro `RAM_UPDATE_POS`: step the cursor by one byte, rolling over to
the start of the next bank (a `uint8_t` index) after the last byte of a bank. -/
def RAM_UPDATE_POS (p_ram : ram) (g_ram_bank : ram_bank_t) : Option ram_bank_t :=
  match g_ram_bank.p_current, g_ram_bank.p_end with
  | pointer.loc block off, pointer.loc end_block end_off =>
    if block = end_block ∧ 0 < end_off then
      if off < end_off - 1 then
        some { g_ram_bank with p_current := pointer.loc block (off + 1) }
      else
        ram_get_bank p_ram { g_ram_bank with bank := (g_ram_bank.bank + 1) % 256 }
    else none
  | _, _ => none

/-- The `for` loop of the FM write command, for the pairs still to be read. -/
def zsm_fm_write_loop (p_ram : ram) : Nat → zsm_globals → Option zsm_globals
  | 0, g => some g
  | n + 1, g =>
    (ram_deref p_ram g.g_ram_bank.p_current).bind (fun address =>
    (RAM_UPDATE_POS p_ram g.g_ram_bank).bind (fun bank1 =>
    (ram_deref p_ram bank1.p_current).bind (fun data =>
    (RAM_UPDATE_POS p_ram bank1).bind (fun bank2 =>
      zsm_fm_write_loop p_ram n
        { g with g_ram_bank := bank2,
                 calls := g.calls ++ [write_call.ym2151 g.g_p_ym2151_write_func address data] }))))

/-- The EOF command, the command byte already consumed. Both loop point
fields are read on every path that reads one of them. -/
def zsm_cmd_eof (p_ram : ram) (g : zsm_globals) : Option zsm_globals :=
  (ram_get_address p_ram 0).bind (fun p_header =>
    let stop : zsm_globals := { g with g_play_stream := false, g_delay_ticks := 0 }
    if g.g_repeat_count > 0 then
      (read_uint16 p_ram (pointer_add p_header 3)).bind (fun address =>
      (ram_deref p_ram (pointer_add p_header 5)).bind (fun bank =>
        if address ≠ 0 ∨ bank ≠ 0 then
          let loop_offset : Nat := ((bank <<< 16) ||| address) % 4294967296
          (ram_seek_bank p_ram (to_int32 loop_offset)
              e_ram_seek_origin_t.RAM_SEEK_ORIGIN_SET g.g_ram_bank).map (fun cursor =>
            let g_repeat_count := g.g_repeat_count - 1
            { g with
              g_ram_bank := cursor,
              g_repeat_count :=
                if g.g_zsm_repeat &&& ZSM_REPEAT_FOREVER ≠ 0 ∧ g_repeat_count = 0
                then ZSM_REPEAT_FOREVER_COUNT else g_repeat_count })
        else some stop))
    else some stop)

/-- One iteration of the body of the `while` loop of `zsm_update`: decode
and execute one command. -/
def zsm_update_body (g : zsm_globals) : Option zsm_globals :=
  match g.g_p_zsm_ram_handle with
  | none => none
  | some p_ram =>
    (ram_deref p_ram g.g_ram_bank.p_current).bind (fun command =>
    (RAM_UPDATE_POS p_ram g.g_ram_bank).bind (fun bank1 =>
      let g1 : zsm_globals := { g with g_ram_bank := bank1 }
      if command = ZSM_CMD_EXT then
        (ram_deref p_ram bank1.p_current).bind (fun extension_command =>
        (RAM_UPDATE_POS p_ram bank1).bind (fun bank2 =>
        (ram_seek_bank p_ram ((extension_command &&& ZSM_MASK_CMD_DATA_EXT : Nat) : Int)
            e_ram_seek_origin_t.RAM_SEEK_ORIGIN_CURRENT bank2).map (fun bank3 =>
          { g1 with g_ram_bank := bank3 })))
      else if command = ZSM_CMD_EOF then
        zsm_cmd_eof p_ram g1
      else if command < ZSM_CMD_EXT then
        let address := command &&& ZSM_MASK_CMD_DATA_PSG_ADDRESS
        (ram_deref p_ram bank1.p_current).bind (fun data =>
        (RAM_UPDATE_POS p_ram bank1).map (fun bank2 =>
          { g1 with g_ram_bank := bank2,
                    calls := g1.calls ++
                      [write_call.vera_psg g1.g_p_vera_psg_write_func address data] }))
      else if command < ZSM_CMD_EOF then
        zsm_fm_write_loop p_ram (command &&& ZSM_MASK_CMD_DATA_FM_PAIRS) g1
      else
        some { g1 with g_delay_ticks := command &&& ZSM_MASK_CMD_DATA_DELAY }))

/-- The `while` loop of `zsm_update`; `none` when the fuel runs out first. -/
def zsm_update_loop : Nat → zsm_globals → Option zsm_globals
  | 0, g => if g.g_play_stream = true ∧ g.g_delay_ticks = 0 then none else some g
  | fuel + 1, g =>
    if g.g_play_stream = true ∧ g.g_delay_ticks = 0 then
      (zsm_update_body g).bind (zsm_update_loop fuel)
    else some g

/-- Embedding of `zsm_update`. -/
def zsm_update (fuel : Nat) (g : zsm_globals) : Option zsm_globals :=
  if g.g_play_stream = false then some g
  else
    zsm_update_loop fuel
      (if g.g_delay_ticks > 0 then { g with g_delay_ticks := g.g_delay_ticks - 1 } else g)

/-- Embedding of `zsm_start`. -/
def zsm_start (zsm_repeat : Nat) (g : zsm_globals) : zsm_globals :=
  { g with
    g_delay_ticks := 1,
    g_play_stream := true,
    g_zsm_repeat := zsm_repeat,
    g_repeat_count :=
      if zsm_repeat &&& ZSM_REPEAT_FOREVER ≠ 0 then ZSM_REPEAT_FOREVER_COUNT
      else zsm_repeat &&& ZSM_REPEAT_COUNT_MASK }

/-- Embedding of `zsm_stop`. -/
def zsm_stop (g : zsm_globals) : zsm_globals :=
  { g with g_play_stream := false }

/-- Embedding of `zsm_is_playing`. -/
def zsm_is_playing (g : zsm_globals) : Bool :=
  g.g_play_stream

/-- The YM2151 hook after `zsm_initialize`: the writer passed when the FM
channel mask is non-zero and the writer is not null, the old hook otherwise. -/
def install_ym2151_write_func (fm_channel_mask : Nat)
    (p_ym2151_write_func : Option ym2151_write_func_t)
    (g_p_ym2151_write_func : ym2151_write_func_t) : ym2151_write_func_t :=
  match p_ym2151_write_func with
  | some f => if fm_channel_mask ≠ 0 then f else g_p_ym2151_write_func
  | none => g_p_ym2151_write_func

/-- The VERA PSG hook after `zsm_initialize`: the writer passed when the PSG
channel mask is non-zero and the writer is not null, the old hook otherwise. -/
def install_vera_psg_write_func (psg_channel_mask : Nat)
    (p_vera_psg_write_func : Option vera_psg_write_func_t)
    (g_p_vera_psg_write_func : vera_psg_write_func_t) : vera_psg_write_func_t :=
  match p_vera_psg_write_func with
  | some f => if psg_channel_mask ≠ 0 then f else g_p_vera_psg_write_func
  | none => g_p_vera_psg_write_func

/-- Embedding of `zsm_initialize`; a null argument is `none`. -/
def zsm_initialize (p_zsm_ram_handle : Option ram)
    (p_ym2151_write_func : Option ym2151_write_func_t)
    (p_vera_psg_write_func : Option vera_psg_write_func_t)
    (g : zsm_globals) : Option (e_zsm_result_t × zsm_globals) :=
  match p_zsm_ram_handle with
  | none => some (e_zsm_result_t.ZSM_BAD_DATA_POINTER, g)
  | some p_ram =>
    let g0 : zsm_globals := { g with g_p_zsm_ram_handle := some p_ram }
    (ram_get_address p_ram 0).bind (fun p_header =>
    (ram_deref p_ram (pointer_add p_header 2)).bind (fun version =>
      if version = ZSM_VERSION_01 then
        (ram_deref p_ram (pointer_add p_header 9)).bind (fun fm_channel_mask =>
        (read_uint16 p_ram (pointer_add p_header 10)).bind (fun psg_channel_mask =>
          let g1 : zsm_globals :=
            { g0 with
              g_play_stream := false,
              g_p_ym2151_write_func :=
                install_ym2151_write_func fm_channel_mask p_ym2151_write_func
                  g.g_p_ym2151_write_func,
              g_p_vera_psg_write_func :=
                install_vera_psg_write_func psg_channel_mask p_vera_psg_write_func
                  g.g_p_vera_psg_write_func }
          if g1.g_p_ym2151_write_func ≠ ym2151_write_func_t.zsm_ym2151_write_func_null ∨
              g1.g_p_vera_psg_write_func ≠ vera_psg_write_func_t.zsm_vera_psg_func_null then
            (ram_seek_bank p_ram 16 e_ram_seek_origin_t.RAM_SEEK_ORIGIN_SET g1.g_ram_bank).map
              (fun cursor => (e_zsm_result_t.ZSM_SUCCESS, { g1 with g_ram_bank := cursor }))
          else some (e_zsm_result_t.ZSM_NOTHING_TO_PLAY, g1)))
      else some (e_zsm_result_t.ZSM_UNSUPPORTED_VERSION, g0)))

/-- The record `zsm_offset_t`. -/
structure zsm_offset_t where
  address : Nat
  bank : Nat
  deriving DecidableEq, Repr

/-- The record `zsm_header_t` (packed, 16 bytes). -/
structure zsm_header_t where
  magic_header : Nat
  version : Nat
  loop_point : zsm_offset_t
  pcm_offset : zsm_offset_t
  fm_channel_mask : Nat
  psg_channel_mask : Nat
  tick_rate : Nat
  reserved : Nat
  deriving DecidableEq, Repr

/-- The static `g_empty_header`, zero in every field. -/
def g_empty_header : zsm_header_t :=
  { magic_header := 0, version := 0,
    loop_point := { address := 0, bank := 0 },
    pcm_offset := { address := 0, bank := 0 },
    fm_channel_mask := 0, psg_channel_mask := 0, tick_rate := 0, reserved := 0 }

/-- The value `*(zsm_header_t const *)p`: the fields of the packed record at
their byte offsets, the 16-bit ones little-endian. -/
def zsm_header_read (p_ram : ram) (p : pointer) : Option zsm_header_t :=
  (read_uint16 p_ram p).bind (fun magic_header =>
  (ram_deref p_ram (pointer_add p 2)).bind (fun version =>
  (read_uint16 p_ram (pointer_add p 3)).bind (fun loop_address =>
  (ram_deref p_ram (pointer_add p 5)).bind (fun loop_bank =>
  (read_uint16 p_ram (pointer_add p 6)).bind (fun pcm_address =>
  (ram_deref p_ram (pointer_add p 8)).bind (fun pcm_bank =>
  (ram_deref p_ram (pointer_add p 9)).bind (fun fm_channel_mask =>
  (read_uint16 p_ram (pointer_add p 10)).bind (fun psg_channel_mask =>
  (read_uint16 p_ram (pointer_add p 12)).bind (fun tick_rate =>
  (read_uint16 p_ram (pointer_add p 14)).map (fun reserved =>
    { magic_header := magic_header, version := version,
      loop_point := { address := loop_address, bank := loop_bank },
      pcm_offset := { address := pcm_address, bank := pcm_bank },
      fm_channel_mask := fm_channel_mask, psg_channel_mask := psg_channel_mask,
      tick_rate := tick_rate, reserved := reserved }))))))))))

/-- Embedding of `zsm_get_header`. -/
def zsm_get_header (g : zsm_globals) : Option zsm_header_t :=
  match g.g_p_zsm_ram_handle with
  | some p_ram => (ram_get_address p_ram 0).bind (zsm_header_read p_ram)
  | none => some g_empty_header

/-! ## vera.h -/

def VERA_PSG_OFFSET_FREQ_LO : Nat := 0
def VERA_PSG_OFFSET_FREQ_HI : Nat := 1
def VERA_PSG_OFFSET_RL_VOLUME : Nat := 2
def VERA_PSG_OFFSET_WAVEFORM_PULSE_WIDTH : Nat := 3

def VERA_PSG_ADDRESS_TO_CHANNEL (address : Nat) : Nat := address >>> 2
def VERA_PSG_ADDRESS_TO_OFFSET (address : Nat) : Nat := address &&& 3

def VERA_PSG_MASK_FREQ_LO : Nat := 0xFF
def VERA_PSG_MASK_FREQ_HI : Nat := 0xFF00
def VERA_PSG_MASK_RIGHT_LEFT : Nat := 0x80 ||| 0x40
def VERA_PSG_MASK_VOLUME : Nat := 0x3F
def VERA_PSG_MASK_WAVEFORM : Nat := 0xC0
def VERA_PSG_SHIFT_WAVEFORM : Nat := 6
def VERA_PSG_SHIFT_LEFT : Nat := 6
def VERA_PSG_SHIFT_FREQ_HI : Nat := 8
def VERA_PSG_FREQ_BASE_OCTAVE : Nat := 17

/-! ## saa1099.c

Values of type `uint8_t`, `uint16_t` and `uint32_t` are natural numbers,
reduced modulo 2^8, 2^16 and 2^32 where the source stores them. Reads of
`g_cache`, of the lookup tables and of the frequency table return `none` past
the end of the array; `outp` calls are logged in `saa1099_globals.ports`. -/

def FREQ_23_9_FIXED_POINT_SHIFT : Nat := 9
def FREQ_SAA1099_FREQUENCY_DIV_MAX_RANGE : Nat := 511
def FREQ_SAA1099_FREQUENCY_DIV_MAX_VALUE : Nat := 256

def SAA1099_7MHZ_VERA_MIN_FREQUENCY : Nat := 74
def SAA1099_7MHZ_VERA_MAX_FREQUENCY : Nat := 18767
def SAA1099_8MHZ_VERA_MIN_FREQUENCY : Nat := 82
def SAA1099_8MHZ_VERA_MAX_FREQUENCY : Nat := 20971
def SAA1099_7MHZ_VERA_FREQ_RANGE : Nat :=
  SAA1099_7MHZ_VERA_MAX_FREQUENCY - SAA1099_7MHZ_VERA_MIN_FREQUENCY + 1
def SAA1099_8MHZ_VERA_FREQ_RANGE : Nat :=
  SAA1099_8MHZ_VERA_MAX_FREQUENCY - SAA1099_8MHZ_VERA_MIN_FREQUENCY + 1

def SAA1099_MAX_CHIPS : Nat := 2
def SAA1099_CHANNEL_COUNT : Nat := 6
def SAA1099_OCTAVE_COUNT : Nat := 8
def SAA1099_REGISTER_COUNT : Nat := 32
def SAA1099_MAX_OCTAVE : Nat := SAA1099_OCTAVE_COUNT - 1
def SAA1099_VERA_PSG_CHANNELS : Nat := 12

def SAA1099_ADDRESS_AMPLITUDE : Nat := 0x00
def SAA1099_ADDRESS_FREQUENCY : Nat := 0x08
def SAA1099_ADDRESS_OCTAVE : Nat := 0x10
def SAA1099_ADDRESS_FREQUENCY_ENABLE : Nat := 0x14
def SAA1099_ADDRESS_NOISE_ENABLE : Nat := 0x15
def SAA1099_ADDRESS_FREQUENCY_RESET_SOUND_ENABLE : Nat := 0x1C

def SAA1099_SOUND_ENABLE : Nat := 0x01
def SAA1099_FREQUENCY_RESET : Nat := 0x02

def SAA1099_FREQUENCY_ENABLE_ALL_CHANNELS : Nat := 0x3F
def SAA1099_MASK_OCTAVE_BITS : Nat := 0x77
def SAA1099_MASK_OCTAVE_SELECT : Nat := 0x07

def SAA1099_MASK_PACKED_FREQUENCY_FREQUENCY : Nat := 0xFF
def SAA1099_MASK_PACKED_FREQUENCY_OCTAVE : Nat := 0x0700
def SAA1099_SHIFT_PACKED_FREQUENCY_OCTAVE : Nat := 8

def SAA1099_GET_CACHE_OFFSET (chip_id : Nat) : Nat := chip_id <<< 5

def SAA1099_8MHZ_VERA_FREQ : Nat := 164
def SAA1099_7MHZ_VERA_FREQ : Nat := 147

/-- The values of `e_saa1099_clock_t` (saa1099.h); a clock argument is any
integer. -/
def SAA1099_CLOCK_7159090_HZ : Int := 0
def SAA1099_CLOCK_8000000_HZ : Int := 1
def SAA1099_CLOCK_INVALID : Int := -1

structure saa1099_verga_psg_range_t where
  clock_ratio : Nat
  range : Nat
  min_r : Nat
  max_r : Nat
  deriving DecidableEq, Repr

def g_saa1099_8mhz_vera_psg_range : saa1099_verga_psg_range_t :=
  { clock_ratio := SAA1099_8MHZ_VERA_FREQ, range := SAA1099_8MHZ_VERA_FREQ_RANGE,
    min_r := SAA1099_8MHZ_VERA_MIN_FREQUENCY, max_r := SAA1099_8MHZ_VERA_MAX_FREQUENCY }

def g_saa1099_7mhz_vera_psg_range : saa1099_verga_psg_range_t :=
  { clock_ratio := SAA1099_7MHZ_VERA_FREQ, range := SAA1099_7MHZ_VERA_FREQ_RANGE,
    min_r := SAA1099_7MHZ_VERA_MIN_FREQUENCY, max_r := SAA1099_7MHZ_VERA_MAX_FREQUENCY }

def g_vera_psg_volume_to_saa1099_volume : List Nat :=
  [0x00, 0x00, 0x00, 0x00, 0x00, 0x00, 0x00, 0x00, 0x00, 0x00, 0x00, 0x00, 0x00, 0x00, 0x00, 0x00,
   0x11, 0x11, 0x11, 0x11, 0x11, 0x11, 0x11, 0x11, 0x11, 0x11, 0x11, 0x11, 0x11, 0x11, 0x11, 0x11,
   0x22, 0x22, 0x22, 0x22, 0x22, 0x22, 0x22, 0x22, 0x22, 0x33, 0x33, 0x33, 0x33, 0x33, 0x44, 0x44,
   0x44, 0x44, 0x44, 0x55, 0x55, 0x55, 0x66, 0x66, 0x77, 0x77, 0x77, 0x88, 0x88, 0x99, 0x99, 0xAA]

def g_saa_amplitude_mask : List Nat := [0x00, 0x0F, 0xF0, 0xFF]

/-- Embedding of `nlz5_16`; every assignment to the `uint16_t` variable is
reduced modulo 2^16. -/
def nlz5_16 (x : Nat) : Nat :=
  let x := x ||| (x >>> 1)
  let x := x ||| (x >>> 2)
  let x := x ||| (x >>> 4)
  let x := x ||| (x >>> 8)
  let x := x ^^^ 0xFFFF
  let x := (x + 65536 - ((x >>> 1) &&& 0x5555)) % 65536
  let x := ((x &&& 0x3333) + ((x >>> 2) &&& 0x3333)) % 65536
  let x := ((x + (x >>> 4)) % 65536) &&& 0x0F0F
  let x := (x + (x <<< 8)) % 65536
  x >>> 8

/-- The entry `ratios[octave]` of the first loop of
`saa1099_generate_vera_psg_frequency_table`, a `uint32_t`. -/
def frequency_table_ratios (clock_ratio : Nat) (octave : Nat) : Nat :=
  (clock_ratio <<< (VERA_PSG_FREQ_BASE_OCTAVE + octave)) % 4294967296

/-- The octave estimate of the second loop of
`saa1099_generate_vera_psg_frequency_table`: the `uint8_t` value
`16 - 7 - nlz5_16(vera_frequency_word)`, capped at `SAA1099_MAX_OCTAVE`. -/
def frequency_table_octave_estimate (vera_frequency_word : Nat) : Nat :=
  let octave := (256 + 16 - 7 - nlz5_16 vera_frequency_word) % 256
  if octave > SAA1099_MAX_OCTAVE then SAA1099_MAX_OCTAVE else octave

/-- The final `(octave, value)` of one iteration of the second loop of
`saa1099_generate_vera_psg_frequency_table`; `--octave` wraps as a
`uint8_t`. -/
def frequency_table_octave_value (clock_ratio : Nat) (vera_frequency_word : Nat) : Nat × Nat :=
  let octave := frequency_table_octave_estimate vera_frequency_word
  let value_fixed_point := frequency_table_ratios clock_ratio octave / vera_frequency_word
  let value := (value_fixed_point >>> FREQ_23_9_FIXED_POINT_SHIFT) % 65536
  if value > FREQ_SAA1099_FREQUENCY_DIV_MAX_RANGE then
    ((octave + 255) % 256, value >>> 1)
  else if value < FREQ_SAA1099_FREQUENCY_DIV_MAX_VALUE then
    (octave, FREQ_SAA1099_FREQUENCY_DIV_MAX_VALUE)
  else
    (octave, value)

/-- The `packed_frequency` of one iteration of the second loop of
`saa1099_generate_vera_psg_frequency_table`, a `uint16_t`; the subtraction is
unsigned. -/
def frequency_table_packed_frequency (clock_ratio : Nat) (vera_frequency_word : Nat) : Nat :=
  let octave_value := frequency_table_octave_value clock_ratio vera_frequency_word
  ((octave_value.1 <<< SAA1099_SHIFT_PACKED_FREQUENCY_OCTAVE) |||
    ((FREQ_SAA1099_FREQUENCY_DIV_MAX_RANGE + 65536 - octave_value.2) % 65536)) % 65536

/-- Embedding of `saa1099_generate_vera_psg_frequency_table`, the `malloc`
succeeding: the table, entry `index` being that of frequency word
`index + min_r` (a `uint16_t`). -/
def saa1099_generate_vera_psg_frequency_table (p_range : saa1099_verga_psg_range_t) :
    Option (List Nat) :=
  some ((List.range p_range.range).map (fun index =>
    frequency_table_packed_frequency p_range.clock_ratio ((index + p_range.min_r) % 65536)))

/-- One call `outp(port, value)`. -/
structure outp_call where
  port : Nat
  value : Nat
  deriving DecidableEq, Repr

/-- The static variables of saa1099.c, and the log of the `outp` calls. -/
structure saa1099_globals where
  g_p_saa1099_vera_psg_range : Option saa1099_verga_psg_range_t
  g_vera_psg_channel_frequency : List Nat
  g_vera_psg_channel_waveform : List Nat
  g_cache : List Nat
  g_p_vera_psg_to_frequency_table : Option (List Nat)
  g_port_base_address : Nat
  ports : List outp_call
  deriving DecidableEq, Repr

/-- The static initialisers of saa1099.c. -/
def saa1099_globals_initial : saa1099_globals :=
  { g_p_saa1099_vera_psg_range := some g_saa1099_8mhz_vera_psg_range,
    g_vera_psg_channel_frequency := List.replicate SAA1099_VERA_PSG_CHANNELS 0,
    g_vera_psg_channel_waveform := List.replicate SAA1099_VERA_PSG_CHANNELS 0,
    g_cache := List.replicate (SAA1099_REGISTER_COUNT * SAA1099_MAX_CHIPS) 0,
    g_p_vera_psg_to_frequency_table := none,
    g_port_base_address := 0x210,
    ports := [] }

/-- Embedding of `saa1099_write`: the register cache is updated, then the
address and the data go out on the two ports of the chip. -/
def saa1099_write (chip_id address data : Nat) (g : saa1099_globals) : Option saa1099_globals :=
  let cache_offset := (SAA1099_GET_CACHE_OFFSET chip_id + address) % 256
  if cache_offset < g.g_cache.length then
    let port_base_address := (g.g_port_base_address + chip_id * 2) % 65536
    some { g with
      g_cache := g.g_cache.set cache_offset data,
      ports := g.ports ++ [{ port := (port_base_address + 1) % 65536, value := address },
                           { port := port_base_address, value := data }] }
  else none

/-- Embedding of `saa1099_set_frequency`. -/
def saa1099_set_frequency (chip_id saa_channel vera_psg_frequency_word : Nat)
    (g : saa1099_globals) : Option saa1099_globals :=
  g.g_p_saa1099_vera_psg_range.bind (fun p_range =>
  g.g_p_vera_psg_to_frequency_table.bind (fun table =>
    let index := vera_psg_frequency_word
    let index :=
      if index < p_range.min_r then p_range.min_r
      else if index > p_range.max_r then p_range.max_r
      else index
    let index := (index + 65536 - p_range.min_r) % 65536
    let channel_offset := saa_channel >>> 1
    let octave_shift := ((saa_channel &&& 1) <<< 2) % 256
    let octave_mask :=
      (SAA1099_MASK_OCTAVE_BITS ^^^ (SAA1099_MASK_OCTAVE_SELECT <<< octave_shift)) % 256
    let saa_address_octave := (SAA1099_ADDRESS_OCTAVE + channel_offset) % 256
    let cache_offset := (SAA1099_GET_CACHE_OFFSET chip_id + saa_address_octave) % 256
    (table[index]?).bind (fun packed_frequency =>
    (g.g_cache[cache_offset]?).bind (fun cached =>
      let octave_data :=
        ((cached &&& octave_mask) |||
          (((packed_frequency &&& SAA1099_MASK_PACKED_FREQUENCY_OCTAVE) >>>
            SAA1099_SHIFT_PACKED_FREQUENCY_OCTAVE) <<< octave_shift)) % 256
      (saa1099_write chip_id ((SAA1099_ADDRESS_FREQUENCY + saa_channel) % 256)
        (packed_frequency &&& SAA1099_MASK_PACKED_FREQUENCY_FREQUENCY) g).bind
        (saa1099_write chip_id saa_address_octave octave_data)))))

/-- The `for` loop of `saa1099_clear`, from register `address` on, for `n`
registers. -/
def saa1099_clear_loop : Nat → Nat → saa1099_globals → Option saa1099_globals
  | 0, _, g => some g
  | n + 1, address, g =>
    (saa1099_write 0 address 0 g).bind (fun g0 =>
    (saa1099_write 1 address 0 g0).bind (saa1099_clear_loop n (address + 1)))

/-- Embedding of `saa1099_clear`. -/
def saa1099_clear (g : saa1099_globals) : Option saa1099_globals :=
  (saa1099_write 0 SAA1099_ADDRESS_FREQUENCY_RESET_SOUND_ENABLE 0 g).bind (fun g0 =>
  (saa1099_write 1 SAA1099_ADDRESS_FREQUENCY_RESET_SOUND_ENABLE 0 g0).bind
    (saa1099_clear_loop SAA1099_REGISTER_COUNT 0))

/-- The last `for` loop of `saa1099_vera_psg_initialize`, from chip `chip_id`
on, for `n` chips. -/
def saa1099_enable_loop : Nat → Nat → saa1099_globals → Option saa1099_globals
  | 0, _, g => some g
  | n + 1, chip_id, g =>
    (saa1099_write chip_id SAA1099_ADDRESS_FREQUENCY_RESET_SOUND_ENABLE
      SAA1099_FREQUENCY_RESET g).bind (fun g0 =>
    (saa1099_write chip_id SAA1099_ADDRESS_FREQUENCY_RESET_SOUND_ENABLE
      SAA1099_SOUND_ENABLE g0).bind (fun g1 =>
    (saa1099_write chip_id SAA1099_ADDRESS_FREQUENCY_ENABLE
      SAA1099_FREQUENCY_ENABLE_ALL_CHANNELS g1).bind (saa1099_enable_loop n (chip_id + 1))))

/-- Embedding of `saa1099_vera_psg_initialize`. -/
def saa1099_vera_psg_initialize (port_base_address : Nat) (clock : Int) (g : saa1099_globals) :
    Option saa1099_globals :=
  let p_range : Option saa1099_verga_psg_range_t :=
    if clock = SAA1099_CLOCK_7159090_HZ then some g_saa1099_7mhz_vera_psg_range
    else if clock = SAA1099_CLOCK_8000000_HZ then some g_saa1099_8mhz_vera_psg_range
    else none
  let g := { g with g_p_saa1099_vera_psg_range := p_range }
  match p_range with
  | some range =>
    let g := { g with
      g_p_vera_psg_to_frequency_table := saa1099_generate_vera_psg_frequency_table range }
    match g.g_p_vera_psg_to_frequency_table with
    | some _ =>
      let g := { g with g_port_base_address := port_base_address }
      (saa1099_clear g).bind (fun g =>
        saa1099_enable_loop SAA1099_MAX_CHIPS 0
          { g with
            g_vera_psg_channel_frequency := List.replicate SAA1099_VERA_PSG_CHANNELS 0,
            g_vera_psg_channel_waveform := List.replicate SAA1099_VERA_PSG_CHANNELS 0 })
    | none => some g
  | none => some g

/-- Embedding of `saa1099_vera_psg_write`. -/
def saa1099_vera_psg_write (address data : Nat) (g : saa1099_globals) : Option saa1099_globals :=
  let vera_psg_channel := VERA_PSG_ADDRESS_TO_CHANNEL address
  if vera_psg_channel < SAA1099_VERA_PSG_CHANNELS then
    let chip_id := vera_psg_channel / SAA1099_CHANNEL_COUNT
    let saa_channel := vera_psg_channel % SAA1099_CHANNEL_COUNT
    match VERA_PSG_ADDRESS_TO_OFFSET address with
    | 0 =>
      (g.g_vera_psg_channel_frequency[vera_psg_channel]?).bind (fun cached =>
        let vera_psg_frequency_word := (cached &&& VERA_PSG_MASK_FREQ_HI) ||| data
        (saa1099_set_frequency chip_id saa_channel vera_psg_frequency_word g).map (fun g =>
          { g with g_vera_psg_channel_frequency :=
              g.g_vera_psg_channel_frequency.set vera_psg_channel vera_psg_frequency_word }))
    | 1 =>
      (g.g_vera_psg_channel_frequency[vera_psg_channel]?).bind (fun cached =>
        let vera_psg_frequency_word :=
          ((data <<< VERA_PSG_SHIFT_FREQ_HI) % 65536) ||| (cached &&& VERA_PSG_MASK_FREQ_LO)
        (saa1099_set_frequency chip_id saa_channel vera_psg_frequency_word g).map (fun g =>
          { g with g_vera_psg_channel_frequency :=
              g.g_vera_psg_channel_frequency.set vera_psg_channel vera_psg_frequency_word }))
    | 2 =>
      (g_vera_psg_volume_to_saa1099_volume[data &&& VERA_PSG_MASK_VOLUME]?).bind (fun volume =>
      (g_saa_amplitude_mask[(data &&& VERA_PSG_MASK_RIGHT_LEFT) >>> VERA_PSG_SHIFT_LEFT]?).bind
        (fun mask =>
          let saa_amplitude := volume &&& mask
          saa1099_write chip_id (SAA1099_ADDRESS_AMPLITUDE + saa_channel) saa_amplitude g))
    | 3 =>
      let vera_psg_waveform := (data &&& VERA_PSG_MASK_WAVEFORM) >>> VERA_PSG_SHIFT_WAVEFORM
      (g.g_vera_psg_channel_waveform[vera_psg_channel]?).bind (fun cached =>
        if vera_psg_waveform ^^^ cached ≠ 0 then
          let enable_index :=
            SAA1099_ADDRESS_FREQUENCY_ENABLE ^^^ ((vera_psg_waveform >>> 1) &&& vera_psg_waveform)
          let disable_index := enable_index ^^^ 1
          let offset := SAA1099_GET_CACHE_OFFSET chip_id % 256
          let saa_bits := (1 <<< saa_channel) % 256
          (g.g_cache[enable_index + offset]?).bind (fun enabled =>
          (saa1099_write chip_id enable_index (enabled ||| saa_bits) g).bind (fun g =>
          (g.g_cache[disable_index + offset]?).bind (fun disabled =>
          (saa1099_write chip_id disable_index (disabled &&& (saa_bits ^^^ 0xFF)) g).map (fun g =>
            { g with g_vera_psg_channel_waveform :=
                g.g_vera_psg_channel_waveform.set vera_psg_channel vera_psg_waveform }))))
        else some g)
    | _ => some g
  else some g

/-! ## Helper definitions for stating positions and runs -/

/-- The byte `*ram_get_address(p_ram, offset)`. -/
def ram_byte_at (p_ram : ram) (offset : Nat) : Option Nat :=
  (ram_get_address p_ram offset).bind (ram_deref p_ram)

/-- The cursor bound to absolute position `p` of a store of full-size banks. -/
def cursor_at (p : Nat) : ram_bank_t :=
  { p_start := pointer.loc (p / 32768) 0,
    p_end := pointer.loc (p / 32768) 32768,
    p_current := pointer.loc (p / 32768) (p % 32768),
    bank := p / 32768 }

/-- The shape of a store that `ram_load_file` produced with success. -/
structure ram_wf (r : ram) : Prop where
  banks_pos : 0 < r.number_of_banks
  banks_le : r.number_of_banks ≤ 16
  length_banks : r.pp_banks.length = r.number_of_banks
  sizes : r.p_bank_sizes = List.replicate r.number_of_banks 32768

/-- Read-and-advance, `n` times: the bytes read (`*p_current`, then
`RAM_UPDATE_POS`) and the cursor reached. -/
def ram_read_n (p_ram : ram) : Nat → ram_bank_t → Option (List Nat × ram_bank_t)
  | 0, cursor => some ([], cursor)
  | n + 1, cursor =>
    (ram_deref p_ram cursor.p_current).bind (fun value =>
    (RAM_UPDATE_POS p_ram cursor).bind (fun next =>
    (ram_read_n p_ram n next).map (fun rest => (value :: rest.1, rest.2))))

/-- The header field `loop_point.address` (bytes 3 and 4 of the store). -/
def zsm_header_loop_point_address (p_ram : ram) : Option Nat :=
  (ram_get_address p_ram 0).bind (fun p_header => read_uint16 p_ram (pointer_add p_header 3))

/-- The header field `loop_point.bank` (byte 5 of the store). -/
def zsm_header_loop_point_bank (p_ram : ram) : Option Nat :=
  (ram_get_address p_ram 0).bind (fun p_header => ram_deref p_ram (pointer_add p_header 5))

/-- The command byte under the cursor of the player. -/
def zsm_current_command (g : zsm_globals) : Option Nat :=
  g.g_p_zsm_ram_handle.bind (fun p_ram => ram_deref p_ram g.g_ram_bank.p_current)

/-- The scheduler calling `zsm_update` `n` times in a row. -/
def zsm_update_n (fuel : Nat) : Nat → zsm_globals → Option zsm_globals
  | 0, g => some g
  | n + 1, g => (zsm_update fuel g).bind (zsm_update_n fuel n)

/-- The states the player passes through from `g0` when only `zsm_update`
runs, with the number of EOF commands decoded on the way: a step is the
decrement at the head of `zsm_update`, or one iteration of its command loop. -/
inductive zsm_run (g0 : zsm_globals) : Nat → zsm_globals → Prop where
  | start : zsm_run g0 0 g0
  | tick {k : Nat} {g : zsm_globals} :
      zsm_run g0 k g → g.g_play_stream = true → 0 < g.g_delay_ticks →
      zsm_run g0 k { g with g_delay_ticks := g.g_delay_ticks - 1 }
  | command {k : Nat} {g g1 : zsm_globals} {c : Nat} :
      zsm_run g0 k g → g.g_play_stream = true → g.g_delay_ticks = 0 →
      zsm_current_command g = some c → zsm_update_body g = some g1 →
      zsm_run g0 (if c = ZSM_CMD_EOF then k + 1 else k) g1

/-- The cursor invariant on store `p_ram`: `p_start` is the start of the
block of bank `bank`, `p_end` is `p_start` plus the size of that bank, and
`p_start <= p_current < p_end`. -/
def ram_bank_in_range (p_ram : ram) (c : ram_bank_t) : Bool :=
  match p_ram.p_bank_sizes[c.bank]?, c.p_current with
  | some size, pointer.loc block off =>
    decide (c.p_start = pointer.loc c.bank 0) && decide (c.p_end = pointer.loc c.bank size) &&
      decide (block = c.bank) && decide (off < size)
  | _, _ => false

/-- The shape of the state that `saa1099_vera_psg_initialize` leaves when the
clock is supported: the range record of the clock, the table generated for
it, and the three caches at their declared sizes. -/
structure saa1099_ready (g : saa1099_globals) (p_range : saa1099_verga_psg_range_t) : Prop where
  supported : p_range = g_saa1099_7mhz_vera_psg_range ∨ p_range = g_saa1099_8mhz_vera_psg_range
  range : g.g_p_saa1099_vera_psg_range = some p_range
  table : g.g_p_vera_psg_to_frequency_table = saa1099_generate_vera_psg_frequency_table p_range
  cache : g.g_cache.length = SAA1099_REGISTER_COUNT * SAA1099_MAX_CHIPS
  frequency : g.g_vera_psg_channel_frequency.length = SAA1099_VERA_PSG_CHANNELS
  waveform : g.g_vera_psg_channel_waveform.length = SAA1099_VERA_PSG_CHANNELS

/-- The two `outp` calls of one `saa1099_write(chip_id, address, data)` with
port base `port_base_address`. -/
def saa1099_write_ports (port_base_address chip_id address data : Nat) : List outp_call :=
  [{ port := ((port_base_address + chip_id * 2) % 65536 + 1) % 65536, value := address },
   { port := (port_base_address + chip_id * 2) % 65536, value := data }]

/-- The frequency word after the clamp of `saa1099_set_frequency`. -/
def saa1099_clamp_word (p_range : saa1099_verga_psg_range_t) (vera_psg_frequency_word : Nat) :
    Nat :=
  if vera_psg_frequency_word < p_range.min_r then p_range.min_r
  else if vera_psg_frequency_word > p_range.max_r then p_range.max_r
  else vera_psg_frequency_word

/-- The byte `octave_data` that `saa1099_set_frequency` writes to the octave
register of channel `saa_channel`, from the cached byte of that register and
the packed table entry. -/
def saa1099_octave_data (cached packed_frequency saa_channel : Nat) : Nat :=
  ((cached &&& ((SAA1099_MASK_OCTAVE_BITS ^^^
      (SAA1099_MASK_OCTAVE_SELECT <<< (((saa_channel &&& 1) <<< 2) % 256))) % 256)) |||
    (((packed_frequency &&& SAA1099_MASK_PACKED_FREQUENCY_OCTAVE) >>>
      SAA1099_SHIFT_PACKED_FREQUENCY_OCTAVE) <<< (((saa_channel &&& 1) <<< 2) % 256))) % 256

/-- What every `saa1099_write` leaves alone: the range record, the table, the
frequency and waveform caches, the port base and the size of the register
cache. -/
def saa1099_write_frame (g g1 : saa1099_globals) : Prop :=
  g1.g_p_saa1099_vera_psg_range = g.g_p_saa1099_vera_psg_range ∧
  g1.g_p_vera_psg_to_frequency_table = g.g_p_vera_psg_to_frequency_table ∧
  g1.g_vera_psg_channel_frequency = g.g_vera_psg_channel_frequency ∧
  g1.g_vera_psg_channel_waveform = g.g_vera_psg_channel_waveform ∧
  g1.g_port_base_address = g.g_port_base_address ∧
  g1.g_cache.length = g.g_cache.length

/-- Reference definition: the number of leading zero bits of `x` read as a
value of `width` bits, counted from bit `width - 1` downwards up to the first
bit that is set (`width` when no bit is set). -/
def count_leading_zeros : Nat → Nat → Nat
  | 0, _ => 0
  | width + 1, x => if x.testBit width then 0 else count_leading_zeros width x + 1

/-- The enable invariant of the translator: for every virtual channel `v` in
0..11, on chip `v / 6`, bit `v mod 6` of the cached noise-enable register
0x15 is set exactly when the cached waveform selector of `v` is 3, and bit
`v mod 6` of the cached frequency-enable register 0x14 is set exactly when it
is not 3. -/
def saa1099_enable_invariant (g : saa1099_globals) : Prop :=
  ∀ v, v < SAA1099_VERA_PSG_CHANNELS →
    ∃ selector noise_enable frequency_enable,
      g.g_vera_psg_channel_waveform[v]? = some selector ∧
      g.g_cache[SAA1099_GET_CACHE_OFFSET (v / SAA1099_CHANNEL_COUNT) +
        SAA1099_ADDRESS_NOISE_ENABLE]? = some noise_enable ∧
      g.g_cache[SAA1099_GET_CACHE_OFFSET (v / SAA1099_CHANNEL_COUNT) +
        SAA1099_ADDRESS_FREQUENCY_ENABLE]? = some frequency_enable ∧
      (noise_enable.testBit (v % SAA1099_CHANNEL_COUNT) = true ↔ selector = 3) ∧
      (frequency_enable.testBit (v % SAA1099_CHANNEL_COUNT) = true ↔ selector ≠ 3)

/-- A sequence of calls of `saa1099_vera_psg_write`, given as the list of
their (address, data) arguments. -/
def saa1099_vera_psg_write_all :
    List (Nat × Nat) → saa1099_globals → Option saa1099_globals
  | [], g => some g
  | write :: rest, g =>
    (saa1099_vera_psg_write write.1 write.2 g).bind (saa1099_vera_psg_write_all rest)

/-- One call of the public interface of zsm.c, with its arguments (for
`zsm_update`, the fuel of the embedding of its loop). -/
inductive zsm_call where
  | call_init (p_zsm_ram_handle : Option ram) (p_ym2151_write_func : Option ym2151_write_func_t)
      (p_vera_psg_write_func : Option vera_psg_write_func_t)
  | call_start (zsm_repeat : Nat)
  | call_stop
  | call_update (fuel : Nat)

/-- The state after one call of the interface; `none` when the call does not
return. -/
def zsm_call_run : zsm_call → zsm_globals → Option zsm_globals
  | zsm_call.call_init p_ram fm psg, g => ( zsm_initialize p_ram fm psg g).map (fun r => r.2)
  | zsm_call.call_start zsm_repeat, g => some (zsm_start zsm_repeat g)
  | zsm_call.call_stop, g => some (zsm_stop g)
  | zsm_call.call_update fuel, g => zsm_update fuel g

/-- The state after a sequence of calls of the interface, first call first. -/
def zsm_calls_run : List zsm_call → zsm_globals → Option zsm_globals
  | [], g => some g
  | c :: rest, g => (zsm_call_run c g).bind (zsm_calls_run rest)

/-- Whether the `while` loop of `zsm_update` is left within `n` iterations
from `g`, by its condition turning false or by an iteration that aborts. -/
def zsm_update_loop_halts : Nat → zsm_globals → Bool
  | 0, g => !(g.g_play_stream && decide (g.g_delay_ticks = 0))
  | n + 1, g =>
    if g.g_play_stream = true ∧ g.g_delay_ticks = 0 then
      match zsm_update_body g with
      | none => true
      | some g1 => zsm_update_loop_halts n g1
    else true

/-- Whether a call of `zsm_update` on `g` is over within `n` iterations of
its command loop. -/
def zsm_update_halts (n : Nat) (g : zsm_globals) : Bool :=
  if g.g_play_stream = false then true
  else
    zsm_update_loop_halts n
      (if g.g_delay_ticks > 0 then { g with g_delay_ticks := g.g_delay_ticks - 1 } else g)

/-! ## Concrete inputs -/

/-- The stream of the specification: version 1, no loop point, PSG channel
mask 1, then PSG write (0, 5), delay 1, EOF. -/
def sample_stream_file : List (Fin 256) :=
  [0x7A, 0x6D, 1, 0, 0, 0, 0, 0, 0, 0, 1, 0, 60, 0, 0, 0, 0x00, 0x05, 0x81, 0x80]

/-- The store loaded from `sample_stream_file`. -/
def sample_stream_store : ram :=
  { pp_banks := [sample_stream_file], p_bank_sizes := [32768], number_of_banks := 1 }

/-- The player after `zsm_initialize` on `sample_stream_store` with no FM
writer and the caller's PSG writer 7. -/
def sample_stream_ready : zsm_globals :=
  { zsm_globals_initial with
    g_p_zsm_ram_handle := some sample_stream_store,
    g_p_vera_psg_write_func := vera_psg_write_func_t.func 7,
    g_ram_bank := cursor_at 16 }

/-- A stream with loop point 27 (the delay command before the EOF), FM and PSG
masks set: PSG write (5, 0x3F), FM write of two pairs, extension skipping two
bytes, delay 3, EOF. -/
def sample_loop_file : List (Fin 256) :=
  [0x7A, 0x6D, 1, 27, 0, 0, 0, 0, 0, 1, 1, 0, 60, 0, 0, 0,
   0x05, 0x3F, 0x42, 0x20, 0xC7, 0x28, 0x4A, 0x40, 0x02, 0xAA, 0xBB, 0x83, 0x80]

/-- The store loaded from `sample_loop_file`. -/
def sample_loop_store : ram :=
  { pp_banks := [sample_loop_file], p_bank_sizes := [32768], number_of_banks := 1 }

/-- A playing player on store `p_ram`, its cursor at position `p` and no
delay pending, with caller writers 9 (FM) and 7 (PSG) installed. -/
def sample_player (p_ram : ram) (p : Nat) (zsm_repeat g_repeat_count : Nat) : zsm_globals :=
  { g_p_ym2151_write_func := ym2151_write_func_t.func 9,
    g_p_vera_psg_write_func := vera_psg_write_func_t.func 7,
    g_p_zsm_ram_handle := some p_ram,
    g_play_stream := true,
    g_zsm_repeat := zsm_repeat,
    g_delay_ticks := 0,
    g_repeat_count := g_repeat_count,
    g_ram_bank := cursor_at p,
    calls := [] }

/-- A stream of version 2, the header alone. -/
def sample_version2_file : List (Fin 256) :=
  [0x7A, 0x6D, 2, 0, 0, 0, 0, 0, 0, 1, 1, 0, 60, 0, 0, 0]

/-- The store loaded from `sample_version2_file`. -/
def sample_version2_store : ram :=
  { pp_banks := [sample_version2_file], p_bank_sizes := [32768], number_of_banks := 1 }

/-- A file of 257 pages of 32768 bytes. -/
def sample_oversize_file : List (Fin 256) := List.replicate 8421376 0

/-- A three-byte file. -/
def sample_small_file : List (Fin 256) := [1, 2, 3]

/-- The store loaded from `sample_small_file`. -/
def sample_small_store : ram :=
  { pp_banks := [[1, 2, 3]], p_bank_sizes := [32768], number_of_banks := 1 }

/-- A file that fills exactly one bank. -/
def sample_full_bank_file : List (Fin 256) := List.replicate 32768 0

/-- The store loaded from `sample_full_bank_file`. -/
def sample_full_bank_store : ram :=
  { pp_banks := [sample_full_bank_file], p_bank_sizes := [32768], number_of_banks := 1 }

/-- A file of one full bank and one more byte. -/
def sample_two_bank_file : List (Fin 256) := List.replicate 32768 0 ++ [7]

/-- The store loaded from `sample_two_bank_file`. -/
def sample_two_bank_store : ram :=
  { pp_banks := [List.replicate 32768 0, [7]], p_bank_sizes := [32768, 32768],
    number_of_banks := 2 }

/-- The player after `zsm_initialize` on `sample_loop_store` with the caller's
FM writer 9 and PSG writer 7. -/
def sample_loop_ready : zsm_globals :=
  { zsm_globals_initial with
    g_p_zsm_ram_handle := some sample_loop_store,
    g_p_ym2151_write_func := ym2151_write_func_t.func 9,
    g_p_vera_psg_write_func := vera_psg_write_func_t.func 7,
    g_ram_bank := cursor_at 16 }

/-- A stream that fills all 16 banks: a version-1 header, then extension
commands `0x40 0x40` (skip no byte) up to position 524283, and at position
524284 the extension command `0x40 0x52` (skip 18 bytes). -/
def sample_wrap_file : List (Fin 256) :=
  [0x7A, 0x6D, 1, 0, 0, 0, 0, 0, 0, 1, 1, 0, 60, 0, 0, 0] ++
    (List.replicate 524268 0x40 ++ [0x40, 0x52, 0, 0])

/-! ## Arithmetic of the bank constants -/

theorem bank_size_eq : RAM_BANK_SIZE = 32768 := by decide

theorem max_banks_eq : RAM_BANK_MAX_BANKS = 16 := by decide

theorem and_offset_mask (x : Nat) : x &&& RAM_BANK_OFFSET_MASK = x % 32768 := by
  have h : RAM_BANK_OFFSET_MASK = 2 ^ 15 - 1 := by decide
  rw [h, Nat.and_pow_two_sub_one_eq_mod]

theorem shift_index_mask (x : Nat) :
    (x >>> RAM_BANK_SHIFT) &&& RAM_BANK_INDEX_MASK = x / 32768 % 16 := by
  have h : RAM_BANK_INDEX_MASK = 2 ^ 4 - 1 := by decide
  have h2 : RAM_BANK_SHIFT = 15 := by decide
  rw [h, h2, Nat.and_pow_two_sub_one_eq_mod, Nat.shiftRight_eq_div_pow]

theorem int32_bits_ofNat (n : Nat) (h : n < 4294967296) : int32_bits (n : Int) = n := by
  unfold int32_bits; omega

theorem to_int32_ofNat (n : Nat) (h : n < 2147483648) : to_int32 (n : Int) = n := by
  unfold to_int32; omega

/-! ## The loaded store -/

theorem fread_banks_length (sizes : List Nat) (file : List (Fin 256)) :
    (fread_banks sizes file).length = sizes.length := by
  induction sizes generalizing file with
  | nil => rfl
  | cons size sizes ih => simp [fread_banks, ih]

theorem fread_banks_getElem? (n size b : Nat) (file : List (Fin 256)) (hb : b < n) :
    (fread_banks (List.replicate n size) file)[b]? = some ((file.drop (b * size)).take size) := by
  induction n generalizing b file with
  | zero => omega
  | succ n ih =>
    rw [List.replicate_succ, fread_banks]
    cases b with
    | zero => simp
    | succ b =>
      rw [List.getElem?_cons_succ, ih b (file.drop size) (by omega), List.drop_drop]
      congr 3
      ring

theorem alloc_number_of_banks_small (S : Nat) (h : S ≤ 16 * 32768) :
    alloc_number_of_banks S = (S + 32767) / 32768 := by
  unfold alloc_number_of_banks
  simp only [and_offset_mask, bank_size_eq]
  split <;> omega

theorem ram_load_file_success {bytes : List (Fin 256)} {r : ram}
    (h : ram_load_file (some bytes) = (e_ram_result_t.RAM_LOAD_SUCCESS, some r)) :
    r.number_of_banks = alloc_number_of_banks bytes.length ∧
    0 < r.number_of_banks ∧ r.number_of_banks ≤ 16 ∧
    r.p_bank_sizes = List.replicate r.number_of_banks 32768 ∧
    r.pp_banks = fread_banks (List.replicate r.number_of_banks 32768) bytes := by
  unfold ram_load_file at h
  simp only at h
  unfold ram_data_alloc_banks at h
  simp only [max_banks_eq, bank_size_eq] at h
  split at h
  · rename_i p_ram hp
    split at hp
    · exact absurd hp (by simp)
    · split at hp
      · simp only [Option.some.injEq] at hp
        simp only [Prod.mk.injEq, Option.some.injEq, true_and] at h
        subst hp
        subst h
        refine ⟨rfl, ?_, ?_, rfl, rfl⟩
        · show 0 < alloc_number_of_banks bytes.length
          assumption
        · show alloc_number_of_banks bytes.length ≤ 16
          omega
      · exact absurd hp (by simp)
  · simp at h

theorem ram_load_file_wf {bytes : List (Fin 256)} {r : ram}
    (h : ram_load_file (some bytes) = (e_ram_result_t.RAM_LOAD_SUCCESS, some r)) : ram_wf r := by
  obtain ⟨_, h1, h2, h3, h4⟩ := ram_load_file_success h
  exact ⟨h1, h2, by rw [h4, fread_banks_length, List.length_replicate], h3⟩

theorem ram_wf.bank_some {r : ram} (hr : ram_wf r) {b : Nat} (hb : b < r.number_of_banks) :
    ∃ bytes, r.pp_banks[b]? = some bytes := by
  have hlt : b < r.pp_banks.length := by rw [hr.length_banks]; exact hb
  exact ⟨r.pp_banks[b], List.getElem?_eq_getElem hlt⟩

theorem ram_wf.size_some {r : ram} (hr : ram_wf r) {b : Nat} (hb : b < r.number_of_banks) :
    r.p_bank_sizes[b]? = some 32768 := by
  rw [hr.sizes, List.getElem?_replicate]
  simp [hb]

/-! ## Cursor lemmas -/

theorem ram_get_address_wf {r : ram} (hr : ram_wf r) {p : Nat}
    (hp : p < r.number_of_banks * 32768) :
    ram_get_address r p = some (pointer.loc (p / 32768) (p % 32768)) := by
  have h16 := hr.banks_le
  have hb : p / 32768 < r.number_of_banks := by
    apply Nat.div_lt_of_lt_mul; rw [Nat.mul_comm]; exact hp
  obtain ⟨bytes, hbytes⟩ := hr.bank_some hb
  unfold ram_get_address
  simp only [shift_index_mask, and_offset_mask]
  have hmod : p / 32768 % 16 = p / 32768 := by omega
  rw [hmod, hbytes]
  rfl

theorem ram_byte_at_wf {r : ram} (hr : ram_wf r) {p : Nat}
    (hp : p < r.number_of_banks * 32768) :
    ram_byte_at r p = ram_deref r (cursor_at p).p_current := by
  unfold ram_byte_at
  rw [ram_get_address_wf hr hp]
  rfl

theorem ram_seek_bank_set {r : ram} (hr : ram_wf r) {p : Nat}
    (hp : p < r.number_of_banks * 32768) (c : ram_bank_t) :
    ram_seek_bank r (p : Int) e_ram_seek_origin_t.RAM_SEEK_ORIGIN_SET c = some (cursor_at p) := by
  have h16 := hr.banks_le
  have hb : p / 32768 < r.number_of_banks := by
    apply Nat.div_lt_of_lt_mul; rw [Nat.mul_comm]; exact hp
  obtain ⟨bytes, hbytes⟩ := hr.bank_some hb
  have hsize := hr.size_some hb
  unfold ram_seek_bank
  simp only [shift_index_mask, and_offset_mask]
  rw [int32_bits_ofNat p (by omega)]
  have hmod : p / 32768 % 16 = p / 32768 := by omega
  simp only [Option.bind, hmod, hbytes, hsize]
  rfl

theorem ram_get_bank_wf {r : ram} (hr : ram_wf r) {c : ram_bank_t}
    (hb : c.bank < r.number_of_banks) :
    ram_get_bank r c = some (cursor_at (c.bank * 32768)) := by
  obtain ⟨bytes, hbytes⟩ := hr.bank_some hb
  have hsize := hr.size_some hb
  unfold ram_get_bank
  simp only [hbytes, hsize]
  unfold cursor_at
  have h1 : c.bank * 32768 / 32768 = c.bank := by omega
  have h2 : c.bank * 32768 % 32768 = 0 := by omega
  rw [h1, h2]

theorem RAM_UPDATE_POS_cursor_at {r : ram} (hr : ram_wf r) {p : Nat}
    (hp : p + 1 < r.number_of_banks * 32768) :
    RAM_UPDATE_POS r (cursor_at p) = some (cursor_at (p + 1)) := by
  have h16 := hr.banks_le
  unfold RAM_UPDATE_POS
  simp only [cursor_at, true_and, Nat.lt_add_one, Nat.ofNat_pos, if_true]
  by_cases hlast : p % 32768 < 32768 - 1
  · rw [if_pos hlast]
    have h1 : (p + 1) / 32768 = p / 32768 := by omega
    have h2 : (p + 1) % 32768 = p % 32768 + 1 := by omega
    rw [h1, h2]
  · rw [if_neg hlast]
    have h1 : (p + 1) / 32768 = p / 32768 + 1 := by omega
    have h2 : (p + 1) % 32768 = 0 := by omega
    have h3 : (p / 32768 + 1) % 256 = p / 32768 + 1 := by omega
    have hb : p / 32768 + 1 < r.number_of_banks := by omega
    rw [ram_get_bank_wf hr (by simpa [h3] using hb)]
    simp only [h3]
    unfold cursor_at
    have h4 : (p / 32768 + 1) * 32768 / 32768 = p / 32768 + 1 := by omega
    have h5 : (p / 32768 + 1) * 32768 % 32768 = 0 := by omega
    rw [h1, h2, h4, h5]

theorem ram_deref_loaded {bytes : List (Fin 256)} {r : ram}
    (h : ram_load_file (some bytes) = (e_ram_result_t.RAM_LOAD_SUCCESS, some r))
    {p : Nat} (hp : p < bytes.length) (hnb : p < r.number_of_banks * 32768) :
    ram_deref r (cursor_at p).p_current = some (bytes[p]).val := by
  obtain ⟨_, _, _, _, hbanks⟩ := ram_load_file_success h
  have hb : p / 32768 < r.number_of_banks := by
    apply Nat.div_lt_of_lt_mul; rw [Nat.mul_comm]; exact hnb
  have hoff : p % 32768 < 32768 := Nat.mod_lt _ (by decide)
  have hidx : p / 32768 * 32768 + p % 32768 = p := by omega
  simp only [cursor_at, ram_deref]
  rw [hbanks, fread_banks_getElem? _ _ _ _ hb]
  simp only [Option.bind]
  rw [List.getElem?_take_of_lt hoff, List.getElem?_drop, hidx, List.getElem?_eq_getElem hp]
  rfl

theorem ram_byte_at_loaded {bytes : List (Fin 256)} {r : ram}
    (h : ram_load_file (some bytes) = (e_ram_result_t.RAM_LOAD_SUCCESS, some r))
    {p : Nat} (hp : p < bytes.length) (hnb : p < r.number_of_banks * 32768) :
    ram_byte_at r p = some (bytes[p]).val := by
  rw [ram_byte_at_wf (ram_load_file_wf h) hnb, ram_deref_loaded h hp hnb]

theorem ram_load_file_covers {bytes : List (Fin 256)} {r : ram}
    (h : ram_load_file (some bytes) = (e_ram_result_t.RAM_LOAD_SUCCESS, some r))
    (hpages : bytes.length ≤ RAM_BANK_MAX_BANKS * RAM_BANK_SIZE) :
    bytes.length ≤ r.number_of_banks * 32768 := by
  obtain ⟨hn, _, _, _, _⟩ := ram_load_file_success h
  rw [max_banks_eq, bank_size_eq] at hpages
  rw [hn, alloc_number_of_banks_small _ hpages]
  omega

theorem ram_read_n_cursor_at {bytes : List (Fin 256)} {r : ram}
    (h : ram_load_file (some bytes) = (e_ram_result_t.RAM_LOAD_SUCCESS, some r))
    (n p : Nat) (hlen : p + n ≤ bytes.length) (hnb : p + n < r.number_of_banks * 32768) :
    ram_read_n r n (cursor_at p) =
      some (((bytes.drop p).take n).map Fin.val, cursor_at (p + n)) := by
  induction n generalizing p with
  | zero => simp [ram_read_n]
  | succ n ih =>
    have hp : p < bytes.length := by omega
    rw [ram_read_n, ram_deref_loaded h hp (by omega),
      RAM_UPDATE_POS_cursor_at (ram_load_file_wf h) (by omega)]
    simp only [Option.bind]
    rw [ih (p + 1) (by omega) (by omega)]
    simp only [Option.map]
    have hdrop : bytes.drop p = bytes[p] :: bytes.drop (p + 1) := List.drop_eq_getElem_cons hp
    rw [hdrop, List.take_succ_cons, List.map_cons]
    have hadd : p + 1 + n = p + (n + 1) := by omega
    rw [hadd]

theorem ram_read_n_past_end {r : ram} (hr : ram_wf r) (n p : Nat)
    (hend : p + n + 1 = r.number_of_banks * 32768) :
    ram_read_n r (n + 1) (cursor_at p) = none := by
  induction n generalizing p with
  | zero =>
    have hlast : RAM_UPDATE_POS r (cursor_at p) = none := by
      have h16 := hr.banks_le
      unfold RAM_UPDATE_POS
      simp only [cursor_at, true_and, Nat.lt_add_one, Nat.ofNat_pos, if_true]
      have hoff : ¬ p % 32768 < 32768 - 1 := by omega
      rw [if_neg hoff]
      have hbank : (p / 32768 + 1) % 256 = r.number_of_banks := by omega
      unfold ram_get_bank
      simp only [hbank]
      have hnone : r.pp_banks[r.number_of_banks]? = none := by
        rw [List.getElem?_eq_none]; rw [hr.length_banks]
      rw [hnone]
    rw [ram_read_n]
    cases ram_deref r (cursor_at p).p_current with
    | none => rfl
    | some value => simp [Option.bind, hlast]
  | succ n ih =>
    rw [ram_read_n]
    cases ram_deref r (cursor_at p).p_current with
    | none => rfl
    | some value =>
      simp only [Option.bind]
      rw [RAM_UPDATE_POS_cursor_at hr (by omega)]
      simp only
      rw [ih (p + 1) (by omega)]
      rfl

theorem ram_load_file_one_bank (bytes : List (Fin 256)) (hlen : bytes.length = 32768) :
    ram_load_file (some bytes) =
      (e_ram_result_t.RAM_LOAD_SUCCESS,
        some { pp_banks := [bytes], p_bank_sizes := [32768], number_of_banks := 1 }) := by
  have halloc : ram_data_alloc_banks 32768 =
      some { pp_banks := [[]], p_bank_sizes := [32768], number_of_banks := 1 } := by decide
  have htake : bytes.take 32768 = bytes := List.take_of_length_le (by omega)
  unfold ram_load_file
  simp only [hlen, halloc, fread_banks, htake]

theorem sample_full_bank_loaded :
    ram_load_file (some sample_full_bank_file) =
      (e_ram_result_t.RAM_LOAD_SUCCESS, some sample_full_bank_store) :=
  ram_load_file_one_bank sample_full_bank_file (List.length_replicate 32768 0)

theorem cursor_of_seek {r : ram} (hr : ram_wf r) {p : Nat} {c0 cursor : ram_bank_t}
    (hp : p < r.number_of_banks * 32768)
    (h : ram_seek_bank r (p : Int) e_ram_seek_origin_t.RAM_SEEK_ORIGIN_SET c0 = some cursor) :
    cursor = cursor_at p := by
  rw [ram_seek_bank_set hr hp] at h
  exact (Option.some.inj h).symm

theorem ram_seek_bank_current {r : ram} (hr : ram_wf r) {q : Nat} (d : Int)
    (hq : q < r.number_of_banks * 32768)
    (hlo : 0 ≤ (q : Int) + d) (hhi : (q : Int) + d < r.number_of_banks * 32768) :
    ram_seek_bank r d e_ram_seek_origin_t.RAM_SEEK_ORIGIN_CURRENT (cursor_at q) =
      some (cursor_at ((q : Int) + d).toNat) := by
  have h16 := hr.banks_le
  obtain ⟨t, ht⟩ : ∃ t : Nat, (q : Int) + d = t := ⟨((q : Int) + d).toNat, by omega⟩
  have htlt : t < r.number_of_banks * 32768 := by omega
  have hb : t / 32768 < r.number_of_banks := by
    apply Nat.div_lt_of_lt_mul; rw [Nat.mul_comm]; exact htlt
  obtain ⟨bytes, hbytes⟩ := hr.bank_some hb
  have hsize := hr.size_some hb
  have habs : ((q / 32768) <<< RAM_BANK_SHIFT + (q % 32768 - 0)) % 4294967296 = q := by
    have h2 : RAM_BANK_SHIFT = 15 := by decide
    rw [h2]; omega
  have hnew : to_int32 ((q : Int) + d) = (t : Int) := by
    rw [ht]; exact to_int32_ofNat t (by omega)
  unfold ram_seek_bank
  simp only [cursor_at, pointer_diff, true_and, Nat.zero_le, if_true, Option.map, habs, hnew,
    shift_index_mask, and_offset_mask]
  have hnn : ¬ ((t : Int) < 0) := by omega
  rw [if_neg hnn, int32_bits_ofNat t (by omega)]
  have hmod : t / 32768 % 16 = t / 32768 := by omega
  simp only [Option.bind, hmod, hbytes, hsize, ht, Int.toNat_ofNat]

/-! ## Lemmas on the commands -/

theorem ram_deref_lt {r : ram} {p : pointer} {v : Nat} (h : ram_deref r p = some v) : v < 256 := by
  cases p with
  | null => simp [ram_deref] at h
  | loc block off =>
    simp only [ram_deref] at h
    cases hb : r.pp_banks[block]? with
    | none => simp [hb] at h
    | some bytes =>
      rw [hb] at h
      simp only [Option.bind] at h
      cases ho : bytes[off]? with
      | none => simp [ho] at h
      | some x =>
        rw [ho] at h
        simp only [Option.map, Option.some.injEq] at h
        rw [← h]
        exact x.isLt

theorem read_uint16_lt {r : ram} {p : pointer} {v : Nat} (h : read_uint16 r p = some v) :
    v < 65536 := by
  unfold read_uint16 at h
  cases hlo : ram_deref r p with
  | none => simp [hlo] at h
  | some lo =>
    rw [hlo] at h
    simp only [Option.bind] at h
    cases hhi : ram_deref r (pointer_add p 1) with
    | none => simp [hhi] at h
    | some hi =>
      rw [hhi] at h
      simp only [Option.map, Option.some.injEq] at h
      have h1 := ram_deref_lt hlo
      have h2 := ram_deref_lt hhi
      omega

theorem ram_get_address_zero {r : ram} (hr : ram_wf r) :
    ram_get_address r 0 = some (pointer.loc 0 0) := by
  have h := ram_get_address_wf hr (p := 0) (by have := hr.banks_pos; omega)
  simpa using h

theorem loop_offset_lt {a b : Nat} (ha : a < 65536) (hb : b < 256) :
    (b <<< 16) ||| a < 16777216 := by
  have h1 : b <<< 16 < 2 ^ 24 := by omega
  have h2 : a < 2 ^ 24 := by omega
  exact Nat.or_lt_two_pow h1 h2

theorem zsm_cmd_eof_stop_count {r : ram} (hr : ram_wf r) (g : zsm_globals)
    (h0 : g.g_repeat_count = 0) :
    zsm_cmd_eof r g = some { g with g_play_stream := false, g_delay_ticks := 0 } := by
  unfold zsm_cmd_eof
  rw [ram_get_address_zero hr]
  simp [Option.bind, h0]

theorem zsm_cmd_eof_stop_no_loop {r : ram} (hr : ram_wf r) (g : zsm_globals)
    (ha : zsm_header_loop_point_address r = some 0)
    (hb : zsm_header_loop_point_bank r = some 0) :
    zsm_cmd_eof r g = some { g with g_play_stream := false, g_delay_ticks := 0 } := by
  unfold zsm_header_loop_point_address at ha
  unfold zsm_header_loop_point_bank at hb
  unfold zsm_cmd_eof
  rw [ram_get_address_zero hr] at ha hb ⊢
  simp only [Option.bind] at ha hb ⊢
  rw [ha, hb]
  simp

theorem zsm_cmd_eof_loop {r : ram} (hr : ram_wf r) (g : zsm_globals) (a b : Nat)
    (ha : zsm_header_loop_point_address r = some a)
    (hb : zsm_header_loop_point_bank r = some b)
    (hnz : a ≠ 0 ∨ b ≠ 0) (hcount : 0 < g.g_repeat_count)
    (c0 target : ram_bank_t)
    (htarget : ram_seek_bank r (((b <<< 16) ||| a : Nat) : Int)
      e_ram_seek_origin_t.RAM_SEEK_ORIGIN_SET c0 = some target) :
    zsm_cmd_eof r g =
      some { g with
        g_ram_bank := target,
        g_repeat_count :=
          if g.g_zsm_repeat &&& ZSM_REPEAT_FOREVER ≠ 0 ∧ g.g_repeat_count - 1 = 0
          then ZSM_REPEAT_FOREVER_COUNT else g.g_repeat_count - 1 } := by
  unfold zsm_header_loop_point_address at ha
  unfold zsm_header_loop_point_bank at hb
  unfold zsm_cmd_eof
  rw [ram_get_address_zero hr] at ha hb ⊢
  simp only [Option.bind] at ha hb ⊢
  have hlt := loop_offset_lt (read_uint16_lt ha) (ram_deref_lt hb)
  have hmod : ((b <<< 16) ||| a) % 4294967296 = (b <<< 16) ||| a := Nat.mod_eq_of_lt (by omega)
  have htarget2 : ram_seek_bank r (((b <<< 16) ||| a : Nat) : Int)
      e_ram_seek_origin_t.RAM_SEEK_ORIGIN_SET g.g_ram_bank = some target := htarget
  have hint : to_int32 (((b <<< 16) ||| a : Nat) : Int) = (((b <<< 16) ||| a : Nat) : Int) :=
    to_int32_ofNat _ (by omega)
  rw [ha, hb]
  simp only [hcount, gt_iff_lt, if_true, hnz, hmod, hint, htarget2, Option.map]

theorem zsm_fm_write_loop_pairs {r : ram} (hr : ram_wf r) (pairs : List (Nat × Nat))
    (g : zsm_globals) (q : Nat) (hcur : g.g_ram_bank = cursor_at q)
    (hq : q + 2 * pairs.length < r.number_of_banks * 32768)
    (hbytes : ∀ i (hi : i < pairs.length),
      ram_byte_at r (q + 2 * i) = some (pairs[i]).1 ∧
      ram_byte_at r (q + 2 * i + 1) = some (pairs[i]).2) :
    zsm_fm_write_loop r pairs.length g =
      some { g with
        g_ram_bank := cursor_at (q + 2 * pairs.length),
        calls := g.calls ++
          pairs.map (fun ad => write_call.ym2151 g.g_p_ym2151_write_func ad.1 ad.2) } := by
  induction pairs generalizing g q with
  | nil =>
    simp only [List.length_nil, zsm_fm_write_loop, List.map_nil, List.append_nil, Nat.mul_zero,
      Nat.add_zero, ← hcur]
  | cons ad rest ih =>
    simp only [List.length_cons] at hq ⊢
    have h0 := hbytes 0 (by simp)
    simp only [Nat.mul_zero, Nat.add_zero, List.getElem_cons_zero] at h0
    rw [ram_byte_at_wf hr (by omega)] at h0
    rw [ram_byte_at_wf hr (by omega)] at h0
    rw [zsm_fm_write_loop, hcur, h0.1]
    simp only [Option.bind, RAM_UPDATE_POS_cursor_at hr (show q + 1 < _ by omega), h0.2,
      RAM_UPDATE_POS_cursor_at hr (show q + 1 + 1 < _ by omega)]
    have hrest : ∀ i (hi : i < rest.length),
        ram_byte_at r (q + 2 + 2 * i) = some (rest[i]).1 ∧
        ram_byte_at r (q + 2 + 2 * i + 1) = some (rest[i]).2 := by
      intro i hi
      have h := hbytes (i + 1) (by simp; omega)
      simp only [List.getElem_cons_succ] at h
      have e1 : q + 2 * (i + 1) = q + 2 + 2 * i := by ring
      rw [e1] at h
      exact h
    rw [ih _ (q + 2) rfl (by omega) hrest]
    simp only [List.map_cons, List.append_assoc, List.singleton_append]
    have e2 : q + 2 + 2 * rest.length = q + 2 * (rest.length + 1) := by ring
    rw [e2]


/-- The variables that only `zsm_start`, `zsm_stop` and the EOF command touch. -/
theorem zsm_fm_write_loop_frame {r : ram} (n : Nat) {g g1 : zsm_globals}
    (h : zsm_fm_write_loop r n g = some g1) :
    g1.g_p_zsm_ram_handle = g.g_p_zsm_ram_handle ∧ g1.g_zsm_repeat = g.g_zsm_repeat ∧
    g1.g_repeat_count = g.g_repeat_count ∧ g1.g_play_stream = g.g_play_stream ∧
    g1.g_delay_ticks = g.g_delay_ticks := by
  induction n generalizing g with
  | zero =>
    simp only [zsm_fm_write_loop, Option.some.injEq] at h
    subst h
    exact ⟨rfl, rfl, rfl, rfl, rfl⟩
  | succ n ih =>
    rw [zsm_fm_write_loop] at h
    cases h1 : ram_deref r g.g_ram_bank.p_current with
    | none => simp [h1] at h
    | some address =>
      cases h2 : RAM_UPDATE_POS r g.g_ram_bank with
      | none => simp [h1, h2] at h
      | some bank1 =>
        cases h3 : ram_deref r bank1.p_current with
        | none => simp [h1, h2, h3] at h
        | some data =>
          cases h4 : RAM_UPDATE_POS r bank1 with
          | none => simp [h1, h2, h3, h4] at h
          | some bank2 =>
            simp only [h1, h2, h3, h4, Option.bind] at h
            have hf := ih h
            simpa using hf

theorem zsm_cmd_eof_frame {r : ram} {g g1 : zsm_globals} (h : zsm_cmd_eof r g = some g1) :
    g1.g_p_zsm_ram_handle = g.g_p_zsm_ram_handle ∧ g1.g_zsm_repeat = g.g_zsm_repeat ∧
    ((g1.g_play_stream = g.g_play_stream ∧ g1.g_delay_ticks = g.g_delay_ticks ∧
        0 < g.g_repeat_count ∧
        g1.g_repeat_count =
          (if g.g_zsm_repeat &&& ZSM_REPEAT_FOREVER ≠ 0 ∧ g.g_repeat_count - 1 = 0
           then ZSM_REPEAT_FOREVER_COUNT else g.g_repeat_count - 1) ∧
        ∃ a b, zsm_header_loop_point_address r = some a ∧
          zsm_header_loop_point_bank r = some b ∧ (a ≠ 0 ∨ b ≠ 0)) ∨
      (g1 = { g with g_play_stream := false, g_delay_ticks := 0 } ∧
        (g.g_repeat_count = 0 ∨
          (zsm_header_loop_point_address r = some 0 ∧
           zsm_header_loop_point_bank r = some 0)))) := by
  unfold zsm_cmd_eof at h
  unfold zsm_header_loop_point_address zsm_header_loop_point_bank
  cases h0 : ram_get_address r 0 with
  | none => simp [h0] at h
  | some p_header =>
    simp only [h0, Option.bind] at h ⊢
    by_cases hcount : g.g_repeat_count > 0
    · simp only [hcount, if_true] at h
      cases ha : read_uint16 r (pointer_add p_header 3) with
      | none => simp [ha] at h
      | some a =>
        cases hb : ram_deref r (pointer_add p_header 5) with
        | none => simp [ha, hb] at h
        | some b =>
          simp only [ha, hb] at h
          by_cases hnz : a ≠ 0 ∨ b ≠ 0
          · simp only [hnz, if_true] at h
            cases hs : ram_seek_bank r (to_int32 ↑((b <<< 16 ||| a) % 4294967296))
                e_ram_seek_origin_t.RAM_SEEK_ORIGIN_SET g.g_ram_bank with
            | none =>
              simp only [hs, Option.map] at h
              cases h
            | some cursor =>
              simp only [hs, Option.map, Option.some.injEq] at h
              subst h
              exact ⟨rfl, rfl, Or.inl ⟨rfl, rfl, hcount, rfl, a, b, rfl, rfl, hnz⟩⟩
          · simp only [hnz, if_false, Option.some.injEq] at h
            subst h
            have hz : a = 0 ∧ b = 0 := by omega
            exact ⟨rfl, rfl, Or.inr ⟨rfl, Or.inr (by simp [hz.1, hz.2])⟩⟩
    · simp only [hcount, if_false, Option.some.injEq] at h
      subst h
      exact ⟨rfl, rfl, Or.inr ⟨rfl, Or.inl (by omega)⟩⟩

/-- What one iteration of the command loop does to the variables of the
repeat logic, by the command decoded. -/
theorem zsm_update_body_frame {g g1 : zsm_globals} (h : zsm_update_body g = some g1) :
    ∃ r c cursor, g.g_p_zsm_ram_handle = some r ∧ zsm_current_command g = some c ∧
      RAM_UPDATE_POS r g.g_ram_bank = some cursor ∧
      g1.g_p_zsm_ram_handle = g.g_p_zsm_ram_handle ∧ g1.g_zsm_repeat = g.g_zsm_repeat ∧
      (c = ZSM_CMD_EOF → zsm_cmd_eof r { g with g_ram_bank := cursor } = some g1) ∧
      (c ≠ ZSM_CMD_EOF →
        g1.g_repeat_count = g.g_repeat_count ∧ g1.g_play_stream = g.g_play_stream) := by
  unfold zsm_update_body at h
  unfold zsm_current_command
  split at h
  · exact absurd h (by simp)
  rename_i r hh
  rcases Option.eq_none_or_eq_some (ram_deref r g.g_ram_bank.p_current) with hc | ⟨c, hc⟩
  · simp [hc] at h
  rcases Option.eq_none_or_eq_some (RAM_UPDATE_POS r g.g_ram_bank) with hu | ⟨bank1, hu⟩
  · simp [hc, hu] at h
  simp only [hc, hu, Option.bind] at h
  refine ⟨r, c, bank1, hh, by rw [hh]; exact hc, hu, ?_⟩
  by_cases h1 : c = ZSM_CMD_EXT
  · have hne : c ≠ ZSM_CMD_EOF := by rw [h1]; decide
    simp only [h1, if_true] at h
    rcases Option.eq_none_or_eq_some (ram_deref r bank1.p_current) with he | ⟨e, he⟩
    · simp [he] at h
    rcases Option.eq_none_or_eq_some (RAM_UPDATE_POS r bank1) with hu2 | ⟨bank2, hu2⟩
    · simp [he, hu2] at h
    simp only [he, hu2] at h
    rcases Option.eq_none_or_eq_some (ram_seek_bank r ((e &&& ZSM_MASK_CMD_DATA_EXT : Nat) : Int)
        e_ram_seek_origin_t.RAM_SEEK_ORIGIN_CURRENT bank2) with hs | ⟨bank3, hs⟩
    · simp only [hs, Option.map] at h
      cases h
    simp only [hs, Option.map, Option.some.injEq] at h
    subst h
    exact ⟨rfl, rfl, fun hc2 => absurd hc2 hne, fun _ => ⟨rfl, rfl⟩⟩
  · simp only [h1, if_false] at h
    by_cases h2 : c = ZSM_CMD_EOF
    · simp only [h2, if_true] at h
      have hf := zsm_cmd_eof_frame h
      exact ⟨hf.1, hf.2.1, fun _ => h, fun hne => absurd h2 hne⟩
    · simp only [h2, if_false] at h
      by_cases h3 : c < ZSM_CMD_EXT
      · simp only [h3, if_true] at h
        rcases Option.eq_none_or_eq_some (ram_deref r bank1.p_current) with hd | ⟨d, hd⟩
        · simp [hd] at h
        rcases Option.eq_none_or_eq_some (RAM_UPDATE_POS r bank1) with hu2 | ⟨bank2, hu2⟩
        · simp [hd, hu2] at h
        simp only [hd, hu2, Option.map, Option.some.injEq] at h
        subst h
        exact ⟨rfl, rfl, fun hc2 => absurd hc2 h2, fun _ => ⟨rfl, rfl⟩⟩
      · simp only [h3, if_false] at h
        by_cases h4 : c < ZSM_CMD_EOF
        · simp only [h4, if_true] at h
          have hf := zsm_fm_write_loop_frame _ h
          exact ⟨hf.1, hf.2.1, fun hc2 => absurd hc2 h2, fun _ => ⟨hf.2.2.1, hf.2.2.2.1⟩⟩
        · simp only [h4, if_false, Option.some.injEq] at h
          subst h
          exact ⟨rfl, rfl, fun hc2 => absurd hc2 h2, fun _ => ⟨rfl, rfl⟩⟩

/-! ## Runs of the player -/

theorem zsm_run_invariant (g0 : zsm_globals) (P : Nat → zsm_globals → Prop) (h0 : P 0 g0)
    (htick : ∀ k g, P k g → g.g_play_stream = true →
      P k { g with g_delay_ticks := g.g_delay_ticks - 1 })
    (hcmd : ∀ k g g1 c, P k g → g.g_play_stream = true → zsm_current_command g = some c →
      zsm_update_body g = some g1 → P (if c = ZSM_CMD_EOF then k + 1 else k) g1) :
    ∀ k g, zsm_run g0 k g → P k g := by
  intro k g hrun
  induction hrun with
  | start => exact h0
  | tick _ hplay _ ih => exact htick _ _ ih hplay
  | command _ hplay _ hc hbody ih => exact hcmd _ _ _ _ ih hplay hc hbody

theorem zsm_update_loop_run {g0 : zsm_globals} (fuel : Nat) {k : Nat} {g g1 : zsm_globals}
    (hrun : zsm_run g0 k g) (h : zsm_update_loop fuel g = some g1) :
    ∃ k1, zsm_run g0 k1 g1 := by
  induction fuel generalizing k g with
  | zero =>
    rw [zsm_update_loop] at h
    split at h
    · exact absurd h (by simp)
    · simp only [Option.some.injEq] at h
      subst h
      exact ⟨k, hrun⟩
  | succ fuel ih =>
    rw [zsm_update_loop] at h
    split at h
    · rename_i hcond
      rcases Option.eq_none_or_eq_some (zsm_update_body g) with hb | ⟨g2, hb⟩
      · simp [hb] at h
      rw [hb] at h
      simp only [Option.bind] at h
      obtain ⟨r, c, cursor, _, hc, _⟩ := zsm_update_body_frame hb
      exact ih (zsm_run.command hrun hcond.1 hcond.2 hc hb) h
    · simp only [Option.some.injEq] at h
      subst h
      exact ⟨k, hrun⟩

theorem zsm_update_run {g0 : zsm_globals} (fuel : Nat) {k : Nat} {g g1 : zsm_globals}
    (hrun : zsm_run g0 k g) (h : zsm_update fuel g = some g1) :
    ∃ k1, zsm_run g0 k1 g1 := by
  unfold zsm_update at h
  split at h
  · simp only [Option.some.injEq] at h
    subst h
    exact ⟨k, hrun⟩
  · rename_i hplay
    have hplay2 : g.g_play_stream = true := by simpa using hplay
    split at h
    · rename_i hd
      exact zsm_update_loop_run fuel (zsm_run.tick hrun hplay2 hd) h
    · exact zsm_update_loop_run fuel hrun h

theorem zsm_update_n_run {g0 : zsm_globals} (fuel n : Nat) {k : Nat} {g g1 : zsm_globals}
    (hrun : zsm_run g0 k g) (h : zsm_update_n fuel n g = some g1) :
    ∃ k1, zsm_run g0 k1 g1 := by
  induction n generalizing k g with
  | zero =>
    simp only [zsm_update_n, Option.some.injEq] at h
    subst h
    exact ⟨k, hrun⟩
  | succ n ih =>
    rw [zsm_update_n] at h
    rcases Option.eq_none_or_eq_some (zsm_update fuel g) with hu | ⟨g2, hu⟩
    · simp [hu] at h
    rw [hu] at h
    simp only [Option.bind] at h
    obtain ⟨k2, hrun2⟩ := zsm_update_run fuel hrun hu
    exact ih hrun2 h


theorem and_repeat_forever_of_lt (n : Nat) (h : n < 32768) : n &&& ZSM_REPEAT_FOREVER = 0 := by
  have e : ZSM_REPEAT_FOREVER = 2 ^ 15 := by decide
  rw [e]
  apply Nat.eq_of_testBit_eq
  intro i
  rw [Nat.testBit_and, Nat.testBit_two_pow, Nat.zero_testBit]
  by_cases hi : 15 = i
  · subst hi
    rw [Nat.testBit_lt_two_pow (by omega)]
    rfl
  · simp [hi]

theorem and_repeat_count_mask_of_le (n : Nat) (h : n ≤ 255) : n &&& ZSM_REPEAT_COUNT_MASK = n := by
  have e : ZSM_REPEAT_COUNT_MASK = 2 ^ 8 - 1 := by decide
  rw [e, Nat.and_pow_two_sub_one_eq_mod]
  omega

theorem zsm_update_body_eof {r : ram} (hr : ram_wf r) {g : zsm_globals} {p : Nat}
    (hh : g.g_p_zsm_ram_handle = some r) (hcur : g.g_ram_bank = cursor_at p)
    (hp : p + 1 < r.number_of_banks * 32768) (hc : ram_byte_at r p = some ZSM_CMD_EOF) :
    zsm_update_body g = zsm_cmd_eof r { g with g_ram_bank := cursor_at (p + 1) } := by
  rw [ram_byte_at_wf hr (by omega)] at hc
  unfold zsm_update_body
  rw [hh]
  simp only [hcur, hc, Option.bind, RAM_UPDATE_POS_cursor_at hr hp]
  have h1 : ZSM_CMD_EOF ≠ ZSM_CMD_EXT := by decide
  simp only [if_neg h1, if_true]

theorem header_zero_absurd {r : ram} {a b : Nat}
    (ha : zsm_header_loop_point_address r = some a)
    (hb : zsm_header_loop_point_bank r = some b) (hnz : a ≠ 0 ∨ b ≠ 0)
    (hz : zsm_header_loop_point_address r = some 0 ∧ zsm_header_loop_point_bank r = some 0) :
    False := by
  rw [ha] at hz
  rw [hb] at hz
  simp only [Option.some.injEq] at hz
  omega

/-- Along every run from `zsm_start rs` with bit 15 of `rs` clear, `n` its
low byte, and a non-zero loop point: after `k <= n` EOF commands the player is
playing with `n - k` repeats left; after `n + 1` it has stopped. -/
theorem zsm_run_counted {r : ram} {g0 : zsm_globals} {rs a b : Nat}
    (hhandle : g0.g_p_zsm_ram_handle = some r) (hforever : rs &&& ZSM_REPEAT_FOREVER = 0)
    (ha : zsm_header_loop_point_address r = some a)
    (hb : zsm_header_loop_point_bank r = some b) (hnz : a ≠ 0 ∨ b ≠ 0) :
    ∀ k g, zsm_run (zsm_start rs g0) k g →
      g.g_p_zsm_ram_handle = some r ∧ g.g_zsm_repeat = rs ∧
      ((k ≤ rs &&& ZSM_REPEAT_COUNT_MASK ∧
          g.g_repeat_count = (rs &&& ZSM_REPEAT_COUNT_MASK) - k ∧ g.g_play_stream = true) ∨
       (k = (rs &&& ZSM_REPEAT_COUNT_MASK) + 1 ∧ g.g_repeat_count = 0 ∧
          g.g_play_stream = false)) := by
  apply zsm_run_invariant
  · refine ⟨hhandle, rfl, Or.inl ⟨Nat.zero_le _, ?_, rfl⟩⟩
    simp only [zsm_start, hforever, ne_eq, not_true_eq_false, if_false, Nat.sub_zero]
  · intro k g hP hplay
    obtain ⟨h1, h2, h3⟩ := hP
    refine ⟨h1, h2, ?_⟩
    rcases h3 with h3 | h3
    · exact Or.inl h3
    · rw [h3.2.2] at hplay; cases hplay
  · intro k g g1 c hP hplay hc hbody
    obtain ⟨h1, h2, h3⟩ := hP
    obtain ⟨r2, c2, cursor, hh2, hc2, _, hH, hR, heof, hother⟩ := zsm_update_body_frame hbody
    rw [hc] at hc2
    have hcc : c = c2 := Option.some.inj hc2
    subst hcc
    rw [h1] at hh2
    have hrr : r = r2 := Option.some.inj hh2
    subst hrr
    refine ⟨hH.trans h1, hR.trans h2, ?_⟩
    rcases h3 with h3 | h3
    · by_cases hce : c = ZSM_CMD_EOF
      · rw [if_pos hce]
        obtain ⟨_, _, hcase⟩ := zsm_cmd_eof_frame (heof hce)
        simp only at hcase
        rcases hcase with ⟨hp1, _, hpos, hcount, _⟩ | ⟨hstop, hwhy⟩
        · rw [h2, hforever] at hcount
          simp only [ne_eq, not_true_eq_false, false_and, if_false] at hcount
          exact Or.inl ⟨by omega, by omega, hp1.trans hplay⟩
        · rcases hwhy with hzero | hzero
          · refine Or.inr ⟨by omega, ?_, ?_⟩
            · rw [hstop]; exact hzero
            · rw [hstop]
          · exact absurd hzero (fun hz => header_zero_absurd ha hb hnz hz)
      · rw [if_neg hce]
        obtain ⟨hc1, hp1⟩ := hother hce
        exact Or.inl ⟨h3.1, hc1.trans h3.2.1, hp1.trans h3.2.2⟩
    · rw [h3.2.2] at hplay; cases hplay


/-- Along every run from `zsm_start rs` with the repeat-forever bit set and a
non-zero loop point the player keeps playing with 1 to 255 repeats left. -/
theorem zsm_run_forever {r : ram} {g0 : zsm_globals} {rs a b : Nat}
    (hhandle : g0.g_p_zsm_ram_handle = some r) (hrs : rs &&& ZSM_REPEAT_FOREVER ≠ 0)
    (ha : zsm_header_loop_point_address r = some a)
    (hb : zsm_header_loop_point_bank r = some b) (hnz : a ≠ 0 ∨ b ≠ 0) :
    ∀ k g, zsm_run (zsm_start rs g0) k g →
      g.g_p_zsm_ram_handle = some r ∧ g.g_zsm_repeat = rs ∧
      1 ≤ g.g_repeat_count ∧ g.g_repeat_count ≤ 255 ∧ g.g_play_stream = true := by
  have e255 : ZSM_REPEAT_FOREVER_COUNT = 255 := by decide
  apply zsm_run_invariant
  · refine ⟨hhandle, rfl, ?_, ?_, rfl⟩ <;>
      simp only [zsm_start, hrs, ne_eq, not_false_eq_true, if_true, e255] <;> omega
  · intro k g hP _
    exact hP
  · intro k g g1 c hP hplay hc hbody
    obtain ⟨h1, h2, h3, h4, h5⟩ := hP
    obtain ⟨r2, c2, cursor, hh2, hc2, _, hH, hR, heof, hother⟩ := zsm_update_body_frame hbody
    rw [hc] at hc2
    have hcc : c = c2 := Option.some.inj hc2
    subst hcc
    rw [h1] at hh2
    have hrr : r = r2 := Option.some.inj hh2
    subst hrr
    refine ⟨hH.trans h1, hR.trans h2, ?_⟩
    by_cases hce : c = ZSM_CMD_EOF
    · obtain ⟨_, _, hcase⟩ := zsm_cmd_eof_frame (heof hce)
      simp only at hcase
      rcases hcase with ⟨hp1, _, hpos, hcount, _⟩ | ⟨hstop, hwhy⟩
      · rw [h2, e255] at hcount
        simp only [hrs, ne_eq, not_false_eq_true, true_and] at hcount
        refine ⟨?_, ?_, hp1.trans h5⟩
        · rw [hcount]; split <;> omega
        · rw [hcount]; split <;> omega
      · rcases hwhy with hzero | hzero
        · omega
        · exact absurd hzero (fun hz => header_zero_absurd ha hb hnz hz)
    · obtain ⟨hc1, hp1⟩ := hother hce
      exact ⟨by omega, by omega, hp1.trans h5⟩

/-- Along every run from `zsm_start 0` no repeat is left. -/
theorem zsm_run_play_once (g0 : zsm_globals) :
    ∀ k g, zsm_run (zsm_start 0 g0) k g → g.g_repeat_count = 0 := by
  apply zsm_run_invariant (zsm_start 0 g0) (fun _ g => g.g_repeat_count = 0)
  · rfl
  · intro k g hP _
    exact hP
  · intro k g g1 c hP hplay hc hbody
    obtain ⟨r2, c2, cursor, hh2, hc2, _, hH, hR, heof, hother⟩ := zsm_update_body_frame hbody
    rw [hc] at hc2
    have hcc : c = c2 := Option.some.inj hc2
    subst hcc
    by_cases hce : c = ZSM_CMD_EOF
    · obtain ⟨_, _, hcase⟩ := zsm_cmd_eof_frame (heof hce)
      simp only at hcase
      rcases hcase with ⟨_, _, hpos, _⟩ | ⟨hstop, _⟩
      · omega
      · rw [hstop]; exact hP
    · exact (hother hce).1.trans hP

/-! ## Lemmas on ticks -/

theorem zsm_update_loop_idle (fuel : Nat) (g : zsm_globals)
    (h : ¬ (g.g_play_stream = true ∧ g.g_delay_ticks = 0)) :
    zsm_update_loop fuel g = some g := by
  cases fuel <;> simp only [zsm_update_loop, if_neg h]

theorem zsm_update_countdown (fuel : Nat) (g : zsm_globals) (hplay : g.g_play_stream = true)
    (hd : 2 ≤ g.g_delay_ticks) :
    zsm_update fuel g = some { g with g_delay_ticks := g.g_delay_ticks - 1 } := by
  unfold zsm_update
  have h1 : ¬ g.g_play_stream = false := by simp [hplay]
  have h2 : g.g_delay_ticks > 0 := by omega
  rw [if_neg h1, if_pos h2]
  apply zsm_update_loop_idle
  simp only [not_and]
  intro _
  omega

theorem zsm_update_n_countdown (fuel k : Nat) (g : zsm_globals)
    (hplay : g.g_play_stream = true) (hk : k < g.g_delay_ticks) :
    zsm_update_n fuel k g = some { g with g_delay_ticks := g.g_delay_ticks - k } := by
  induction k generalizing g with
  | zero => rfl
  | succ k ih =>
    have hstep := ih { g with g_delay_ticks := g.g_delay_ticks - 1 } hplay
      (show k < g.g_delay_ticks - 1 by omega)
    rw [zsm_update_n, zsm_update_countdown fuel g hplay (by omega)]
    simp only [Option.bind]
    rw [hstep]
    simp only
    have e : g.g_delay_ticks - 1 - k = g.g_delay_ticks - (k + 1) := by omega
    rw [e]

theorem zsm_update_n_succ_last (fuel k : Nat) (g : zsm_globals) :
    zsm_update_n fuel (k + 1) g = (zsm_update_n fuel k g).bind (zsm_update fuel) := by
  induction k generalizing g with
  | zero =>
    simp only [zsm_update_n, Option.bind]
    cases zsm_update fuel g <;> rfl
  | succ k ih =>
    rw [zsm_update_n]
    cases h : zsm_update fuel g with
    | none => simp [zsm_update_n, h]
    | some g1 =>
      simp only [Option.bind]
      rw [ih g1]
      conv_rhs => rw [zsm_update_n, h]
      rfl

theorem zsm_update_decode (fuel : Nat) (g : zsm_globals) (hplay : g.g_play_stream = true)
    (hd : g.g_delay_ticks = 1) :
    zsm_update (fuel + 1) g =
      (zsm_update_body { g with g_delay_ticks := 0 }).bind (zsm_update_loop fuel) := by
  unfold zsm_update
  have h1 : ¬ g.g_play_stream = false := by simp [hplay]
  have h2 : g.g_delay_ticks > 0 := by omega
  rw [if_neg h1, if_pos h2, zsm_update_loop]
  simp only [hplay, hd, Nat.sub_self, and_self, if_true]

theorem zsm_initialize_success {r : ram} {fm : Option ym2151_write_func_t}
    {psg : Option vera_psg_write_func_t} {g g1 : zsm_globals}
    (h : zsm_initialize (some r) fm psg g = some (e_zsm_result_t.ZSM_SUCCESS, g1)) :
    g1.g_play_stream = false ∧ g1.g_p_zsm_ram_handle = some r ∧ g1.calls = g.calls ∧
    ram_seek_bank r 16 e_ram_seek_origin_t.RAM_SEEK_ORIGIN_SET g.g_ram_bank =
      some g1.g_ram_bank := by
  unfold zsm_initialize at h
  simp only at h
  rcases Option.eq_none_or_eq_some (ram_get_address r 0) with h0 | ⟨p_header, h0⟩
  · simp [h0] at h
  rcases Option.eq_none_or_eq_some (ram_deref r (pointer_add p_header 2)) with hv | ⟨v, hv⟩
  · simp [h0, hv] at h
  simp only [h0, hv, Option.bind] at h
  split at h
  · rcases Option.eq_none_or_eq_some (ram_deref r (pointer_add p_header 9)) with hf | ⟨f, hf⟩
    · simp [hf] at h
    rcases Option.eq_none_or_eq_some (read_uint16 r (pointer_add p_header 10)) with hq | ⟨q, hq⟩
    · simp [hf, hq] at h
    simp only [hf, hq] at h
    split at h
    · rcases Option.eq_none_or_eq_some
        (ram_seek_bank r 16 e_ram_seek_origin_t.RAM_SEEK_ORIGIN_SET g.g_ram_bank) with hs | ⟨cur, hs⟩
      · simp only [hs, Option.map] at h
        cases h
      · simp only [hs, Option.map, Option.some.injEq, Prod.mk.injEq, true_and] at h
        subst h
        exact ⟨rfl, rfl, rfl, hs⟩
    · simp at h
  · simp at h

/-! ## Lemmas on start, stop and initialisation -/


theorem and_repeat_forever_testBit (r : Nat) :
    r &&& ZSM_REPEAT_FOREVER = if r.testBit 15 then 32768 else 0 := by
  have e : ZSM_REPEAT_FOREVER = 2 ^ 15 := by decide
  rw [e]
  apply Nat.eq_of_testBit_eq
  intro i
  rw [Nat.testBit_and, Nat.testBit_two_pow]
  by_cases hb : r.testBit 15 = true
  · rw [if_pos hb]
    have e2 : (32768 : Nat) = 2 ^ 15 := by norm_num
    rw [e2, Nat.testBit_two_pow]
    by_cases hi : 15 = i
    · subst hi; simp [hb]
    · simp [hi]
  · rw [if_neg hb, Nat.zero_testBit]
    by_cases hi : 15 = i
    · subst hi; simp [hb]
    · simp [hi]

theorem and_repeat_count_mask_mod (r : Nat) : r &&& ZSM_REPEAT_COUNT_MASK = r % 256 := by
  have e : ZSM_REPEAT_COUNT_MASK = 2 ^ 8 - 1 := by decide
  rw [e, Nat.and_pow_two_sub_one_eq_mod]

theorem zsm_update_n_idle (fuel n : Nat) (g : zsm_globals) (h : g.g_play_stream = false) :
    zsm_update_n fuel n g = some g := by
  induction n with
  | zero => rfl
  | succ n ih =>
    rw [zsm_update_n]
    have hu : zsm_update fuel g = some g := by
      unfold zsm_update
      rw [if_pos h]
    rw [hu]
    exact ih


theorem ram_get_address_bank0 (r : ram) (a : Nat) (ha : a < 32768) :
    ram_get_address r a = (r.pp_banks[0]?).map (fun _ => pointer.loc 0 a) := by
  unfold ram_get_address
  simp only [shift_index_mask, and_offset_mask]
  have h1 : a / 32768 % 16 = 0 := by omega
  have h2 : a % 32768 = a := by omega
  rw [h1, h2]

theorem ram_byte_at_bank0 (r : ram) (a : Nat) (ha : a < 32768) :
    ram_byte_at r a = ram_deref r (pointer.loc 0 a) := by
  unfold ram_byte_at
  rw [ram_get_address_bank0 r a ha]
  cases h0 : r.pp_banks[0]? with
  | none => simp [ram_deref, h0]
  | some b => rfl

/-- The result of `zsm_initialize` on a non-null handle, by the bytes of the header. -/
theorem zsm_initialize_some (r : ram) (fm : Option ym2151_write_func_t)
    (psg : Option vera_psg_write_func_t) (g : zsm_globals) :
    zsm_initialize (some r) fm psg g =
      (ram_byte_at r 2).bind (fun version =>
        if version = ZSM_VERSION_01 then
          (ram_byte_at r 9).bind (fun fm_channel_mask =>
          (ram_byte_at r 10).bind (fun psg_lo =>
          (ram_byte_at r 11).bind (fun psg_hi =>
            let g1 : zsm_globals :=
              { g with
                g_p_zsm_ram_handle := some r,
                g_play_stream := false,
                g_p_ym2151_write_func :=
                  install_ym2151_write_func fm_channel_mask fm g.g_p_ym2151_write_func,
                g_p_vera_psg_write_func :=
                  install_vera_psg_write_func (psg_lo + 256 * psg_hi) psg
                    g.g_p_vera_psg_write_func }
            if g1.g_p_ym2151_write_func ≠ ym2151_write_func_t.zsm_ym2151_write_func_null ∨
                g1.g_p_vera_psg_write_func ≠ vera_psg_write_func_t.zsm_vera_psg_func_null then
              (ram_seek_bank r 16 e_ram_seek_origin_t.RAM_SEEK_ORIGIN_SET g.g_ram_bank).map
                (fun cursor => (e_zsm_result_t.ZSM_SUCCESS, { g1 with g_ram_bank := cursor }))
            else some (e_zsm_result_t.ZSM_NOTHING_TO_PLAY, g1))))
        else some (e_zsm_result_t.ZSM_UNSUPPORTED_VERSION,
          { g with g_p_zsm_ram_handle := some r })) := by
  rw [ram_byte_at_bank0 r 2 (by omega), ram_byte_at_bank0 r 9 (by omega),
    ram_byte_at_bank0 r 10 (by omega), ram_byte_at_bank0 r 11 (by omega)]
  unfold zsm_initialize
  simp only
  rw [ram_get_address_bank0 r 0 (by omega)]
  cases h0 : r.pp_banks[0]? with
  | none => simp [ram_deref, h0]
  | some b =>
    simp only [Option.map, Option.bind, pointer_add, Nat.zero_add, read_uint16]
    cases hv : ram_deref r (pointer.loc 0 2) with
    | none => rfl
    | some v =>
      simp only
      split
      · cases hf : ram_deref r (pointer.loc 0 9) with
        | none => rfl
        | some m1 =>
          simp only
          cases hlo : ram_deref r (pointer.loc 0 10) with
          | none => rfl
          | some lo =>
            simp only
            cases hhi : ram_deref r (pointer.loc 0 11) with
            | none => rfl
            | some hi => rfl
      · rfl


theorem install_ym2151_eq (m : Nat) (fm : Option ym2151_write_func_t)
    (old : ym2151_write_func_t) :
    install_ym2151_write_func m fm old =
      match fm with
      | some f => if m ≠ 0 then f else old
      | none => old := rfl

theorem install_vera_psg_eq (m : Nat) (psg : Option vera_psg_write_func_t)
    (old : vera_psg_write_func_t) :
    install_vera_psg_write_func m psg old =
      match psg with
      | some f => if m ≠ 0 then f else old
      | none => old := rfl

/-- On a player without hooks the YM2151 hook is set exactly when a writer is
passed with a non-zero FM channel mask. -/
theorem install_ym2151_fresh (m : Nat) (fm : Option ym2151_write_func_t)
    (hfm : fm ≠ some ym2151_write_func_t.zsm_ym2151_write_func_null) :
    install_ym2151_write_func m fm ym2151_write_func_t.zsm_ym2151_write_func_null ≠
        ym2151_write_func_t.zsm_ym2151_write_func_null ↔ (fm ≠ none ∧ m ≠ 0) := by
  rw [install_ym2151_eq]
  cases fm with
  | none => simp
  | some f =>
    by_cases hm : m = 0
    · simp [hm]
    · have hf : f ≠ ym2151_write_func_t.zsm_ym2151_write_func_null := by
        intro h; apply hfm; rw [h]
      simp [hm, hf]

theorem install_vera_psg_fresh (m : Nat) (psg : Option vera_psg_write_func_t)
    (hpsg : psg ≠ some vera_psg_write_func_t.zsm_vera_psg_func_null) :
    install_vera_psg_write_func m psg vera_psg_write_func_t.zsm_vera_psg_func_null ≠
        vera_psg_write_func_t.zsm_vera_psg_func_null ↔ (psg ≠ none ∧ m ≠ 0) := by
  rw [install_vera_psg_eq]
  cases psg with
  | none => simp
  | some f =>
    by_cases hm : m = 0
    · simp [hm]
    · have hf : f ≠ vera_psg_write_func_t.zsm_vera_psg_func_null := by
        intro h; apply hpsg; rw [h]
      simp [hm, hf]


/-- When `zsm_initialize` leaves both hooks on the null sinks, it did not
change them (the writers passed being functions of the caller). -/
theorem install_ym2151_null (m : Nat) (fm : Option ym2151_write_func_t)
    (old : ym2151_write_func_t)
    (hfm : fm ≠ some ym2151_write_func_t.zsm_ym2151_write_func_null)
    (h : install_ym2151_write_func m fm old = ym2151_write_func_t.zsm_ym2151_write_func_null) :
    install_ym2151_write_func m fm old = old := by
  rw [install_ym2151_eq] at h ⊢
  cases fm with
  | none => rfl
  | some f =>
    by_cases hm : m = 0
    · simp [hm]
    · simp only [ne_eq, hm, not_false_eq_true, if_true] at h
      exact absurd (by rw [h]) hfm

theorem install_vera_psg_null (m : Nat) (psg : Option vera_psg_write_func_t)
    (old : vera_psg_write_func_t)
    (hpsg : psg ≠ some vera_psg_write_func_t.zsm_vera_psg_func_null)
    (h : install_vera_psg_write_func m psg old = vera_psg_write_func_t.zsm_vera_psg_func_null) :
    install_vera_psg_write_func m psg old = old := by
  rw [install_vera_psg_eq] at h ⊢
  cases psg with
  | none => rfl
  | some f =>
    by_cases hm : m = 0
    · simp [hm]
    · simp only [ne_eq, hm, not_false_eq_true, if_true] at h
      exact absurd (by rw [h]) hpsg

theorem zsm_initialize_failed {r : ram} {fm : Option ym2151_write_func_t}
    {psg : Option vera_psg_write_func_t} {g g1 : zsm_globals} {code : e_zsm_result_t}
    (hinit : zsm_initialize (some r) fm psg g = some (code, g1))
    (hfm : fm ≠ some ym2151_write_func_t.zsm_ym2151_write_func_null)
    (hpsg : psg ≠ some vera_psg_write_func_t.zsm_vera_psg_func_null) :
    (code = e_zsm_result_t.ZSM_UNSUPPORTED_VERSION →
      g1 = { g with g_p_zsm_ram_handle := some r }) ∧
    (code = e_zsm_result_t.ZSM_NOTHING_TO_PLAY →
      g1 = { g with g_p_zsm_ram_handle := some r, g_play_stream := false }) := by
  rw [zsm_initialize_some] at hinit
  rcases Option.eq_none_or_eq_some (ram_byte_at r 2) with hv | ⟨v, hv⟩
  · rw [hv] at hinit; cases hinit
  rw [hv] at hinit
  simp only [Option.bind] at hinit
  by_cases h1 : v = ZSM_VERSION_01
  · rw [if_pos h1] at hinit
    rcases Option.eq_none_or_eq_some (ram_byte_at r 9) with hm | ⟨m1, hm⟩
    · rw [hm] at hinit; cases hinit
    rcases Option.eq_none_or_eq_some (ram_byte_at r 10) with hlo | ⟨lo, hlo⟩
    · rw [hm, hlo] at hinit; cases hinit
    rcases Option.eq_none_or_eq_some (ram_byte_at r 11) with hhi | ⟨hi, hhi⟩
    · rw [hm, hlo, hhi] at hinit; cases hinit
    rw [hm, hlo, hhi] at hinit
    simp only at hinit
    by_cases hcond :
        install_ym2151_write_func m1 fm g.g_p_ym2151_write_func ≠
            ym2151_write_func_t.zsm_ym2151_write_func_null ∨
          install_vera_psg_write_func (lo + 256 * hi) psg g.g_p_vera_psg_write_func ≠
            vera_psg_write_func_t.zsm_vera_psg_func_null
    · rw [if_pos hcond] at hinit
      rcases Option.eq_none_or_eq_some
        (ram_seek_bank r 16 e_ram_seek_origin_t.RAM_SEEK_ORIGIN_SET g.g_ram_bank) with hs | ⟨c, hs⟩
      · rw [hs] at hinit; cases hinit
      rw [hs] at hinit
      simp only [Option.map, Option.some.injEq, Prod.mk.injEq] at hinit
      constructor
      · intro hc; rw [← hinit.1] at hc; cases hc
      · intro hc; rw [← hinit.1] at hc; cases hc
    · rw [if_neg hcond] at hinit
      simp only [Option.some.injEq, Prod.mk.injEq] at hinit
      push_neg at hcond
      constructor
      · intro hc; rw [← hinit.1] at hc; cases hc
      · intro _
        rw [← hinit.2]
        have e1 := install_ym2151_null m1 fm g.g_p_ym2151_write_func hfm hcond.1
        have e2 := install_vera_psg_null (lo + 256 * hi) psg g.g_p_vera_psg_write_func hpsg
          hcond.2
        rw [e1, e2]
  · rw [if_neg h1] at hinit
    simp only [Option.some.injEq, Prod.mk.injEq] at hinit
    constructor
    · intro _
      exact hinit.2.symm
    · intro hc; rw [← hinit.1] at hc; cases hc

theorem zsm_initialize_handle {r : ram} {fm : Option ym2151_write_func_t}
    {psg : Option vera_psg_write_func_t} {g g1 : zsm_globals} {code : e_zsm_result_t}
    (hinit : zsm_initialize (some r) fm psg g = some (code, g1)) :
    g1.g_p_zsm_ram_handle = some r := by
  rw [zsm_initialize_some] at hinit
  rcases Option.eq_none_or_eq_some (ram_byte_at r 2) with hv | ⟨v, hv⟩
  · rw [hv] at hinit; cases hinit
  rw [hv] at hinit
  simp only [Option.bind] at hinit
  by_cases h1 : v = ZSM_VERSION_01
  · rw [if_pos h1] at hinit
    rcases Option.eq_none_or_eq_some (ram_byte_at r 9) with hm | ⟨m1, hm⟩
    · rw [hm] at hinit; cases hinit
    rcases Option.eq_none_or_eq_some (ram_byte_at r 10) with hlo | ⟨lo, hlo⟩
    · rw [hm, hlo] at hinit; cases hinit
    rcases Option.eq_none_or_eq_some (ram_byte_at r 11) with hhi | ⟨hi, hhi⟩
    · rw [hm, hlo, hhi] at hinit; cases hinit
    rw [hm, hlo, hhi] at hinit
    simp only at hinit
    split at hinit
    · rcases Option.eq_none_or_eq_some
        (ram_seek_bank r 16 e_ram_seek_origin_t.RAM_SEEK_ORIGIN_SET g.g_ram_bank) with hs | ⟨c, hs⟩
      · rw [hs] at hinit; cases hinit
      rw [hs] at hinit
      simp only [Option.map, Option.some.injEq, Prod.mk.injEq] at hinit
      rw [← hinit.2]
    · simp only [Option.some.injEq, Prod.mk.injEq] at hinit
      rw [← hinit.2]
  · rw [if_neg h1] at hinit
    simp only [Option.some.injEq, Prod.mk.injEq] at hinit
    rw [← hinit.2]


theorem ram_deref_header_byte {bytes : List (Fin 256)} {r : ram}
    (h : ram_load_file (some bytes) = (e_ram_result_t.RAM_LOAD_SUCCESS, some r))
    (i : Nat) (hi : i < bytes.length) (h16 : i < 32768) :
    ram_deref r (pointer.loc 0 i) = some (bytes[i]).val := by
  have hpos := (ram_load_file_wf h).banks_pos
  have hd := ram_deref_loaded h hi (show i < r.number_of_banks * 32768 by omega)
  have e : (cursor_at i).p_current = pointer.loc 0 i := by
    unfold cursor_at
    have h1 : i / 32768 = 0 := by omega
    have h2 : i % 32768 = i := by omega
    simp only [h1, h2]
  rw [e] at hd
  exact hd


theorem ram_load_file_oversize (bytes : List (Fin 256)) (hlen : bytes.length = 8421376) :
    ram_load_file (some bytes) =
      (e_ram_result_t.RAM_LOAD_SUCCESS,
        some { pp_banks := [bytes.take 32768], p_bank_sizes := [32768], number_of_banks := 1 }) := by
  have halloc : ram_data_alloc_banks 8421376 =
      some { pp_banks := [[]], p_bank_sizes := [32768], number_of_banks := 1 } := by decide
  unfold ram_load_file
  simp only [hlen, halloc, fread_banks]


/-- For page counts 17 to 255 the limit works: the load is refused. -/
theorem ram_load_file_too_many_banks (bytes : List (Fin 256))
    (hlo : 16 * 32768 < bytes.length) (hhi : bytes.length ≤ 255 * 32768) :
    (ram_load_file (some bytes)).1 = e_ram_result_t.RAM_LOAD_INSUFFICIENT_MEMORY := by
  have hn : alloc_number_of_banks bytes.length > RAM_BANK_MAX_BANKS := by
    unfold alloc_number_of_banks
    simp only [and_offset_mask, bank_size_eq, max_banks_eq]
    split <;> omega
  unfold ram_load_file
  simp only
  unfold ram_data_alloc_banks
  simp only [hn, if_true]

/-- For a non-empty input of at most 16 pages the load succeeds with
`ceil(S / 32768)` banks. -/
theorem ram_load_file_small (bytes : List (Fin 256))
    (hpos : 0 < bytes.length) (hle : bytes.length ≤ 16 * 32768) :
    ∃ r, ram_load_file (some bytes) = (e_ram_result_t.RAM_LOAD_SUCCESS, some r) ∧
      r.number_of_banks = (bytes.length + 32767) / 32768 := by
  have hn := alloc_number_of_banks_small bytes.length hle
  have h1 : ¬ alloc_number_of_banks bytes.length > RAM_BANK_MAX_BANKS := by
    rw [hn, max_banks_eq]; omega
  have h2 : alloc_number_of_banks bytes.length > 0 := by
    rw [hn]; omega
  unfold ram_load_file
  simp only
  unfold ram_data_alloc_banks
  simp only [h1, h2, if_true, if_false]
  exact ⟨_, rfl, hn⟩

/-! ## Lemmas on the cursor invariant and the mirrored seek -/

theorem ram_load_file_two_banks (bytes : List (Fin 256)) (hlen : bytes.length = 32769) :
    ram_load_file (some bytes) =
      (e_ram_result_t.RAM_LOAD_SUCCESS,
        some { pp_banks := [bytes.take 32768, (bytes.drop 32768).take 32768],
               p_bank_sizes := [32768, 32768], number_of_banks := 2 }) := by
  have halloc : ram_data_alloc_banks 32769 =
      some { pp_banks := [[], []], p_bank_sizes := [32768, 32768], number_of_banks := 2 } := by
    decide
  unfold ram_load_file
  simp only [hlen, halloc, fread_banks]

theorem sample_two_bank_loaded :
    ram_load_file (some sample_two_bank_file) =
      (e_ram_result_t.RAM_LOAD_SUCCESS, some sample_two_bank_store) := by
  have hlen : sample_two_bank_file.length = 32769 := by
    unfold sample_two_bank_file
    rw [List.length_append, List.length_replicate]
    rfl
  have h1 : sample_two_bank_file.take 32768 = List.replicate 32768 0 := by
    unfold sample_two_bank_file
    exact List.take_left' (List.length_replicate 32768 0)
  have h2 : sample_two_bank_file.drop 32768 = [7] := by
    unfold sample_two_bank_file
    exact List.drop_left' (List.length_replicate 32768 0)
  have h3 : ([7] : List (Fin 256)).take 32768 = [7] := List.take_of_length_le (by decide)
  rw [ram_load_file_two_banks sample_two_bank_file hlen, h1, h2, h3]
  rfl

theorem ram_seek_bank_mirror {r : ram} (hr : ram_wf r) {q : Nat} (d : Int)
    (hq : q < r.number_of_banks * 32768)
    (hneg : (q : Int) + d < 0) (hmin : -2147483648 < (q : Int) + d) :
    ram_seek_bank r d e_ram_seek_origin_t.RAM_SEEK_ORIGIN_CURRENT (cursor_at q) =
      if (-((q : Int) + d)).toNat / 32768 % 16 + 1 < r.number_of_banks then
        some { p_start := pointer.loc ((-((q : Int) + d)).toNat / 32768 % 16 + 1) 0,
               p_end := pointer.loc ((-((q : Int) + d)).toNat / 32768 % 16 + 1) 32768,
               p_current := pointer.loc ((-((q : Int) + d)).toNat / 32768 % 16 + 1)
                 (32768 - (-((q : Int) + d)).toNat % 32768),
               bank := (-((q : Int) + d)).toNat / 32768 % 16 + 1 }
      else none := by
  have h16 := hr.banks_le
  obtain ⟨m, hm⟩ : ∃ m : Nat, -((q : Int) + d) = m := ⟨(-((q : Int) + d)).toNat, by omega⟩
  have habs : ((q / 32768) <<< RAM_BANK_SHIFT + (q % 32768 - 0)) % 4294967296 = q := by
    have h2 : RAM_BANK_SHIFT = 15 := by decide
    rw [h2]; omega
  have hnew : to_int32 ((q : Int) + d) = -(m : Int) := by
    unfold to_int32; omega
  have hneg2 : to_int32 (- -(m : Int)) = (m : Int) := by
    rw [neg_neg]; exact to_int32_ofNat m (by omega)
  have hlt : -(m : Int) < 0 := by omega
  unfold ram_seek_bank
  simp only [cursor_at, pointer_diff, true_and, Nat.zero_le, if_true, Option.map, habs, hnew,
    hneg2, if_pos hlt, shift_index_mask, and_offset_mask]
  rw [int32_bits_ofNat m (by omega), hm, Int.toNat_ofNat, bank_size_eq]
  have hoff : (32768 - m % 32768) % 65536 = 32768 - m % 32768 := by omega
  simp only [Option.bind, hoff]
  by_cases hb : m / 32768 % 16 + 1 < r.number_of_banks
  · obtain ⟨bytes, hbytes⟩ := hr.bank_some hb
    have hsize := hr.size_some hb
    simp only [hbytes, hsize, if_pos hb]
  · have hnone : r.pp_banks[m / 32768 % 16 + 1]? = none := by
      apply List.getElem?_eq_none
      rw [hr.length_banks]; omega
    simp only [hnone, if_neg hb]

theorem ram_bank_in_range_cursor_at {r : ram} (hr : ram_wf r) {p : Nat}
    (hp : p < r.number_of_banks * 32768) : ram_bank_in_range r (cursor_at p) = true := by
  have hb : p / 32768 < r.number_of_banks := by
    apply Nat.div_lt_of_lt_mul; rw [Nat.mul_comm]; exact hp
  have hsize := hr.size_some hb
  have hoff : p % 32768 < 32768 := Nat.mod_lt _ (by decide)
  simp [ram_bank_in_range, cursor_at, hsize, hoff]

theorem ram_bank_in_range_elim {r : ram} (hr : ram_wf r) {c : ram_bank_t}
    (h : ram_bank_in_range r c = true) :
    ∃ p, p < r.number_of_banks * 32768 ∧ c = cursor_at p := by
  unfold ram_bank_in_range at h
  split at h
  · rename_i size block off hs hc
    simp only [Bool.and_eq_true, decide_eq_true_eq] at h
    obtain ⟨⟨⟨h1, h2⟩, h3⟩, h4⟩ := h
    have hb : c.bank < r.number_of_banks := by
      have := (List.getElem?_eq_some_iff.mp hs).1
      rw [hr.sizes, List.length_replicate] at this
      exact this
    have hsz := hr.size_some hb
    rw [hs] at hsz
    have hsz2 : size = 32768 := Option.some.inj hsz
    subst hsz2
    refine ⟨c.bank * 32768 + off, by nlinarith, ?_⟩
    have e1 : (c.bank * 32768 + off) / 32768 = c.bank := by omega
    have e2 : (c.bank * 32768 + off) % 32768 = off := by omega
    cases c with
    | mk ps pe pc bk =>
      simp only at h1 h2 h3 hc e1 e2 ⊢
      simp only [cursor_at, e1, e2]
      rw [h1, h2, hc, h3]
  · exact absurd h (by simp)

theorem ram_seek_bank_set_shape {r : ram} {offset : Int} {c0 c : ram_bank_t}
    (h : ram_seek_bank r offset e_ram_seek_origin_t.RAM_SEEK_ORIGIN_SET c0 = some c) :
    ∃ size, r.p_bank_sizes[int32_bits offset / 32768 % 16]? = some size ∧
      c = { p_start := pointer.loc (int32_bits offset / 32768 % 16) 0,
            p_end := pointer.loc (int32_bits offset / 32768 % 16) size,
            p_current := pointer.loc (int32_bits offset / 32768 % 16)
              (int32_bits offset % 32768),
            bank := int32_bits offset / 32768 % 16 } := by
  unfold ram_seek_bank at h
  simp only [Option.bind, shift_index_mask, and_offset_mask] at h
  split at h
  · rename_i x size hb hs
    exact ⟨size, hs, (Option.some.inj h).symm⟩
  · exact absurd h (by simp)

theorem ram_seek_bank_set_in_range {r : ram} (hr : ram_wf r) {offset : Int} {c0 c : ram_bank_t}
    (h : ram_seek_bank r offset e_ram_seek_origin_t.RAM_SEEK_ORIGIN_SET c0 = some c) :
    ram_bank_in_range r c = true := by
  obtain ⟨size, hs, hc⟩ := ram_seek_bank_set_shape h
  have hb : int32_bits offset / 32768 % 16 < r.number_of_banks := by
    have := (List.getElem?_eq_some_iff.mp hs).1
    rw [hr.sizes, List.length_replicate] at this
    exact this
  have hsz := hr.size_some hb
  rw [hs] at hsz
  have hsz2 : size = 32768 := Option.some.inj hsz
  subst hsz2
  have hoff : int32_bits offset % 32768 < 32768 := Nat.mod_lt _ (by decide)
  subst hc
  simp [ram_bank_in_range, hs, hoff]

theorem cursor_at_position (q : Nat) :
    pointer_diff (cursor_at q).p_current (cursor_at q).p_start = some (q % 32768) ∧
    (cursor_at q).bank <<< RAM_BANK_SHIFT + q % 32768 = q := by
  have h2 : RAM_BANK_SHIFT = 15 := by decide
  refine ⟨by simp [cursor_at, pointer_diff], ?_⟩
  rw [h2]
  simp only [cursor_at]
  omega

theorem ram_bank_position {r : ram} (hr : ram_wf r) {cursor : ram_bank_t} {off : Nat}
    (hin : ram_bank_in_range r cursor = true)
    (hoff : pointer_diff cursor.p_current cursor.p_start = some off) :
    cursor.bank <<< RAM_BANK_SHIFT + off < r.number_of_banks * 32768 ∧
    cursor = cursor_at (cursor.bank <<< RAM_BANK_SHIFT + off) := by
  obtain ⟨q, hq, hc⟩ := ram_bank_in_range_elim hr hin
  subst hc
  obtain ⟨h1, h2⟩ := cursor_at_position q
  rw [h1] at hoff
  have e : off = q % 32768 := (Option.some.inj hoff).symm
  subst e
  rw [h2]
  exact ⟨hq, rfl⟩

theorem RAM_UPDATE_POS_in_range {r : ram} (hr : ram_wf r) {cursor : ram_bank_t}
    (hin : ram_bank_in_range r cursor = true)
    (hlast : cursor.p_current ≠ pointer.loc (r.number_of_banks - 1) (RAM_BANK_SIZE - 1)) :
    ∃ next, RAM_UPDATE_POS r cursor = some next ∧ ram_bank_in_range r next = true := by
  obtain ⟨q, hq, hc⟩ := ram_bank_in_range_elim hr hin
  subst hc
  have hq1 : q + 1 < r.number_of_banks * 32768 := by
    rcases Nat.lt_or_ge (q + 1) (r.number_of_banks * 32768) with h | h
    · exact h
    · exfalso
      apply hlast
      have e : q = r.number_of_banks * 32768 - 1 := by omega
      have hpos := hr.banks_pos
      have e1 : q / 32768 = r.number_of_banks - 1 := by omega
      have e2 : q % 32768 = 32767 := by omega
      simp only [cursor_at, e1, e2, bank_size_eq]
  exact ⟨cursor_at (q + 1), RAM_UPDATE_POS_cursor_at hr hq1, ram_bank_in_range_cursor_at hr hq1⟩

theorem ram_seek_bank_current_in_range {r : ram} (hr : ram_wf r) {cursor next : ram_bank_t}
    {off : Nat} {d : Int}
    (hin : ram_bank_in_range r cursor = true)
    (hoff : pointer_diff cursor.p_current cursor.p_start = some off)
    (hlo : 0 ≤ ((cursor.bank <<< RAM_BANK_SHIFT + off : Nat) : Int) + d)
    (hhi : ((cursor.bank <<< RAM_BANK_SHIFT + off : Nat) : Int) + d < 2147483648)
    (h : ram_seek_bank r d e_ram_seek_origin_t.RAM_SEEK_ORIGIN_CURRENT cursor = some next) :
    ram_bank_in_range r next = true := by
  obtain ⟨hq, hc⟩ := ram_bank_position hr hin hoff
  generalize cursor.bank <<< RAM_BANK_SHIFT + off = q at hq hc hlo hhi
  subst hc
  obtain ⟨t, ht⟩ : ∃ t : Nat, (q : Int) + d = t := ⟨((q : Int) + d).toNat, by omega⟩
  have habs : ((q / 32768) <<< RAM_BANK_SHIFT + (q % 32768 - 0)) % 4294967296 = q := by
    have h2 : RAM_BANK_SHIFT = 15 := by decide
    have h16 := hr.banks_le
    rw [h2]; omega
  have hnew : to_int32 ((q : Int) + d) = (t : Int) := by
    rw [ht]; exact to_int32_ofNat t (by omega)
  have hnn : ¬ ((t : Int) < 0) := by omega
  have hset : ram_seek_bank r (t : Int) e_ram_seek_origin_t.RAM_SEEK_ORIGIN_SET (cursor_at q) =
      some next := by
    rw [← h]
    unfold ram_seek_bank
    simp only [cursor_at, pointer_diff, true_and, Nat.zero_le, if_true, Option.map, habs, hnew,
      if_neg hnn]
  exact ram_seek_bank_set_in_range hr hset

/-! ## Lemmas on the frequency table -/

theorem smear_step {s k t : Nat} (h1 : s < 2 ^ (k + 1))
    (h2 : ∀ i, i ≤ k → k < i + t → s.testBit i = true) :
    (s ||| (s >>> t)) < 2 ^ (k + 1) ∧
    ∀ i, i ≤ k → k < i + 2 * t → (s ||| (s >>> t)).testBit i = true := by
  constructor
  · apply Nat.or_lt_two_pow h1
    rw [Nat.shiftRight_eq_div_pow]
    exact lt_of_le_of_lt (Nat.div_le_self s (2 ^ t)) h1
  · intro i hi hit
    rw [Nat.testBit_or, Nat.testBit_shiftRight]
    by_cases hc : k < i + t
    · rw [h2 i hi hc]; rfl
    · have : s.testBit (t + i) = true := h2 (t + i) (by omega) (by omega)
      rw [this]; simp

theorem smear_init {x k : Nat} (hlo : 2 ^ k ≤ x) (hhi : x < 2 ^ (k + 1)) :
    ∀ i, i ≤ k → k < i + 1 → x.testBit i = true := by
  intro i hi hit
  have e : i = k := by omega
  subst e
  rw [Nat.testBit_to_div_mod]
  have h1 : x / 2 ^ i = 1 := by
    apply Nat.div_eq_of_lt_le
    · simpa using hlo
    · rw [pow_succ] at hhi; omega
  rw [h1]; rfl

theorem smear_final {s k : Nat} (h1 : s < 2 ^ (k + 1))
    (h2 : ∀ i, i ≤ k → k < i + 16 → s.testBit i = true) (hk : k ≤ 15) :
    s = 2 ^ (k + 1) - 1 := by
  apply Nat.eq_of_testBit_eq
  intro i
  rw [Nat.testBit_two_pow_sub_one]
  by_cases hi : i < k + 1
  · rw [h2 i (by omega) (by omega)]; simp [hi]
  · rw [Nat.testBit_lt_two_pow (lt_of_lt_of_le h1 (Nat.pow_le_pow_right (by decide) (by omega)))]
    simp [hi]

theorem nlz5_16_band (k x : Nat) (hk : k ≤ 15) (hlo : 2 ^ k ≤ x) (hhi : x < 2 ^ (k + 1)) :
    nlz5_16 x = 15 - k := by
  obtain ⟨a1, b1⟩ := smear_step hhi (smear_init hlo hhi)
  obtain ⟨a2, b2⟩ := smear_step a1 b1
  obtain ⟨a3, b3⟩ := smear_step a2 b2
  obtain ⟨a4, b4⟩ := smear_step a3 b3
  have hs := smear_final a4 b4 hk
  unfold nlz5_16
  simp only []
  rw [hs]
  interval_cases k <;> rfl

theorem nlz5_16_zero : nlz5_16 0 = 16 := by decide

theorem shift9_div (N w : Nat) : (N * 512 / w) >>> 9 = N / w := by
  rw [Nat.shiftRight_eq_div_pow, Nat.div_div_eq_div_mul]
  exact Nat.mul_div_mul_right N w (by decide)

theorem frequency_table_ratios_eq (cr o0 : Nat) (hcr : cr < 256) (ho0 : o0 ≤ 7) :
    frequency_table_ratios cr o0 = cr * 2 ^ (o0 + 8) * 512 := by
  unfold frequency_table_ratios
  have hV : VERA_PSG_FREQ_BASE_OCTAVE = 17 := rfl
  rw [hV, Nat.shiftLeft_eq]
  have hP : 2 ^ o0 ≤ 2 ^ 7 := Nat.pow_le_pow_right (by decide) ho0
  have e1 : 2 ^ (17 + o0) = 2 ^ o0 * 131072 := by rw [pow_add]; ring
  have e2 : 2 ^ (o0 + 8) = 2 ^ o0 * 256 := by rw [pow_add]; rfl
  rw [e1, e2]
  generalize 2 ^ o0 = P at hP
  have : cr * (P * 131072) < 4294967296 := by nlinarith
  rw [Nat.mod_eq_of_lt this]
  ring

theorem frequency_table_octave_value_core (cr w o0 : Nat) (hcr1 : 128 ≤ cr) (hcr2 : cr < 256)
    (ho0 : o0 ≤ 7) (hest : frequency_table_octave_estimate w = o0)
    (hlo : 2 ^ (o0 + 6) ≤ w) (hhi : w ≤ cr * 2 ^ o0) (hw : cr < 2 * w) :
    ∃ o, o ≤ 7 ∧ frequency_table_octave_value cr w = (o, cr * 2 ^ (o + 8) / w) ∧
      w ≤ cr * 2 ^ o ∧ cr * 2 ^ o < 2 * w := by
  have hw0 : 0 < w := by omega
  have hP : 2 ^ o0 ≤ 2 ^ 7 := Nat.pow_le_pow_right (by decide) ho0
  have hV : (cr * 2 ^ (o0 + 8) / w) % 65536 = cr * 2 ^ (o0 + 8) / w := by
    apply Nat.mod_eq_of_lt
    rw [Nat.div_lt_iff_lt_mul hw0]
    have e2 : 2 ^ (o0 + 8) = 2 ^ o0 * 256 := by rw [pow_add]; rfl
    have e3 : 2 ^ (o0 + 6) = 2 ^ o0 * 64 := by rw [pow_add]; rfl
    rw [e2]; rw [e3] at hlo
    generalize 2 ^ o0 = P at hP hlo
    nlinarith
  have k1 : FREQ_23_9_FIXED_POINT_SHIFT = 9 := rfl
  have k2 : FREQ_SAA1099_FREQUENCY_DIV_MAX_RANGE = 511 := rfl
  have k3 : FREQ_SAA1099_FREQUENCY_DIV_MAX_VALUE = 256 := rfl
  unfold frequency_table_octave_value
  simp only [hest, frequency_table_ratios_eq cr o0 hcr2 ho0, k1, k2, k3, shift9_div, hV]
  by_cases hbig : 512 * w ≤ cr * 2 ^ (o0 + 8)
  · have hgt : cr * 2 ^ (o0 + 8) / w > 511 := by
      show 512 ≤ cr * 2 ^ (o0 + 8) / w
      rw [Nat.le_div_iff_mul_le hw0]
      exact hbig
    rw [if_pos hgt]
    cases o0 with
    | zero =>
      exfalso
      simp only [Nat.zero_add] at hbig
      omega
    | succ n =>
      refine ⟨n, by omega, ?_, ?_, ?_⟩
      · have e1 : (n + 1 + 255) % 256 = n := by omega
        have e2 : cr * 2 ^ (n + 1 + 8) = cr * 2 ^ (n + 8) * 2 := by ring
        rw [e1, Nat.shiftRight_eq_div_pow, Nat.div_div_eq_div_mul, e2]
        rw [show (2 : Nat) ^ 1 = 2 from rfl, Nat.mul_div_mul_right _ _ (by decide)]
      · have e2 : cr * 2 ^ (n + 1 + 8) = cr * 2 ^ n * 512 := by ring
        rw [e2] at hbig
        omega
      · have e3 : 2 ^ (n + 1 + 6) = 2 ^ n * 128 := by ring
        rw [e3] at hlo
        generalize 2 ^ n = Q at hlo
        nlinarith
  · have hle : ¬ cr * 2 ^ (o0 + 8) / w > 511 := by
      intro h
      apply hbig
      have h2 : 512 ≤ cr * 2 ^ (o0 + 8) / w := h
      rw [Nat.le_div_iff_mul_le hw0] at h2
      exact h2
    have hge : ¬ cr * 2 ^ (o0 + 8) / w < 256 := by
      rw [Nat.div_lt_iff_lt_mul hw0]
      have e2 : cr * 2 ^ (o0 + 8) = cr * 2 ^ o0 * 256 := by ring
      rw [e2]
      omega
    rw [if_neg hle, if_neg hge]
    refine ⟨o0, ho0, rfl, hhi, ?_⟩
    have e2 : cr * 2 ^ (o0 + 8) = cr * 2 ^ o0 * 256 := by ring
    rw [e2] at hbig
    omega

theorem frequency_table_octave_estimate_band (k w : Nat) (h6 : 6 ≤ k) (hk : k ≤ 15)
    (hlo : 2 ^ k ≤ w) (hhi : w < 2 ^ (k + 1)) :
    frequency_table_octave_estimate w = if k - 6 > 7 then 7 else k - 6 := by
  unfold frequency_table_octave_estimate
  have hm : SAA1099_MAX_OCTAVE = 7 := rfl
  rw [nlz5_16_band k w hk hlo hhi, hm]
  have : (256 + 16 - 7 - (15 - k)) % 256 = k - 6 := by omega
  simp only [this]

theorem frequency_table_octave_value_spec (cr w : Nat) (hcr1 : 128 ≤ cr) (hcr2 : cr < 256)
    (hw1 : cr < 2 * w) (hw2 : w ≤ cr * 128) :
    ∃ o, o ≤ 7 ∧ frequency_table_octave_value cr w = (o, cr * 2 ^ (o + 8) / w) ∧
      w ≤ cr * 2 ^ o ∧ cr * 2 ^ o < 2 * w := by
  have hband : (64 ≤ w ∧ w < 128) ∨ (128 ≤ w ∧ w < 256) ∨ (256 ≤ w ∧ w < 512) ∨
      (512 ≤ w ∧ w < 1024) ∨ (1024 ≤ w ∧ w < 2048) ∨ (2048 ≤ w ∧ w < 4096) ∨
      (4096 ≤ w ∧ w < 8192) ∨ (8192 ≤ w ∧ w < 16384) ∨ (16384 ≤ w ∧ w < 32768) := by omega
  rcases hband with h | h | h | h | h | h | h | h | h
  · exact frequency_table_octave_value_core cr w 0 hcr1 hcr2 (by decide)
      (frequency_table_octave_estimate_band 6 w (by decide) (by decide) h.1 h.2)
      h.1 (by omega) hw1
  · exact frequency_table_octave_value_core cr w 1 hcr1 hcr2 (by decide)
      (frequency_table_octave_estimate_band 7 w (by decide) (by decide) h.1 h.2)
      h.1 (by omega) hw1
  · exact frequency_table_octave_value_core cr w 2 hcr1 hcr2 (by decide)
      (frequency_table_octave_estimate_band 8 w (by decide) (by decide) h.1 h.2)
      h.1 (by omega) hw1
  · exact frequency_table_octave_value_core cr w 3 hcr1 hcr2 (by decide)
      (frequency_table_octave_estimate_band 9 w (by decide) (by decide) h.1 h.2)
      h.1 (by omega) hw1
  · exact frequency_table_octave_value_core cr w 4 hcr1 hcr2 (by decide)
      (frequency_table_octave_estimate_band 10 w (by decide) (by decide) h.1 h.2)
      h.1 (by omega) hw1
  · exact frequency_table_octave_value_core cr w 5 hcr1 hcr2 (by decide)
      (frequency_table_octave_estimate_band 11 w (by decide) (by decide) h.1 h.2)
      h.1 (by omega) hw1
  · exact frequency_table_octave_value_core cr w 6 hcr1 hcr2 (by decide)
      (frequency_table_octave_estimate_band 12 w (by decide) (by decide) h.1 h.2)
      h.1 (by omega) hw1
  · exact frequency_table_octave_value_core cr w 7 hcr1 hcr2 (by decide)
      (frequency_table_octave_estimate_band 13 w (by decide) (by decide) h.1 h.2)
      h.1 (by omega) hw1
  · exact frequency_table_octave_value_core cr w 7 hcr1 hcr2 (by decide)
      (frequency_table_octave_estimate_band 14 w (by decide) (by decide) h.1 h.2)
      (by have : (2 : Nat) ^ (7 + 6) = 8192 := rfl
          omega) (by omega) hw1

theorem frequency_table_supported {p_range : saa1099_verga_psg_range_t}
    (hsup : p_range = g_saa1099_7mhz_vera_psg_range ∨ p_range = g_saa1099_8mhz_vera_psg_range) :
    (p_range.clock_ratio = 147 ∧ p_range.min_r = 74 ∧ p_range.max_r = 18767 ∧
      p_range.range = 18694) ∨
    (p_range.clock_ratio = 164 ∧ p_range.min_r = 82 ∧ p_range.max_r = 20971 ∧
      p_range.range = 20890) := by
  rcases hsup with h | h
  · left; subst h; exact ⟨rfl, rfl, rfl, rfl⟩
  · right; subst h; exact ⟨rfl, rfl, rfl, rfl⟩

theorem frequency_table_octave_value_supported {p_range : saa1099_verga_psg_range_t} {w : Nat}
    (hsup : p_range = g_saa1099_7mhz_vera_psg_range ∨ p_range = g_saa1099_8mhz_vera_psg_range)
    (hmin : p_range.min_r ≤ w) (hmax : w ≤ p_range.max_r)
    (hslip : ¬ (p_range = g_saa1099_8mhz_vera_psg_range ∧ w = 82)) :
    ∃ o, o ≤ 7 ∧
      frequency_table_octave_value p_range.clock_ratio w =
        (o, p_range.clock_ratio * 2 ^ (o + 8) / w) ∧
      w ≤ p_range.clock_ratio * 2 ^ o ∧ p_range.clock_ratio * 2 ^ o < 2 * w := by
  rcases hsup with h | h
  · subst h
    have e1 : g_saa1099_7mhz_vera_psg_range.clock_ratio = 147 := rfl
    have e2 : g_saa1099_7mhz_vera_psg_range.min_r = 74 := rfl
    have e3 : g_saa1099_7mhz_vera_psg_range.max_r = 18767 := rfl
    rw [e2] at hmin; rw [e3] at hmax; rw [e1]
    exact frequency_table_octave_value_spec 147 w (by decide) (by decide) (by omega) (by omega)
  · subst h
    have e1 : g_saa1099_8mhz_vera_psg_range.clock_ratio = 164 := rfl
    have e2 : g_saa1099_8mhz_vera_psg_range.min_r = 82 := rfl
    have e3 : g_saa1099_8mhz_vera_psg_range.max_r = 20971 := rfl
    rw [e2] at hmin; rw [e3] at hmax; rw [e1]
    have hne : w ≠ 82 := fun hw => hslip ⟨rfl, hw⟩
    exact frequency_table_octave_value_spec 164 w (by decide) (by decide) (by omega) (by omega)

theorem frequency_table_value_bounds {cr w o : Nat} (hw : 0 < w)
    (h1 : w ≤ cr * 2 ^ o) (h2 : cr * 2 ^ o < 2 * w) :
    256 ≤ cr * 2 ^ (o + 8) / w ∧ cr * 2 ^ (o + 8) / w ≤ 511 := by
  have e : cr * 2 ^ (o + 8) = cr * 2 ^ o * 256 := by ring
  rw [e]
  generalize cr * 2 ^ o = N at h1 h2
  constructor
  · rw [Nat.le_div_iff_mul_le hw]; omega
  · apply Nat.le_of_lt_succ
    rw [Nat.div_lt_iff_lt_mul hw]; omega

set_option maxRecDepth 100000 in
theorem packed_fields : ∀ o, o < 8 → ∀ d, d < 256 →
    ((o <<< 8) ||| d) % 65536 = o * 256 + d ∧
    (((o <<< 8) ||| d) % 65536) >>> 8 = o ∧
    (((o <<< 8) ||| d) % 65536) &&& 0xFF = d ∧
    ((((o <<< 8) ||| d) % 65536) &&& 0x0700) >>> 8 = o := by
  decide

theorem frequency_table_packed_frequency_eq {cr w o v : Nat}
    (hov : frequency_table_octave_value cr w = (o, v)) (ho : o ≤ 7)
    (hv1 : 256 ≤ v) (hv2 : v ≤ 511) :
    frequency_table_packed_frequency cr w = o * 256 + (511 - v) ∧
    frequency_table_packed_frequency cr w >>> 8 = o ∧
    frequency_table_packed_frequency cr w &&& 0xFF = 511 - v ∧
    (frequency_table_packed_frequency cr w &&& 0x0700) >>> 8 = o := by
  have k1 : FREQ_SAA1099_FREQUENCY_DIV_MAX_RANGE = 511 := rfl
  have k2 : SAA1099_SHIFT_PACKED_FREQUENCY_OCTAVE = 8 := rfl
  have e : (511 + 65536 - v) % 65536 = 511 - v := by omega
  unfold frequency_table_packed_frequency
  simp only [hov, k1, k2, e]
  exact packed_fields o (by omega) (511 - v) (by omega)

theorem frequency_table_getElem? (p_range : saa1099_verga_psg_range_t) :
    ∃ table, saa1099_generate_vera_psg_frequency_table p_range = some table ∧
      table.length = p_range.range ∧
      ∀ index, index < p_range.range →
        table[index]? =
          some (frequency_table_packed_frequency p_range.clock_ratio
            ((index + p_range.min_r) % 65536)) := by
  refine ⟨_, rfl, ?_, ?_⟩
  · rw [List.length_map, List.length_range]
  · intro index hi
    rw [List.getElem?_map, List.getElem?_range hi]
    rfl

/-! ## Lemmas on the register writes of the translator -/

theorem saa1099_write_eq {g : saa1099_globals} {chip_id address data : Nat}
    (hc : g.g_cache.length = 64) (hchip : chip_id < 2) (haddr : address < 32) :
    saa1099_write chip_id address data g =
      some { g with
        g_cache := g.g_cache.set (32 * chip_id + address) data,
        ports := g.ports ++ saa1099_write_ports g.g_port_base_address chip_id address data } := by
  unfold saa1099_write SAA1099_GET_CACHE_OFFSET
  have e : (chip_id <<< 5 + address) % 256 = 32 * chip_id + address := by
    rw [Nat.shiftLeft_eq]; omega
  simp only [e]
  rw [if_pos (by omega)]
  rfl

theorem saa1099_clamp_word_bounds {p_range : saa1099_verga_psg_range_t}
    (hsup : p_range = g_saa1099_7mhz_vera_psg_range ∨ p_range = g_saa1099_8mhz_vera_psg_range)
    (w : Nat) :
    p_range.min_r ≤ saa1099_clamp_word p_range w ∧ saa1099_clamp_word p_range w ≤ p_range.max_r ∧
    saa1099_clamp_word p_range w - p_range.min_r < p_range.range ∧
    p_range.range = p_range.max_r - p_range.min_r + 1 := by
  unfold saa1099_clamp_word
  rcases frequency_table_supported hsup with ⟨_, h2, h3, h4⟩ | ⟨_, h2, h3, h4⟩ <;>
    (rw [h2, h3, h4]; split_ifs <;> omega)

theorem saa1099_set_frequency_eq {g : saa1099_globals} {p_range : saa1099_verga_psg_range_t}
    (hr : saa1099_ready g p_range) {chip_id saa_channel : Nat} (w : Nat)
    (hchip : chip_id < 2) (hch : saa_channel < 6) :
    ∃ cached,
      g.g_cache[32 * chip_id + (16 + saa_channel / 2)]? = some cached ∧
      saa1099_set_frequency chip_id saa_channel w g =
        some { g with
          g_cache :=
            (g.g_cache.set (32 * chip_id + (8 + saa_channel))
              (frequency_table_packed_frequency p_range.clock_ratio
                (saa1099_clamp_word p_range w) &&& 0xFF)).set
              (32 * chip_id + (16 + saa_channel / 2))
              (saa1099_octave_data cached
                (frequency_table_packed_frequency p_range.clock_ratio
                  (saa1099_clamp_word p_range w)) saa_channel),
          ports := g.ports ++
            saa1099_write_ports g.g_port_base_address chip_id (8 + saa_channel)
              (frequency_table_packed_frequency p_range.clock_ratio
                (saa1099_clamp_word p_range w) &&& 0xFF) ++
            saa1099_write_ports g.g_port_base_address chip_id (16 + saa_channel / 2)
              (saa1099_octave_data cached
                (frequency_table_packed_frequency p_range.clock_ratio
                  (saa1099_clamp_word p_range w)) saa_channel) } := by
  have hc : g.g_cache.length = 64 := hr.cache
  obtain ⟨b1, b2, b3, b4⟩ := saa1099_clamp_word_bounds hr.supported w
  obtain ⟨table, ht, hlen, hget⟩ := frequency_table_getElem? p_range
  have hmax : p_range.max_r < 65536 := by
    rcases frequency_table_supported hr.supported with h | h <;> omega
  have hidx : (saa1099_clamp_word p_range w + 65536 - p_range.min_r) % 65536 =
      saa1099_clamp_word p_range w - p_range.min_r := by omega
  have hback : (saa1099_clamp_word p_range w - p_range.min_r + p_range.min_r) % 65536 =
      saa1099_clamp_word p_range w := by omega
  have hlook := hget _ b3
  rw [hback] at hlook
  have hoff : (SAA1099_GET_CACHE_OFFSET chip_id + (16 + saa_channel / 2)) % 256 =
      32 * chip_id + (16 + saa_channel / 2) := by
    unfold SAA1099_GET_CACHE_OFFSET
    rw [Nat.shiftLeft_eq]
    omega
  have haddr2 : (SAA1099_ADDRESS_OCTAVE + saa_channel >>> 1) % 256 = 16 + saa_channel / 2 := by
    unfold SAA1099_ADDRESS_OCTAVE
    rw [Nat.shiftRight_eq_div_pow]
    omega
  have haddr1 : (SAA1099_ADDRESS_FREQUENCY + saa_channel) % 256 = 8 + saa_channel := by
    unfold SAA1099_ADDRESS_FREQUENCY
    omega
  have hlt : 32 * chip_id + (16 + saa_channel / 2) < g.g_cache.length := by omega
  refine ⟨g.g_cache[32 * chip_id + (16 + saa_channel / 2)], List.getElem?_eq_getElem hlt, ?_⟩
  unfold saa1099_set_frequency
  simp only [hr.range, hr.table, ht, Option.some_bind]
  have hclamp : (if w < p_range.min_r then p_range.min_r
      else if w > p_range.max_r then p_range.max_r else w) = saa1099_clamp_word p_range w := rfl
  simp only [hclamp, hidx, hlook, haddr1, haddr2, hoff, List.getElem?_eq_getElem hlt,
    Option.some_bind]
  rw [saa1099_write_eq hc hchip (by omega), Option.some_bind,
    saa1099_write_eq (by simpa using hc) hchip (by omega)]
  simp only [saa1099_octave_data, SAA1099_MASK_PACKED_FREQUENCY_FREQUENCY, List.append_assoc,
    hr.range, hr.table, ht]

theorem saa1099_write_frame.refl (g : saa1099_globals) : saa1099_write_frame g g :=
  ⟨rfl, rfl, rfl, rfl, rfl, rfl⟩

theorem saa1099_write_frame.trans {g g1 g2 : saa1099_globals}
    (h1 : saa1099_write_frame g g1) (h2 : saa1099_write_frame g1 g2) :
    saa1099_write_frame g g2 := by
  unfold saa1099_write_frame at h1 h2 ⊢
  refine ⟨h2.1.trans h1.1, h2.2.1.trans h1.2.1, h2.2.2.1.trans h1.2.2.1, ?_, ?_, ?_⟩
  · exact h2.2.2.2.1.trans h1.2.2.2.1
  · exact h2.2.2.2.2.1.trans h1.2.2.2.2.1
  · exact h2.2.2.2.2.2.trans h1.2.2.2.2.2

theorem saa1099_write_some (g : saa1099_globals) (chip_id address data : Nat)
    (hc : g.g_cache.length = 64) (hchip : chip_id < 2) (haddr : address < 32) :
    ∃ g1, saa1099_write chip_id address data g = some g1 ∧ saa1099_write_frame g g1 := by
  rw [saa1099_write_eq hc hchip haddr]
  exact ⟨_, rfl, rfl, rfl, rfl, rfl, rfl, by simp⟩

theorem saa1099_clear_loop_some (n : Nat) : ∀ (address : Nat) (g : saa1099_globals),
    g.g_cache.length = 64 → address + n ≤ 32 →
    ∃ g1, saa1099_clear_loop n address g = some g1 ∧ saa1099_write_frame g g1 := by
  induction n with
  | zero => intro address g _ _; exact ⟨g, rfl, saa1099_write_frame.refl g⟩
  | succ n ih =>
    intro address g hc ha
    obtain ⟨g1, h1, f1⟩ := saa1099_write_some g 0 address 0 hc
      (by decide) (by omega)
    have hc1 : g1.g_cache.length = 64 := by rw [f1.2.2.2.2.2]; exact hc
    obtain ⟨g2, h2, f2⟩ := saa1099_write_some g1 1 address 0 hc1
      (by decide) (by omega)
    have hc2 : g2.g_cache.length = 64 := by rw [f2.2.2.2.2.2]; exact hc1
    obtain ⟨g3, h3, f3⟩ := ih (address + 1) g2 hc2 (by omega)
    refine ⟨g3, ?_, (f1.trans f2).trans f3⟩
    rw [saa1099_clear_loop, h1, Option.some_bind, h2, Option.some_bind]
    exact h3

theorem saa1099_clear_some {g : saa1099_globals} (hc : g.g_cache.length = 64) :
    ∃ g1, saa1099_clear g = some g1 ∧ saa1099_write_frame g g1 := by
  obtain ⟨g1, h1, f1⟩ := saa1099_write_some g 0
    SAA1099_ADDRESS_FREQUENCY_RESET_SOUND_ENABLE 0 hc (by decide) (by decide)
  have hc1 : g1.g_cache.length = 64 := by rw [f1.2.2.2.2.2]; exact hc
  obtain ⟨g2, h2, f2⟩ := saa1099_write_some g1 1
    SAA1099_ADDRESS_FREQUENCY_RESET_SOUND_ENABLE 0 hc1 (by decide) (by decide)
  have hc2 : g2.g_cache.length = 64 := by rw [f2.2.2.2.2.2]; exact hc1
  obtain ⟨g3, h3, f3⟩ := saa1099_clear_loop_some SAA1099_REGISTER_COUNT 0 g2 hc2 (by decide)
  refine ⟨g3, ?_, (f1.trans f2).trans f3⟩
  unfold saa1099_clear
  rw [h1, Option.some_bind, h2, Option.some_bind]
  exact h3

theorem saa1099_enable_loop_some (n : Nat) : ∀ (chip_id : Nat) (g : saa1099_globals),
    g.g_cache.length = 64 → chip_id + n ≤ 2 →
    ∃ g1, saa1099_enable_loop n chip_id g = some g1 ∧ saa1099_write_frame g g1 := by
  induction n with
  | zero => intro chip_id g _ _; exact ⟨g, rfl, saa1099_write_frame.refl g⟩
  | succ n ih =>
    intro chip_id g hc ha
    obtain ⟨g1, h1, f1⟩ := saa1099_write_some g chip_id
      SAA1099_ADDRESS_FREQUENCY_RESET_SOUND_ENABLE SAA1099_FREQUENCY_RESET hc
      (by omega) (by decide)
    have hc1 : g1.g_cache.length = 64 := by rw [f1.2.2.2.2.2]; exact hc
    obtain ⟨g2, h2, f2⟩ := saa1099_write_some g1 chip_id
      SAA1099_ADDRESS_FREQUENCY_RESET_SOUND_ENABLE SAA1099_SOUND_ENABLE hc1
      (by omega) (by decide)
    have hc2 : g2.g_cache.length = 64 := by rw [f2.2.2.2.2.2]; exact hc1
    obtain ⟨g3, h3, f3⟩ := saa1099_write_some g2 chip_id
      SAA1099_ADDRESS_FREQUENCY_ENABLE SAA1099_FREQUENCY_ENABLE_ALL_CHANNELS hc2
      (by omega) (by decide)
    have hc3 : g3.g_cache.length = 64 := by rw [f3.2.2.2.2.2]; exact hc2
    obtain ⟨g4, h4, f4⟩ := ih (chip_id + 1) g3 hc3 (by omega)
    refine ⟨g4, ?_, ((f1.trans f2).trans f3).trans f4⟩
    rw [saa1099_enable_loop, h1, Option.some_bind, h2, Option.some_bind, h3, Option.some_bind]
    exact h4

theorem saa1099_vera_psg_initialize_ready (g0 : saa1099_globals) (port_base_address : Nat)
    (clock : Int) (p_range : saa1099_verga_psg_range_t)
    (hc : g0.g_cache.length = 64)
    (hclock : (clock = SAA1099_CLOCK_7159090_HZ ∧ p_range = g_saa1099_7mhz_vera_psg_range) ∨
      (clock = SAA1099_CLOCK_8000000_HZ ∧ p_range = g_saa1099_8mhz_vera_psg_range)) :
    ∃ g, saa1099_vera_psg_initialize port_base_address clock g0 = some g ∧
      saa1099_ready g p_range ∧
      g.g_vera_psg_channel_frequency = List.replicate 12 0 ∧
      g.g_vera_psg_channel_waveform = List.replicate 12 0 ∧
      g.g_port_base_address = port_base_address := by
  have hsel : (if clock = SAA1099_CLOCK_7159090_HZ then some g_saa1099_7mhz_vera_psg_range
      else if clock = SAA1099_CLOCK_8000000_HZ then some g_saa1099_8mhz_vera_psg_range
      else none) = some p_range := by
    rcases hclock with ⟨h1, h2⟩ | ⟨h1, h2⟩
    · rw [if_pos h1, h2]
    · have hne : ¬ clock = SAA1099_CLOCK_7159090_HZ := by rw [h1]; decide
      rw [if_neg hne, if_pos h1, h2]
  have hsup : p_range = g_saa1099_7mhz_vera_psg_range ∨
      p_range = g_saa1099_8mhz_vera_psg_range := by
    rcases hclock with ⟨_, h2⟩ | ⟨_, h2⟩
    · exact Or.inl h2
    · exact Or.inr h2
  obtain ⟨table, ht, _, _⟩ := frequency_table_getElem? p_range
  obtain ⟨g1, h1, f1⟩ := saa1099_clear_some
    (g := { g0 with g_p_saa1099_vera_psg_range := some p_range,
                    g_p_vera_psg_to_frequency_table := some table,
                    g_port_base_address := port_base_address }) hc
  obtain ⟨a1, a2, a3, a4, a5, a6⟩ := f1
  obtain ⟨g2, h2, f2⟩ := saa1099_enable_loop_some SAA1099_MAX_CHIPS 0
    { g1 with
      g_vera_psg_channel_frequency := List.replicate SAA1099_VERA_PSG_CHANNELS 0,
      g_vera_psg_channel_waveform := List.replicate SAA1099_VERA_PSG_CHANNELS 0 }
    (by rw [← hc]; exact a6) (by decide)
  obtain ⟨b1, b2, b3, b4, b5, b6⟩ := f2
  refine ⟨g2, ?_, ⟨hsup, ?_, ?_, ?_, ?_, ?_⟩, ?_, ?_, ?_⟩
  · unfold saa1099_vera_psg_initialize
    simp only [hsel, ht, h1, Option.some_bind, h2]
  · rw [b1]; exact a1
  · rw [b2, ht]; exact a2
  · rw [b6]; exact a6.trans hc
  · rw [b3]; rfl
  · rw [b4]; rfl
  · rw [b3]; rfl
  · rw [b4]; rfl
  · rw [b5]; exact a5

theorem saa1099_clamp_word_idem {p_range : saa1099_verga_psg_range_t}
    (hsup : p_range = g_saa1099_7mhz_vera_psg_range ∨ p_range = g_saa1099_8mhz_vera_psg_range)
    (w : Nat) :
    saa1099_clamp_word p_range (saa1099_clamp_word p_range w) = saa1099_clamp_word p_range w := by
  obtain ⟨b1, b2, _, _⟩ := saa1099_clamp_word_bounds hsup w
  generalize saa1099_clamp_word p_range w = c at b1 b2
  unfold saa1099_clamp_word
  rw [if_neg (by omega), if_neg (by omega)]

set_option maxRecDepth 100000 in
theorem octave_fields_even : ∀ x, x < 128 → ∀ o, o < 8 →
    (((x &&& 0x70) ||| (o <<< 0)) % 256) &&& 7 = o ∧
    ((((x &&& 0x70) ||| (o <<< 0)) % 256) >>> 4) &&& 7 = (x >>> 4) &&& 7 := by
  decide

set_option maxRecDepth 100000 in
theorem octave_fields_odd : ∀ x, x < 8 → ∀ o, o < 8 →
    ((((x &&& 0x07) ||| (o <<< 4)) % 256) >>> 4) &&& 7 = o ∧
    (((x &&& 0x07) ||| (o <<< 4)) % 256) &&& 7 = x := by
  decide

theorem packed_octave_le (packed : Nat) :
    (packed &&& SAA1099_MASK_PACKED_FREQUENCY_OCTAVE) >>> SAA1099_SHIFT_PACKED_FREQUENCY_OCTAVE
      < 8 := by
  have h : packed &&& SAA1099_MASK_PACKED_FREQUENCY_OCTAVE ≤ 0x0700 := Nat.and_le_right
  have k : SAA1099_SHIFT_PACKED_FREQUENCY_OCTAVE = 8 := rfl
  rw [k, Nat.shiftRight_eq_div_pow]
  have : (2 : Nat) ^ 8 = 256 := rfl
  omega

theorem saa1099_octave_data_even (cached packed saa_channel : Nat) (hch : saa_channel % 2 = 0) :
    saa1099_octave_data cached packed saa_channel &&& 7 =
      (packed &&& SAA1099_MASK_PACKED_FREQUENCY_OCTAVE) >>>
        SAA1099_SHIFT_PACKED_FREQUENCY_OCTAVE ∧
    (saa1099_octave_data cached packed saa_channel >>> 4) &&& 7 = (cached >>> 4) &&& 7 := by
  have h1 : saa_channel &&& 1 = 0 := by
    rw [Nat.and_pow_two_sub_one_eq_mod saa_channel 1]; exact hch
  have hmask : (SAA1099_MASK_OCTAVE_BITS ^^^ (SAA1099_MASK_OCTAVE_SELECT <<< ((0 <<< 2) % 256)))
      % 256 = 0x70 := by decide
  have hshift : ((0 : Nat) <<< 2) % 256 = 0 := by decide
  have hx : cached &&& 0x70 = (cached % 128) &&& 0x70 := by
    rw [← Nat.and_pow_two_sub_one_eq_mod cached 7, Nat.land_assoc]
    rfl
  have hr : (cached >>> 4) &&& 7 = ((cached % 128) >>> 4) &&& 7 := by
    rw [Nat.and_pow_two_sub_one_eq_mod _ 3, Nat.and_pow_two_sub_one_eq_mod _ 3,
      Nat.shiftRight_eq_div_pow, Nat.shiftRight_eq_div_pow]
    have : (2 : Nat) ^ 4 = 16 := rfl
    have : (2 : Nat) ^ 3 = 8 := rfl
    omega
  unfold saa1099_octave_data
  rw [h1, hmask, hshift, hx, hr]
  exact octave_fields_even (cached % 128) (Nat.mod_lt _ (by decide)) _ (packed_octave_le packed)

theorem saa1099_octave_data_odd (cached packed saa_channel : Nat) (hch : saa_channel % 2 = 1) :
    (saa1099_octave_data cached packed saa_channel >>> 4) &&& 7 =
      (packed &&& SAA1099_MASK_PACKED_FREQUENCY_OCTAVE) >>>
        SAA1099_SHIFT_PACKED_FREQUENCY_OCTAVE ∧
    saa1099_octave_data cached packed saa_channel &&& 7 = cached &&& 7 := by
  have h1 : saa_channel &&& 1 = 1 := by
    rw [Nat.and_pow_two_sub_one_eq_mod saa_channel 1]; exact hch
  have hmask : (SAA1099_MASK_OCTAVE_BITS ^^^ (SAA1099_MASK_OCTAVE_SELECT <<< ((1 <<< 2) % 256)))
      % 256 = 0x07 := by decide
  have hshift : ((1 : Nat) <<< 2) % 256 = 4 := by decide
  have hx : cached &&& 0x07 = (cached % 8) &&& 0x07 := by
    rw [← Nat.and_pow_two_sub_one_eq_mod cached 3, Nat.land_assoc]
    rfl
  have hr : (cached % 8) &&& 7 = cached % 8 := by
    rw [Nat.and_pow_two_sub_one_eq_mod (cached % 8) 3]
    exact Nat.mod_mod _ _
  unfold saa1099_octave_data
  rw [h1, hmask, hshift, hx]
  obtain ⟨a, b⟩ :=
    octave_fields_odd (cached % 8) (Nat.mod_lt _ (by decide)) _ (packed_octave_le packed)
  exact ⟨a, b.trans hr.symm⟩

set_option maxRecDepth 100000 in
theorem volume_lookup : ∀ d, d < 256 →
    (g_vera_psg_volume_to_saa1099_volume[d &&& VERA_PSG_MASK_VOLUME]?).isSome = true ∧
    (g_saa_amplitude_mask[(d &&& VERA_PSG_MASK_RIGHT_LEFT) >>> VERA_PSG_SHIFT_LEFT]?).isSome =
      true ∧
    (d &&& VERA_PSG_MASK_RIGHT_LEFT) >>> VERA_PSG_SHIFT_LEFT = (d >>> 6) &&& 3 ∧
    ∀ volume ∈ g_vera_psg_volume_to_saa1099_volume[d &&& VERA_PSG_MASK_VOLUME]?,
      ∀ mask ∈ g_saa_amplitude_mask[(d &&& VERA_PSG_MASK_RIGHT_LEFT) >>> VERA_PSG_SHIFT_LEFT]?,
        (d.testBit 6 = false → (volume &&& mask) &&& 0x0F = 0) ∧
        (d.testBit 7 = false → (volume &&& mask) &&& 0xF0 = 0) ∧
        (d.testBit 6 = false → d.testBit 7 = false → volume &&& mask = 0) := by
  decide

theorem vera_psg_address (v offset : Nat) (ho : offset < 4) :
    VERA_PSG_ADDRESS_TO_CHANNEL (4 * v + offset) = v ∧
    VERA_PSG_ADDRESS_TO_OFFSET (4 * v + offset) = offset := by
  unfold VERA_PSG_ADDRESS_TO_CHANNEL VERA_PSG_ADDRESS_TO_OFFSET
  rw [Nat.shiftRight_eq_div_pow, Nat.and_pow_two_sub_one_eq_mod _ 2]
  have : (2 : Nat) ^ 2 = 4 := rfl
  omega

theorem vera_psg_channel_chip {v : Nat} (hv : v < 12) :
    v / SAA1099_CHANNEL_COUNT < 2 ∧ v % SAA1099_CHANNEL_COUNT < 6 ∧
    v / SAA1099_CHANNEL_COUNT = v / 6 ∧ v % SAA1099_CHANNEL_COUNT = v % 6 := by
  have k : SAA1099_CHANNEL_COUNT = 6 := rfl
  rw [k]
  omega

theorem waveform_selector_lt (d : Nat) :
    (d &&& VERA_PSG_MASK_WAVEFORM) >>> VERA_PSG_SHIFT_WAVEFORM < 4 := by
  have h : d &&& VERA_PSG_MASK_WAVEFORM ≤ 0xC0 := Nat.and_le_right
  have k : VERA_PSG_SHIFT_WAVEFORM = 6 := rfl
  rw [k, Nat.shiftRight_eq_div_pow]
  have : (2 : Nat) ^ 6 = 64 := rfl
  omega

theorem waveform_enable_index : ∀ s, s < 4 →
    SAA1099_ADDRESS_FREQUENCY_ENABLE ^^^ ((s >>> 1) &&& s) =
      (if s = 3 then SAA1099_ADDRESS_NOISE_ENABLE else SAA1099_ADDRESS_FREQUENCY_ENABLE) ∧
    (SAA1099_ADDRESS_FREQUENCY_ENABLE ^^^ ((s >>> 1) &&& s)) ^^^ 1 =
      (if s = 3 then SAA1099_ADDRESS_FREQUENCY_ENABLE else SAA1099_ADDRESS_NOISE_ENABLE) := by
  decide

/-- The waveform write when the selector differs from the cached one. -/
theorem saa1099_vera_psg_write_waveform_change {g : saa1099_globals} {v d cached : Nat}
    (hc : g.g_cache.length = 64) (hv : v < 12)
    (hcached : g.g_vera_psg_channel_waveform[v]? = some cached)
    (hne : (d &&& VERA_PSG_MASK_WAVEFORM) >>> VERA_PSG_SHIFT_WAVEFORM ≠ cached) :
    ∃ enable_index disable_index enabled disabled,
      enable_index =
        (if (d &&& VERA_PSG_MASK_WAVEFORM) >>> VERA_PSG_SHIFT_WAVEFORM = 3
          then SAA1099_ADDRESS_NOISE_ENABLE else SAA1099_ADDRESS_FREQUENCY_ENABLE) ∧
      disable_index =
        (if (d &&& VERA_PSG_MASK_WAVEFORM) >>> VERA_PSG_SHIFT_WAVEFORM = 3
          then SAA1099_ADDRESS_FREQUENCY_ENABLE else SAA1099_ADDRESS_NOISE_ENABLE) ∧
      g.g_cache[32 * (v / 6) + enable_index]? = some enabled ∧
      g.g_cache[32 * (v / 6) + disable_index]? = some disabled ∧
      saa1099_vera_psg_write (4 * v + 3) d g =
        some { g with
          g_cache :=
            (g.g_cache.set (32 * (v / 6) + enable_index)
              (enabled ||| ((1 <<< (v % 6)) % 256))).set
              (32 * (v / 6) + disable_index)
              (disabled &&& (((1 <<< (v % 6)) % 256) ^^^ 0xFF)),
          g_vera_psg_channel_waveform :=
            g.g_vera_psg_channel_waveform.set v
              ((d &&& VERA_PSG_MASK_WAVEFORM) >>> VERA_PSG_SHIFT_WAVEFORM),
          ports := g.ports ++
            saa1099_write_ports g.g_port_base_address (v / 6) enable_index
              (enabled ||| ((1 <<< (v % 6)) % 256)) ++
            saa1099_write_ports g.g_port_base_address (v / 6) disable_index
              (disabled &&& (((1 <<< (v % 6)) % 256) ^^^ 0xFF)) } := by
  obtain ⟨a1, a2⟩ := vera_psg_address v 3 (by decide)
  obtain ⟨c1, c2, c3, c4⟩ := vera_psg_channel_chip hv
  have hlt : VERA_PSG_ADDRESS_TO_CHANNEL (4 * v + 3) < SAA1099_VERA_PSG_CHANNELS := by
    rw [a1]; exact hv
  have hs := waveform_selector_lt d
  generalize hsd : (d &&& VERA_PSG_MASK_WAVEFORM) >>> VERA_PSG_SHIFT_WAVEFORM = s at hs hne ⊢
  obtain ⟨i1, i2⟩ := waveform_enable_index s hs
  rw [i1] at i2
  have hx : s ^^^ cached ≠ 0 := by
    intro h
    exact hne (Nat.xor_eq_zero.mp h)
  have hoff : SAA1099_GET_CACHE_OFFSET (v / 6) % 256 = 32 * (v / 6) := by
    unfold SAA1099_GET_CACHE_OFFSET
    rw [Nat.shiftLeft_eq]
    omega
  have hen : (if s = 3 then SAA1099_ADDRESS_NOISE_ENABLE else SAA1099_ADDRESS_FREQUENCY_ENABLE)
      < 32 := by split_ifs <;> decide
  have hdi : (if s = 3 then SAA1099_ADDRESS_FREQUENCY_ENABLE else SAA1099_ADDRESS_NOISE_ENABLE)
      < 32 := by split_ifs <;> decide
  have hdiff : (if s = 3 then SAA1099_ADDRESS_NOISE_ENABLE else SAA1099_ADDRESS_FREQUENCY_ENABLE)
      ≠ (if s = 3 then SAA1099_ADDRESS_FREQUENCY_ENABLE else SAA1099_ADDRESS_NOISE_ENABLE) := by
    split_ifs <;> decide
  generalize (if s = 3 then SAA1099_ADDRESS_NOISE_ENABLE else SAA1099_ADDRESS_FREQUENCY_ENABLE)
    = en at i1 i2 hen hdiff ⊢
  generalize (if s = 3 then SAA1099_ADDRESS_FREQUENCY_ENABLE else SAA1099_ADDRESS_NOISE_ENABLE)
    = di at i2 hdi hdiff ⊢
  have hl1 : 32 * (v / 6) + en < g.g_cache.length := by omega
  have hl2 : 32 * (v / 6) + di < g.g_cache.length := by omega
  refine ⟨en, di, g.g_cache[32 * (v / 6) + en], g.g_cache[32 * (v / 6) + di], rfl, rfl,
    List.getElem?_eq_getElem hl1, List.getElem?_eq_getElem hl2, ?_⟩
  have hread2 : (g.g_cache.set (32 * (v / 6) + en)
      (g.g_cache[32 * (v / 6) + en] ||| ((1 <<< (v % 6)) % 256)))[32 * (v / 6) + di]? =
      some g.g_cache[32 * (v / 6) + di] := by
    rw [List.getElem?_set_ne (by omega)]
    exact List.getElem?_eq_getElem hl2
  unfold saa1099_vera_psg_write
  rw [if_pos hlt]
  simp only [a1, a2, c3, c4, hsd, hcached, Option.some_bind, if_pos hx, i1, i2, hoff]
  rw [Nat.add_comm en, Nat.add_comm di, List.getElem?_eq_getElem hl1, Option.some_bind]
  have c5 : v / 6 < 2 := by omega
  rw [saa1099_write_eq hc c5 hen, Option.some_bind]
  simp only [hread2, Option.some_bind]
  rw [saa1099_write_eq (by simpa using hc) c5 hdi]
  simp only [Option.map, List.append_assoc]

/-- The waveform write when the selector equals the cached one. -/
theorem saa1099_vera_psg_write_waveform_same {g : saa1099_globals} {v d : Nat} (hv : v < 12)
    (hcached : g.g_vera_psg_channel_waveform[v]? =
      some ((d &&& VERA_PSG_MASK_WAVEFORM) >>> VERA_PSG_SHIFT_WAVEFORM)) :
    saa1099_vera_psg_write (4 * v + 3) d g = some g := by
  obtain ⟨a1, a2⟩ := vera_psg_address v 3 (by decide)
  have hlt : VERA_PSG_ADDRESS_TO_CHANNEL (4 * v + 3) < SAA1099_VERA_PSG_CHANNELS := by
    rw [a1]; exact hv
  unfold saa1099_vera_psg_write
  rw [if_pos hlt]
  simp only [a1, a2, hcached, Option.some_bind, Nat.xor_self, ne_eq, not_true_eq_false,
    if_false]

/-! ## Lemmas on the leading-zero count -/

theorem count_leading_zeros_zero (n : Nat) : count_leading_zeros n 0 = n := by
  induction n with
  | zero => rfl
  | succ n ih => simp [count_leading_zeros, ih]

theorem count_leading_zeros_band {x k : Nat} (hlo : 2 ^ k ≤ x) (hhi : x < 2 ^ (k + 1)) :
    ∀ n, k < n → count_leading_zeros n x = n - 1 - k := by
  intro n
  induction n with
  | zero => intro h; omega
  | succ n ih =>
    intro hkn
    by_cases hk : k = n
    · subst hk
      have hbit : x.testBit k = true := smear_init hlo hhi k (le_refl k) (by omega)
      simp [count_leading_zeros, hbit]
    · have hlt : x < 2 ^ n :=
        lt_of_lt_of_le hhi (Nat.pow_le_pow_right (by decide) (by omega))
      have hbit : x.testBit n = false := Nat.testBit_lt_two_pow hlt
      simp only [count_leading_zeros, hbit, Bool.false_eq_true, if_false]
      rw [ih (by omega)]
      omega

theorem band_of_pos {x : Nat} (hx : 0 < x) :
    2 ^ Nat.log2 x ≤ x ∧ x < 2 ^ (Nat.log2 x + 1) := by
  constructor
  · exact Nat.log2_self_le (by omega)
  · exact Nat.lt_log2_self

theorem log2_lt_16 {x : Nat} (hx : 0 < x) (h : x < 65536) : Nat.log2 x ≤ 15 := by
  have h1 := (band_of_pos hx).1
  by_contra hcon
  have : 2 ^ 16 ≤ 2 ^ Nat.log2 x := Nat.pow_le_pow_right (by decide) (by omega)
  have e : (2 : Nat) ^ 16 = 65536 := rfl
  omega

theorem frequency_table_estimate_cases (cr w : Nat) (hcr1 : 128 ≤ cr)
    (h64 : 64 ≤ w) (hw2 : w ≤ cr * 128) (hw3 : w < 32768) :
    ∃ o0, o0 ≤ 7 ∧ frequency_table_octave_estimate w = o0 ∧
      2 ^ (o0 + 6) ≤ w ∧ w ≤ cr * 2 ^ o0 := by
  have hband : (64 ≤ w ∧ w < 128) ∨ (128 ≤ w ∧ w < 256) ∨ (256 ≤ w ∧ w < 512) ∨
      (512 ≤ w ∧ w < 1024) ∨ (1024 ≤ w ∧ w < 2048) ∨ (2048 ≤ w ∧ w < 4096) ∨
      (4096 ≤ w ∧ w < 8192) ∨ (8192 ≤ w ∧ w < 16384) ∨ (16384 ≤ w ∧ w < 32768) := by omega
  rcases hband with h | h | h | h | h | h | h | h | h
  · exact ⟨0, by decide,
      frequency_table_octave_estimate_band 6 w (by decide) (by decide) h.1 h.2, h.1, by omega⟩
  · exact ⟨1, by decide,
      frequency_table_octave_estimate_band 7 w (by decide) (by decide) h.1 h.2, h.1, by omega⟩
  · exact ⟨2, by decide,
      frequency_table_octave_estimate_band 8 w (by decide) (by decide) h.1 h.2, h.1, by omega⟩
  · exact ⟨3, by decide,
      frequency_table_octave_estimate_band 9 w (by decide) (by decide) h.1 h.2, h.1, by omega⟩
  · exact ⟨4, by decide,
      frequency_table_octave_estimate_band 10 w (by decide) (by decide) h.1 h.2, h.1, by omega⟩
  · exact ⟨5, by decide,
      frequency_table_octave_estimate_band 11 w (by decide) (by decide) h.1 h.2, h.1, by omega⟩
  · exact ⟨6, by decide,
      frequency_table_octave_estimate_band 12 w (by decide) (by decide) h.1 h.2, h.1, by omega⟩
  · exact ⟨7, by decide,
      frequency_table_octave_estimate_band 13 w (by decide) (by decide) h.1 h.2, h.1, by omega⟩
  · refine ⟨7, by decide,
      frequency_table_octave_estimate_band 14 w (by decide) (by decide) h.1 h.2, ?_, by omega⟩
    have : (2 : Nat) ^ (7 + 6) = 8192 := rfl
    omega

/-- The scaled value before the two range tests of the table generation. -/
theorem frequency_table_raw_value_ge (cr w : Nat) (hcr1 : 128 ≤ cr) (hcr2 : cr < 256)
    (h64 : 64 ≤ w) (hw2 : w ≤ cr * 128) :
    256 ≤ ((frequency_table_ratios cr (frequency_table_octave_estimate w) / w) >>>
      FREQ_23_9_FIXED_POINT_SHIFT) % 65536 := by
  obtain ⟨o0, ho0, hest, hlo, hhi⟩ :=
    frequency_table_estimate_cases cr w hcr1 h64 hw2 (by omega)
  have hw0 : 0 < w := by omega
  have hP : 2 ^ o0 ≤ 2 ^ 7 := Nat.pow_le_pow_right (by decide) ho0
  have e2 : 2 ^ (o0 + 8) = 2 ^ o0 * 256 := by rw [pow_add]; rfl
  have e3 : 2 ^ (o0 + 6) = 2 ^ o0 * 64 := by rw [pow_add]; rfl
  have hV : (cr * 2 ^ (o0 + 8) / w) % 65536 = cr * 2 ^ (o0 + 8) / w := by
    apply Nat.mod_eq_of_lt
    rw [Nat.div_lt_iff_lt_mul hw0, e2]
    rw [e3] at hlo
    generalize 2 ^ o0 = P at hP hlo
    nlinarith
  have k1 : FREQ_23_9_FIXED_POINT_SHIFT = 9 := rfl
  rw [hest, frequency_table_ratios_eq cr o0 hcr2 ho0, k1, shift9_div, hV,
    Nat.le_div_iff_mul_le hw0, e2]
  generalize 2 ^ o0 = P at hhi
  nlinarith

theorem saa_bits_eq {ch : Nat} (hch : ch < 6) : (1 <<< ch) % 256 = 2 ^ ch := by
  rw [Nat.one_shiftLeft]
  apply Nat.mod_eq_of_lt
  exact lt_of_le_of_lt (Nat.pow_le_pow_right (by decide) (by omega : ch ≤ 5)) (by decide)

theorem testBit_or_saa_bits (a ch i : Nat) :
    (a ||| 2 ^ ch).testBit i = (a.testBit i || decide (ch = i)) := by
  rw [Nat.testBit_or, Nat.testBit_two_pow]

theorem testBit_and_not_saa_bits (a ch i : Nat) (hch : ch < 8) :
    (a &&& (2 ^ ch ^^^ 0xFF)).testBit i = (a.testBit i && decide (i < 8) && !decide (ch = i)) := by
  have h255 : (0xFF : Nat) = 2 ^ 8 - 1 := rfl
  rw [Nat.testBit_and, Nat.testBit_xor, Nat.testBit_two_pow, h255, Nat.testBit_two_pow_sub_one]
  by_cases h1 : ch = i
  · subst h1
    simp [hch]
  · by_cases h2 : i < 8 <;> simp [h1, h2]

/-! ## Lemmas on the caches of the translator -/

theorem freq_low_then_high (f a b : Nat) (ha : a < 256) (hb : b < 256) :
    ((b <<< VERA_PSG_SHIFT_FREQ_HI) % 65536) |||
      (((f &&& VERA_PSG_MASK_FREQ_HI) ||| a) &&& VERA_PSG_MASK_FREQ_LO) = b * 256 + a := by
  have k1 : VERA_PSG_SHIFT_FREQ_HI = 8 := rfl
  have k2 : VERA_PSG_MASK_FREQ_HI = 0xFF00 := rfl
  have k3 : VERA_PSG_MASK_FREQ_LO = 0xFF := rfl
  rw [k1, k2, k3, Nat.and_distrib_right, Nat.land_assoc]
  have e0 : (0xFF00 : Nat) &&& 0xFF = 0 := by decide
  have e1 : a &&& 0xFF = a := by
    rw [Nat.and_pow_two_sub_one_eq_mod a 8]
    exact Nat.mod_eq_of_lt ha
  rw [e0, Nat.and_zero, Nat.zero_or, e1, Nat.shiftLeft_eq]
  have e2 : b * 2 ^ 8 % 65536 = 2 ^ 8 * b := by
    have : (2 : Nat) ^ 8 = 256 := rfl
    omega
  rw [e2, ← Nat.mul_add_lt_is_or ha b]
  have : (2 : Nat) ^ 8 = 256 := rfl
  omega

/-- The write to sub-address 0 (frequency, low byte) of channel `v`. -/
theorem saa1099_vera_psg_write_freq_lo {g : saa1099_globals} {v f : Nat} (d : Nat)
    (hv : v < 12) (hf : g.g_vera_psg_channel_frequency[v]? = some f) :
    saa1099_vera_psg_write (4 * v + 0) d g =
      (saa1099_set_frequency (v / 6) (v % 6) ((f &&& VERA_PSG_MASK_FREQ_HI) ||| d) g).map
        (fun g1 => { g1 with g_vera_psg_channel_frequency :=
          g1.g_vera_psg_channel_frequency.set v ((f &&& VERA_PSG_MASK_FREQ_HI) ||| d) }) := by
  obtain ⟨a1, a2⟩ := vera_psg_address v 0 (by decide)
  obtain ⟨_, _, c3, c4⟩ := vera_psg_channel_chip hv
  have hlt : VERA_PSG_ADDRESS_TO_CHANNEL (4 * v + 0) < SAA1099_VERA_PSG_CHANNELS := by
    rw [a1]; exact hv
  unfold saa1099_vera_psg_write
  rw [if_pos hlt]
  simp only [a1, a2, c3, c4, hf, Option.some_bind]

/-- The write to sub-address 1 (frequency, high byte) of channel `v`. -/
theorem saa1099_vera_psg_write_freq_hi {g : saa1099_globals} {v f : Nat} (d : Nat)
    (hv : v < 12) (hf : g.g_vera_psg_channel_frequency[v]? = some f) :
    saa1099_vera_psg_write (4 * v + 1) d g =
      (saa1099_set_frequency (v / 6) (v % 6)
        (((d <<< VERA_PSG_SHIFT_FREQ_HI) % 65536) ||| (f &&& VERA_PSG_MASK_FREQ_LO)) g).map
        (fun g1 => { g1 with g_vera_psg_channel_frequency :=
          (g1.g_vera_psg_channel_frequency.set v
            (((d <<< VERA_PSG_SHIFT_FREQ_HI) % 65536) ||| (f &&& VERA_PSG_MASK_FREQ_LO))) }) := by
  obtain ⟨a1, a2⟩ := vera_psg_address v 1 (by decide)
  obtain ⟨_, _, c3, c4⟩ := vera_psg_channel_chip hv
  have hlt : VERA_PSG_ADDRESS_TO_CHANNEL (4 * v + 1) < SAA1099_VERA_PSG_CHANNELS := by
    rw [a1]; exact hv
  unfold saa1099_vera_psg_write
  rw [if_pos hlt]
  simp only [a1, a2, c3, c4, hf, Option.some_bind]

/-- In a ready state `saa1099_set_frequency` returns a ready state with the
same frequency and waveform caches and the same port base, and leaves the
cached registers 0x14 and 0x15 of both chips alone. -/
theorem saa1099_set_frequency_ready {g : saa1099_globals} {p_range : saa1099_verga_psg_range_t}
    (hr : saa1099_ready g p_range) {chip_id saa_channel : Nat} (w : Nat)
    (hchip : chip_id < 2) (hch : saa_channel < 6) :
    ∃ g1, saa1099_set_frequency chip_id saa_channel w g = some g1 ∧
      saa1099_ready g1 p_range ∧
      g1.g_vera_psg_channel_frequency = g.g_vera_psg_channel_frequency ∧
      g1.g_vera_psg_channel_waveform = g.g_vera_psg_channel_waveform ∧
      g1.g_port_base_address = g.g_port_base_address ∧
      (∀ c, g1.g_cache[32 * c + 20]? = g.g_cache[32 * c + 20]?) ∧
      (∀ c, g1.g_cache[32 * c + 21]? = g.g_cache[32 * c + 21]?) := by
  obtain ⟨cached, _, hset⟩ := saa1099_set_frequency_eq hr w hchip hch
  refine ⟨_, hset, ⟨hr.supported, hr.range, hr.table, ?_, hr.frequency, hr.waveform⟩,
    rfl, rfl, rfl, ?_, ?_⟩
  · show ((g.g_cache.set _ _).set _ _).length = _
    rw [List.length_set, List.length_set]
    exact hr.cache
  · intro c
    show ((g.g_cache.set _ _).set _ _)[32 * c + 20]? = _
    rw [List.getElem?_set_ne (by omega), List.getElem?_set_ne (by omega)]
  · intro c
    show ((g.g_cache.set _ _).set _ _)[32 * c + 21]? = _
    rw [List.getElem?_set_ne (by omega), List.getElem?_set_ne (by omega)]

/-- A ready state stays ready when an entry of the frequency cache is set. -/
theorem saa1099_ready_set_frequency_cache {g : saa1099_globals}
    {p_range : saa1099_verga_psg_range_t} (hr : saa1099_ready g p_range) (v w : Nat) :
    saa1099_ready
      { g with g_vera_psg_channel_frequency := g.g_vera_psg_channel_frequency.set v w }
      p_range :=
  ⟨hr.supported, hr.range, hr.table, hr.cache,
    by show (g.g_vera_psg_channel_frequency.set v w).length = _
       rw [List.length_set]; exact hr.frequency,
    hr.waveform⟩

/-- The register cache after `saa1099_write`. -/
theorem saa1099_write_cache {g g1 : saa1099_globals} {chip_id address data : Nat}
    (hc : g.g_cache.length = 64) (hchip : chip_id < 2) (haddr : address < 32)
    (h : saa1099_write chip_id address data g = some g1) :
    g1.g_cache = g.g_cache.set (32 * chip_id + address) data := by
  rw [saa1099_write_eq hc hchip haddr] at h
  rw [← Option.some.inj h]

theorem saa1099_clear_loop_cache (n : Nat) : ∀ (address : Nat) (g g1 : saa1099_globals),
    g.g_cache.length = 64 → address + n ≤ 32 → saa1099_clear_loop n address g = some g1 →
    ∀ i, i < 64 →
      g1.g_cache[i]? =
        if address ≤ i % 32 ∧ i % 32 < address + n then some 0 else g.g_cache[i]? := by
  induction n with
  | zero =>
    intro address g g1 _ _ h i _
    rw [saa1099_clear_loop] at h
    rw [← Option.some.inj h, if_neg (by omega)]
  | succ n ih =>
    intro address g g1 hc ha h i hi
    obtain ⟨ga, h1, f1⟩ := saa1099_write_some g 0 address 0 hc (by decide) (by omega)
    have hc1 : ga.g_cache.length = 64 := by rw [f1.2.2.2.2.2]; exact hc
    obtain ⟨gb, h2, f2⟩ := saa1099_write_some ga 1 address 0 hc1 (by decide) (by omega)
    have hc2 : gb.g_cache.length = 64 := by rw [f2.2.2.2.2.2]; exact hc1
    rw [saa1099_clear_loop, h1, Option.some_bind, h2, Option.some_bind] at h
    have e1 := saa1099_write_cache hc (by decide) (by omega) h1
    have e2 := saa1099_write_cache hc1 (by decide) (by omega) h2
    rw [ih (address + 1) gb g1 hc2 (by omega) h i hi, e2, e1]
    by_cases hin : address + 1 ≤ i % 32 ∧ i % 32 < address + 1 + n
    · rw [if_pos hin, if_pos (by omega)]
    · rw [if_neg hin]
      by_cases h0 : i % 32 = address
      · rw [if_pos (by omega)]
        rcases Nat.lt_or_ge i 32 with hlo | hhi
        · have e : i = 32 * 0 + address := by omega
          rw [List.getElem?_set_ne (by omega), e,
            List.getElem?_set_self (by omega)]
        · have e : i = 32 * 1 + address := by omega
          rw [e, List.getElem?_set_self (by rw [List.length_set]; omega)]
      · rw [if_neg (by omega), List.getElem?_set_ne (by omega),
          List.getElem?_set_ne (by omega)]

theorem saa1099_clear_cache {g g1 : saa1099_globals} (h : saa1099_clear g = some g1)
    (hc : g.g_cache.length = 64) : ∀ i, i < 64 → g1.g_cache[i]? = some 0 := by
  intro i hi
  obtain ⟨ga, h1, f1⟩ := saa1099_write_some g 0
    SAA1099_ADDRESS_FREQUENCY_RESET_SOUND_ENABLE 0 hc (by decide) (by decide)
  have hc1 : ga.g_cache.length = 64 := by rw [f1.2.2.2.2.2]; exact hc
  obtain ⟨gb, h2, f2⟩ := saa1099_write_some ga 1
    SAA1099_ADDRESS_FREQUENCY_RESET_SOUND_ENABLE 0 hc1 (by decide) (by decide)
  have hc2 : gb.g_cache.length = 64 := by rw [f2.2.2.2.2.2]; exact hc1
  unfold saa1099_clear at h
  rw [h1, Option.some_bind, h2, Option.some_bind] at h
  have k : SAA1099_REGISTER_COUNT = 32 := rfl
  rw [k] at h
  rw [saa1099_clear_loop_cache 32 0 gb g1 hc2 (by decide) h i hi, if_pos (by omega)]

theorem saa1099_enable_loop_cache (n : Nat) : ∀ (chip_id : Nat) (g g1 : saa1099_globals),
    g.g_cache.length = 64 → chip_id + n ≤ 2 → saa1099_enable_loop n chip_id g = some g1 →
    (∀ c, g1.g_cache[32 * c + 21]? = g.g_cache[32 * c + 21]?) ∧
    (∀ c, c < 2 →
      g1.g_cache[32 * c + 20]? =
        if chip_id ≤ c ∧ c < chip_id + n then some 0x3F else g.g_cache[32 * c + 20]?) := by
  induction n with
  | zero =>
    intro chip_id g g1 _ _ h
    rw [saa1099_enable_loop] at h
    rw [← Option.some.inj h]
    exact ⟨fun _ => rfl, fun c _ => by rw [if_neg (by omega)]⟩
  | succ n ih =>
    intro chip_id g g1 hc ha h
    obtain ⟨ga, h1, f1⟩ := saa1099_write_some g chip_id
      SAA1099_ADDRESS_FREQUENCY_RESET_SOUND_ENABLE SAA1099_FREQUENCY_RESET hc
      (by omega) (by decide)
    have hc1 : ga.g_cache.length = 64 := by rw [f1.2.2.2.2.2]; exact hc
    obtain ⟨gb, h2, f2⟩ := saa1099_write_some ga chip_id
      SAA1099_ADDRESS_FREQUENCY_RESET_SOUND_ENABLE SAA1099_SOUND_ENABLE hc1
      (by omega) (by decide)
    have hc2 : gb.g_cache.length = 64 := by rw [f2.2.2.2.2.2]; exact hc1
    obtain ⟨gc, h3, f3⟩ := saa1099_write_some gb chip_id
      SAA1099_ADDRESS_FREQUENCY_ENABLE SAA1099_FREQUENCY_ENABLE_ALL_CHANNELS hc2
      (by omega) (by decide)
    have hc3 : gc.g_cache.length = 64 := by rw [f3.2.2.2.2.2]; exact hc2
    rw [saa1099_enable_loop, h1, Option.some_bind, h2, Option.some_bind, h3,
      Option.some_bind] at h
    have e1 := saa1099_write_cache hc (by omega) (by decide) h1
    have e2 := saa1099_write_cache hc1 (by omega) (by decide) h2
    have e3 := saa1099_write_cache hc2 (by omega) (by decide) h3
    have k1 : SAA1099_ADDRESS_FREQUENCY_RESET_SOUND_ENABLE = 28 := rfl
    have k2 : SAA1099_ADDRESS_FREQUENCY_ENABLE = 20 := rfl
    have k3 : SAA1099_FREQUENCY_ENABLE_ALL_CHANNELS = 0x3F := rfl
    rw [k1] at e1 e2
    rw [k2, k3] at e3
    obtain ⟨i1, i2⟩ := ih (chip_id + 1) gc g1 hc3 (by omega) h
    constructor
    · intro c
      rw [i1 c, e3, e2, e1, List.getElem?_set_ne (by omega), List.getElem?_set_ne (by omega),
        List.getElem?_set_ne (by omega)]
    · intro c hc2
      rw [i2 c hc2, e3, e2, e1]
      by_cases hin : chip_id + 1 ≤ c ∧ c < chip_id + 1 + n
      · rw [if_pos hin, if_pos (by omega)]
      · rw [if_neg hin]
        by_cases h0 : c = chip_id
        · subst h0
          rw [if_pos (by omega), List.getElem?_set_self
            (by rw [List.length_set, List.length_set]; omega)]
        · rw [if_neg (by omega), List.getElem?_set_ne (by omega),
            List.getElem?_set_ne (by omega), List.getElem?_set_ne (by omega)]

theorem saa1099_enable_invariant_iff (g : saa1099_globals) :
    saa1099_enable_invariant g ↔
      ∀ v, v < 12 →
        ∃ s ne fe,
          g.g_vera_psg_channel_waveform[v]? = some s ∧
          g.g_cache[32 * (v / 6) + 21]? = some ne ∧
          g.g_cache[32 * (v / 6) + 20]? = some fe ∧
          (ne.testBit (v % 6) = true ↔ s = 3) ∧ (fe.testBit (v % 6) = true ↔ s ≠ 3) := by
  have e : ∀ c, SAA1099_GET_CACHE_OFFSET c = 32 * c := by
    intro c
    unfold SAA1099_GET_CACHE_OFFSET
    rw [Nat.shiftLeft_eq]
    omega
  have k1 : SAA1099_ADDRESS_NOISE_ENABLE = 21 := rfl
  have k2 : SAA1099_ADDRESS_FREQUENCY_ENABLE = 20 := rfl
  have k3 : SAA1099_CHANNEL_COUNT = 6 := rfl
  have k4 : SAA1099_VERA_PSG_CHANNELS = 12 := rfl
  unfold saa1099_enable_invariant
  simp only [e, k1, k2, k3, k4]

/-- The enable invariant depends on the waveform cache and on the cached
registers 0x14 and 0x15 only. -/
theorem saa1099_enable_invariant_frame {g g1 : saa1099_globals}
    (hw : g1.g_vera_psg_channel_waveform = g.g_vera_psg_channel_waveform)
    (h20 : ∀ c, g1.g_cache[32 * c + 20]? = g.g_cache[32 * c + 20]?)
    (h21 : ∀ c, g1.g_cache[32 * c + 21]? = g.g_cache[32 * c + 21]?)
    (hinv : saa1099_enable_invariant g) : saa1099_enable_invariant g1 := by
  rw [saa1099_enable_invariant_iff] at hinv ⊢
  intro v hv
  obtain ⟨s, ne, fe, a1, a2, a3, a4, a5⟩ := hinv v hv
  exact ⟨s, ne, fe, by rw [hw]; exact a1, by rw [h21]; exact a2, by rw [h20]; exact a3, a4, a5⟩

/-- The write to sub-address 2 (volume) of channel `v`. -/
theorem saa1099_vera_psg_write_volume {g : saa1099_globals} {v d : Nat}
    (hc : g.g_cache.length = 64) (hv : v < 12) (hd : d < 256) :
    ∃ amplitude,
      saa1099_vera_psg_write (4 * v + 2) d g =
        some { g with
          g_cache := g.g_cache.set (32 * (v / 6) + v % 6) amplitude,
          ports := g.ports ++
            saa1099_write_ports g.g_port_base_address (v / 6) (v % 6) amplitude } := by
  obtain ⟨h1, h2, _, _⟩ := volume_lookup d hd
  obtain ⟨volume, hvol⟩ := Option.isSome_iff_exists.mp h1
  obtain ⟨mask, hmask⟩ := Option.isSome_iff_exists.mp h2
  obtain ⟨a1, a2⟩ := vera_psg_address v 2 (by decide)
  obtain ⟨_, _, c3, c4⟩ := vera_psg_channel_chip hv
  have hlt : VERA_PSG_ADDRESS_TO_CHANNEL (4 * v + 2) < SAA1099_VERA_PSG_CHANNELS := by
    rw [a1]; exact hv
  have k0 : SAA1099_ADDRESS_AMPLITUDE + v % 6 = v % 6 := by
    unfold SAA1099_ADDRESS_AMPLITUDE; omega
  refine ⟨volume &&& mask, ?_⟩
  unfold saa1099_vera_psg_write
  rw [if_pos hlt]
  simp only [a1, a2, c3, c4]
  rw [hvol, Option.some_bind, hmask, Option.some_bind, k0]
  exact saa1099_write_eq hc (by omega) (by omega)

/-- The waveform write that changes the selector keeps the enable invariant. -/
theorem saa1099_enable_invariant_waveform {g : saa1099_globals} {v s en di enabled disabled : Nat}
    (hc : g.g_cache.length = 64) (hv : v < 12)
    (hen : en = if s = 3 then 21 else 20) (hdi : di = if s = 3 then 20 else 21)
    (h3 : g.g_cache[32 * (v / 6) + en]? = some enabled)
    (h4 : g.g_cache[32 * (v / 6) + di]? = some disabled)
    (hinv : saa1099_enable_invariant g) :
    saa1099_enable_invariant
      { g with
        g_cache :=
          (g.g_cache.set (32 * (v / 6) + en) (enabled ||| 2 ^ (v % 6))).set
            (32 * (v / 6) + di) (disabled &&& (2 ^ (v % 6) ^^^ 0xFF)),
        g_vera_psg_channel_waveform := g.g_vera_psg_channel_waveform.set v s } := by
  rw [saa1099_enable_invariant_iff] at hinv ⊢
  intro u hu
  obtain ⟨su, ne, fe, a1, a2, a3, a4, a5⟩ := hinv u hu
  have hlenw : v < g.g_vera_psg_channel_waveform.length := by
    obtain ⟨_, _, _, b1, _⟩ := hinv v hv
    exact (List.getElem?_eq_some_iff.mp b1).1
  have hne : en ≠ di := by rw [hen, hdi]; split_ifs <;> decide
  have hen32 : en = 20 ∨ en = 21 := by rw [hen]; split_ifs <;> simp
  have hdi32 : di = 20 ∨ di = 21 := by rw [hdi]; split_ifs <;> simp
  show ∃ s1 ne1 fe1,
    (g.g_vera_psg_channel_waveform.set v s)[u]? = some s1 ∧
    ((g.g_cache.set (32 * (v / 6) + en) (enabled ||| 2 ^ (v % 6))).set
      (32 * (v / 6) + di) (disabled &&& (2 ^ (v % 6) ^^^ 0xFF)))[32 * (u / 6) + 21]? =
      some ne1 ∧
    ((g.g_cache.set (32 * (v / 6) + en) (enabled ||| 2 ^ (v % 6))).set
      (32 * (v / 6) + di) (disabled &&& (2 ^ (v % 6) ^^^ 0xFF)))[32 * (u / 6) + 20]? =
      some fe1 ∧
    (ne1.testBit (u % 6) = true ↔ s1 = 3) ∧ (fe1.testBit (u % 6) = true ↔ s1 ≠ 3)
  by_cases hchip : u / 6 = v / 6
  · -- the same chip: both registers are rewritten
    rw [hchip] at a2 a3 ⊢
    have hl1 : 32 * (v / 6) + en < g.g_cache.length := by omega
    have hl2 : 32 * (v / 6) + di < (g.g_cache.set (32 * (v / 6) + en)
        (enabled ||| 2 ^ (v % 6))).length := by rw [List.length_set]; omega
    have hb1 : ∀ i, (enabled ||| 2 ^ (v % 6)).testBit i =
        (enabled.testBit i || decide (v % 6 = i)) := testBit_or_saa_bits enabled (v % 6)
    have hb2 : ∀ i, (disabled &&& (2 ^ (v % 6) ^^^ 0xFF)).testBit i =
        (disabled.testBit i && decide (i < 8) && !decide (v % 6 = i)) :=
      fun i => testBit_and_not_saa_bits disabled (v % 6) i (by omega)
    have hsu : (g.g_vera_psg_channel_waveform.set v s)[u]? =
        some (if u = v then s else su) := by
      by_cases huv : u = v
      · subst huv
        rw [List.getElem?_set_self hlenw, if_pos rfl]
      · rw [List.getElem?_set_ne (Ne.symm huv), if_neg huv]; exact a1
    have hu8 : u % 6 < 8 := by omega
    by_cases h3s : s = 3
    · -- noise selected: register 0x15 is enabled, register 0x14 disabled
      have een : en = 21 := by rw [hen, if_pos h3s]
      have edi : di = 20 := by rw [hdi, if_pos h3s]
      subst een; subst edi
      rw [a2] at h3
      rw [a3] at h4
      have e3 : ne = enabled := Option.some.inj h3
      have e4 : fe = disabled := Option.some.inj h4
      subst e3; subst e4
      refine ⟨_, ne ||| 2 ^ (v % 6), fe &&& (2 ^ (v % 6) ^^^ 0xFF), hsu, ?_,
        List.getElem?_set_self hl2, ?_, ?_⟩
      · rw [List.getElem?_set_ne (by omega)]
        exact List.getElem?_set_self hl1
      · rw [hb1]
        by_cases huv : u = v
        · subst huv; simp [h3s]
        · have : v % 6 ≠ u % 6 := by omega
          simp [huv, this, a4]
      · rw [hb2]
        by_cases huv : u = v
        · subst huv; simp [h3s]
        · have : v % 6 ≠ u % 6 := by omega
          simp [huv, this, a5, hu8]
    · have een : en = 20 := by rw [hen, if_neg h3s]
      have edi : di = 21 := by rw [hdi, if_neg h3s]
      subst een; subst edi
      rw [a3] at h3
      rw [a2] at h4
      have e3 : fe = enabled := Option.some.inj h3
      have e4 : ne = disabled := Option.some.inj h4
      subst e3; subst e4
      refine ⟨_, ne &&& (2 ^ (v % 6) ^^^ 0xFF), fe ||| 2 ^ (v % 6), hsu,
        List.getElem?_set_self hl2, ?_, ?_, ?_⟩
      · rw [List.getElem?_set_ne (by omega)]
        exact List.getElem?_set_self hl1
      · rw [hb2]
        by_cases huv : u = v
        · subst huv; simp [h3s]
        · have : v % 6 ≠ u % 6 := by omega
          simp [huv, this, a4, hu8]
      · rw [hb1]
        by_cases huv : u = v
        · subst huv; simp [h3s]
        · have : v % 6 ≠ u % 6 := by omega
          simp [huv, this, a5]
  · -- the other chip: nothing of it changes
    have huv : u ≠ v := fun h => hchip (by rw [h])
    refine ⟨su, ne, fe, ?_, ?_, ?_, a4, a5⟩
    · rw [List.getElem?_set_ne (Ne.symm huv)]; exact a1
    · rw [List.getElem?_set_ne (by omega), List.getElem?_set_ne (by omega)]; exact a2
    · rw [List.getElem?_set_ne (by omega), List.getElem?_set_ne (by omega)]; exact a3

/-- Every virtual PSG write of a data byte, in a ready state with the enable
invariant, returns a ready state with the enable invariant. -/
theorem saa1099_vera_psg_write_invariant {g : saa1099_globals}
    {p_range : saa1099_verga_psg_range_t} (address data : Nat)
    (hr : saa1099_ready g p_range) (hinv : saa1099_enable_invariant g) (hd : data < 256) :
    ∃ g1, saa1099_vera_psg_write address data g = some g1 ∧ saa1099_ready g1 p_range ∧
      saa1099_enable_invariant g1 := by
  have hc : g.g_cache.length = 64 := hr.cache
  by_cases hch : address / 4 < 12
  · have haddr : address = 4 * (address / 4) + address % 4 := by omega
    have hlf : address / 4 < g.g_vera_psg_channel_frequency.length := by
      rw [hr.frequency]; exact hch
    have hlw : address / 4 < g.g_vera_psg_channel_waveform.length := by
      rw [hr.waveform]; exact hch
    have hchip : address / 4 / 6 < 2 := by omega
    have hsaa : address / 4 % 6 < 6 := by omega
    generalize address / 4 = v at haddr hch hlf hlw hchip hsaa
    have hoff : address % 4 = 0 ∨ address % 4 = 1 ∨ address % 4 = 2 ∨ address % 4 = 3 := by
      omega
    rcases hoff with h0 | h0 | h0 | h0 <;> rw [h0] at haddr <;> subst haddr
    · -- frequency, low byte
      rw [saa1099_vera_psg_write_freq_lo data hch (List.getElem?_eq_getElem hlf)]
      obtain ⟨g1, h1, r1, _, w1, _, c20, c21⟩ :=
        saa1099_set_frequency_ready hr
          ((g.g_vera_psg_channel_frequency[v] &&& VERA_PSG_MASK_FREQ_HI) ||| data) hchip hsaa
      rw [h1]
      exact ⟨_, rfl, saa1099_ready_set_frequency_cache r1 _ _,
        saa1099_enable_invariant_frame w1 c20 c21 hinv⟩
    · -- frequency, high byte
      rw [saa1099_vera_psg_write_freq_hi data hch (List.getElem?_eq_getElem hlf)]
      obtain ⟨g1, h1, r1, _, w1, _, c20, c21⟩ :=
        saa1099_set_frequency_ready hr
          (((data <<< VERA_PSG_SHIFT_FREQ_HI) % 65536) |||
            (g.g_vera_psg_channel_frequency[v] &&& VERA_PSG_MASK_FREQ_LO)) hchip hsaa
      rw [h1]
      exact ⟨_, rfl, saa1099_ready_set_frequency_cache r1 _ _,
        saa1099_enable_invariant_frame w1 c20 c21 hinv⟩
    · -- volume
      obtain ⟨amplitude, h1⟩ := saa1099_vera_psg_write_volume hc hch hd
      rw [h1]
      refine ⟨_, rfl, ⟨hr.supported, hr.range, hr.table, ?_, hr.frequency, hr.waveform⟩, ?_⟩
      · show (g.g_cache.set _ _).length = _
        rw [List.length_set]; exact hr.cache
      · refine saa1099_enable_invariant_frame (g := g) rfl ?_ ?_ hinv
        · intro c
          show (g.g_cache.set _ _)[32 * c + 20]? = _
          rw [List.getElem?_set_ne (by omega)]
        · intro c
          show (g.g_cache.set _ _)[32 * c + 21]? = _
          rw [List.getElem?_set_ne (by omega)]
    · -- waveform
      by_cases hs : (data &&& VERA_PSG_MASK_WAVEFORM) >>> VERA_PSG_SHIFT_WAVEFORM =
          g.g_vera_psg_channel_waveform[v]
      · have hcached : g.g_vera_psg_channel_waveform[v]? =
            some ((data &&& VERA_PSG_MASK_WAVEFORM) >>> VERA_PSG_SHIFT_WAVEFORM) := by
          rw [List.getElem?_eq_getElem hlw, hs]
        exact ⟨g, saa1099_vera_psg_write_waveform_same hch hcached, hr, hinv⟩
      · obtain ⟨en, di, enabled, disabled, e1, e2, e3, e4, hwrite⟩ :=
          saa1099_vera_psg_write_waveform_change hc hch (List.getElem?_eq_getElem hlw) hs
        rw [saa_bits_eq hsaa] at hwrite
        rw [hwrite]
        refine ⟨_, rfl, ⟨hr.supported, hr.range, hr.table, ?_, hr.frequency, ?_⟩, ?_⟩
        · show ((g.g_cache.set _ _).set _ _).length = _
          rw [List.length_set, List.length_set]; exact hr.cache
        · show (g.g_vera_psg_channel_waveform.set _ _).length = _
          rw [List.length_set]; exact hr.waveform
        · have k1 : SAA1099_ADDRESS_NOISE_ENABLE = 21 := rfl
          have k2 : SAA1099_ADDRESS_FREQUENCY_ENABLE = 20 := rfl
          rw [k1, k2] at e1 e2
          have hinv1 := saa1099_enable_invariant_waveform hc hch e1 e2 e3 e4 hinv
          exact saa1099_enable_invariant_frame rfl (fun _ => rfl) (fun _ => rfl) hinv1
  · refine ⟨g, ?_, hr, hinv⟩
    unfold saa1099_vera_psg_write VERA_PSG_ADDRESS_TO_CHANNEL SAA1099_VERA_PSG_CHANNELS
    rw [Nat.shiftRight_eq_div_pow, if_neg]
    exact hch

theorem saa1099_vera_psg_write_all_invariant (writes : List (Nat × Nat))
    (p_range : saa1099_verga_psg_range_t) :
    ∀ g, saa1099_ready g p_range → saa1099_enable_invariant g →
      (∀ write ∈ writes, write.2 < 256) →
      ∃ g1, saa1099_vera_psg_write_all writes g = some g1 ∧ saa1099_ready g1 p_range ∧
        saa1099_enable_invariant g1 := by
  induction writes with
  | nil => intro g hr hinv _; exact ⟨g, rfl, hr, hinv⟩
  | cons write rest ih =>
    intro g hr hinv hd
    obtain ⟨g1, h1, r1, i1⟩ :=
      saa1099_vera_psg_write_invariant write.1 write.2 hr hinv
        (hd write (List.mem_cons_self _ _))
    obtain ⟨g2, h2, r2, i2⟩ := ih g1 r1 i1 (fun w hw => hd w (List.mem_cons_of_mem _ hw))
    refine ⟨g2, ?_, r2, i2⟩
    rw [saa1099_vera_psg_write_all, h1, Option.some_bind]
    exact h2

/-- After `saa1099_vera_psg_initialize` with a supported clock the enable
invariant holds: the selectors are 0, register 0x14 holds 0x3F and register
0x15 holds 0 on both chips. -/
theorem saa1099_vera_psg_initialize_invariant (g0 : saa1099_globals) (port_base_address : Nat)
    (clock : Int) (p_range : saa1099_verga_psg_range_t)
    (hc : g0.g_cache.length = 64)
    (hclock : (clock = SAA1099_CLOCK_7159090_HZ ∧ p_range = g_saa1099_7mhz_vera_psg_range) ∨
      (clock = SAA1099_CLOCK_8000000_HZ ∧ p_range = g_saa1099_8mhz_vera_psg_range)) :
    ∃ g, saa1099_vera_psg_initialize port_base_address clock g0 = some g ∧
      saa1099_ready g p_range ∧ saa1099_enable_invariant g := by
  obtain ⟨g, hg, hr, _, hw, _⟩ :=
    saa1099_vera_psg_initialize_ready g0 port_base_address clock p_range hc hclock
  refine ⟨g, hg, hr, ?_⟩
  -- the states the initialisation passes through
  have hsel : (if clock = SAA1099_CLOCK_7159090_HZ then some g_saa1099_7mhz_vera_psg_range
      else if clock = SAA1099_CLOCK_8000000_HZ then some g_saa1099_8mhz_vera_psg_range
      else none) = some p_range := by
    rcases hclock with ⟨h1, h2⟩ | ⟨h1, h2⟩
    · rw [if_pos h1, h2]
    · have hne : ¬ clock = SAA1099_CLOCK_7159090_HZ := by rw [h1]; decide
      rw [if_neg hne, if_pos h1, h2]
  obtain ⟨table, ht, _, _⟩ := frequency_table_getElem? p_range
  obtain ⟨g1, h1, f1⟩ := saa1099_clear_some
    (g := { g0 with g_p_saa1099_vera_psg_range := some p_range,
                    g_p_vera_psg_to_frequency_table := some table,
                    g_port_base_address := port_base_address }) hc
  have hz := saa1099_clear_cache h1 hc
  have hc1 : g1.g_cache.length = 64 := by rw [f1.2.2.2.2.2]; exact hc
  obtain ⟨g2, h2, _⟩ := saa1099_enable_loop_some SAA1099_MAX_CHIPS 0
    { g1 with
      g_vera_psg_channel_frequency := List.replicate SAA1099_VERA_PSG_CHANNELS 0,
      g_vera_psg_channel_waveform := List.replicate SAA1099_VERA_PSG_CHANNELS 0 }
    hc1 (by decide)
  obtain ⟨l21, l20⟩ := saa1099_enable_loop_cache SAA1099_MAX_CHIPS 0
    { g1 with
      g_vera_psg_channel_frequency := List.replicate SAA1099_VERA_PSG_CHANNELS 0,
      g_vera_psg_channel_waveform := List.replicate SAA1099_VERA_PSG_CHANNELS 0 }
    g2 hc1 (by decide) h2
  have hg2 : saa1099_vera_psg_initialize port_base_address clock g0 = some g2 := by
    unfold saa1099_vera_psg_initialize
    simp only [hsel, ht, h1, Option.some_bind, h2]
  rw [hg] at hg2
  have e : g = g2 := Option.some.inj hg2
  subst e
  rw [saa1099_enable_invariant_iff]
  intro v hv
  have hchip : v / 6 < 2 := by omega
  have k : SAA1099_MAX_CHIPS = 2 := rfl
  refine ⟨0, 0, 0x3F, ?_, ?_, ?_, ?_, ?_⟩
  · rw [hw]
    exact List.getElem?_replicate_of_lt (by omega)
  · rw [l21 (v / 6)]
    exact hz _ (by omega)
  · rw [l20 (v / 6) hchip, if_pos (by rw [k]; omega)]
  · simp
  · have h6 : v % 6 < 6 := by omega
    have : ∀ i, i < 6 → (0x3F : Nat).testBit i = true := by decide
    simp [this _ h6]

/-! ## Lemmas on the delay counter of the player -/

theorem zsm_initialize_delay {p : Option ram} {fm : Option ym2151_write_func_t}
    {psg : Option vera_psg_write_func_t} {g : zsm_globals} {res : e_zsm_result_t × zsm_globals}
    (h : zsm_initialize p fm psg g = some res) :
    res.2.g_delay_ticks = g.g_delay_ticks := by
  cases p with
  | none =>
    simp only [ zsm_initialize] at h
    cases h
    rfl
  | some r =>
    rw [zsm_initialize_some] at h
    cases hv : ram_byte_at r 2 with
    | none => rw [hv] at h; cases h
    | some v =>
      rw [hv, Option.some_bind] at h
      split at h
      · cases h9 : ram_byte_at r 9 with
        | none => rw [h9] at h; cases h
        | some m =>
          cases h10 : ram_byte_at r 10 with
          | none => rw [h9, h10] at h; cases h
          | some lo =>
            cases h11 : ram_byte_at r 11 with
            | none => rw [h9, h10, h11] at h; cases h
            | some hi =>
              rw [h9, h10, h11] at h
              simp only [Option.some_bind] at h
              split at h
              · cases hs : ram_seek_bank r 16 e_ram_seek_origin_t.RAM_SEEK_ORIGIN_SET
                    g.g_ram_bank with
                | none => rw [hs] at h; cases h
                | some cursor =>
                  rw [hs] at h
                  cases h
                  rfl
              · cases h
                rfl
      · cases h
        rfl

theorem zsm_update_body_delay {g g1 : zsm_globals} (h : zsm_update_body g = some g1)
    (hd : g.g_delay_ticks ≤ 127) : g1.g_delay_ticks ≤ 127 := by
  unfold zsm_update_body at h
  cases hh : g.g_p_zsm_ram_handle with
  | none => rw [hh] at h; cases h
  | some r =>
    rw [hh] at h
    simp only at h
    cases hc : ram_deref r g.g_ram_bank.p_current with
    | none => rw [hc] at h; cases h
    | some c =>
      cases hu : RAM_UPDATE_POS r g.g_ram_bank with
      | none => rw [hc, hu] at h; cases h
      | some bank1 =>
        rw [hc, hu] at h
        simp only [Option.some_bind] at h
        split at h
        · cases he : ram_deref r bank1.p_current with
          | none => rw [he] at h; cases h
          | some e =>
            cases hu2 : RAM_UPDATE_POS r bank1 with
            | none => rw [he, hu2] at h; cases h
            | some bank2 =>
              rw [he, hu2] at h
              simp only [Option.some_bind] at h
              cases hs : ram_seek_bank r ((e &&& ZSM_MASK_CMD_DATA_EXT : Nat) : Int)
                  e_ram_seek_origin_t.RAM_SEEK_ORIGIN_CURRENT bank2 with
              | none => rw [hs] at h; cases h
              | some bank3 =>
                rw [hs] at h
                cases h
                exact hd
        · split at h
          · rcases (zsm_cmd_eof_frame h).2.2 with hl | hs
            · rw [hl.2.1]; exact hd
            · rw [hs.1]; exact Nat.zero_le _
          · split at h
            · cases hdat : ram_deref r bank1.p_current with
              | none => rw [hdat] at h; cases h
              | some data =>
                cases hu2 : RAM_UPDATE_POS r bank1 with
                | none => rw [hdat, hu2] at h; cases h
                | some bank2 =>
                  rw [hdat, hu2] at h
                  cases h
                  exact hd
            · split at h
              · rw [(zsm_fm_write_loop_frame _ h).2.2.2.2]; exact hd
              · cases h
                exact Nat.and_le_right

theorem zsm_update_loop_delay (fuel : Nat) {g g1 : zsm_globals}
    (h : zsm_update_loop fuel g = some g1) (hd : g.g_delay_ticks ≤ 127) :
    g1.g_delay_ticks ≤ 127 ∧ (g1.g_play_stream = false ∨ 1 ≤ g1.g_delay_ticks) := by
  induction fuel generalizing g with
  | zero =>
    unfold zsm_update_loop at h
    split at h
    · cases h
    · rename_i hc
      cases h
      refine ⟨hd, ?_⟩
      cases hp : g1.g_play_stream with
      | false => exact Or.inl rfl
      | true =>
        right
        rcases Nat.eq_zero_or_pos g1.g_delay_ticks with h0 | h0
        · exact absurd ⟨hp, h0⟩ hc
        · exact h0
  | succ n ih =>
    unfold zsm_update_loop at h
    split at h
    · cases hb : zsm_update_body g with
      | none => rw [hb] at h; cases h
      | some g2 =>
        rw [hb, Option.some_bind] at h
        exact ih h (zsm_update_body_delay hb hd)
    · rename_i hc
      cases h
      refine ⟨hd, ?_⟩
      cases hp : g1.g_play_stream with
      | false => exact Or.inl rfl
      | true =>
        right
        rcases Nat.eq_zero_or_pos g1.g_delay_ticks with h0 | h0
        · exact absurd ⟨hp, h0⟩ hc
        · exact h0

theorem zsm_update_delay (fuel : Nat) {g g1 : zsm_globals}
    (h : zsm_update fuel g = some g1) (hd : g.g_delay_ticks ≤ 127) :
    g1.g_delay_ticks ≤ 127 ∧ (g1.g_play_stream = false ∨ 1 ≤ g1.g_delay_ticks) := by
  unfold zsm_update at h
  split at h
  · rename_i hp
    cases h
    exact ⟨hd, Or.inl hp⟩
  · split at h
    · refine zsm_update_loop_delay fuel h ?_
      show g.g_delay_ticks - 1 ≤ 127
      omega
    · exact zsm_update_loop_delay fuel h hd

theorem zsm_call_run_delay (c : zsm_call) {g g1 : zsm_globals}
    (h : zsm_call_run c g = some g1) (hd : g.g_delay_ticks ≤ 127) :
    g1.g_delay_ticks ≤ 127 := by
  cases c with
  | call_init p fm psg =>
    simp only [zsm_call_run] at h
    cases hi : zsm_initialize p fm psg g with
    | none => rw [hi] at h; cases h
    | some res =>
      rw [hi] at h
      cases h
      rw [zsm_initialize_delay hi]
      exact hd
  | call_start zsm_repeat =>
    cases h
    show 1 ≤ 127
    omega
  | call_stop =>
    cases h
    exact hd
  | call_update fuel => exact (zsm_update_delay fuel h hd).1

theorem zsm_calls_run_delay (calls : List zsm_call) {g g1 : zsm_globals}
    (h : zsm_calls_run calls g = some g1) (hd : g.g_delay_ticks ≤ 127) :
    g1.g_delay_ticks ≤ 127 := by
  induction calls generalizing g with
  | nil =>
    cases h
    exact hd
  | cons c rest ih =>
    unfold zsm_calls_run at h
    cases hc : zsm_call_run c g with
    | none => rw [hc] at h; cases h
    | some g2 =>
      rw [hc, Option.some_bind] at h
      exact ih h (zsm_call_run_delay c hc hd)

/-! ## Lemmas on the writer hooks during playback -/

theorem zsm_fm_write_loop_calls {r : ram} (n : Nat) {g g1 : zsm_globals}
    (h : zsm_fm_write_loop r n g = some g1) :
    g1.g_p_ym2151_write_func = g.g_p_ym2151_write_func ∧
    g1.g_p_vera_psg_write_func = g.g_p_vera_psg_write_func ∧
    ∃ pairs : List (Nat × Nat), pairs.length = n ∧
      g1.calls = g.calls ++
        pairs.map (fun ad => write_call.ym2151 g.g_p_ym2151_write_func ad.1 ad.2) := by
  induction n generalizing g with
  | zero =>
    simp only [zsm_fm_write_loop, Option.some.injEq] at h
    subst h
    exact ⟨rfl, rfl, [], rfl, by simp⟩
  | succ n ih =>
    rw [zsm_fm_write_loop] at h
    cases h1 : ram_deref r g.g_ram_bank.p_current with
    | none => simp [h1] at h
    | some address =>
      cases h2 : RAM_UPDATE_POS r g.g_ram_bank with
      | none => simp [h1, h2] at h
      | some bank1 =>
        cases h3 : ram_deref r bank1.p_current with
        | none => simp [h1, h2, h3] at h
        | some data =>
          cases h4 : RAM_UPDATE_POS r bank1 with
          | none => simp [h1, h2, h3, h4] at h
          | some bank2 =>
            simp only [h1, h2, h3, h4, Option.bind] at h
            obtain ⟨e1, e2, pairs, hlen, hcalls⟩ := ih h
            refine ⟨e1, e2, (address, data) :: pairs, by simp [hlen], ?_⟩
            rw [hcalls]
            simp

theorem zsm_cmd_eof_calls {r : ram} {g g1 : zsm_globals} (h : zsm_cmd_eof r g = some g1) :
    g1.g_p_ym2151_write_func = g.g_p_ym2151_write_func ∧
    g1.g_p_vera_psg_write_func = g.g_p_vera_psg_write_func ∧ g1.calls = g.calls := by
  unfold zsm_cmd_eof at h
  cases h0 : ram_get_address r 0 with
  | none => simp [h0] at h
  | some p_header =>
    simp only [h0, Option.bind] at h
    by_cases hcount : g.g_repeat_count > 0
    · simp only [hcount, if_true] at h
      cases ha : read_uint16 r (pointer_add p_header 3) with
      | none => simp [ha] at h
      | some a =>
        cases hb : ram_deref r (pointer_add p_header 5) with
        | none => simp [ha, hb] at h
        | some b =>
          simp only [ha, hb] at h
          by_cases hnz : a ≠ 0 ∨ b ≠ 0
          · simp only [hnz, if_true] at h
            cases hs : ram_seek_bank r (to_int32 ↑((b <<< 16 ||| a) % 4294967296))
                e_ram_seek_origin_t.RAM_SEEK_ORIGIN_SET g.g_ram_bank with
            | none =>
              simp only [hs, Option.map] at h
              cases h
            | some cursor =>
              simp only [hs, Option.map, Option.some.injEq] at h
              subst h
              exact ⟨rfl, rfl, rfl⟩
          · simp only [hnz, if_false, Option.some.injEq] at h
            subst h
            exact ⟨rfl, rfl, rfl⟩
    · simp only [hcount, if_false, Option.some.injEq] at h
      subst h
      exact ⟨rfl, rfl, rfl⟩

/-- What one iteration of the command loop does to the hooks and to the log
of writer calls, by the command decoded: the hooks stay, a PSG write calls
the PSG hook once, an FM write calls the FM hook once per pair, and the other
commands call nothing. -/
theorem zsm_update_body_calls {g g1 : zsm_globals} {c : Nat}
    (h : zsm_update_body g = some g1) (hc : zsm_current_command g = some c) :
    g1.g_p_ym2151_write_func = g.g_p_ym2151_write_func ∧
    g1.g_p_vera_psg_write_func = g.g_p_vera_psg_write_func ∧
    (c < 0x40 → ∃ data,
      g1.calls = g.calls ++ [write_call.vera_psg g.g_p_vera_psg_write_func (c &&& 0x3F) data]) ∧
    (0x41 ≤ c ∧ c ≤ 0x7F → ∃ pairs : List (Nat × Nat), pairs.length = c &&& 0x3F ∧
      g1.calls = g.calls ++
        pairs.map (fun ad => write_call.ym2151 g.g_p_ym2151_write_func ad.1 ad.2)) ∧
    (c = 0x40 ∨ 0x80 ≤ c → g1.calls = g.calls) := by
  unfold zsm_update_body at h
  unfold zsm_current_command at hc
  cases hh : g.g_p_zsm_ram_handle with
  | none => rw [hh] at h; cases h
  | some r =>
    rw [hh] at h hc
    simp only [Option.some_bind] at h hc
    rw [hc] at h
    cases hu : RAM_UPDATE_POS r g.g_ram_bank with
    | none => rw [hu] at h; cases h
    | some bank1 =>
      rw [hu] at h
      simp only [Option.some_bind] at h
      unfold ZSM_CMD_EXT ZSM_CMD_EOF at h
      split at h
      · rename_i hcmd
        cases he : ram_deref r bank1.p_current with
        | none => rw [he] at h; cases h
        | some e =>
          cases hu2 : RAM_UPDATE_POS r bank1 with
          | none => rw [he, hu2] at h; cases h
          | some bank2 =>
            rw [he, hu2] at h
            simp only [Option.some_bind] at h
            cases hs : ram_seek_bank r ((e &&& ZSM_MASK_CMD_DATA_EXT : Nat) : Int)
                e_ram_seek_origin_t.RAM_SEEK_ORIGIN_CURRENT bank2 with
            | none => rw [hs] at h; cases h
            | some bank3 =>
              rw [hs] at h
              cases h
              exact ⟨rfl, rfl, fun hlt => by omega, fun hr => by omega, fun _ => rfl⟩
      · split at h
        · rename_i h1 h2
          obtain ⟨e1, e2, e3⟩ := zsm_cmd_eof_calls h
          exact ⟨e1, e2, fun hlt => by omega, fun hr => by omega, fun _ => e3⟩
        · split at h
          · rename_i h1 h2 h3
            cases hdat : ram_deref r bank1.p_current with
            | none => rw [hdat] at h; cases h
            | some data =>
              cases hu2 : RAM_UPDATE_POS r bank1 with
              | none => rw [hdat, hu2] at h; cases h
              | some bank2 =>
                rw [hdat, hu2] at h
                cases h
                exact ⟨rfl, rfl, fun _ => ⟨data, rfl⟩, fun hr => by omega, fun hr => by omega⟩
          · split at h
            · rename_i h1 h2 h3 h4
              obtain ⟨e1, e2, pairs, hlen, hcalls⟩ := zsm_fm_write_loop_calls _ h
              exact ⟨e1, e2, fun hlt => by omega, fun _ => ⟨pairs, hlen, hcalls⟩,
                fun hr => by omega⟩
            · rename_i h1 h2 h3 h4
              cases h
              exact ⟨rfl, rfl, fun hlt => by omega, fun hr => by omega, fun _ => rfl⟩

/-- The hooks do not change while only `zsm_update` runs. -/
theorem zsm_run_hooks {g0 g : zsm_globals} {k : Nat} (hrun : zsm_run g0 k g) :
    g.g_p_ym2151_write_func = g0.g_p_ym2151_write_func ∧
    g.g_p_vera_psg_write_func = g0.g_p_vera_psg_write_func := by
  refine zsm_run_invariant g0
    (fun _ g => g.g_p_ym2151_write_func = g0.g_p_ym2151_write_func ∧
      g.g_p_vera_psg_write_func = g0.g_p_vera_psg_write_func)
    ⟨rfl, rfl⟩ ?_ ?_ k g hrun
  · intro k g hP _
    exact hP
  · intro k g g1 c hP _ hc hb
    obtain ⟨e1, e2, _⟩ := zsm_update_body_calls hb hc
    exact ⟨e1.trans hP.1, e2.trans hP.2⟩

/-- A second `zsm_initialize` on a version-1 stream with no writer, or with
both channel masks zero, keeps the hooks; it succeeds when one of them is
not the null sink. -/
theorem zsm_initialize_keeps_hooks {r : ram} (hr : ram_wf r) (g : zsm_globals)
    (fm : Option ym2151_write_func_t) (psg : Option vera_psg_write_func_t)
    {m lo hi : Nat}
    (hversion : ram_byte_at r 2 = some ZSM_VERSION_01)
    (h9 : ram_byte_at r 9 = some m) (h10 : ram_byte_at r 10 = some lo)
    (h11 : ram_byte_at r 11 = some hi)
    (hkeep : (fm = none ∧ psg = none) ∨ (m = 0 ∧ lo = 0 ∧ hi = 0))
    (hhook : g.g_p_ym2151_write_func ≠ ym2151_write_func_t.zsm_ym2151_write_func_null ∨
      g.g_p_vera_psg_write_func ≠ vera_psg_write_func_t.zsm_vera_psg_func_null) :
    zsm_initialize (some r) fm psg g =
      some (e_zsm_result_t.ZSM_SUCCESS,
        { g with g_p_zsm_ram_handle := some r, g_play_stream := false,
                 g_ram_bank := cursor_at 16 }) := by
  have hpos := hr.banks_pos
  rw [zsm_initialize_some, hversion, Option.some_bind, if_pos rfl, h9, h10, h11]
  simp only [Option.some_bind]
  have e1 : install_ym2151_write_func m fm g.g_p_ym2151_write_func =
      g.g_p_ym2151_write_func := by
    rw [install_ym2151_eq]
    rcases hkeep with hk | hk
    · rw [hk.1]
    · rw [hk.1]
      cases fm <;> simp
  have e2 : install_vera_psg_write_func (lo + 256 * hi) psg g.g_p_vera_psg_write_func =
      g.g_p_vera_psg_write_func := by
    rw [install_vera_psg_eq]
    rcases hkeep with hk | hk
    · rw [hk.2]
    · rw [hk.2.1, hk.2.2]
      cases psg <;> simp
  have hseek : ram_seek_bank r 16 e_ram_seek_origin_t.RAM_SEEK_ORIGIN_SET g.g_ram_bank =
      some (cursor_at 16) :=
    ram_seek_bank_set hr (show 16 < r.number_of_banks * 32768 by omega) g.g_ram_bank
  rw [e1, e2, if_pos hhook, hseek]
  rfl

/-- After a successful `zsm_initialize` a hook is not the null sink, and a
caller's writer passed with a non-zero mask is the hook. -/
theorem zsm_initialize_installs {r : ram} {fm : Option ym2151_write_func_t}
    {psg : Option vera_psg_write_func_t} {g g1 : zsm_globals}
    (h : zsm_initialize (some r) fm psg g = some (e_zsm_result_t.ZSM_SUCCESS, g1)) :
    (g1.g_p_ym2151_write_func ≠ ym2151_write_func_t.zsm_ym2151_write_func_null ∨
      g1.g_p_vera_psg_write_func ≠ vera_psg_write_func_t.zsm_vera_psg_func_null) ∧
    (∀ f m, fm = some f → ram_byte_at r 9 = some m → m ≠ 0 → g1.g_p_ym2151_write_func = f) ∧
    (∀ f lo hi, psg = some f → ram_byte_at r 10 = some lo → ram_byte_at r 11 = some hi →
      lo + 256 * hi ≠ 0 → g1.g_p_vera_psg_write_func = f) := by
  rw [zsm_initialize_some] at h
  cases hv : ram_byte_at r 2 with
  | none => rw [hv] at h; cases h
  | some v =>
    rw [hv, Option.some_bind] at h
    split at h
    · cases h9 : ram_byte_at r 9 with
      | none => rw [h9] at h; cases h
      | some m =>
        cases h10 : ram_byte_at r 10 with
        | none => rw [h9, h10] at h; cases h
        | some lo =>
          cases h11 : ram_byte_at r 11 with
          | none => rw [h9, h10, h11] at h; cases h
          | some hi =>
            rw [h9, h10, h11] at h
            simp only [Option.some_bind] at h
            split at h
            · rename_i hhook
              cases hs : ram_seek_bank r 16 e_ram_seek_origin_t.RAM_SEEK_ORIGIN_SET
                  g.g_ram_bank with
              | none => rw [hs] at h; cases h
              | some cursor =>
                rw [hs] at h
                cases h
                refine ⟨hhook, ?_, ?_⟩
                · intro f m1 hf hm hnz
                  cases hm
                  show install_ym2151_write_func m fm g.g_p_ym2151_write_func = f
                  rw [install_ym2151_eq, hf]
                  simp [hnz]
                · intro f lo1 hi1 hf hlo hhi hnz
                  cases hlo
                  cases hhi
                  show install_vera_psg_write_func (lo + 256 * hi) psg
                    g.g_p_vera_psg_write_func = f
                  rw [install_vera_psg_eq, hf]
                  simp only [ne_eq, hnz, not_false_eq_true, if_true]
            · cases h
    · cases h

/-! ## Lemmas on the progress of the command loop -/

theorem RAM_UPDATE_POS_cursor_at_elim {r : ram} (hr : ram_wf r) {p : Nat} {next : ram_bank_t}
    (hp : p < r.number_of_banks * 32768)
    (h : RAM_UPDATE_POS r (cursor_at p) = some next) :
    p + 1 < r.number_of_banks * 32768 ∧ next = cursor_at (p + 1) := by
  have h16 := hr.banks_le
  by_cases hlt : p + 1 < r.number_of_banks * 32768
  · rw [RAM_UPDATE_POS_cursor_at hr hlt] at h
    exact ⟨hlt, (Option.some.inj h).symm⟩
  · exfalso
    have hoff : ¬ p % 32768 < 32768 - 1 := by omega
    have hbank : (p / 32768 + 1) % 256 = r.number_of_banks := by omega
    unfold RAM_UPDATE_POS at h
    simp only [cursor_at, true_and, Nat.ofNat_pos, if_true, if_neg hoff, hbank] at h
    unfold ram_get_bank at h
    have hnone : r.pp_banks[r.number_of_banks]? = none := by
      rw [List.getElem?_eq_none_iff, hr.length_banks]
    simp only [hnone] at h
    cases h

theorem ram_seek_bank_current_target (r : ram) {q d : Nat} (ht : q + d < 2147483648) :
    ram_seek_bank r (d : Int) e_ram_seek_origin_t.RAM_SEEK_ORIGIN_CURRENT (cursor_at q) =
      match r.pp_banks[(q + d) / 32768 % 16]?, r.p_bank_sizes[(q + d) / 32768 % 16]? with
      | some _, some size =>
        some { p_start := pointer.loc ((q + d) / 32768 % 16) 0,
               p_end := pointer.loc ((q + d) / 32768 % 16) size,
               p_current := pointer.loc ((q + d) / 32768 % 16) ((q + d) % 32768),
               bank := (q + d) / 32768 % 16 }
      | _, _ => none := by
  have habs : ((q / 32768) <<< RAM_BANK_SHIFT + (q % 32768 - 0)) % 4294967296 = q := by
    have h2 : RAM_BANK_SHIFT = 15 := by decide
    rw [h2, Nat.shiftLeft_eq]; omega
  have hnew : to_int32 ((q : Int) + (d : Int)) = ((q + d : Nat) : Int) := by
    rw [← Nat.cast_add]; exact to_int32_ofNat (q + d) ht
  unfold ram_seek_bank
  simp only [cursor_at, pointer_diff, true_and, Nat.zero_le, if_true, Option.map, habs, hnew,
    shift_index_mask, and_offset_mask]
  have hnn : ¬ (((q + d : Nat) : Int) < 0) := by omega
  rw [if_neg hnn, int32_bits_ofNat (q + d) (by omega)]
  rfl

theorem ram_seek_bank_current_elim {r : ram} (hr : ram_wf r) (hbanks : r.number_of_banks ≤ 15)
    {q d : Nat} {next : ram_bank_t}
    (hq : q < r.number_of_banks * 32768) (hd : d < 32768)
    (h : ram_seek_bank r (d : Int) e_ram_seek_origin_t.RAM_SEEK_ORIGIN_CURRENT (cursor_at q) =
      some next) :
    q + d < r.number_of_banks * 32768 ∧ next = cursor_at (q + d) := by
  by_cases hlt : q + d < r.number_of_banks * 32768
  · have hs := ram_seek_bank_current hr (d : Int) hq (by omega) (by omega)
    rw [hs] at h
    refine ⟨hlt, ?_⟩
    have e : ((q : Int) + (d : Int)).toNat = q + d := by omega
    rw [e] at h
    exact (Option.some.inj h).symm
  · exfalso
    rw [ram_seek_bank_current_target r (by omega)] at h
    have hidx : (q + d) / 32768 % 16 = (q + d) / 32768 := by omega
    have hnone : r.pp_banks[(q + d) / 32768 % 16]? = none := by
      rw [List.getElem?_eq_none_iff, hr.length_banks, hidx]
      omega
    simp only [hnone] at h
    cases h

theorem zsm_fm_write_loop_cursor {r : ram} (hr : ram_wf r) (n : Nat) {g g1 : zsm_globals}
    {q : Nat} (hcur : g.g_ram_bank = cursor_at q) (hq : q < r.number_of_banks * 32768)
    (h : zsm_fm_write_loop r n g = some g1) :
    q + 2 * n < r.number_of_banks * 32768 ∧ g1.g_ram_bank = cursor_at (q + 2 * n) := by
  induction n generalizing g q with
  | zero =>
    simp only [zsm_fm_write_loop, Option.some.injEq] at h
    subst h
    exact ⟨hq, hcur⟩
  | succ n ih =>
    rw [zsm_fm_write_loop] at h
    cases h1 : ram_deref r g.g_ram_bank.p_current with
    | none => simp [h1] at h
    | some address =>
      cases h2 : RAM_UPDATE_POS r g.g_ram_bank with
      | none => simp [h1, h2] at h
      | some bank1 =>
        cases h3 : ram_deref r bank1.p_current with
        | none => simp [h1, h2, h3] at h
        | some data =>
          cases h4 : RAM_UPDATE_POS r bank1 with
          | none => simp [h1, h2, h3, h4] at h
          | some bank2 =>
            simp only [h1, h2, h3, h4, Option.bind] at h
            rw [hcur] at h2
            obtain ⟨a1, a2⟩ := RAM_UPDATE_POS_cursor_at_elim hr hq h2
            rw [a2] at h4
            obtain ⟨b1, b2⟩ := RAM_UPDATE_POS_cursor_at_elim hr a1 h4
            have hi := ih (q := q + 1 + 1) (by exact b2) b1 h
            have e : q + 1 + 1 + 2 * n = q + 2 * (n + 1) := by omega
            rw [e] at hi
            exact hi

theorem zsm_cmd_eof_cursor {r : ram} (hr : ram_wf r) {g g1 : zsm_globals}
    (hin : ram_bank_in_range r g.g_ram_bank = true)
    (h : zsm_cmd_eof r g = some g1) :
    ram_bank_in_range r g1.g_ram_bank = true := by
  unfold zsm_cmd_eof at h
  cases h0 : ram_get_address r 0 with
  | none => simp [h0] at h
  | some p_header =>
    simp only [h0, Option.bind] at h
    by_cases hcount : g.g_repeat_count > 0
    · simp only [hcount, if_true] at h
      cases ha : read_uint16 r (pointer_add p_header 3) with
      | none => simp [ha] at h
      | some a =>
        cases hb : ram_deref r (pointer_add p_header 5) with
        | none => simp [ha, hb] at h
        | some b =>
          simp only [ha, hb] at h
          by_cases hnz : a ≠ 0 ∨ b ≠ 0
          · simp only [hnz, if_true] at h
            cases hs : ram_seek_bank r (to_int32 ↑((b <<< 16 ||| a) % 4294967296))
                e_ram_seek_origin_t.RAM_SEEK_ORIGIN_SET g.g_ram_bank with
            | none =>
              simp only [hs, Option.map] at h
              cases h
            | some cursor =>
              simp only [hs, Option.map, Option.some.injEq] at h
              subst h
              exact ram_seek_bank_set_in_range hr hs
          · simp only [hnz, if_false, Option.some.injEq] at h
            subst h
            exact hin
    · simp only [hcount, if_false, Option.some.injEq] at h
      subst h
      exact hin

/-- What one iteration of the command loop does on a store of at most 15
banks when the repeat-forever bit is clear: it sets a non-zero delay, or stops
the player, or leaves the cursor inside the store with the repeat count
lower, or with the same count and the cursor further on. -/
theorem zsm_update_body_progress {r : ram} (hr : ram_wf r) (hbanks : r.number_of_banks ≤ 15)
    {g g1 : zsm_globals} {p : Nat}
    (hhandle : g.g_p_zsm_ram_handle = some r)
    (hcursor : g.g_ram_bank = cursor_at p) (hp : p < r.number_of_banks * 32768)
    (hforever : g.g_zsm_repeat &&& ZSM_REPEAT_FOREVER = 0)
    (h : zsm_update_body g = some g1) :
    g1.g_p_zsm_ram_handle = some r ∧ g1.g_zsm_repeat = g.g_zsm_repeat ∧
    (g1.g_delay_ticks ≠ 0 ∨ g1.g_play_stream = false ∨
      ∃ q, g1.g_ram_bank = cursor_at q ∧ q < r.number_of_banks * 32768 ∧
        g1.g_delay_ticks = g.g_delay_ticks ∧ g1.g_play_stream = g.g_play_stream ∧
        (g1.g_repeat_count < g.g_repeat_count ∨
          (g1.g_repeat_count = g.g_repeat_count ∧ p < q))) := by
  unfold zsm_update_body at h
  rw [hhandle] at h
  simp only at h
  cases hc : ram_deref r g.g_ram_bank.p_current with
  | none => rw [hc] at h; cases h
  | some c =>
    cases hu : RAM_UPDATE_POS r g.g_ram_bank with
    | none => rw [hc, hu] at h; cases h
    | some bank1 =>
      rw [hc, hu] at h
      simp only [Option.some_bind] at h
      rw [hcursor] at hu
      obtain ⟨a1, a2⟩ := RAM_UPDATE_POS_cursor_at_elim hr hp hu
      subst a2
      have hclt := ram_deref_lt hc
      unfold ZSM_CMD_EXT ZSM_CMD_EOF at h
      split at h
      · cases he : ram_deref r (cursor_at (p + 1)).p_current with
        | none => rw [he] at h; cases h
        | some e =>
          cases hu2 : RAM_UPDATE_POS r (cursor_at (p + 1)) with
          | none => rw [he, hu2] at h; cases h
          | some bank2 =>
            rw [he, hu2] at h
            simp only [Option.some_bind] at h
            obtain ⟨b1, b2⟩ := RAM_UPDATE_POS_cursor_at_elim hr a1 hu2
            subst b2
            cases hs : ram_seek_bank r ((e &&& ZSM_MASK_CMD_DATA_EXT : Nat) : Int)
                e_ram_seek_origin_t.RAM_SEEK_ORIGIN_CURRENT (cursor_at (p + 1 + 1)) with
            | none => rw [hs] at h; cases h
            | some bank3 =>
              rw [hs] at h
              have hd : e &&& ZSM_MASK_CMD_DATA_EXT < 32768 :=
                Nat.lt_of_le_of_lt Nat.and_le_right (by decide)
              obtain ⟨c1, c2⟩ := ram_seek_bank_current_elim hr hbanks b1 hd hs
              cases h
              exact ⟨rfl, rfl, Or.inr (Or.inr
                ⟨_, c2, c1, rfl, rfl, Or.inr ⟨rfl, by omega⟩⟩)⟩
      · split at h
        · obtain ⟨f1, f2, f3⟩ := zsm_cmd_eof_frame h
          have hin : ram_bank_in_range r g1.g_ram_bank = true :=
            zsm_cmd_eof_cursor hr (ram_bank_in_range_cursor_at hr a1) h
          refine ⟨f1, f2, ?_⟩
          rcases f3 with hl | hs
          · obtain ⟨q, hq, hcur⟩ := ram_bank_in_range_elim hr hin
            obtain ⟨l1, l2, l3, l4, _⟩ := hl
            have hnf : ¬ (g.g_zsm_repeat &&& ZSM_REPEAT_FOREVER ≠ 0 ∧
                g.g_repeat_count - 1 = 0) := fun hh => hh.1 hforever
            have l5 : g1.g_repeat_count = g.g_repeat_count - 1 := by
              rw [l4]
              exact if_neg hnf
            have l6 : 0 < g.g_repeat_count := l3
            exact Or.inr (Or.inr ⟨q, hcur, hq, l2, l1, Or.inl (by omega)⟩)
          · right; left
            rw [hs.1]
        · split at h
          · cases hdat : ram_deref r (cursor_at (p + 1)).p_current with
            | none => rw [hdat] at h; cases h
            | some data =>
              cases hu2 : RAM_UPDATE_POS r (cursor_at (p + 1)) with
              | none => rw [hdat, hu2] at h; cases h
              | some bank2 =>
                rw [hdat, hu2] at h
                obtain ⟨b1, b2⟩ := RAM_UPDATE_POS_cursor_at_elim hr a1 hu2
                cases h
                exact ⟨rfl, rfl, Or.inr (Or.inr
                  ⟨_, b2, b1, rfl, rfl, Or.inr ⟨rfl, by omega⟩⟩)⟩
          · split at h
            · obtain ⟨f1, f2, f3, f4, f5⟩ := zsm_fm_write_loop_frame _ h
              obtain ⟨c1, c2⟩ := zsm_fm_write_loop_cursor hr _ (q := p + 1) rfl a1 h
              exact ⟨f1, f2, Or.inr (Or.inr
                ⟨_, c2, c1, f5, f4, Or.inr ⟨f3, by omega⟩⟩)⟩
            · rename_i h1 h2 h3 h4
              cases h
              refine ⟨rfl, rfl, Or.inl ?_⟩
              show c &&& ZSM_MASK_CMD_DATA_DELAY ≠ 0
              have hm : c &&& ZSM_MASK_CMD_DATA_DELAY = c % 128 :=
                Nat.and_pow_two_sub_one_eq_mod c 7
              rw [hm]
              omega

theorem zsm_update_loop_halts_idle (n : Nat) {g : zsm_globals}
    (h : ¬ (g.g_play_stream = true ∧ g.g_delay_ticks = 0)) :
    zsm_update_loop_halts n g = true := by
  cases n with
  | zero =>
    unfold zsm_update_loop_halts
    cases hp : g.g_play_stream with
    | false => rfl
    | true =>
      have hd : g.g_delay_ticks ≠ 0 := fun hd => h ⟨hp, hd⟩
      simp [hd]
  | succ n =>
    unfold zsm_update_loop_halts
    rw [if_neg h]

/-- Once the loop is known to be left within `n` iterations, more fuel does
not change the result of the embedding of the loop. -/
theorem zsm_update_loop_halts_fuel (n : Nat) {g : zsm_globals}
    (h : zsm_update_loop_halts n g = true) (fuel : Nat) (hf : n ≤ fuel) :
    zsm_update_loop fuel g = zsm_update_loop n g := by
  induction n generalizing g fuel with
  | zero =>
    have hc : ¬ (g.g_play_stream = true ∧ g.g_delay_ticks = 0) := by
      intro hc
      unfold zsm_update_loop_halts at h
      simp [hc.1, hc.2] at h
    cases fuel with
    | zero => rfl
    | succ f =>
      unfold zsm_update_loop
      rw [if_neg hc, if_neg hc]
  | succ n ih =>
    cases fuel with
    | zero => omega
    | succ f =>
      unfold zsm_update_loop
      unfold zsm_update_loop_halts at h
      by_cases hc : g.g_play_stream = true ∧ g.g_delay_ticks = 0
      · rw [if_pos hc] at h
        rw [if_pos hc, if_pos hc]
        cases hb : zsm_update_body g with
        | none => rfl
        | some g1 =>
          rw [hb] at h
          simp only [Option.some_bind]
          exact ih h f (by omega)
      · rw [if_neg hc, if_neg hc]

/-- A loop that is not left within `n` iterations has run `n` iterations
without an abort, and the embedding with fuel `n` gives no result. -/
theorem zsm_update_loop_halts_false (n : Nat) {g : zsm_globals}
    (h : zsm_update_loop_halts n g = false) : zsm_update_loop n g = none := by
  induction n generalizing g with
  | zero =>
    unfold zsm_update_loop
    by_cases hc : g.g_play_stream = true ∧ g.g_delay_ticks = 0
    · rw [if_pos hc]
    · rw [zsm_update_loop_halts_idle 0 hc] at h
      cases h
  | succ n ih =>
    unfold zsm_update_loop
    by_cases hc : g.g_play_stream = true ∧ g.g_delay_ticks = 0
    · rw [if_pos hc]
      unfold zsm_update_loop_halts at h
      rw [if_pos hc] at h
      cases hb : zsm_update_body g with
      | none => rw [hb] at h; cases h
      | some g1 =>
        rw [hb] at h
        simp only [Option.some_bind]
        exact ih h
    · rw [zsm_update_loop_halts_idle (n + 1) hc] at h
      cases h

theorem zsm_update_loop_halts_measure {r : ram} (hr : ram_wf r)
    (hbanks : r.number_of_banks ≤ 15) (n : Nat) {g : zsm_globals} {p : Nat}
    (hhandle : g.g_p_zsm_ram_handle = some r)
    (hcursor : g.g_ram_bank = cursor_at p) (hp : p < r.number_of_banks * 32768)
    (hforever : g.g_zsm_repeat &&& ZSM_REPEAT_FOREVER = 0)
    (hn : g.g_repeat_count * (r.number_of_banks * 32768) +
      (r.number_of_banks * 32768 - p) ≤ n) :
    zsm_update_loop_halts n g = true := by
  induction n generalizing g p with
  | zero => omega
  | succ n ih =>
    unfold zsm_update_loop_halts
    split
    · cases hb : zsm_update_body g with
      | none => rfl
      | some g1 =>
        simp only
        obtain ⟨e1, e2, hcases⟩ :=
          zsm_update_body_progress hr hbanks hhandle hcursor hp hforever hb
        rcases hcases with hd | hs | ⟨q, hq1, hq2, _, _, hlex⟩
        · exact zsm_update_loop_halts_idle n (fun hc => hd hc.2)
        · exact zsm_update_loop_halts_idle n (fun hc => by rw [hs] at hc; cases hc.1)
        · refine ih e1 hq1 hq2 (by rw [e2]; exact hforever) ?_
          rcases hlex with hlt | ⟨heq, hpq⟩
          · have hmul : (g1.g_repeat_count + 1) * (r.number_of_banks * 32768) ≤
                g.g_repeat_count * (r.number_of_banks * 32768) :=
              Nat.mul_le_mul_right _ hlt
            rw [Nat.succ_mul] at hmul
            omega
          · rw [heq]
            omega
    · rfl

theorem zsm_update_halts_bound {r : ram} (hr : ram_wf r)
    (hbanks : r.number_of_banks ≤ 15) {g : zsm_globals} {p : Nat}
    (hhandle : g.g_p_zsm_ram_handle = some r)
    (hcursor : g.g_ram_bank = cursor_at p) (hp : p < r.number_of_banks * 32768)
    (hforever : g.g_zsm_repeat &&& ZSM_REPEAT_FOREVER = 0) :
    zsm_update_halts ((g.g_repeat_count + 1) * (r.number_of_banks * 32768)) g = true := by
  unfold zsm_update_halts
  split
  · rfl
  · have hbound : g.g_repeat_count * (r.number_of_banks * 32768) +
        (r.number_of_banks * 32768 - p) ≤
        (g.g_repeat_count + 1) * (r.number_of_banks * 32768) := by
      rw [Nat.succ_mul]
      omega
    split
    · exact zsm_update_loop_halts_measure hr hbanks _ hhandle hcursor hp hforever hbound
    · exact zsm_update_loop_halts_measure hr hbanks _ hhandle hcursor hp hforever hbound

theorem zsm_update_halts_fuel (n : Nat) {g : zsm_globals}
    (h : zsm_update_halts n g = true) (fuel : Nat) (hf : n ≤ fuel) :
    zsm_update fuel g = zsm_update n g := by
  unfold zsm_update_halts at h
  unfold zsm_update
  split
  · rfl
  · rename_i hp
    rw [if_neg hp] at h
    exact zsm_update_loop_halts_fuel n h fuel hf

/-! ## Lemmas on the stream that fills 16 banks -/

theorem getElem?_padded_filler {α : Type} (hd tl : List α) (n : Nat) (x : α) {i : Nat}
    (hlo : hd.length ≤ i) (hhi : i < hd.length + n) :
    (hd ++ (List.replicate n x ++ tl))[i]? = some x := by
  have h1 : i - hd.length < (List.replicate n x).length := by
    rw [List.length_replicate]
    omega
  rw [List.getElem?_append_right hlo, List.getElem?_append_left h1,
    List.getElem?_replicate_of_lt (by omega)]

theorem getElem?_padded_tail {α : Type} (hd tl : List α) (n : Nat) (x : α) (i : Nat) :
    (hd ++ (List.replicate n x ++ tl))[hd.length + n + i]? = tl[i]? := by
  have h1 : (List.replicate n x).length ≤ hd.length + n + i - hd.length := by
    rw [List.length_replicate]
    omega
  rw [List.getElem?_append_right (by omega), List.getElem?_append_right h1,
    List.length_replicate]
  congr 1
  omega

theorem sample_wrap_file_length : sample_wrap_file.length = 524288 := by
  unfold sample_wrap_file
  rw [List.length_append, List.length_append, List.length_replicate]
  rfl

theorem sample_wrap_file_filler {i : Nat} (hlo : 16 ≤ i) (hhi : i < 524284) :
    sample_wrap_file[i]? = some 0x40 :=
  getElem?_padded_filler _ _ 524268 0x40 hlo hhi

theorem sample_wrap_file_tail (i : Nat) :
    sample_wrap_file[524284 + i]? = ([0x40, 0x52, 0, 0] : List (Fin 256))[i]? :=
  getElem?_padded_tail _ _ 524268 0x40 i

theorem ram_deref_of_getElem? {bytes : List (Fin 256)} {r : ram}
    (h : ram_load_file (some bytes) = (e_ram_result_t.RAM_LOAD_SUCCESS, some r))
    {p : Nat} {x : Fin 256} (hx : bytes[p]? = some x) (hnb : p < r.number_of_banks * 32768) :
    ram_deref r (cursor_at p).p_current = some x.val := by
  obtain ⟨hp, hv⟩ := List.getElem?_eq_some_iff.mp hx
  rw [ram_deref_loaded h hp hnb, hv]

/-- One iteration of the command loop on an extension command, given the
cursor that the Current-origin seek returns. -/
theorem zsm_update_body_ext {r : ram} (hr : ram_wf r) {g : zsm_globals} {p e : Nat}
    {next : ram_bank_t}
    (hhandle : g.g_p_zsm_ram_handle = some r) (hcur : g.g_ram_bank = cursor_at p)
    (hp : p + 2 < r.number_of_banks * 32768)
    (hc : ram_deref r (cursor_at p).p_current = some ZSM_CMD_EXT)
    (he : ram_deref r (cursor_at (p + 1)).p_current = some e)
    (hseek : ram_seek_bank r ((e &&& ZSM_MASK_CMD_DATA_EXT : Nat) : Int)
      e_ram_seek_origin_t.RAM_SEEK_ORIGIN_CURRENT (cursor_at (p + 1 + 1)) = some next) :
    zsm_update_body g = some { g with g_ram_bank := next } := by
  unfold zsm_update_body
  rw [hhandle]
  simp only [hcur, hc, Option.bind, RAM_UPDATE_POS_cursor_at hr (show p + 1 < _ by omega), he,
    RAM_UPDATE_POS_cursor_at hr (show p + 1 + 1 < _ by omega), if_true, hseek]
  rfl

/-- On the store loaded from `sample_wrap_file` one iteration of the command
loop moves the cursor from an even position `p` in `16..524282` to `p + 2`,
and from 524284 back to 16; nothing else changes. -/
theorem sample_wrap_step {r : ram}
    (h : ram_load_file (some sample_wrap_file) = (e_ram_result_t.RAM_LOAD_SUCCESS, some r))
    (hnb : r.number_of_banks = 16) {p : Nat} (hlo : 16 ≤ p) (hhi : p ≤ 524284)
    (heven : p % 2 = 0) :
    zsm_update_body (sample_player r p 0 0) =
      some (sample_player r (if p = 524284 then 16 else p + 2) 0 0) := by
  have hr := ram_load_file_wf h
  have hS : r.number_of_banks * 32768 = 524288 := by rw [hnb]
  by_cases hp : p = 524284
  · rw [if_pos hp]
    have hc : ram_deref r (cursor_at p).p_current = some ZSM_CMD_EXT := by
      have hx : sample_wrap_file[p]? = some 0x40 := by
        rw [hp]; exact sample_wrap_file_tail 0
      exact ram_deref_of_getElem? h hx (by omega)
    have he : ram_deref r (cursor_at (p + 1)).p_current = some 0x52 := by
      have hx : sample_wrap_file[p + 1]? = some 0x52 := by
        rw [hp]; exact sample_wrap_file_tail 1
      exact ram_deref_of_getElem? h hx (by omega)
    have hm : 0x52 &&& ZSM_MASK_CMD_DATA_EXT = 18 := by decide
    have hseek : ram_seek_bank r ((0x52 &&& ZSM_MASK_CMD_DATA_EXT : Nat) : Int)
        e_ram_seek_origin_t.RAM_SEEK_ORIGIN_CURRENT (cursor_at (p + 1 + 1)) =
        some (cursor_at 16) := by
      rw [hm, ram_seek_bank_current_target r (by omega)]
      have hidx : (p + 1 + 1 + 18) / 32768 % 16 = 0 := by omega
      have hoff : (p + 1 + 1 + 18) % 32768 = 16 := by omega
      obtain ⟨bytes, hbytes⟩ := hr.bank_some (show 0 < r.number_of_banks by omega)
      have hsize := hr.size_some (show 0 < r.number_of_banks by omega)
      rw [hidx, hoff]
      simp only [hbytes, hsize]
      rfl
    exact zsm_update_body_ext hr (g := sample_player r p 0 0) rfl rfl (by omega) hc he hseek
  · rw [if_neg hp]
    have hc : ram_deref r (cursor_at p).p_current = some ZSM_CMD_EXT :=
      ram_deref_of_getElem? h (sample_wrap_file_filler hlo (by omega)) (by omega)
    have he : ram_deref r (cursor_at (p + 1)).p_current = some 0x40 :=
      ram_deref_of_getElem? h (sample_wrap_file_filler (by omega) (by omega)) (by omega)
    have hm : 0x40 &&& ZSM_MASK_CMD_DATA_EXT = 0 := by decide
    have hseek : ram_seek_bank r ((0x40 &&& ZSM_MASK_CMD_DATA_EXT : Nat) : Int)
        e_ram_seek_origin_t.RAM_SEEK_ORIGIN_CURRENT (cursor_at (p + 1 + 1)) =
        some (cursor_at (p + 2)) := by
      rw [hm, ram_seek_bank_current hr ((0 : Nat) : Int) (by omega) (by omega) (by omega)]
      congr 2
    exact zsm_update_body_ext hr (g := sample_player r p 0 0) rfl rfl (by omega) hc he hseek

/-- The command loop on the store loaded from `sample_wrap_file` is never
left: after any number of iterations the player is still playing with no
delay, the cursor at an even position. -/
theorem sample_wrap_never_halts {r : ram}
    (h : ram_load_file (some sample_wrap_file) = (e_ram_result_t.RAM_LOAD_SUCCESS, some r))
    (hnb : r.number_of_banks = 16) (n : Nat) {p : Nat} (hlo : 16 ≤ p) (hhi : p ≤ 524284)
    (heven : p % 2 = 0) :
    zsm_update_loop_halts n (sample_player r p 0 0) = false := by
  induction n generalizing p with
  | zero => rfl
  | succ n ih =>
    unfold zsm_update_loop_halts
    rw [if_pos ⟨rfl, rfl⟩, sample_wrap_step h hnb hlo hhi heven]
    simp only
    by_cases hp : p = 524284
    · rw [if_pos hp]
      exact ih (by omega) (by omega) (by omega)
    · rw [if_neg hp]
      exact ih (by omega) (by omega) (by omega)

/-! ## Lemmas on the extension command at the end of the store -/

/-- One iteration of the command loop on an extension command, by the advance
past the operand and the Current-origin seek. -/
theorem zsm_update_body_ext_eq {r : ram} (hr : ram_wf r) {g : zsm_globals} {p e : Nat}
    (hhandle : g.g_p_zsm_ram_handle = some r) (hcur : g.g_ram_bank = cursor_at p)
    (hp : p + 1 < r.number_of_banks * 32768)
    (hc : ram_deref r (cursor_at p).p_current = some ZSM_CMD_EXT)
    (he : ram_deref r (cursor_at (p + 1)).p_current = some e) :
    zsm_update_body g =
      (RAM_UPDATE_POS r (cursor_at (p + 1))).bind (fun bank2 =>
        (ram_seek_bank r ((e &&& ZSM_MASK_CMD_DATA_EXT : Nat) : Int)
          e_ram_seek_origin_t.RAM_SEEK_ORIGIN_CURRENT bank2).map (fun bank3 =>
            { g with g_ram_bank := bank3 })) := by
  unfold zsm_update_body
  rw [hhandle]
  simp only [hcur, hc, Option.some_bind, RAM_UPDATE_POS_cursor_at hr hp, he, if_true]

/-- On a store of 16 banks a Current-origin seek whose target is at or past
the end of the store binds the cursor to the target minus the size of the
store: the bank index is masked to 4 bits. -/
theorem ram_seek_bank_current_wrap {r : ram} (hr : ram_wf r) (hnb : r.number_of_banks = 16)
    {q d : Nat} (hq : q < 524288) (hd : d < 32768) (ht : 524288 ≤ q + d) :
    ram_seek_bank r (d : Int) e_ram_seek_origin_t.RAM_SEEK_ORIGIN_CURRENT (cursor_at q) =
      some (cursor_at (q + d - 524288)) := by
  rw [ram_seek_bank_current_target r (by omega)]
  have hidx : (q + d) / 32768 % 16 = 0 := by omega
  have hoff : (q + d) % 32768 = q + d - 524288 := by omega
  obtain ⟨bytes, hbytes⟩ := hr.bank_some (show 0 < r.number_of_banks by omega)
  have hsize := hr.size_some (show 0 < r.number_of_banks by omega)
  rw [hidx, hoff]
  simp only [hbytes, hsize]
  unfold cursor_at
  have h1 : (q + d - 524288) / 32768 = 0 := by omega
  have h2 : (q + d - 524288) % 32768 = q + d - 524288 := by omega
  rw [h1, h2]

theorem RAM_UPDATE_POS_cursor_at_last {r : ram} (hr : ram_wf r) {p : Nat}
    (hp : p < r.number_of_banks * 32768) (hlast : r.number_of_banks * 32768 ≤ p + 1) :
    RAM_UPDATE_POS r (cursor_at p) = none := by
  cases h : RAM_UPDATE_POS r (cursor_at p) with
  | none => rfl
  | some next =>
    have := (RAM_UPDATE_POS_cursor_at_elim hr hp h).1
    omega

theorem ram_seek_bank_current_past_end {r : ram} (hr : ram_wf r)
    (hbanks : r.number_of_banks ≤ 15) {q d : Nat}
    (hq : q < r.number_of_banks * 32768) (hd : d < 32768)
    (ht : r.number_of_banks * 32768 ≤ q + d) :
    ram_seek_bank r (d : Int) e_ram_seek_origin_t.RAM_SEEK_ORIGIN_CURRENT (cursor_at q) =
      none := by
  cases h : ram_seek_bank r (d : Int) e_ram_seek_origin_t.RAM_SEEK_ORIGIN_CURRENT
      (cursor_at q) with
  | none => rfl
  | some next =>
    have := (ram_seek_bank_current_elim hr hbanks hq hd h).1
    omega

/-! ## Claims on the paged store -/

/-- C2: for every input that loads with success and spans at most 16 pages of
32768 bytes, and every offset `o` below its size, `ram_get_address` names
page `(o >> 15) & 0xF` at in-page offset `o & 0x7FFF`, and the byte there is
the `o`-th byte of the input, the size being a multiple of the page size or
not. -/
theorem C2_get_address_reads_input (bytes : List (Fin 256)) (r : ram) (o : Nat)
    (hload : ram_load_file (some bytes) = (e_ram_result_t.RAM_LOAD_SUCCESS, some r))
    (hpages : bytes.length ≤ RAM_BANK_MAX_BANKS * RAM_BANK_SIZE)
    (ho : o < bytes.length) :
    ram_get_address r o = some (pointer.loc ((o >>> 15) &&& 0xF) (o &&& 0x7FFF)) ∧
    (ram_get_address r o).bind (ram_deref r) = some (bytes[o]).val := by
  have hcov := ram_load_file_covers hload hpages
  have hnb : o < r.number_of_banks * 32768 := by omega
  have h16 := (ram_load_file_wf hload).banks_le
  constructor
  · rw [ram_get_address_wf (ram_load_file_wf hload) hnb]
    have h1 := shift_index_mask o
    have h2 := and_offset_mask o
    have e1 : RAM_BANK_SHIFT = 15 := by decide
    have e2 : RAM_BANK_INDEX_MASK = 0xF := by decide
    have e3 : RAM_BANK_OFFSET_MASK = 0x7FFF := by decide
    rw [e1, e2] at h1
    rw [e3] at h2
    rw [h1, h2]
    have hmod : o / 32768 % 16 = o / 32768 := by omega
    rw [hmod]
  · exact ram_byte_at_loaded hload ho hnb

theorem C2_get_address_reads_input_witness :
    ram_load_file (some sample_small_file) =
      (e_ram_result_t.RAM_LOAD_SUCCESS, some sample_small_store) ∧
    ram_get_address sample_small_store 2 =
      some (pointer.loc ((2 >>> 15) &&& 0xF) (2 &&& 0x7FFF)) ∧
    (ram_get_address sample_small_store 2).bind (ram_deref sample_small_store) = some 3 :=
  ⟨by decide,
   C2_get_address_reads_input sample_small_file sample_small_store 2
     (by decide) (by decide) (by decide)⟩

/-- C3, as stated, fails: a file of exactly 32768 bytes loads into one bank,
and the 32768-th read-and-advance from offset 0 steps the cursor to bank 1,
which `pp_banks` does not have, so the run of 32768 read-and-advance steps has
no defined result. -/
theorem C3_counterexample_full_bank :
    ram_load_file (some sample_full_bank_file) =
      (e_ram_result_t.RAM_LOAD_SUCCESS, some sample_full_bank_store) ∧
    sample_full_bank_file.length = 32768 ∧
    (ram_seek_bank sample_full_bank_store ((0 : Nat) : Int)
        e_ram_seek_origin_t.RAM_SEEK_ORIGIN_SET zsm_globals_initial.g_ram_bank).bind
      (ram_read_n sample_full_bank_store 32768) = none := by
  have hr := ram_load_file_wf sample_full_bank_loaded
  have hbanks : sample_full_bank_store.number_of_banks * 32768 = 32768 := rfl
  refine ⟨sample_full_bank_loaded, List.length_replicate 32768 0, ?_⟩
  rw [ram_seek_bank_set hr (p := 0) (by omega), Option.some_bind]
  exact ram_read_n_past_end hr 32767 0 (by omega)

/-- C3, amended: for every loaded input of `S` bytes spanning at most 16
pages, and every `n < S`, `n` read-and-advance steps from the cursor
Set-seeked to offset 0 return the input bytes `0..n-1` in order and leave the
cursor where a Set-seek to `n` puts it, also across page boundaries; the byte
under that cursor is the `n`-th input byte, which is the byte at
`ram_get_address(store, n)`. When `S` is not a multiple of the page size, all
`S` read-and-advance steps are defined and return the whole input. -/
theorem C3_sequential_reads (bytes : List (Fin 256)) (r : ram) (c0 : ram_bank_t)
    (hload : ram_load_file (some bytes) = (e_ram_result_t.RAM_LOAD_SUCCESS, some r))
    (hpages : bytes.length ≤ RAM_BANK_MAX_BANKS * RAM_BANK_SIZE) :
    (∀ n (hn : n < bytes.length), ∃ cursor,
      (ram_seek_bank r ((0 : Nat) : Int) e_ram_seek_origin_t.RAM_SEEK_ORIGIN_SET c0).bind
        (ram_read_n r n) = some ((bytes.take n).map Fin.val, cursor) ∧
      ram_seek_bank r (n : Int) e_ram_seek_origin_t.RAM_SEEK_ORIGIN_SET c0 = some cursor ∧
      ram_deref r cursor.p_current = some (bytes[n]).val ∧
      (ram_get_address r n).bind (ram_deref r) = some (bytes[n]).val) ∧
    (bytes.length % RAM_BANK_SIZE ≠ 0 → ∃ cursor,
      (ram_seek_bank r ((0 : Nat) : Int) e_ram_seek_origin_t.RAM_SEEK_ORIGIN_SET c0).bind
        (ram_read_n r bytes.length) = some (bytes.map Fin.val, cursor)) := by
  have hr := ram_load_file_wf hload
  have hcov := ram_load_file_covers hload hpages
  have hpos := hr.banks_pos
  have hseek0 := ram_seek_bank_set hr (p := 0) (by omega) c0
  constructor
  · intro n hn
    have hnb : n < r.number_of_banks * 32768 := by omega
    refine ⟨cursor_at n, ?_, ram_seek_bank_set hr hnb c0, ram_deref_loaded hload hn hnb,
      ram_byte_at_loaded hload hn hnb⟩
    rw [hseek0]
    have h := ram_read_n_cursor_at hload n 0 (by omega) (by omega)
    simpa using h
  · intro hmod
    rw [bank_size_eq] at hmod
    obtain ⟨hn, _, _, _, _⟩ := ram_load_file_success hload
    rw [max_banks_eq, bank_size_eq] at hpages
    rw [alloc_number_of_banks_small _ hpages] at hn
    refine ⟨cursor_at bytes.length, ?_⟩
    rw [hseek0]
    have h := ram_read_n_cursor_at hload bytes.length 0 (by omega) (by omega)
    simpa using h

theorem C3_sequential_reads_witness :
    ram_load_file (some sample_small_file) =
      (e_ram_result_t.RAM_LOAD_SUCCESS, some sample_small_store) ∧
    sample_small_file.length % RAM_BANK_SIZE ≠ 0 ∧
    ∃ cursor,
      (ram_seek_bank sample_small_store ((0 : Nat) : Int)
          e_ram_seek_origin_t.RAM_SEEK_ORIGIN_SET zsm_globals_initial.g_ram_bank).bind
        (ram_read_n sample_small_store sample_small_file.length) =
      some (sample_small_file.map Fin.val, cursor) :=
  ⟨by decide, by decide,
   (C3_sequential_reads sample_small_file sample_small_store zsm_globals_initial.g_ram_bank
      (by decide) (by decide)).2 (by decide)⟩

/-! ## Claims on the commands of the interpreter

`zsm_update_body` is one iteration of the command loop of `zsm_update`: what
a tick does each time it decodes a command. A cursor is at absolute position
`p` when it is the cursor that a Set-seek to `p` yields. -/

/-- C4: when the command loop decodes a byte `c` in `0x00..0x3F` at position
`p`, followed by byte `d`, it calls the PSG writer once with `(c & 0x3F, d)`,
calls no FM writer, leaves the cursor at `p + 2` and leaves every other
variable (delay, repeat counter, playing flag) as it was. -/
theorem C4_psg_write (bytes : List (Fin 256)) (r : ram) (g : zsm_globals) (c0 : ram_bank_t)
    (p c d : Nat)
    (hload : ram_load_file (some bytes) = (e_ram_result_t.RAM_LOAD_SUCCESS, some r))
    (hhandle : g.g_p_zsm_ram_handle = some r)
    (hcursor : ram_seek_bank r (p : Int) e_ram_seek_origin_t.RAM_SEEK_ORIGIN_SET c0 =
      some g.g_ram_bank)
    (hp : p + 2 < r.number_of_banks * RAM_BANK_SIZE)
    (hc : ram_byte_at r p = some c) (hrange : c ≤ 0x3F)
    (hd : ram_byte_at r (p + 1) = some d) :
    ∃ cursor,
      ram_seek_bank r ((p + 2 : Nat) : Int) e_ram_seek_origin_t.RAM_SEEK_ORIGIN_SET c0 =
        some cursor ∧
      zsm_update_body g =
        some { g with
          g_ram_bank := cursor,
          calls := g.calls ++
            [write_call.vera_psg g.g_p_vera_psg_write_func (c &&& 0x3F) d] } := by
  have hr := ram_load_file_wf hload
  rw [bank_size_eq] at hp
  have hcur := cursor_of_seek hr (by omega) hcursor
  refine ⟨cursor_at (p + 2), ram_seek_bank_set hr (by omega) c0, ?_⟩
  rw [ram_byte_at_wf hr (by omega)] at hc hd
  unfold zsm_update_body
  rw [hhandle]
  simp only [hcur, hc, Option.bind, RAM_UPDATE_POS_cursor_at hr (show p + 1 < _ by omega), hd,
    RAM_UPDATE_POS_cursor_at hr (show p + 1 + 1 < _ by omega)]
  have h1 : c ≠ ZSM_CMD_EXT := by unfold ZSM_CMD_EXT; omega
  have h2 : c ≠ ZSM_CMD_EOF := by unfold ZSM_CMD_EOF; omega
  have h3 : c < ZSM_CMD_EXT := by unfold ZSM_CMD_EXT; omega
  simp only [if_neg h1, if_neg h2, if_pos h3, Option.map]
  rfl

theorem C4_psg_write_witness :
    ∃ cursor,
      ram_seek_bank sample_loop_store ((16 + 2 : Nat) : Int)
        e_ram_seek_origin_t.RAM_SEEK_ORIGIN_SET zsm_globals_initial.g_ram_bank = some cursor ∧
      zsm_update_body (sample_player sample_loop_store 16 0 0) =
        some { sample_player sample_loop_store 16 0 0 with
          g_ram_bank := cursor,
          calls := (sample_player sample_loop_store 16 0 0).calls ++
            [write_call.vera_psg (vera_psg_write_func_t.func 7) (0x05 &&& 0x3F) 0x3F] } :=
  C4_psg_write sample_loop_file sample_loop_store (sample_player sample_loop_store 16 0 0)
    zsm_globals_initial.g_ram_bank 16 0x05 0x3F
    (by decide) rfl (by decide) (by decide) (by decide) (by decide) (by decide)

/-- C5: when the command loop decodes a byte `c` in `0x41..0x7F` at position
`p`, with `n = c & 0x3F` and the following bytes `a1, d1, ..., an, dn`, it
calls the FM writer `n` times, with `(a1, d1), ..., (an, dn)` in stream order,
calls no PSG writer and leaves the cursor at `p + 1 + 2n`; nothing else
changes. -/
theorem C5_fm_write (bytes : List (Fin 256)) (r : ram) (g : zsm_globals) (c0 : ram_bank_t)
    (p c : Nat) (pairs : List (Nat × Nat))
    (hload : ram_load_file (some bytes) = (e_ram_result_t.RAM_LOAD_SUCCESS, some r))
    (hhandle : g.g_p_zsm_ram_handle = some r)
    (hcursor : ram_seek_bank r (p : Int) e_ram_seek_origin_t.RAM_SEEK_ORIGIN_SET c0 =
      some g.g_ram_bank)
    (hc : ram_byte_at r p = some c) (hrange : 0x41 ≤ c ∧ c ≤ 0x7F)
    (hn : pairs.length = c &&& 0x3F)
    (hp : p + 1 + 2 * pairs.length < r.number_of_banks * RAM_BANK_SIZE)
    (hpairs : ∀ i (hi : i < pairs.length),
      ram_byte_at r (p + 1 + 2 * i) = some (pairs[i]).1 ∧
      ram_byte_at r (p + 1 + 2 * i + 1) = some (pairs[i]).2) :
    1 ≤ pairs.length ∧ pairs.length ≤ 63 ∧
    ∃ cursor,
      ram_seek_bank r ((p + 1 + 2 * pairs.length : Nat) : Int)
        e_ram_seek_origin_t.RAM_SEEK_ORIGIN_SET c0 = some cursor ∧
      zsm_update_body g =
        some { g with
          g_ram_bank := cursor,
          calls := g.calls ++
            pairs.map (fun ad => write_call.ym2151 g.g_p_ym2151_write_func ad.1 ad.2) } := by
  have hr := ram_load_file_wf hload
  rw [bank_size_eq] at hp
  have hcur := cursor_of_seek hr (by omega) hcursor
  have hmask : c &&& 0x3F = c % 64 := Nat.and_pow_two_sub_one_eq_mod c 6
  refine ⟨by omega, by omega,
    cursor_at (p + 1 + 2 * pairs.length), ram_seek_bank_set hr (by omega) c0, ?_⟩
  rw [ram_byte_at_wf hr (by omega)] at hc
  unfold zsm_update_body
  rw [hhandle]
  simp only [hcur, hc, Option.bind, RAM_UPDATE_POS_cursor_at hr (show p + 1 < _ by omega)]
  have h1 : c ≠ ZSM_CMD_EXT := by unfold ZSM_CMD_EXT; omega
  have h2 : c ≠ ZSM_CMD_EOF := by unfold ZSM_CMD_EOF; omega
  have h3 : ¬ c < ZSM_CMD_EXT := by unfold ZSM_CMD_EXT; omega
  have h4 : c < ZSM_CMD_EOF := by unfold ZSM_CMD_EOF; omega
  have h5 : c &&& ZSM_MASK_CMD_DATA_FM_PAIRS = pairs.length := hn.symm
  simp only [if_neg h1, if_neg h2, if_neg h3, if_pos h4, h5]
  rw [zsm_fm_write_loop_pairs hr pairs _ (p + 1) rfl hp hpairs]

theorem C5_fm_write_witness :
    1 ≤ [(0x20, 0xC7), (0x28, 0x4A)].length ∧ [(0x20, 0xC7), (0x28, 0x4A)].length ≤ 63 ∧
    ∃ cursor,
      ram_seek_bank sample_loop_store ((18 + 1 + 2 * [(0x20, 0xC7), (0x28, 0x4A)].length : Nat) : Int)
        e_ram_seek_origin_t.RAM_SEEK_ORIGIN_SET zsm_globals_initial.g_ram_bank = some cursor ∧
      zsm_update_body (sample_player sample_loop_store 18 0 0) =
        some { sample_player sample_loop_store 18 0 0 with
          g_ram_bank := cursor,
          calls := (sample_player sample_loop_store 18 0 0).calls ++
            [(0x20, 0xC7), (0x28, 0x4A)].map (fun ad =>
              write_call.ym2151 (ym2151_write_func_t.func 9) ad.1 ad.2) } :=
  C5_fm_write sample_loop_file sample_loop_store (sample_player sample_loop_store 18 0 0)
    zsm_globals_initial.g_ram_bank 18 0x42 [(0x20, 0xC7), (0x28, 0x4A)]
    (by decide) rfl (by decide) (by decide) (by decide) (by decide) (by decide) (by decide)

/-- Counterexample to C10: on the store of 16 banks loaded from
`sample_wrap_file` the extension command at position 524284 has operand
`0x52`, so `p + 2 + (e & 0x3F)` is 524304; the iteration calls no writer and
leaves the cursor in bank 0 at offset 16, where a Set-seek to 16 puts it:
behind position 524284. -/
theorem C10_counterexample_skip_moves_back :
    ∃ r g1, ram_load_file (some sample_wrap_file) = (e_ram_result_t.RAM_LOAD_SUCCESS, some r) ∧
      ram_byte_at r 524284 = some ZSM_CMD_EXT ∧ ram_byte_at r (524284 + 1) = some 0x52 ∧
      ram_seek_bank r (524284 : Int) e_ram_seek_origin_t.RAM_SEEK_ORIGIN_SET
        zsm_globals_initial.g_ram_bank = some (sample_player r 524284 0 0).g_ram_bank ∧
      524284 + 2 + (0x52 &&& 0x3F) = 524304 ∧
      zsm_update_body (sample_player r 524284 0 0) = some g1 ∧
      g1.calls = (sample_player r 524284 0 0).calls ∧
      ram_seek_bank r (16 : Int) e_ram_seek_origin_t.RAM_SEEK_ORIGIN_SET
        zsm_globals_initial.g_ram_bank = some g1.g_ram_bank ∧
      g1.g_ram_bank.bank = 0 ∧
      pointer_diff g1.g_ram_bank.p_current g1.g_ram_bank.p_start = some 16 ∧
      g1.g_ram_bank.bank <<< RAM_BANK_SHIFT + 16 < 524284 := by
  obtain ⟨r, hload, hnb⟩ := ram_load_file_small sample_wrap_file
    (by rw [sample_wrap_file_length]; omega) (by rw [sample_wrap_file_length])
  rw [sample_wrap_file_length] at hnb
  have hnb16 : r.number_of_banks = 16 := hnb
  have hr := ram_load_file_wf hload
  have hstep := sample_wrap_step hload hnb16 (p := 524284) (by omega) (by omega) (by omega)
  rw [if_pos rfl] at hstep
  refine ⟨r, sample_player r 16 0 0, hload, ?_, ?_, ?_, by decide, hstep, rfl, ?_, rfl,
    ?_, ?_⟩
  · rw [ram_byte_at_wf hr (by omega)]
    exact ram_deref_of_getElem? hload (sample_wrap_file_tail 0) (by omega)
  · rw [ram_byte_at_wf hr (by omega)]
    exact ram_deref_of_getElem? hload (sample_wrap_file_tail 1) (by omega)
  · exact ram_seek_bank_set hr (p := 524284) (by omega) _
  · exact ram_seek_bank_set hr (p := 16) (by omega) _
  · exact (cursor_at_position 16).1
  · show (cursor_at 16).bank <<< RAM_BANK_SHIFT + 16 < 524284
    decide

/-- C10 (amended): when the command loop decodes the extension command `0x40`
at position `p`, followed by byte `e` inside the store, the delta handed to
the Current-origin seek is `e & 0x3F`, in `0..63`, and with
`t = p + 2 + (e & 0x3F)`: when `t` is inside the store the iteration calls no
writer and leaves the cursor at `t`, also when `t` is in a later page, and
nothing else changes; when `t` is at or past the end of the store, the
iteration is undefined on a store of at most 15 banks and when the operand is
the last byte of the store, and otherwise, on a store of 16 banks, it calls
no writer and leaves the cursor at `t - 524288`, in bank 0 and behind `p`. -/
theorem C10_extension_skip (bytes : List (Fin 256)) (r : ram) (g : zsm_globals)
    (c0 : ram_bank_t) (p e : Nat)
    (hload : ram_load_file (some bytes) = (e_ram_result_t.RAM_LOAD_SUCCESS, some r))
    (hhandle : g.g_p_zsm_ram_handle = some r)
    (hcursor : ram_seek_bank r (p : Int) e_ram_seek_origin_t.RAM_SEEK_ORIGIN_SET c0 =
      some g.g_ram_bank)
    (hc : ram_byte_at r p = some ZSM_CMD_EXT)
    (he : ram_byte_at r (p + 1) = some e)
    (hp : p + 1 < r.number_of_banks * RAM_BANK_SIZE) :
    e &&& 0x3F ≤ 63 ∧
    (p + 2 + (e &&& 0x3F) < r.number_of_banks * RAM_BANK_SIZE →
      ∃ after_operand cursor,
        ram_seek_bank r ((p + 2 : Nat) : Int) e_ram_seek_origin_t.RAM_SEEK_ORIGIN_SET c0 =
          some after_operand ∧
        ram_seek_bank r ((e &&& 0x3F : Nat) : Int) e_ram_seek_origin_t.RAM_SEEK_ORIGIN_CURRENT
          after_operand = some cursor ∧
        ram_seek_bank r ((p + 2 + (e &&& 0x3F) : Nat) : Int)
          e_ram_seek_origin_t.RAM_SEEK_ORIGIN_SET c0 = some cursor ∧
        zsm_update_body g = some { g with g_ram_bank := cursor }) ∧
    (r.number_of_banks * RAM_BANK_SIZE ≤ p + 2 + (e &&& 0x3F) →
      r.number_of_banks ≤ 15 ∨ r.number_of_banks * RAM_BANK_SIZE ≤ p + 2 →
      zsm_update_body g = none) ∧
    (r.number_of_banks * RAM_BANK_SIZE ≤ p + 2 + (e &&& 0x3F) →
      r.number_of_banks = 16 → p + 2 < r.number_of_banks * RAM_BANK_SIZE →
      p + 2 + (e &&& 0x3F) - 524288 < p ∧
      ∃ after_operand cursor,
        ram_seek_bank r ((p + 2 : Nat) : Int) e_ram_seek_origin_t.RAM_SEEK_ORIGIN_SET c0 =
          some after_operand ∧
        ram_seek_bank r ((e &&& 0x3F : Nat) : Int) e_ram_seek_origin_t.RAM_SEEK_ORIGIN_CURRENT
          after_operand = some cursor ∧
        ram_seek_bank r ((p + 2 + (e &&& 0x3F) - 524288 : Nat) : Int)
          e_ram_seek_origin_t.RAM_SEEK_ORIGIN_SET c0 = some cursor ∧
        cursor.bank = 0 ∧
        zsm_update_body g = some { g with g_ram_bank := cursor }) := by
  have hr := ram_load_file_wf hload
  rw [bank_size_eq] at hp ⊢
  have hcur := cursor_of_seek hr (by omega) hcursor
  have hmask : e &&& 0x3F = e % 64 := Nat.and_pow_two_sub_one_eq_mod e 6
  have hmask2 : e &&& ZSM_MASK_CMD_DATA_EXT = e &&& 0x3F := rfl
  rw [ram_byte_at_wf hr (by omega)] at hc he
  have hbody := zsm_update_body_ext_eq hr hhandle hcur hp hc he
  rw [hmask2] at hbody
  refine ⟨by omega, ?_, ?_, ?_⟩
  · intro ht
    have hseek : ram_seek_bank r ((e &&& 0x3F : Nat) : Int)
        e_ram_seek_origin_t.RAM_SEEK_ORIGIN_CURRENT (cursor_at (p + 2)) =
        some (cursor_at (p + 2 + (e &&& 0x3F))) := by
      have h := ram_seek_bank_current hr (q := p + 2) ((e &&& 0x3F : Nat) : Int)
        (by omega) (by omega) (by push_cast; omega)
      rw [h]
      congr 2
    refine ⟨cursor_at (p + 2), cursor_at (p + 2 + (e &&& 0x3F)),
      ram_seek_bank_set hr (by omega) c0, hseek, ram_seek_bank_set hr (by omega) c0, ?_⟩
    rw [hbody, RAM_UPDATE_POS_cursor_at hr (show p + 1 + 1 < _ by omega), Option.some_bind]
    have hseek2 : ram_seek_bank r ((e &&& 0x3F : Nat) : Int)
        e_ram_seek_origin_t.RAM_SEEK_ORIGIN_CURRENT (cursor_at (p + 1 + 1)) =
        some (cursor_at (p + 2 + (e &&& 0x3F))) := hseek
    rw [hseek2]
    rfl
  · intro ht hcase
    by_cases hp2 : p + 2 < r.number_of_banks * 32768
    · have hb15 : r.number_of_banks ≤ 15 := by
        rcases hcase with h15 | hend
        · exact h15
        · omega
      rw [hbody, RAM_UPDATE_POS_cursor_at hr (show p + 1 + 1 < _ by omega), Option.some_bind,
        ram_seek_bank_current_past_end hr hb15 (show p + 1 + 1 < _ by omega) (by omega)
          (by omega)]
      rfl
    · rw [hbody, RAM_UPDATE_POS_cursor_at_last hr hp (by omega)]
      rfl
  · intro ht hnb hp2
    rw [hnb] at ht hp2
    have hseek : ram_seek_bank r ((e &&& 0x3F : Nat) : Int)
        e_ram_seek_origin_t.RAM_SEEK_ORIGIN_CURRENT (cursor_at (p + 2)) =
        some (cursor_at (p + 2 + (e &&& 0x3F) - 524288)) :=
      ram_seek_bank_current_wrap hr hnb (by omega) (by omega) (by omega)
    refine ⟨by omega, cursor_at (p + 2), cursor_at (p + 2 + (e &&& 0x3F) - 524288),
      ram_seek_bank_set hr (by omega) c0, hseek, ram_seek_bank_set hr (by omega) c0, ?_, ?_⟩
    · show (p + 2 + (e &&& 0x3F) - 524288) / 32768 = 0
      omega
    · rw [hbody, RAM_UPDATE_POS_cursor_at hr (show p + 1 + 1 < _ by omega), Option.some_bind]
      have hseek2 : ram_seek_bank r ((e &&& 0x3F : Nat) : Int)
          e_ram_seek_origin_t.RAM_SEEK_ORIGIN_CURRENT (cursor_at (p + 1 + 1)) =
          some (cursor_at (p + 2 + (e &&& 0x3F) - 524288)) := hseek
      rw [hseek2]
      rfl

/-- Witness for C10: the extension command of the sample loop stream at
position 23, operand 2, target 27 inside the one bank. -/
theorem C10_extension_skip_witness :
    0x02 &&& 0x3F ≤ 63 ∧
    ∃ after_operand cursor,
      ram_seek_bank sample_loop_store ((23 + 2 : Nat) : Int)
        e_ram_seek_origin_t.RAM_SEEK_ORIGIN_SET zsm_globals_initial.g_ram_bank =
        some after_operand ∧
      ram_seek_bank sample_loop_store ((0x02 &&& 0x3F : Nat) : Int)
        e_ram_seek_origin_t.RAM_SEEK_ORIGIN_CURRENT after_operand = some cursor ∧
      ram_seek_bank sample_loop_store ((23 + 2 + (0x02 &&& 0x3F) : Nat) : Int)
        e_ram_seek_origin_t.RAM_SEEK_ORIGIN_SET zsm_globals_initial.g_ram_bank = some cursor ∧
      zsm_update_body (sample_player sample_loop_store 23 0 0) =
        some { sample_player sample_loop_store 23 0 0 with g_ram_bank := cursor } :=
  ⟨(C10_extension_skip sample_loop_file sample_loop_store
      (sample_player sample_loop_store 23 0 0) zsm_globals_initial.g_ram_bank 23 0x02
      (by decide) rfl (by decide) (by decide) (by decide) (by decide)).1,
    (C10_extension_skip sample_loop_file sample_loop_store
      (sample_player sample_loop_store 23 0 0) zsm_globals_initial.g_ram_bank 23 0x02
      (by decide) rfl (by decide) (by decide) (by decide) (by decide)).2.1 (by decide)⟩

/-! ## Claims on end of stream and repeats

`zsm_run g0 k g` says that the player goes from `g0` to `g` by steps of
`zsm_update` alone and decodes `k` EOF commands on the way; the states that
calls of `zsm_update` produce are such runs (`zsm_update_n_run`). -/

/-- C9: when the command loop decodes EOF (`0x80`) at position `p` and either
no repeat is left or the loop point of the header has address 0 and bank 0,
the player stops: the playing flag becomes false and the delay 0, the cursor
is left just after the EOF byte (no seek), and the repeat counter and every
other variable keep their values. After `zsm_start(0)` no repeat is ever
left, so the first EOF stops the player whatever the loop point; with a zero
loop point the first EOF stops it whatever the repeat request. -/
theorem C9_eof_stops (bytes : List (Fin 256)) (r : ram) (g : zsm_globals) (c0 : ram_bank_t)
    (p : Nat)
    (hload : ram_load_file (some bytes) = (e_ram_result_t.RAM_LOAD_SUCCESS, some r))
    (hhandle : g.g_p_zsm_ram_handle = some r)
    (hcursor : ram_seek_bank r (p : Int) e_ram_seek_origin_t.RAM_SEEK_ORIGIN_SET c0 =
      some g.g_ram_bank)
    (hp : p + 1 < r.number_of_banks * RAM_BANK_SIZE)
    (hc : ram_byte_at r p = some ZSM_CMD_EOF)
    (hcase : g.g_repeat_count = 0 ∨
      (zsm_header_loop_point_address r = some 0 ∧ zsm_header_loop_point_bank r = some 0)) :
    (∃ after_eof,
      ram_seek_bank r ((p + 1 : Nat) : Int) e_ram_seek_origin_t.RAM_SEEK_ORIGIN_SET c0 =
        some after_eof ∧
      zsm_update_body g =
        some { g with g_ram_bank := after_eof, g_play_stream := false, g_delay_ticks := 0 }) ∧
    (∀ g0 k g1, zsm_run (zsm_start 0 g0) k g1 → g1.g_repeat_count = 0) := by
  have hr := ram_load_file_wf hload
  rw [bank_size_eq] at hp
  have hcur := cursor_of_seek hr (by omega) hcursor
  refine ⟨⟨cursor_at (p + 1), ram_seek_bank_set hr (by omega) c0, ?_⟩, zsm_run_play_once⟩
  rw [zsm_update_body_eof hr hhandle hcur hp hc]
  rcases hcase with h0 | hz
  · exact zsm_cmd_eof_stop_count hr _ h0
  · exact zsm_cmd_eof_stop_no_loop hr _ hz.1 hz.2

theorem C9_eof_stops_witness :
    (∃ after_eof,
      ram_seek_bank sample_stream_store ((19 + 1 : Nat) : Int)
        e_ram_seek_origin_t.RAM_SEEK_ORIGIN_SET zsm_globals_initial.g_ram_bank =
        some after_eof ∧
      zsm_update_body (sample_player sample_stream_store 19 0x8000 255) =
        some { sample_player sample_stream_store 19 0x8000 255 with
          g_ram_bank := after_eof, g_play_stream := false, g_delay_ticks := 0 }) ∧
    (∀ g0 k g1, zsm_run (zsm_start 0 g0) k g1 → g1.g_repeat_count = 0) :=
  C9_eof_stops sample_stream_file sample_stream_store
    (sample_player sample_stream_store 19 0x8000 255) zsm_globals_initial.g_ram_bank 19
    (by decide) rfl (by decide) (by decide) (by decide) (Or.inr (by decide))

/-- C7: for every value `rs` given to `zsm_start` with bit 15 clear, with
repeat count `n = rs & 0xFF` (in particular `rs = n` for `n` in `1..255`),
and every header with a non-zero loop point: `zsm_start` leaves `n` repeats; in every
state reached after `k <= n` EOF commands the player is playing with `n - k`
repeats left, and after `n + 1` EOF commands it has stopped; an EOF decoded
after `k < n` earlier ones seeks (origin Set) to
`(loopBank << 16) | loopAddress`, takes one repeat off and leaves the player
playing; the EOF decoded after `n` earlier ones finds no repeat left and
stops the player. Every state that calls of `zsm_update` produce is such a
run. -/
theorem C7_repeat_count (bytes : List (Fin 256)) (r : ram) (g0 : zsm_globals) (rs a b : Nat)
    (hload : ram_load_file (some bytes) = (e_ram_result_t.RAM_LOAD_SUCCESS, some r))
    (hhandle : g0.g_p_zsm_ram_handle = some r)
    (hbit : rs &&& ZSM_REPEAT_FOREVER = 0)
    (ha : zsm_header_loop_point_address r = some a)
    (hb : zsm_header_loop_point_bank r = some b) (hnz : a ≠ 0 ∨ b ≠ 0) :
    rs &&& ZSM_REPEAT_COUNT_MASK ≤ 255 ∧
    (zsm_start rs g0).g_repeat_count = rs &&& ZSM_REPEAT_COUNT_MASK ∧
    (∀ fuel t g, zsm_update_n fuel t (zsm_start rs g0) = some g →
      ∃ k, zsm_run (zsm_start rs g0) k g) ∧
    ∀ k g, zsm_run (zsm_start rs g0) k g →
      ((k ≤ rs &&& ZSM_REPEAT_COUNT_MASK ∧
          g.g_repeat_count = (rs &&& ZSM_REPEAT_COUNT_MASK) - k ∧ g.g_play_stream = true) ∨
       (k = (rs &&& ZSM_REPEAT_COUNT_MASK) + 1 ∧ g.g_repeat_count = 0 ∧
          g.g_play_stream = false)) ∧
      ∀ (c0 : ram_bank_t) (p : Nat),
        ram_seek_bank r (p : Int) e_ram_seek_origin_t.RAM_SEEK_ORIGIN_SET c0 =
          some g.g_ram_bank →
        p + 1 < r.number_of_banks * RAM_BANK_SIZE →
        ram_byte_at r p = some ZSM_CMD_EOF →
        (k < rs &&& ZSM_REPEAT_COUNT_MASK → ∀ target,
          ram_seek_bank r (((b <<< 16) ||| a : Nat) : Int)
            e_ram_seek_origin_t.RAM_SEEK_ORIGIN_SET c0 = some target →
          zsm_update_body g =
            some { g with
              g_ram_bank := target,
              g_repeat_count := (rs &&& ZSM_REPEAT_COUNT_MASK) - (k + 1) }) ∧
        (k = rs &&& ZSM_REPEAT_COUNT_MASK → ∃ after_eof,
          ram_seek_bank r ((p + 1 : Nat) : Int) e_ram_seek_origin_t.RAM_SEEK_ORIGIN_SET c0 =
            some after_eof ∧
          zsm_update_body g =
            some { g with
              g_ram_bank := after_eof, g_play_stream := false, g_delay_ticks := 0 }) := by
  have hr := ram_load_file_wf hload
  have hinv := zsm_run_counted hhandle hbit ha hb hnz
  have hle : rs &&& ZSM_REPEAT_COUNT_MASK ≤ 255 := Nat.and_le_right
  refine ⟨hle, ?_, ?_, ?_⟩
  · simp only [zsm_start, hbit, ne_eq, not_true_eq_false, if_false]
  · intro fuel t g h
    exact zsm_update_n_run fuel t zsm_run.start h
  · intro k g hrun
    obtain ⟨hh, hrep, hstate⟩ := hinv k g hrun
    refine ⟨hstate, ?_⟩
    intro c0 p hcursor hp hc
    rw [bank_size_eq] at hp
    have hcur := cursor_of_seek hr (by omega) hcursor
    have hbody := zsm_update_body_eof hr hh hcur hp hc
    constructor
    · intro hk target htarget
      rcases hstate with ⟨_, hcount, _⟩ | ⟨hk2, _, _⟩
      · have hpos : 0 < ({ g with g_ram_bank := cursor_at (p + 1) } : zsm_globals).g_repeat_count := by
          show 0 < g.g_repeat_count
          omega
        rw [hbody, zsm_cmd_eof_loop hr _ a b ha hb hnz hpos c0 target htarget]
        simp only [hrep, hbit, ne_eq, not_true_eq_false, false_and, if_false, hcount]
        have e : (rs &&& ZSM_REPEAT_COUNT_MASK) - k - 1 =
            (rs &&& ZSM_REPEAT_COUNT_MASK) - (k + 1) := by omega
        rw [e]
      · omega
    · intro hk
      refine ⟨cursor_at (p + 1), ram_seek_bank_set hr (by omega) c0, ?_⟩
      rcases hstate with ⟨_, hcount, _⟩ | ⟨hk2, _, _⟩
      · rw [hbody]
        exact zsm_cmd_eof_stop_count hr _ (show g.g_repeat_count = 0 by omega)
      · omega

theorem C7_repeat_count_witness :
    (zsm_start 2 (sample_player sample_loop_store 16 0 0)).g_repeat_count = 2 ∧
    (∀ k g, zsm_run (zsm_start 2 (sample_player sample_loop_store 16 0 0)) k g →
      ((k ≤ 2 ∧ g.g_repeat_count = 2 - k ∧ g.g_play_stream = true) ∨
       (k = 2 + 1 ∧ g.g_repeat_count = 0 ∧ g.g_play_stream = false))) ∧
    (zsm_update_n 8 9 (zsm_start 2 (sample_player sample_loop_store 16 0 0))).map
      (fun g => (g.g_play_stream, g.g_repeat_count)) = some (true, 0) ∧
    (zsm_update_n 8 10 (zsm_start 2 (sample_player sample_loop_store 16 0 0))).map
      (fun g => (g.g_play_stream, g.g_repeat_count)) = some (false, 0) := by
  have h := C7_repeat_count sample_loop_file sample_loop_store
    (sample_player sample_loop_store 16 0 0) 2 27 0
    (by decide) rfl (by decide) (by decide) (by decide) (by decide)
  exact ⟨h.2.1, fun k g hrun => (h.2.2.2 k g hrun).1, by decide, by decide⟩

/-- C8: if `zsm_start` was called with bit 15 (repeat forever) set and the
loop point of the header is non-zero, then in every state that `zsm_update`
reaches, between commands and at the return of each call, the repeat counter
is in `1..255` and the player is playing; an EOF command seeks to the loop
point and takes one repeat off, putting 255 back in the same step when that
leaves none. So no EOF takes the stop branch. -/
theorem C8_repeat_forever (bytes : List (Fin 256)) (r : ram) (g0 : zsm_globals)
    (rs a b : Nat)
    (hload : ram_load_file (some bytes) = (e_ram_result_t.RAM_LOAD_SUCCESS, some r))
    (hhandle : g0.g_p_zsm_ram_handle = some r)
    (hrs : rs &&& ZSM_REPEAT_FOREVER ≠ 0)
    (ha : zsm_header_loop_point_address r = some a)
    (hb : zsm_header_loop_point_bank r = some b) (hnz : a ≠ 0 ∨ b ≠ 0) :
    (zsm_start rs g0).g_repeat_count = 255 ∧
    (∀ k g, zsm_run (zsm_start rs g0) k g →
      1 ≤ g.g_repeat_count ∧ g.g_repeat_count ≤ 255 ∧ g.g_play_stream = true) ∧
    (∀ fuel t g, zsm_update_n fuel t (zsm_start rs g0) = some g →
      1 ≤ g.g_repeat_count ∧ g.g_repeat_count ≤ 255 ∧ g.g_play_stream = true) ∧
    (∀ k g (c0 : ram_bank_t) (p : Nat) target, zsm_run (zsm_start rs g0) k g →
      ram_seek_bank r (p : Int) e_ram_seek_origin_t.RAM_SEEK_ORIGIN_SET c0 =
        some g.g_ram_bank →
      p + 1 < r.number_of_banks * RAM_BANK_SIZE →
      ram_byte_at r p = some ZSM_CMD_EOF →
      ram_seek_bank r (((b <<< 16) ||| a : Nat) : Int)
        e_ram_seek_origin_t.RAM_SEEK_ORIGIN_SET c0 = some target →
      zsm_update_body g =
        some { g with
          g_ram_bank := target,
          g_repeat_count := if g.g_repeat_count = 1 then 255 else g.g_repeat_count - 1 }) := by
  have hr := ram_load_file_wf hload
  have hinv := zsm_run_forever hhandle hrs ha hb hnz
  have e255 : ZSM_REPEAT_FOREVER_COUNT = 255 := by decide
  refine ⟨?_, ?_, ?_, ?_⟩
  · simp only [zsm_start, hrs, ne_eq, not_false_eq_true, if_true, e255]
  · intro k g hrun
    exact (hinv k g hrun).2.2
  · intro fuel t g h
    obtain ⟨k, hrun⟩ := zsm_update_n_run fuel t zsm_run.start h
    exact (hinv k g hrun).2.2
  · intro k g c0 p target hrun hcursor hp hc htarget
    obtain ⟨hh, hrep, hlo, hhi, hplay⟩ := hinv k g hrun
    rw [bank_size_eq] at hp
    have hcur := cursor_of_seek hr (by omega) hcursor
    have hpos : 0 < ({ g with g_ram_bank := cursor_at (p + 1) } : zsm_globals).g_repeat_count := by
      show 0 < g.g_repeat_count
      omega
    rw [zsm_update_body_eof hr hh hcur hp hc,
      zsm_cmd_eof_loop hr _ a b ha hb hnz hpos c0 target htarget]
    simp only [hrep, hrs, ne_eq, not_false_eq_true, true_and, e255]
    have hiff : (g.g_repeat_count - 1 = 0) ↔ (g.g_repeat_count = 1) := by omega
    simp only [hiff]

theorem C8_repeat_forever_witness :
    (zsm_update_n 8 12 (zsm_start 0x8000 (sample_player sample_loop_store 16 0 0))).map
      (fun g => (g.g_play_stream, g.g_repeat_count)) = some (true, 252) ∧
    (∀ fuel t g,
      zsm_update_n fuel t (zsm_start 0x8000 (sample_player sample_loop_store 16 0 0)) = some g →
      1 ≤ g.g_repeat_count ∧ g.g_repeat_count ≤ 255 ∧ g.g_play_stream = true) := by
  have h := C8_repeat_forever sample_loop_file sample_loop_store
    (sample_player sample_loop_store 16 0 0) 0x8000 27 0
    (by decide) rfl (by decide) (by decide) (by decide) (by decide)
  exact ⟨by decide, h.2.2.1⟩

/-! ## Claims on ticks -/

/-- C6: for every delay command `c` in `0x81..0xFF` decoded at position `p`
while playing, with `n = c & 0x7F` (so `1 <= n <= 127`): decoding it sets the
delay to `n`, steps the cursor to `p + 1` and ends the command loop of the
current `zsm_update`; each of the next `k < n` calls only counts the delay
down (no command, no writer call, cursor unmoved), and the `n`-th call
decodes the command at `p + 1`, the byte right after `c`. -/
theorem C6_delay (bytes : List (Fin 256)) (r : ram) (g : zsm_globals) (c0 : ram_bank_t)
    (p c : Nat)
    (hload : ram_load_file (some bytes) = (e_ram_result_t.RAM_LOAD_SUCCESS, some r))
    (hhandle : g.g_p_zsm_ram_handle = some r)
    (hcursor : ram_seek_bank r (p : Int) e_ram_seek_origin_t.RAM_SEEK_ORIGIN_SET c0 =
      some g.g_ram_bank)
    (hp : p + 1 < r.number_of_banks * RAM_BANK_SIZE)
    (hc : ram_byte_at r p = some c) (hrange : 0x81 ≤ c ∧ c ≤ 0xFF)
    (hplay : g.g_play_stream = true) (hdelay : g.g_delay_ticks = 0) :
    1 ≤ c &&& 0x7F ∧ c &&& 0x7F ≤ 127 ∧
    ∃ after_delay,
      ram_seek_bank r ((p + 1 : Nat) : Int) e_ram_seek_origin_t.RAM_SEEK_ORIGIN_SET c0 =
        some after_delay ∧
      zsm_update_body g =
        some { g with g_ram_bank := after_delay, g_delay_ticks := c &&& 0x7F } ∧
      (∀ fuel, zsm_update_loop (fuel + 1) g =
        some { g with g_ram_bank := after_delay, g_delay_ticks := c &&& 0x7F }) ∧
      (∀ fuel k, k < c &&& 0x7F →
        zsm_update_n fuel k { g with g_ram_bank := after_delay, g_delay_ticks := c &&& 0x7F } =
          some { g with g_ram_bank := after_delay, g_delay_ticks := (c &&& 0x7F) - k }) ∧
      (∀ fuel,
        zsm_update_n (fuel + 1) (c &&& 0x7F)
            { g with g_ram_bank := after_delay, g_delay_ticks := c &&& 0x7F } =
          (zsm_update_body { g with g_ram_bank := after_delay, g_delay_ticks := 0 }).bind
            (zsm_update_loop fuel)) ∧
      zsm_current_command { g with g_ram_bank := after_delay, g_delay_ticks := 0 } =
        ram_byte_at r (p + 1) := by
  have hr := ram_load_file_wf hload
  rw [bank_size_eq] at hp
  have hcur := cursor_of_seek hr (by omega) hcursor
  have hmask : c &&& 0x7F = c % 128 := Nat.and_pow_two_sub_one_eq_mod c 7
  have hn1 : 1 ≤ c &&& 0x7F := by omega
  have hn2 : c &&& 0x7F ≤ 127 := by omega
  have hbody : zsm_update_body g =
      some { g with g_ram_bank := cursor_at (p + 1), g_delay_ticks := c &&& 0x7F } := by
    rw [ram_byte_at_wf hr (by omega)] at hc
    unfold zsm_update_body
    rw [hhandle]
    simp only [hcur, hc, Option.bind, RAM_UPDATE_POS_cursor_at hr hp]
    have h1 : c ≠ ZSM_CMD_EXT := by unfold ZSM_CMD_EXT; omega
    have h2 : c ≠ ZSM_CMD_EOF := by unfold ZSM_CMD_EOF; omega
    have h3 : ¬ c < ZSM_CMD_EXT := by unfold ZSM_CMD_EXT; omega
    have h4 : ¬ c < ZSM_CMD_EOF := by unfold ZSM_CMD_EOF; omega
    simp only [if_neg h1, if_neg h2, if_neg h3, if_neg h4]
    rfl
  refine ⟨hn1, hn2, cursor_at (p + 1), ram_seek_bank_set hr (by omega) c0, hbody, ?_, ?_, ?_, ?_⟩
  · intro fuel
    rw [zsm_update_loop, if_pos ⟨hplay, hdelay⟩, hbody]
    simp only [Option.bind]
    apply zsm_update_loop_idle
    simp only [not_and]
    intro _
    omega
  · intro fuel k hk
    exact zsm_update_n_countdown fuel k _ hplay hk
  · intro fuel
    obtain ⟨m, hm⟩ : ∃ m, c &&& 0x7F = m + 1 := ⟨(c &&& 0x7F) - 1, by omega⟩
    rw [hm, zsm_update_n_succ_last]
    have hcount := zsm_update_n_countdown (fuel + 1) m
      { g with g_ram_bank := cursor_at (p + 1), g_delay_ticks := m + 1 } hplay
      (show m < m + 1 by omega)
    rw [hcount]
    simp only [Option.bind]
    have hlast := zsm_update_decode fuel
      { g with g_ram_bank := cursor_at (p + 1), g_delay_ticks := m + 1 - m } hplay
      (show m + 1 - m = 1 by omega)
    rw [hlast]
    rfl
  · unfold zsm_current_command
    rw [ram_byte_at_wf hr hp]
    simp only [hhandle, Option.bind]

theorem C6_delay_witness :
    1 ≤ 0x83 &&& 0x7F ∧ 0x83 &&& 0x7F ≤ 127 ∧
    (zsm_update_n 8 2 (sample_player sample_loop_store 27 0 0)).map
      (fun g => (g.g_delay_ticks, g.g_ram_bank, g.calls)) = some (2, cursor_at 28, []) ∧
    (zsm_update_n 8 4 (sample_player sample_loop_store 27 0 0)).map
      (fun g => (g.g_play_stream, g.g_ram_bank)) = some (false, cursor_at 29) := by
  have h := C6_delay sample_loop_file sample_loop_store (sample_player sample_loop_store 27 0 0)
    zsm_globals_initial.g_ram_bank 27 0x83
    (by decide) rfl (by decide) (by decide) (by decide) (by decide) rfl rfl
  exact ⟨h.1, h.2.1, by decide, by decide⟩

/-- C1, as stated, fails on the stream of the specification (version 1, no
loop point, events `00 05 81 80`): after `zsm_start(0)` the first
`zsm_update` already calls the PSG writer with `(0, 5)`, moves the cursor
from byte 16 to byte 19 and leaves a delay of 1, and the second one decodes
EOF and stops the player. -/
theorem C1_counterexample_first_tick :
    ram_load_file (some sample_stream_file) =
      (e_ram_result_t.RAM_LOAD_SUCCESS, some sample_stream_store) ∧
    zsm_initialize (some sample_stream_store) none (some (vera_psg_write_func_t.func 7))
      zsm_globals_initial = some (e_zsm_result_t.ZSM_SUCCESS, sample_stream_ready) ∧
    (zsm_update 8 (zsm_start 0 sample_stream_ready)).map
        (fun g => (g.calls, g.g_ram_bank, g.g_delay_ticks)) =
      some ([write_call.vera_psg (vera_psg_write_func_t.func 7) 0 5], cursor_at 19, 1) ∧
    (zsm_update 8 (zsm_start 0 sample_stream_ready)).map (fun g => g.calls) ≠ some [] ∧
    (zsm_update_n 8 2 (zsm_start 0 sample_stream_ready)).map zsm_is_playing = some false := by
  decide

/-- C1, amended: for every stream on which `zsm_initialize` succeeds (so of
version 1) and every repeat value, `zsm_start` sets the delay to 1 and leaves
the cursor on the first event byte (offset 16); the first `zsm_update` after
it takes the delay to 0 and runs the command loop in that same call,
beginning with the command at byte 16. -/
theorem C1_first_tick_decodes (r : ram) (fm : Option ym2151_write_func_t)
    (psg : Option vera_psg_write_func_t) (g g1 : zsm_globals) (rs fuel : Nat)
    (hinit : zsm_initialize (some r) fm psg g = some (e_zsm_result_t.ZSM_SUCCESS, g1)) :
    (zsm_start rs g1).g_delay_ticks = 1 ∧
    zsm_is_playing (zsm_start rs g1) = true ∧
    ram_seek_bank r 16 e_ram_seek_origin_t.RAM_SEEK_ORIGIN_SET g.g_ram_bank =
      some (zsm_start rs g1).g_ram_bank ∧
    zsm_update (fuel + 1) (zsm_start rs g1) =
      (zsm_update_body { zsm_start rs g1 with g_delay_ticks := 0 }).bind
        (zsm_update_loop fuel) := by
  obtain ⟨_, _, _, hseek⟩ := zsm_initialize_success hinit
  exact ⟨rfl, rfl, hseek, zsm_update_decode fuel _ rfl rfl⟩

theorem C1_first_tick_decodes_witness :
    zsm_initialize (some sample_stream_store) none (some (vera_psg_write_func_t.func 7))
      zsm_globals_initial = some (e_zsm_result_t.ZSM_SUCCESS, sample_stream_ready) ∧
    zsm_update (7 + 1) (zsm_start 0 sample_stream_ready) =
      (zsm_update_body { zsm_start 0 sample_stream_ready with g_delay_ticks := 0 }).bind
        (zsm_update_loop 7) ∧
    (zsm_update_n 8 1 (zsm_start 0 sample_stream_ready)).map
        (fun g => (zsm_is_playing g, g.calls, g.g_ram_bank, g.g_delay_ticks)) =
      some (true, [write_call.vera_psg (vera_psg_write_func_t.func 7) 0 5], cursor_at 19, 1) ∧
    (zsm_update_n 8 2 (zsm_start 0 sample_stream_ready)).map
        (fun g => (zsm_is_playing g, g.calls, g.g_ram_bank, g.g_delay_ticks)) =
      some (false, [write_call.vera_psg (vera_psg_write_func_t.func 7) 0 5], cursor_at 20, 0) ∧
    (zsm_update_n 8 3 (zsm_start 0 sample_stream_ready)).map zsm_is_playing = some false :=
  ⟨by decide,
   (C1_first_tick_decodes sample_stream_store none (some (vera_psg_write_func_t.func 7))
      zsm_globals_initial sample_stream_ready 0 7 (by decide)).2.2.2,
   by decide, by decide, by decide⟩

/-! ## Claims on start, stop and idle ticks -/

/-- C11: when the player is not playing (never started, stopped by
`zsm_stop`, or stopped by EOF), `zsm_update` returns the state it was given,
for every fuel: no writer is called and cursor, delay, repeat counter and
playing flag are unchanged; the same holds for any number of calls in a row. -/
theorem C11_update_not_playing (g : zsm_globals) (fuel n : Nat)
    (hstopped : zsm_is_playing g = false) :
    zsm_update fuel g = some g ∧ zsm_update_n fuel n g = some g := by
  have h : g.g_play_stream = false := hstopped
  refine ⟨?_, zsm_update_n_idle fuel n g h⟩
  unfold zsm_update
  rw [if_pos h]

theorem C11_update_not_playing_witness :
    (zsm_update 8 zsm_globals_initial = some zsm_globals_initial ∧
      zsm_update_n 8 5 zsm_globals_initial = some zsm_globals_initial) ∧
    (zsm_update 8 (zsm_stop (sample_player sample_loop_store 16 0 0)) =
        some (zsm_stop (sample_player sample_loop_store 16 0 0)) ∧
      zsm_update_n 8 5 (zsm_stop (sample_player sample_loop_store 16 0 0)) =
        some (zsm_stop (sample_player sample_loop_store 16 0 0))) ∧
    (zsm_update_n 8 2 (zsm_start 0 sample_stream_ready)).map zsm_is_playing = some false ∧
    (zsm_update_n 8 2 (zsm_start 0 sample_stream_ready)).bind (zsm_update_n 8 5) =
      zsm_update_n 8 2 (zsm_start 0 sample_stream_ready) :=
  ⟨C11_update_not_playing zsm_globals_initial 8 5 rfl,
   C11_update_not_playing (zsm_stop (sample_player sample_loop_store 16 0 0)) 8 5 rfl,
   by decide, by decide⟩

/-- C12: for every repeat value `r`, `zsm_start(r)` leaves the player playing
with delay 1 and the repeat counter at 255 if bit 15 of `r` is set, at
`r & 0xFF` (`r mod 256`) otherwise; every other variable keeps its value, the
cursor among them, so the next `zsm_update` decodes the command under the
cursor the player had before the call. -/
theorem C12_start (r : Nat) (g : zsm_globals) :
    zsm_start r g =
      { g with
        g_delay_ticks := 1, g_play_stream := true, g_zsm_repeat := r,
        g_repeat_count := if r.testBit 15 then 255 else r % 256 } ∧
    zsm_is_playing (zsm_start r g) = true ∧
    (zsm_start r g).g_ram_bank = g.g_ram_bank ∧
    zsm_current_command { zsm_start r g with g_delay_ticks := 0 } = zsm_current_command g ∧
    ∀ fuel, zsm_update (fuel + 1) (zsm_start r g) =
      (zsm_update_body { zsm_start r g with g_delay_ticks := 0 }).bind
        (zsm_update_loop fuel) := by
  refine ⟨?_, rfl, rfl, rfl, fun fuel => zsm_update_decode fuel _ rfl rfl⟩
  unfold zsm_start
  rw [and_repeat_forever_testBit, and_repeat_count_mask_mod]
  have e255 : ZSM_REPEAT_FOREVER_COUNT = 255 := by decide
  by_cases hb : r.testBit 15 = true
  · simp [hb, e255]
  · simp [hb]

/-- C18: from any state, `zsm_stop` makes `zsm_is_playing` false and changes
nothing else: delay, repeat counter, stored repeat value, cursor, store
handle, hooks and call log are as before the call. -/
theorem C18_stop (g : zsm_globals) :
    zsm_is_playing (zsm_stop g) = false ∧
    zsm_stop g = { g with g_play_stream := false } ∧
    (zsm_stop g).g_delay_ticks = g.g_delay_ticks ∧
    (zsm_stop g).g_repeat_count = g.g_repeat_count ∧
    (zsm_stop g).g_zsm_repeat = g.g_zsm_repeat ∧
    (zsm_stop g).g_ram_bank = g.g_ram_bank ∧
    (zsm_stop g).g_p_zsm_ram_handle = g.g_p_zsm_ram_handle ∧
    (zsm_stop g).g_p_ym2151_write_func = g.g_p_ym2151_write_func ∧
    (zsm_stop g).g_p_vera_psg_write_func = g.g_p_vera_psg_write_func ∧
    (zsm_stop g).calls = g.calls :=
  ⟨rfl, rfl, rfl, rfl, rfl, rfl, rfl, rfl, rfl, rfl⟩

/-! ## Claims on initialisation and the header -/


/-- C13: `zsm_initialize` returns `ZSM_BAD_DATA_POINTER` exactly when the
handle is null (and then leaves the state as it was), and returns
`ZSM_UNSUPPORTED_VERSION` exactly when the handle is not null and byte 2 of
the store, the version of the header, is readable and different from 1,
whatever the writers passed and the channel masks. -/
theorem C13_initialize_result_code (h : Option ram) (fm : Option ym2151_write_func_t)
    (psg : Option vera_psg_write_func_t) (g : zsm_globals) :
    zsm_initialize none fm psg g = some (e_zsm_result_t.ZSM_BAD_DATA_POINTER, g) ∧
    (( zsm_initialize h fm psg g).map Prod.fst = some e_zsm_result_t.ZSM_BAD_DATA_POINTER ↔
      h = none) ∧
    (( zsm_initialize h fm psg g).map Prod.fst = some e_zsm_result_t.ZSM_UNSUPPORTED_VERSION ↔
      ∃ r v, h = some r ∧ ram_byte_at r 2 = some v ∧ v ≠ 1) := by
  refine ⟨rfl, ?_, ?_⟩
  · cases h with
    | none => exact ⟨fun _ => rfl, fun _ => rfl⟩
    | some r =>
      rw [zsm_initialize_some]
      constructor
      · intro hcode
        exfalso
        revert hcode
        cases ram_byte_at r 2 with
        | none => simp
        | some v =>
          simp only [Option.bind]
          split
          · cases ram_byte_at r 9 with
            | none => simp
            | some m1 =>
              cases ram_byte_at r 10 with
              | none => simp
              | some lo =>
                cases ram_byte_at r 11 with
                | none => simp
                | some hi =>
                  simp only
                  split
                  · cases ram_seek_bank r 16 e_ram_seek_origin_t.RAM_SEEK_ORIGIN_SET
                      g.g_ram_bank <;> simp
                  · simp
          · simp
      · intro hnone
        cases hnone
  · cases h with
    | none =>
      constructor
      · intro hcode
        cases hcode
      · rintro ⟨r, v, hr, _⟩
        cases hr
    | some r =>
      rw [zsm_initialize_some]
      cases hv : ram_byte_at r 2 with
      | none =>
        constructor
        · intro hcode
          cases hcode
        · rintro ⟨r2, v, hr, hv2, _⟩
          cases hr
          rw [hv] at hv2
          cases hv2
      | some v =>
        simp only [Option.bind]
        by_cases h1 : v = ZSM_VERSION_01
        · rw [if_pos h1]
          constructor
          · intro hcode
            exfalso
            revert hcode
            cases ram_byte_at r 9 with
            | none => simp
            | some m1 =>
              cases ram_byte_at r 10 with
              | none => simp
              | some lo =>
                cases ram_byte_at r 11 with
                | none => simp
                | some hi =>
                  simp only
                  split
                  · cases ram_seek_bank r 16 e_ram_seek_origin_t.RAM_SEEK_ORIGIN_SET
                      g.g_ram_bank <;> simp
                  · simp
          · rintro ⟨r2, v2, hr, hv2, hne⟩
            cases hr
            rw [hv] at hv2
            cases hv2
            exact absurd h1 hne
        · rw [if_neg h1]
          constructor
          · intro _
            exact ⟨r, v, rfl, hv, h1⟩
          · intro _
            rfl

/-- C14, as stated, fails: on the version-1 stream of the specification,
whose FM channel mask is 0, a fresh player given a non-null FM writer and no
PSG writer gets `ZSM_NOTHING_TO_PLAY`, not success. -/
theorem C14_counterexample_unused_writer :
    ram_load_file (some sample_stream_file) =
      (e_ram_result_t.RAM_LOAD_SUCCESS, some sample_stream_store) ∧
    ram_byte_at sample_stream_store 2 = some 1 ∧
    ram_byte_at sample_stream_store 9 = some 0 ∧
    ( zsm_initialize (some sample_stream_store) (some (ym2151_write_func_t.func 9)) none
        zsm_globals_initial).map Prod.fst = some e_zsm_result_t.ZSM_NOTHING_TO_PLAY := by
  decide

/-- C14, amended: for every loaded version-1 stream with readable channel
masks, `zsm_initialize` on a player without hooks, given caller writers,
returns `ZSM_NOTHING_TO_PLAY` exactly when neither writer is usable (the FM
writer is null or the FM channel mask is 0, and the PSG writer is null or the
PSG channel mask is 0), and `ZSM_SUCCESS` exactly when one of them is usable
(a non-null writer whose channel mask is not 0). -/
theorem C14_nothing_to_play (bytes : List (Fin 256)) (r : ram)
    (fm : Option ym2151_write_func_t) (psg : Option vera_psg_write_func_t) (g : zsm_globals)
    (fm_mask psg_lo psg_hi : Nat)
    (hload : ram_load_file (some bytes) = (e_ram_result_t.RAM_LOAD_SUCCESS, some r))
    (hversion : ram_byte_at r 2 = some 1)
    (hfm_mask : ram_byte_at r 9 = some fm_mask)
    (hpsg_lo : ram_byte_at r 10 = some psg_lo) (hpsg_hi : ram_byte_at r 11 = some psg_hi)
    (hfresh_fm : g.g_p_ym2151_write_func = ym2151_write_func_t.zsm_ym2151_write_func_null)
    (hfresh_psg : g.g_p_vera_psg_write_func = vera_psg_write_func_t.zsm_vera_psg_func_null)
    (hfm : fm ≠ some ym2151_write_func_t.zsm_ym2151_write_func_null)
    (hpsg : psg ≠ some vera_psg_write_func_t.zsm_vera_psg_func_null) :
    (( zsm_initialize (some r) fm psg g).map Prod.fst =
        some e_zsm_result_t.ZSM_NOTHING_TO_PLAY ↔
      (fm = none ∨ fm_mask = 0) ∧ (psg = none ∨ psg_lo + 256 * psg_hi = 0)) ∧
    (( zsm_initialize (some r) fm psg g).map Prod.fst = some e_zsm_result_t.ZSM_SUCCESS ↔
      (fm ≠ none ∧ fm_mask ≠ 0) ∨ (psg ≠ none ∧ psg_lo + 256 * psg_hi ≠ 0)) := by
  have hr := ram_load_file_wf hload
  have hpos := hr.banks_pos
  have hseek := ram_seek_bank_set hr (p := 16) (by omega) g.g_ram_bank
  have hseek2 : ram_seek_bank r 16 e_ram_seek_origin_t.RAM_SEEK_ORIGIN_SET g.g_ram_bank =
      some (cursor_at 16) := hseek
  rw [zsm_initialize_some, hversion, hfm_mask, hpsg_lo, hpsg_hi]
  have hv : (1 : Nat) = ZSM_VERSION_01 := rfl
  simp only [Option.bind, hv, if_true, hfresh_fm, hfresh_psg, hseek2, Option.map,
    install_ym2151_fresh fm_mask fm hfm, install_vera_psg_fresh (psg_lo + 256 * psg_hi) psg hpsg]
  by_cases hcond : (fm ≠ none ∧ fm_mask ≠ 0) ∨ (psg ≠ none ∧ psg_lo + 256 * psg_hi ≠ 0)
  · rw [if_pos hcond]
    simp only [Option.some.injEq, reduceCtorEq, false_iff, true_iff]
    refine ⟨?_, hcond⟩
    intro hboth
    rcases hcond with h1 | h1
    · rcases hboth.1 with h2 | h2
      · exact h1.1 h2
      · exact h1.2 h2
    · rcases hboth.2 with h2 | h2
      · exact h1.1 h2
      · exact h1.2 h2
  · rw [if_neg hcond]
    simp only [Option.some.injEq, reduceCtorEq, false_iff, true_iff]
    refine ⟨?_, hcond⟩
    constructor
    · by_contra hc
      push_neg at hc
      exact hcond (Or.inl hc)
    · by_contra hc
      push_neg at hc
      exact hcond (Or.inr hc)

theorem C14_nothing_to_play_witness :
    ( zsm_initialize (some sample_stream_store) none (some (vera_psg_write_func_t.func 7))
        zsm_globals_initial).map Prod.fst = some e_zsm_result_t.ZSM_SUCCESS ∧
    ( zsm_initialize (some sample_stream_store) none none
        zsm_globals_initial).map Prod.fst = some e_zsm_result_t.ZSM_NOTHING_TO_PLAY :=
  ⟨(C14_nothing_to_play sample_stream_file sample_stream_store none
      (some (vera_psg_write_func_t.func 7)) zsm_globals_initial 0 1 0
      (by decide) (by decide) (by decide) (by decide) (by decide) rfl rfl
      (by decide) (by decide)).2.mpr (Or.inr ⟨by decide, by decide⟩),
   (C14_nothing_to_play sample_stream_file sample_stream_store none none
      zsm_globals_initial 0 1 0
      (by decide) (by decide) (by decide) (by decide) (by decide) rfl rfl
      (by decide) (by decide)).1.mpr ⟨Or.inl rfl, Or.inl rfl⟩⟩


/-- C15, as stated, fails: a rejected stream of version 2 becomes the active
store (`zsm_get_header` returns its header, version 2, where it returned the
empty header before), and `ZSM_NOTHING_TO_PLAY` on a playing player clears
the playing flag. -/
theorem C15_counterexample_handle_and_flag :
    zsm_initialize (some sample_version2_store) none (some (vera_psg_write_func_t.func 7))
        zsm_globals_initial =
      some (e_zsm_result_t.ZSM_UNSUPPORTED_VERSION,
        { zsm_globals_initial with g_p_zsm_ram_handle := some sample_version2_store }) ∧
    zsm_get_header zsm_globals_initial = some g_empty_header ∧
    (zsm_get_header
        { zsm_globals_initial with g_p_zsm_ram_handle := some sample_version2_store }).map
      (fun header => header.version) = some 2 ∧
    zsm_is_playing (zsm_start 0 zsm_globals_initial) = true ∧
    ( zsm_initialize (some sample_stream_store) none none (zsm_start 0 zsm_globals_initial)).map
      (fun result => (result.1, zsm_is_playing result.2)) =
      some (e_zsm_result_t.ZSM_NOTHING_TO_PLAY, false) := by
  decide

/-- C15, amended: whenever `zsm_initialize`, given caller writers, returns
`ZSM_UNSUPPORTED_VERSION` or `ZSM_NOTHING_TO_PLAY`, the store passed is the
active store after the call (so `zsm_get_header` returns the header of the
rejected stream), and delay, repeat counter, stored repeat value, cursor,
hooks and call log are as before; the playing flag is as before with
`ZSM_UNSUPPORTED_VERSION` and false with `ZSM_NOTHING_TO_PLAY`. -/
theorem C15_failed_initialize_frame (r : ram) (fm : Option ym2151_write_func_t)
    (psg : Option vera_psg_write_func_t) (g g1 : zsm_globals) (code : e_zsm_result_t)
    (hinit : zsm_initialize (some r) fm psg g = some (code, g1))
    (hcode : code = e_zsm_result_t.ZSM_UNSUPPORTED_VERSION ∨
      code = e_zsm_result_t.ZSM_NOTHING_TO_PLAY)
    (hfm : fm ≠ some ym2151_write_func_t.zsm_ym2151_write_func_null)
    (hpsg : psg ≠ some vera_psg_write_func_t.zsm_vera_psg_func_null) :
    g1.g_p_zsm_ram_handle = some r ∧
    zsm_get_header g1 = (ram_get_address r 0).bind (zsm_header_read r) ∧
    g1.g_delay_ticks = g.g_delay_ticks ∧
    g1.g_repeat_count = g.g_repeat_count ∧
    g1.g_zsm_repeat = g.g_zsm_repeat ∧
    g1.g_ram_bank = g.g_ram_bank ∧
    g1.g_p_ym2151_write_func = g.g_p_ym2151_write_func ∧
    g1.g_p_vera_psg_write_func = g.g_p_vera_psg_write_func ∧
    g1.calls = g.calls ∧
    (code = e_zsm_result_t.ZSM_UNSUPPORTED_VERSION → g1.g_play_stream = g.g_play_stream) ∧
    (code = e_zsm_result_t.ZSM_NOTHING_TO_PLAY → g1.g_play_stream = false) := by
  obtain ⟨hu, hn⟩ := zsm_initialize_failed hinit hfm hpsg
  have hheader : ∀ g2 : zsm_globals, g2.g_p_zsm_ram_handle = some r →
      zsm_get_header g2 = (ram_get_address r 0).bind (zsm_header_read r) := by
    intro g2 h2
    unfold zsm_get_header
    rw [h2]
  rcases hcode with hc | hc
  · have e := hu hc
    subst hc
    subst e
    refine ⟨rfl, hheader _ rfl, rfl, rfl, rfl, rfl, rfl, rfl, rfl, ?_, ?_⟩
    · intro _
      rfl
    · intro h
      cases h
  · have e := hn hc
    subst hc
    subst e
    refine ⟨rfl, hheader _ rfl, rfl, rfl, rfl, rfl, rfl, rfl, rfl, ?_, ?_⟩
    · intro h
      cases h
    · intro _
      rfl

theorem C15_failed_initialize_frame_witness :
    ({ zsm_globals_initial with g_p_zsm_ram_handle := some sample_version2_store } :
        zsm_globals).g_p_zsm_ram_handle = some sample_version2_store ∧
    zsm_get_header
        { zsm_globals_initial with g_p_zsm_ram_handle := some sample_version2_store } =
      (ram_get_address sample_version2_store 0).bind (zsm_header_read sample_version2_store) :=
  have h := C15_failed_initialize_frame sample_version2_store none
    (some (vera_psg_write_func_t.func 7)) zsm_globals_initial
    { zsm_globals_initial with g_p_zsm_ram_handle := some sample_version2_store }
    e_zsm_result_t.ZSM_UNSUPPORTED_VERSION (by decide) (Or.inl rfl) (by decide) (by decide)
  ⟨h.1, h.2.1⟩

/-- C16: whenever `zsm_initialize` returns `ZSM_SUCCESS` the player is not
playing and its cursor is the one a Set-seek to 16 gives: bank 0, start at
offset 0 of bank 0, current at offset 16, end at the size of bank 0; so the
command that the first `zsm_update` after `zsm_start` decodes is byte 16 of
the store. -/
theorem C16_initialize_success_cursor (r : ram) (fm : Option ym2151_write_func_t)
    (psg : Option vera_psg_write_func_t) (g g1 : zsm_globals) (rs : Nat)
    (hinit : zsm_initialize (some r) fm psg g = some (e_zsm_result_t.ZSM_SUCCESS, g1)) :
    zsm_is_playing g1 = false ∧
    ram_seek_bank r 16 e_ram_seek_origin_t.RAM_SEEK_ORIGIN_SET g.g_ram_bank =
      some g1.g_ram_bank ∧
    g1.g_ram_bank.bank = 0 ∧
    g1.g_ram_bank.p_start = pointer.loc 0 0 ∧
    g1.g_ram_bank.p_current = pointer.loc 0 16 ∧
    (∃ size, r.p_bank_sizes[0]? = some size ∧ g1.g_ram_bank.p_end = pointer.loc 0 size) ∧
    zsm_current_command (zsm_start rs g1) = ram_byte_at r 16 ∧
    ∀ fuel, zsm_update (fuel + 1) (zsm_start rs g1) =
      (zsm_update_body { zsm_start rs g1 with g_delay_ticks := 0 }).bind
        (zsm_update_loop fuel) := by
  obtain ⟨hplay, hhandle, _, hseek⟩ := zsm_initialize_success hinit
  have hshape : g1.g_ram_bank.bank = 0 ∧ g1.g_ram_bank.p_start = pointer.loc 0 0 ∧
      g1.g_ram_bank.p_current = pointer.loc 0 16 ∧
      ∃ size, r.p_bank_sizes[0]? = some size ∧ g1.g_ram_bank.p_end = pointer.loc 0 size := by
    have h := hseek
    unfold ram_seek_bank at h
    have e1 : (int32_bits 16 >>> RAM_BANK_SHIFT) &&& RAM_BANK_INDEX_MASK = 0 := by decide
    have e2 : int32_bits 16 &&& RAM_BANK_OFFSET_MASK = 16 := by decide
    simp only [e1, e2, Option.bind] at h
    split at h
    · rename_i b size hb hsize
      simp only [Option.some.injEq] at h
      rw [← h]
      exact ⟨rfl, rfl, rfl, size, hsize, rfl⟩
    · cases h
  refine ⟨hplay, hseek, hshape.1, hshape.2.1, hshape.2.2.1, hshape.2.2.2, ?_,
    fun fuel => zsm_update_decode fuel _ rfl rfl⟩
  show zsm_current_command (zsm_start rs g1) = ram_byte_at r 16
  unfold zsm_current_command
  have hcur : (zsm_start rs g1).g_ram_bank.p_current = pointer.loc 0 16 := hshape.2.2.1
  have hh : (zsm_start rs g1).g_p_zsm_ram_handle = some r := hhandle
  rw [hh, hcur, ram_byte_at_bank0 r 16 (by omega)]
  rfl

theorem C16_initialize_success_cursor_witness :
    zsm_is_playing sample_stream_ready = false ∧
    sample_stream_ready.g_ram_bank.bank = 0 ∧
    sample_stream_ready.g_ram_bank.p_current = pointer.loc 0 16 ∧
    zsm_current_command (zsm_start 0 sample_stream_ready) = ram_byte_at sample_stream_store 16 ∧
    ram_byte_at sample_stream_store 16 = some 0x00 := by
  have h := C16_initialize_success_cursor sample_stream_store none
    (some (vera_psg_write_func_t.func 7)) zsm_globals_initial sample_stream_ready 0 (by decide)
  exact ⟨h.1, h.2.2.1, h.2.2.2.2.1, h.2.2.2.2.2.2.1, by decide⟩

/-- C17: for every loaded store of at least 16 bytes `b0..b15`, after
`zsm_initialize` on it (whatever code it returns) `zsm_get_header` returns
magic `b0 + 256 b1`, version `b2`, loop address `b3 + 256 b4`, loop bank `b5`,
PCM address `b6 + 256 b7`, PCM bank `b8`, FM mask `b9`, PSG mask
`b10 + 256 b11`, tick rate `b12 + 256 b13`, reserved `b14 + 256 b15`; with no
store set it returns the header that is zero in every field. -/
theorem C17_get_header (bytes : List (Fin 256)) (r : ram) (fm : Option ym2151_write_func_t)
    (psg : Option vera_psg_write_func_t) (g g1 : zsm_globals) (code : e_zsm_result_t)
    (hload : ram_load_file (some bytes) = (e_ram_result_t.RAM_LOAD_SUCCESS, some r))
    (h16 : 16 ≤ bytes.length)
    (hinit : zsm_initialize (some r) fm psg g = some (code, g1)) :
    zsm_get_header g1 =
      some { magic_header := (bytes[0]).val + 256 * (bytes[1]).val,
             version := (bytes[2]).val,
             loop_point := { address := (bytes[3]).val + 256 * (bytes[4]).val,
                             bank := (bytes[5]).val },
             pcm_offset := { address := (bytes[6]).val + 256 * (bytes[7]).val,
                             bank := (bytes[8]).val },
             fm_channel_mask := (bytes[9]).val,
             psg_channel_mask := (bytes[10]).val + 256 * (bytes[11]).val,
             tick_rate := (bytes[12]).val + 256 * (bytes[13]).val,
             reserved := (bytes[14]).val + 256 * (bytes[15]).val } ∧
    zsm_get_header zsm_globals_initial = some g_empty_header ∧
    (∀ g0 : zsm_globals, g0.g_p_zsm_ram_handle = none →
      zsm_get_header g0 = some g_empty_header ∧
      g_empty_header.magic_header = 0 ∧ g_empty_header.version = 0 ∧
      g_empty_header.loop_point.address = 0 ∧ g_empty_header.loop_point.bank = 0 ∧
      g_empty_header.pcm_offset.address = 0 ∧ g_empty_header.pcm_offset.bank = 0 ∧
      g_empty_header.fm_channel_mask = 0 ∧ g_empty_header.psg_channel_mask = 0 ∧
      g_empty_header.tick_rate = 0 ∧ g_empty_header.reserved = 0) := by
  have hr := ram_load_file_wf hload
  refine ⟨?_, rfl, ?_⟩
  · unfold zsm_get_header
    rw [zsm_initialize_handle hinit]
    simp only [ram_get_address_zero hr, Option.bind]
    unfold zsm_header_read read_uint16
    simp only [pointer_add, Nat.zero_add, Nat.reduceAdd,
      ram_deref_header_byte hload 0 (by omega) (by omega),
      ram_deref_header_byte hload 1 (by omega) (by omega),
      ram_deref_header_byte hload 2 (by omega) (by omega),
      ram_deref_header_byte hload 3 (by omega) (by omega),
      ram_deref_header_byte hload 4 (by omega) (by omega),
      ram_deref_header_byte hload 5 (by omega) (by omega),
      ram_deref_header_byte hload 6 (by omega) (by omega),
      ram_deref_header_byte hload 7 (by omega) (by omega),
      ram_deref_header_byte hload 8 (by omega) (by omega),
      ram_deref_header_byte hload 9 (by omega) (by omega),
      ram_deref_header_byte hload 10 (by omega) (by omega),
      ram_deref_header_byte hload 11 (by omega) (by omega),
      ram_deref_header_byte hload 12 (by omega) (by omega),
      ram_deref_header_byte hload 13 (by omega) (by omega),
      ram_deref_header_byte hload 14 (by omega) (by omega),
      ram_deref_header_byte hload 15 (by omega) (by omega),
      Option.bind, Option.map]
  · intro g0 h0
    refine ⟨?_, rfl, rfl, rfl, rfl, rfl, rfl, rfl, rfl, rfl, rfl⟩
    unfold zsm_get_header
    rw [h0]

theorem C17_get_header_witness :
    zsm_get_header sample_stream_ready =
      some { magic_header := 0x6D7A, version := 1,
             loop_point := { address := 0, bank := 0 },
             pcm_offset := { address := 0, bank := 0 },
             fm_channel_mask := 0, psg_channel_mask := 1, tick_rate := 60, reserved := 0 } :=
  (C17_get_header sample_stream_file sample_stream_store none
    (some (vera_psg_write_func_t.func 7)) zsm_globals_initial sample_stream_ready
    e_zsm_result_t.ZSM_SUCCESS (by decide) (by decide) (by decide)).1

/-! ## Claims on loading and seeking -/

/-- C19, the failing input: a file of 257 pages (8421376 bytes) has page
count `ceil(S / 32768) = 257 > 16`, but the count kept in a `uint8_t` is 1, so
`ram_load_file` reports success with a store of one page holding the first
32768 bytes. -/
theorem C19_oversize_file_loads :
    sample_oversize_file.length = 257 * 32768 ∧
    (sample_oversize_file.length + 32767) / 32768 = 257 ∧
    alloc_number_of_banks sample_oversize_file.length = 1 ∧
    ram_load_file (some sample_oversize_file) =
      (e_ram_result_t.RAM_LOAD_SUCCESS,
        some { pp_banks := [sample_oversize_file.take 32768], p_bank_sizes := [32768],
               number_of_banks := 1 }) := by
  have hlen : sample_oversize_file.length = 8421376 := List.length_replicate 8421376 0
  refine ⟨hlen, ?_, ?_, ram_load_file_oversize sample_oversize_file hlen⟩
  · rw [hlen]
  · rw [hlen]
    decide

/-- C20: for every address `a` inside the banks of a loaded store, a Set-seek
to `a` yields, whatever the cursor before, the cursor with bank
`(a >> 15) & 0xF`, start and end bound to that bank and current
`start + (a & 0x7FFF)`; the byte under it is the byte at
`ram_get_address(store, a)`, which is input byte `a` when `a` is below the
size of the input. -/
theorem C20_seek_set (bytes : List (Fin 256)) (r : ram) (a : Nat) (c0 : ram_bank_t)
    (hload : ram_load_file (some bytes) = (e_ram_result_t.RAM_LOAD_SUCCESS, some r))
    (ha : a < r.number_of_banks * RAM_BANK_SIZE) :
    ∃ cursor,
      ram_seek_bank r (a : Int) e_ram_seek_origin_t.RAM_SEEK_ORIGIN_SET c0 = some cursor ∧
      (∀ c1, ram_seek_bank r (a : Int) e_ram_seek_origin_t.RAM_SEEK_ORIGIN_SET c1 =
        some cursor) ∧
      cursor.bank = (a >>> 15) &&& 0xF ∧
      cursor.p_start = pointer.loc cursor.bank 0 ∧
      cursor.p_end = pointer.loc cursor.bank RAM_BANK_SIZE ∧
      cursor.p_current = pointer_add cursor.p_start (a &&& 0x7FFF) ∧
      ram_deref r cursor.p_current = (ram_get_address r a).bind (ram_deref r) ∧
      (∀ (hlt : a < bytes.length), ram_deref r cursor.p_current = some (bytes[a]).val) := by
  have hr := ram_load_file_wf hload
  have h16 := hr.banks_le
  rw [bank_size_eq] at ha
  have h1 := shift_index_mask a
  have h2 := and_offset_mask a
  have e1 : RAM_BANK_SHIFT = 15 := by decide
  have e2 : RAM_BANK_INDEX_MASK = 0xF := by decide
  have e3 : RAM_BANK_OFFSET_MASK = 0x7FFF := by decide
  rw [e1, e2] at h1
  rw [e3] at h2
  have hmod : a / 32768 % 16 = a / 32768 := by omega
  refine ⟨cursor_at a, ram_seek_bank_set hr ha c0, fun c1 => ram_seek_bank_set hr ha c1,
    ?_, rfl, ?_, ?_, ?_, ?_⟩
  · rw [h1, hmod]; rfl
  · rw [bank_size_eq]; rfl
  · rw [h2]
    simp only [cursor_at, pointer_add, Nat.zero_add]
  · have hb := ram_byte_at_wf hr ha
    unfold ram_byte_at at hb
    exact hb.symm
  · intro hlt
    exact ram_deref_loaded hload hlt ha

theorem C20_seek_set_witness :
    ∃ cursor,
      ram_seek_bank sample_small_store ((2 : Nat) : Int)
        e_ram_seek_origin_t.RAM_SEEK_ORIGIN_SET zsm_globals_initial.g_ram_bank = some cursor ∧
      cursor.bank = 0 ∧ cursor.p_current = pointer.loc 0 2 ∧
      ram_deref sample_small_store cursor.p_current = some 3 := by
  obtain ⟨cursor, h1, _, h3, h4, _, h6, _, h8⟩ :=
    C20_seek_set sample_small_file sample_small_store 2 zsm_globals_initial.g_ram_bank
      (by decide) (by decide)
  refine ⟨cursor, h1, h3, ?_, h8 (by decide)⟩
  rw [h6, h4, h3]
  rfl

/-! ## Claims on relative seeks and the cursor invariant -/

/-- C21: on a loaded store, for every cursor satisfying the cursor invariant,
at absolute position `p = (bank << 15) + (p_current - p_start)`, and every
delta `d` with `0 <= p + d < number_of_banks * 32768`, a Current-seek by `d`
yields the cursor that a Set-seek to `p + d` yields, and that cursor satisfies
the invariant; a further Current-seek by `d2` that stays in range equals the
single Current-seek by `d + d2`, and a Current-seek by 0 returns the cursor
itself. -/
theorem C21_seek_current (bytes : List (Fin 256)) (r : ram) (cursor c0 : ram_bank_t)
    (off : Nat) (d : Int)
    (hload : ram_load_file (some bytes) = (e_ram_result_t.RAM_LOAD_SUCCESS, some r))
    (hin : ram_bank_in_range r cursor = true)
    (hoff : pointer_diff cursor.p_current cursor.p_start = some off)
    (hlo : 0 ≤ ((cursor.bank <<< RAM_BANK_SHIFT + off : Nat) : Int) + d)
    (hhi : ((cursor.bank <<< RAM_BANK_SHIFT + off : Nat) : Int) + d <
      ((r.number_of_banks * RAM_BANK_SIZE : Nat) : Int)) :
    ∃ next,
      ram_seek_bank r d e_ram_seek_origin_t.RAM_SEEK_ORIGIN_CURRENT cursor = some next ∧
      ram_seek_bank r (((cursor.bank <<< RAM_BANK_SHIFT + off : Nat) : Int) + d)
        e_ram_seek_origin_t.RAM_SEEK_ORIGIN_SET c0 = some next ∧
      ram_bank_in_range r next = true ∧
      (∀ d2 : Int,
        0 ≤ ((cursor.bank <<< RAM_BANK_SHIFT + off : Nat) : Int) + d + d2 →
        ((cursor.bank <<< RAM_BANK_SHIFT + off : Nat) : Int) + d + d2 <
          ((r.number_of_banks * RAM_BANK_SIZE : Nat) : Int) →
        ram_seek_bank r d2 e_ram_seek_origin_t.RAM_SEEK_ORIGIN_CURRENT next =
          ram_seek_bank r (d + d2) e_ram_seek_origin_t.RAM_SEEK_ORIGIN_CURRENT cursor) ∧
      ram_seek_bank r 0 e_ram_seek_origin_t.RAM_SEEK_ORIGIN_CURRENT cursor = some cursor := by
  have hr := ram_load_file_wf hload
  obtain ⟨hq, hc⟩ := ram_bank_position hr hin hoff
  generalize cursor.bank <<< RAM_BANK_SHIFT + off = q at hq hc hlo hhi ⊢
  subst hc
  rw [bank_size_eq] at hhi ⊢
  push_cast at hhi
  obtain ⟨t, ht⟩ : ∃ t : Nat, (q : Int) + d = t := ⟨((q : Int) + d).toNat, by omega⟩
  have htlt : t < r.number_of_banks * 32768 := by omega
  have h1 := ram_seek_bank_current hr d hq hlo hhi
  rw [ht, Int.toNat_ofNat] at h1
  refine ⟨cursor_at t, h1, ?_, ram_bank_in_range_cursor_at hr htlt, ?_, ?_⟩
  · rw [ht]
    exact ram_seek_bank_set hr htlt c0
  · intro d2 h2lo h2hi
    push_cast at h2hi
    have e : (q : Int) + (d + d2) = (t : Int) + d2 := by omega
    rw [ram_seek_bank_current hr d2 htlt (by omega) (by omega),
      ram_seek_bank_current hr (d + d2) hq (by omega) (by omega), e]
  · have h0 := ram_seek_bank_current hr 0 hq (by omega) (by omega)
    rw [Int.add_zero, Int.toNat_ofNat] at h0
    exact h0

theorem C21_seek_current_witness :
    ∃ next,
      ram_seek_bank sample_small_store 1 e_ram_seek_origin_t.RAM_SEEK_ORIGIN_CURRENT
        (cursor_at 1) = some next ∧
      ram_seek_bank sample_small_store
        ((((cursor_at 1).bank <<< RAM_BANK_SHIFT + 1 : Nat) : Int) + 1)
        e_ram_seek_origin_t.RAM_SEEK_ORIGIN_SET zsm_globals_initial.g_ram_bank = some next ∧
      ram_bank_in_range sample_small_store next = true ∧
      (∀ d2 : Int,
        0 ≤ (((cursor_at 1).bank <<< RAM_BANK_SHIFT + 1 : Nat) : Int) + 1 + d2 →
        (((cursor_at 1).bank <<< RAM_BANK_SHIFT + 1 : Nat) : Int) + 1 + d2 <
          ((sample_small_store.number_of_banks * RAM_BANK_SIZE : Nat) : Int) →
        ram_seek_bank sample_small_store d2 e_ram_seek_origin_t.RAM_SEEK_ORIGIN_CURRENT next =
          ram_seek_bank sample_small_store (1 + d2)
            e_ram_seek_origin_t.RAM_SEEK_ORIGIN_CURRENT (cursor_at 1)) ∧
      ram_seek_bank sample_small_store 0 e_ram_seek_origin_t.RAM_SEEK_ORIGIN_CURRENT
        (cursor_at 1) = some (cursor_at 1) :=
  C21_seek_current sample_small_file sample_small_store (cursor_at 1)
    zsm_globals_initial.g_ram_bank 1 1 (by decide) (by decide) (by decide) (by decide)
    (by decide)

/-- C22, counterexample: on the store of two banks loaded from
`sample_two_bank_file`, from the cursor at position 10 a Current-seek by -11
(mirrored position 1) yields the cursor at offset 32767 of bank 1, not the
cursor at offset 1 of bank 0 that a Set-seek to 1 yields. -/
theorem C22_counterexample_mirror :
    ram_load_file (some sample_two_bank_file) =
      (e_ram_result_t.RAM_LOAD_SUCCESS, some sample_two_bank_store) ∧
    ram_seek_bank sample_two_bank_store 10 e_ram_seek_origin_t.RAM_SEEK_ORIGIN_SET
      zsm_globals_initial.g_ram_bank = some (cursor_at 10) ∧
    ram_seek_bank sample_two_bank_store (-11) e_ram_seek_origin_t.RAM_SEEK_ORIGIN_CURRENT
      (cursor_at 10) =
      some { p_start := pointer.loc 1 0, p_end := pointer.loc 1 32768,
             p_current := pointer.loc 1 32767, bank := 1 } ∧
    ram_seek_bank sample_two_bank_store 1 e_ram_seek_origin_t.RAM_SEEK_ORIGIN_SET
      zsm_globals_initial.g_ram_bank =
      some { p_start := pointer.loc 0 0, p_end := pointer.loc 0 32768,
             p_current := pointer.loc 0 1, bank := 0 } := by
  refine ⟨sample_two_bank_loaded, ?_, ?_, ?_⟩
  · decide
  · decide
  · decide

/-- C22, amended: on a loaded store, for every cursor satisfying the cursor
invariant, at absolute position `p`, and every delta `d` with
`-2^31 < p + d < 0`, writing `m = -(p + d)`: a Current-seek by `d` binds the
cursor to bank `((m >> 15) & 0xF) + 1` with current offset
`32768 - (m & 0x7FFF)` when the store has that bank, and is undefined when it
has not; the result is never the cursor that a Set-seek to `m` yields, and
never the cursor that a Set-seek to 0 yields. -/
theorem C22_seek_current_negative (bytes : List (Fin 256)) (r : ram) (cursor : ram_bank_t)
    (off : Nat) (d : Int)
    (hload : ram_load_file (some bytes) = (e_ram_result_t.RAM_LOAD_SUCCESS, some r))
    (hin : ram_bank_in_range r cursor = true)
    (hoff : pointer_diff cursor.p_current cursor.p_start = some off)
    (hneg : ((cursor.bank <<< RAM_BANK_SHIFT + off : Nat) : Int) + d < 0)
    (hmin : -2147483648 < ((cursor.bank <<< RAM_BANK_SHIFT + off : Nat) : Int) + d) :
    ram_seek_bank r d e_ram_seek_origin_t.RAM_SEEK_ORIGIN_CURRENT cursor =
      (let m : Nat := (-(((cursor.bank <<< RAM_BANK_SHIFT + off : Nat) : Int) + d)).toNat
       let bank : Nat := ((m >>> 15) &&& 0xF) + 1
       if bank < r.number_of_banks then
         some { p_start := pointer.loc bank 0, p_end := pointer.loc bank RAM_BANK_SIZE,
                p_current := pointer.loc bank (RAM_BANK_SIZE - (m &&& 0x7FFF)), bank := bank }
       else none) ∧
    (∀ c0 c : ram_bank_t,
      ram_seek_bank r (-(((cursor.bank <<< RAM_BANK_SHIFT + off : Nat) : Int) + d))
        e_ram_seek_origin_t.RAM_SEEK_ORIGIN_SET c0 = some c →
      ram_seek_bank r d e_ram_seek_origin_t.RAM_SEEK_ORIGIN_CURRENT cursor ≠ some c) ∧
    (∀ c0 c : ram_bank_t,
      ram_seek_bank r 0 e_ram_seek_origin_t.RAM_SEEK_ORIGIN_SET c0 = some c →
      ram_seek_bank r d e_ram_seek_origin_t.RAM_SEEK_ORIGIN_CURRENT cursor ≠ some c) := by
  have hr := ram_load_file_wf hload
  obtain ⟨hq, hc⟩ := ram_bank_position hr hin hoff
  generalize cursor.bank <<< RAM_BANK_SHIFT + off = q at hq hc hneg hmin ⊢
  subst hc
  have hm := ram_seek_bank_mirror hr d hq hneg hmin
  obtain ⟨m, hmm⟩ : ∃ m : Nat, -((q : Int) + d) = m := ⟨(-((q : Int) + d)).toNat, by omega⟩
  rw [hmm, Int.toNat_ofNat] at hm
  have e1 := shift_index_mask m
  have e2 := and_offset_mask m
  have k1 : RAM_BANK_SHIFT = 15 := by decide
  have k2 : RAM_BANK_INDEX_MASK = 0xF := by decide
  have k3 : RAM_BANK_OFFSET_MASK = 0x7FFF := by decide
  rw [k1, k2] at e1
  rw [k3] at e2
  have hbits : int32_bits (m : Int) = m := int32_bits_ofNat m (by omega)
  refine ⟨?_, ?_, ?_⟩
  · rw [hm, hmm, Int.toNat_ofNat]
    simp only [e1, e2, bank_size_eq]
  · intro c0 c hset hcur
    rw [hmm] at hset
    obtain ⟨size, _, hshape⟩ := ram_seek_bank_set_shape hset
    rw [hm] at hcur
    split at hcur
    · have hb := congrArg ram_bank_t.bank (Option.some.inj hcur)
      rw [hshape, hbits] at hb
      simp only at hb
      omega
    · exact absurd hcur (by simp)
  · intro c0 c hset hcur
    obtain ⟨size, _, hshape⟩ := ram_seek_bank_set_shape hset
    rw [hm] at hcur
    split at hcur
    · have hb := congrArg ram_bank_t.bank (Option.some.inj hcur)
      rw [hshape] at hb
      have h0 : int32_bits 0 = 0 := by decide
      rw [h0] at hb
      simp only at hb
      omega
    · exact absurd hcur (by simp)

theorem C22_seek_current_negative_witness :
    ram_seek_bank sample_two_bank_store (-11) e_ram_seek_origin_t.RAM_SEEK_ORIGIN_CURRENT
      (cursor_at 10) =
      some { p_start := pointer.loc 1 0, p_end := pointer.loc 1 32768,
             p_current := pointer.loc 1 32767, bank := 1 } :=
  (C22_seek_current_negative sample_two_bank_file sample_two_bank_store (cursor_at 10) 10 (-11)
    sample_two_bank_loaded (by decide) (by decide) (by decide) (by decide)).1

/-- C23, counterexample: on the store of two banks loaded from
`sample_two_bank_file`, from the cursor at position 0 a Current-seek by
-524288 yields a cursor bound to bank 1 with `p_current = p_end` (offset
32768 of a bank of 32768 bytes), which breaks `p_current < p_end`. -/
theorem C23_counterexample_current_at_end :
    ram_load_file (some sample_two_bank_file) =
      (e_ram_result_t.RAM_LOAD_SUCCESS, some sample_two_bank_store) ∧
    ram_seek_bank sample_two_bank_store 0 e_ram_seek_origin_t.RAM_SEEK_ORIGIN_SET
      zsm_globals_initial.g_ram_bank = some (cursor_at 0) ∧
    ram_seek_bank sample_two_bank_store (-524288) e_ram_seek_origin_t.RAM_SEEK_ORIGIN_CURRENT
      (cursor_at 0) =
      some { p_start := pointer.loc 1 0, p_end := pointer.loc 1 32768,
             p_current := pointer.loc 1 32768, bank := 1 } ∧
    ram_bank_in_range sample_two_bank_store
      { p_start := pointer.loc 1 0, p_end := pointer.loc 1 32768,
        p_current := pointer.loc 1 32768, bank := 1 } = false := by
  refine ⟨sample_two_bank_loaded, ?_, ?_, ?_⟩
  · decide
  · decide
  · decide

/-- C23, amended: on a loaded store the cursor invariant
(`ram_bank_in_range`: `p_start <= p_current < p_end` inside the bank the cursor
names) holds of every cursor produced by a Set-seek with any offset, of every
cursor produced by a Current-seek from a cursor satisfying the invariant when
the resulting position `p + d` is not negative (and below 2^31), and of the
cursor produced by `RAM_UPDATE_POS` from a cursor satisfying the invariant
that is not on the last byte of the last bank, which is always produced. -/
theorem C23_cursor_invariant (bytes : List (Fin 256)) (r : ram)
    (hload : ram_load_file (some bytes) = (e_ram_result_t.RAM_LOAD_SUCCESS, some r)) :
    (∀ (offset : Int) (c0 next : ram_bank_t),
      ram_seek_bank r offset e_ram_seek_origin_t.RAM_SEEK_ORIGIN_SET c0 = some next →
      ram_bank_in_range r next = true) ∧
    (∀ (cursor next : ram_bank_t) (off : Nat) (d : Int),
      ram_bank_in_range r cursor = true →
      pointer_diff cursor.p_current cursor.p_start = some off →
      0 ≤ ((cursor.bank <<< RAM_BANK_SHIFT + off : Nat) : Int) + d →
      ((cursor.bank <<< RAM_BANK_SHIFT + off : Nat) : Int) + d < 2147483648 →
      ram_seek_bank r d e_ram_seek_origin_t.RAM_SEEK_ORIGIN_CURRENT cursor = some next →
      ram_bank_in_range r next = true) ∧
    (∀ cursor : ram_bank_t,
      ram_bank_in_range r cursor = true →
      cursor.p_current ≠ pointer.loc (r.number_of_banks - 1) (RAM_BANK_SIZE - 1) →
      ∃ next, RAM_UPDATE_POS r cursor = some next ∧ ram_bank_in_range r next = true) := by
  have hr := ram_load_file_wf hload
  exact ⟨fun _ _ _ h => ram_seek_bank_set_in_range hr h,
    fun _ _ _ _ hin hoff hlo hhi h => ram_seek_bank_current_in_range hr hin hoff hlo hhi h,
    fun _ hin hlast => RAM_UPDATE_POS_in_range hr hin hlast⟩

theorem C23_cursor_invariant_witness :
    ∃ next, RAM_UPDATE_POS sample_small_store (cursor_at 1) = some next ∧
      ram_bank_in_range sample_small_store next = true :=
  (C23_cursor_invariant sample_small_file sample_small_store (by decide)).2.2
    (cursor_at 1) (by decide) (by decide)

/-! ## Claims on the frequency table -/

/-- C24, the failing input: at the 8 MHz clock (clock ratio 164) the lowest
supported frequency word 82 has octave estimate 0 and scaled value 512, so
the value is halved to 256 and `--octave` wraps the `uint8_t` octave to 255:
the packed entry, entry 0 of the table, is 0xFFFF, its high byte is 255 and
not an octave in 0..7, and the octave field that the frequency write extracts
from it is 7. -/
theorem C24_lowest_word_8mhz_octave_wraps :
    g_saa1099_8mhz_vera_psg_range.clock_ratio = 164 ∧
    g_saa1099_8mhz_vera_psg_range.min_r = 82 ∧
    frequency_table_octave_estimate 82 = 0 ∧
    (frequency_table_ratios 164 0 / 82) >>> FREQ_23_9_FIXED_POINT_SHIFT = 512 ∧
    frequency_table_octave_value 164 82 = (255, 256) ∧
    frequency_table_packed_frequency 164 82 = 0xFFFF ∧
    frequency_table_packed_frequency 164 82 >>> 8 = 255 ∧
    (frequency_table_packed_frequency 164 82 &&& SAA1099_MASK_PACKED_FREQUENCY_OCTAVE) >>>
      SAA1099_SHIFT_PACKED_FREQUENCY_OCTAVE = 7 ∧
    (saa1099_generate_vera_psg_frequency_table g_saa1099_8mhz_vera_psg_range).bind
      (fun table => table[0]?) = some 0xFFFF := by
  refine ⟨rfl, rfl, by decide, by decide, by decide, by decide, by decide, by decide, ?_⟩
  obtain ⟨table, h1, _, h3⟩ := frequency_table_getElem? g_saa1099_8mhz_vera_psg_range
  rw [h1, Option.some_bind, h3 0 (by decide)]
  decide

/-- C25, counterexample: at the 7.15909 MHz clock (clock ratio 147) the words
147 and 148 are in the supported range and in the same band (8 leading zero
bits), and the table stores octave 0 for 147 and octave 1 for 148: the octave
for the smaller word is lower. -/
theorem C25_counterexample_octave_rises :
    g_saa1099_7mhz_vera_psg_range.clock_ratio = 147 ∧
    g_saa1099_7mhz_vera_psg_range.min_r ≤ 147 ∧ 148 ≤ g_saa1099_7mhz_vera_psg_range.max_r ∧
    nlz5_16 147 = 8 ∧ nlz5_16 148 = 8 ∧
    frequency_table_packed_frequency 147 147 >>> 8 = 0 ∧
    frequency_table_packed_frequency 147 148 >>> 8 = 1 ∧
    ¬ (frequency_table_packed_frequency 147 147 >>> 8 ≥
        frequency_table_packed_frequency 147 148 >>> 8) := by
  refine ⟨rfl, by decide, by decide, by decide, by decide, by decide, by decide, by decide⟩

/-- C25, amended: for each supported clock and all frequency words
`w1 <= w2` in the supported range (at clock ratio 164, `w1` other than 82),
in the same band or not, the octave stored in the table for `w1` (the final
octave of the generation, which is the high byte of the entry) is less than
or equal to the octave stored for `w2`: octaves are non-decreasing as the
frequency word increases. -/
theorem C25_octave_monotone (p_range : saa1099_verga_psg_range_t) (w1 w2 : Nat)
    (hsup : p_range = g_saa1099_7mhz_vera_psg_range ∨ p_range = g_saa1099_8mhz_vera_psg_range)
    (hmin : p_range.min_r ≤ w1) (hle : w1 ≤ w2) (hmax : w2 ≤ p_range.max_r)
    (hslip : ¬ (p_range = g_saa1099_8mhz_vera_psg_range ∧ w1 = 82)) :
    (frequency_table_octave_value p_range.clock_ratio w1).1 ≤
      (frequency_table_octave_value p_range.clock_ratio w2).1 ∧
    frequency_table_packed_frequency p_range.clock_ratio w1 >>> 8 =
      (frequency_table_octave_value p_range.clock_ratio w1).1 ∧
    frequency_table_packed_frequency p_range.clock_ratio w2 >>> 8 =
      (frequency_table_octave_value p_range.clock_ratio w2).1 ∧
    frequency_table_packed_frequency p_range.clock_ratio w1 >>> 8 ≤
      frequency_table_packed_frequency p_range.clock_ratio w2 >>> 8 := by
  have hw1 : 0 < w1 := by
    rcases frequency_table_supported hsup with h | h <;> omega
  have hslip2 : ¬ (p_range = g_saa1099_8mhz_vera_psg_range ∧ w2 = 82) := by
    rintro ⟨h8, h82⟩
    apply hslip
    refine ⟨h8, ?_⟩
    subst h8
    have e : g_saa1099_8mhz_vera_psg_range.min_r = 82 := rfl
    omega
  obtain ⟨o1, ho1, hv1, ha1, hb1⟩ :=
    frequency_table_octave_value_supported hsup hmin (le_trans hle hmax) hslip
  obtain ⟨o2, ho2, hv2, ha2, hb2⟩ :=
    frequency_table_octave_value_supported hsup (le_trans hmin hle) hmax hslip2
  obtain ⟨c1, c2⟩ := frequency_table_value_bounds hw1 ha1 hb1
  obtain ⟨c3, c4⟩ := frequency_table_value_bounds (by omega) ha2 hb2
  have p1 := (frequency_table_packed_frequency_eq hv1 ho1 c1 c2).2.1
  have p2 := (frequency_table_packed_frequency_eq hv2 ho2 c3 c4).2.1
  have hoo : o1 ≤ o2 := by
    by_contra hcon
    have h21 : o2 + 1 ≤ o1 := by omega
    have hp : 2 ^ (o2 + 1) ≤ 2 ^ o1 := Nat.pow_le_pow_right (by decide) h21
    rw [pow_succ] at hp
    have hcr : 0 < p_range.clock_ratio := by
      rcases frequency_table_supported hsup with h | h <;> omega
    nlinarith
  rw [hv1, hv2, p1, p2]
  exact ⟨hoo, rfl, rfl, hoo⟩

theorem C25_octave_monotone_witness :
    (frequency_table_octave_value g_saa1099_7mhz_vera_psg_range.clock_ratio 147).1 ≤
      (frequency_table_octave_value g_saa1099_7mhz_vera_psg_range.clock_ratio 148).1 ∧
    frequency_table_packed_frequency g_saa1099_7mhz_vera_psg_range.clock_ratio 147 >>> 8 =
      (frequency_table_octave_value g_saa1099_7mhz_vera_psg_range.clock_ratio 147).1 ∧
    frequency_table_packed_frequency g_saa1099_7mhz_vera_psg_range.clock_ratio 148 >>> 8 =
      (frequency_table_octave_value g_saa1099_7mhz_vera_psg_range.clock_ratio 148).1 ∧
    frequency_table_packed_frequency g_saa1099_7mhz_vera_psg_range.clock_ratio 147 >>> 8 ≤
      frequency_table_packed_frequency g_saa1099_7mhz_vera_psg_range.clock_ratio 148 >>> 8 :=
  C25_octave_monotone g_saa1099_7mhz_vera_psg_range 147 148 (Or.inl rfl) (by decide)
    (by decide) (by decide) (by decide)

/-- C26: for each supported clock and every frequency word `w` in the
supported range, the final scaled value is at most 511, the unsigned
subtraction `511 - value` does not wrap and the divisor it packs is in 0..511;
for every octave `o` in 0..7 the ratio `clock_ratio << (17 + o)` is below 2^32,
so the `uint32_t` entry `ratios[o]` holds it exactly. -/
theorem C26_value_and_ratios_in_range (p_range : saa1099_verga_psg_range_t) (w : Nat)
    (hsup : p_range = g_saa1099_7mhz_vera_psg_range ∨ p_range = g_saa1099_8mhz_vera_psg_range)
    (hmin : p_range.min_r ≤ w) (hmax : w ≤ p_range.max_r) :
    (frequency_table_octave_value p_range.clock_ratio w).2 ≤
      FREQ_SAA1099_FREQUENCY_DIV_MAX_RANGE ∧
    (FREQ_SAA1099_FREQUENCY_DIV_MAX_RANGE + 65536 -
        (frequency_table_octave_value p_range.clock_ratio w).2) % 65536 =
      FREQ_SAA1099_FREQUENCY_DIV_MAX_RANGE -
        (frequency_table_octave_value p_range.clock_ratio w).2 ∧
    FREQ_SAA1099_FREQUENCY_DIV_MAX_RANGE -
        (frequency_table_octave_value p_range.clock_ratio w).2 ≤ 511 ∧
    (∀ o, o ≤ 7 →
      p_range.clock_ratio <<< (VERA_PSG_FREQ_BASE_OCTAVE + o) < 4294967296 ∧
      frequency_table_ratios p_range.clock_ratio o =
        p_range.clock_ratio <<< (VERA_PSG_FREQ_BASE_OCTAVE + o)) := by
  have k1 : FREQ_SAA1099_FREQUENCY_DIV_MAX_RANGE = 511 := rfl
  have hval : (frequency_table_octave_value p_range.clock_ratio w).2 ≤ 511 := by
    by_cases hslip : p_range = g_saa1099_8mhz_vera_psg_range ∧ w = 82
    · obtain ⟨h8, h82⟩ := hslip
      subst h8; subst h82
      decide
    · obtain ⟨o, ho, hv, ha, hb⟩ := frequency_table_octave_value_supported hsup hmin hmax hslip
      have hw : 0 < w := by
        rcases frequency_table_supported hsup with h | h <;> omega
      rw [hv]
      exact (frequency_table_value_bounds hw ha hb).2
  rw [k1]
  refine ⟨hval, by omega, by omega, ?_⟩
  intro o ho
  have hlt : p_range.clock_ratio <<< (VERA_PSG_FREQ_BASE_OCTAVE + o) < 4294967296 := by
    have hV : VERA_PSG_FREQ_BASE_OCTAVE = 17 := rfl
    rw [hV, Nat.shiftLeft_eq]
    have hP : 2 ^ o ≤ 2 ^ 7 := Nat.pow_le_pow_right (by decide) ho
    have e1 : 2 ^ (17 + o) = 2 ^ o * 131072 := by rw [pow_add]; ring
    rw [e1]
    have hcr : p_range.clock_ratio < 256 := by
      rcases frequency_table_supported hsup with h | h <;> omega
    generalize 2 ^ o = P at hP
    nlinarith
  refine ⟨hlt, ?_⟩
  unfold frequency_table_ratios
  exact Nat.mod_eq_of_lt hlt

theorem C26_value_and_ratios_in_range_witness :
    (frequency_table_octave_value g_saa1099_8mhz_vera_psg_range.clock_ratio 82).2 ≤
      FREQ_SAA1099_FREQUENCY_DIV_MAX_RANGE ∧
    g_saa1099_8mhz_vera_psg_range.clock_ratio <<< (VERA_PSG_FREQ_BASE_OCTAVE + 7) <
      4294967296 :=
  ⟨(C26_value_and_ratios_in_range g_saa1099_8mhz_vera_psg_range 82 (Or.inr rfl) (by decide)
      (by decide)).1,
   ((C26_value_and_ratios_in_range g_saa1099_8mhz_vera_psg_range 82 (Or.inr rfl) (by decide)
      (by decide)).2.2.2 7 (by decide)).1⟩

/-! ## Claims on the translation of PSG writes -/

/-- C27: in a state left by initialisation with a supported clock, for every
chip, channel and frequency word `w`, the clamped word lies in
`[min_r, max_r]`, the index `clamp(w) - min_r` is below the length
`max_r - min_r + 1` of the table and the lookup at it returns the entry of the
clamped word; `saa1099_set_frequency` returns a state, the same one as for the
clamped word, so a word below `min_r` gives exactly the writes of `min_r` and
a word above `max_r` exactly those of `max_r`. -/
theorem C27_frequency_clamp (g : saa1099_globals) (p_range : saa1099_verga_psg_range_t)
    (chip_id saa_channel w : Nat) (hr : saa1099_ready g p_range)
    (hchip : chip_id < SAA1099_MAX_CHIPS) (hch : saa_channel < SAA1099_CHANNEL_COUNT) :
    p_range.min_r ≤ saa1099_clamp_word p_range w ∧
    saa1099_clamp_word p_range w ≤ p_range.max_r ∧
    (∃ table, g.g_p_vera_psg_to_frequency_table = some table ∧
      table.length = p_range.max_r - p_range.min_r + 1 ∧
      saa1099_clamp_word p_range w - p_range.min_r < table.length ∧
      table[saa1099_clamp_word p_range w - p_range.min_r]? =
        some (frequency_table_packed_frequency p_range.clock_ratio
          (saa1099_clamp_word p_range w))) ∧
    (∃ g1, saa1099_set_frequency chip_id saa_channel w g = some g1 ∧
      g1.ports.length = g.ports.length + 4) ∧
    saa1099_set_frequency chip_id saa_channel w g =
      saa1099_set_frequency chip_id saa_channel (saa1099_clamp_word p_range w) g ∧
    (w < p_range.min_r →
      saa1099_set_frequency chip_id saa_channel w g =
        saa1099_set_frequency chip_id saa_channel p_range.min_r g) ∧
    (w > p_range.max_r →
      saa1099_set_frequency chip_id saa_channel w g =
        saa1099_set_frequency chip_id saa_channel p_range.max_r g) := by
  obtain ⟨b1, b2, b3, b4⟩ := saa1099_clamp_word_bounds hr.supported w
  obtain ⟨table, ht, hlen, hget⟩ := frequency_table_getElem? p_range
  have hmax : p_range.max_r < 65536 ∧ p_range.min_r ≤ p_range.max_r := by
    rcases frequency_table_supported hr.supported with h | h <;> omega
  have hback : (saa1099_clamp_word p_range w - p_range.min_r + p_range.min_r) % 65536 =
      saa1099_clamp_word p_range w := by omega
  have hlook := hget _ b3
  rw [hback] at hlook
  obtain ⟨cached, _, hset⟩ := saa1099_set_frequency_eq hr w hchip hch
  obtain ⟨cached2, _, hset2⟩ :=
    saa1099_set_frequency_eq hr (saa1099_clamp_word p_range w) hchip hch
  have hsame : saa1099_set_frequency chip_id saa_channel w g =
      saa1099_set_frequency chip_id saa_channel (saa1099_clamp_word p_range w) g := by
    have hc : cached2 = cached := by
      have h1 : g.g_cache[32 * chip_id + (16 + saa_channel / 2)]? = some cached := by assumption
      have h2 : g.g_cache[32 * chip_id + (16 + saa_channel / 2)]? = some cached2 := by
        assumption
      rw [h1] at h2
      exact (Option.some.inj h2).symm
    rw [hset, hset2, saa1099_clamp_word_idem hr.supported, hc]
  refine ⟨b1, b2, ⟨table, by rw [hr.table, ht], by rw [hlen, b4], by rw [hlen]; exact b3,
    hlook⟩, ⟨_, hset, ?_⟩, hsame, ?_, ?_⟩
  · simp [saa1099_write_ports]
  · intro hlt
    have e : saa1099_clamp_word p_range w = p_range.min_r := by
      unfold saa1099_clamp_word; rw [if_pos hlt]
    rw [hsame, e]
  · intro hgt
    have e : saa1099_clamp_word p_range w = p_range.max_r := by
      unfold saa1099_clamp_word; rw [if_neg (by omega), if_pos hgt]
    rw [hsame, e]

theorem C27_frequency_clamp_witness :
    ∃ g, saa1099_vera_psg_initialize 0x210 SAA1099_CLOCK_7159090_HZ saa1099_globals_initial =
        some g ∧
      (∃ g1, saa1099_set_frequency 1 3 5 g = some g1 ∧ g1.ports.length = g.ports.length + 4) ∧
      saa1099_set_frequency 1 3 5 g = saa1099_set_frequency 1 3 74 g := by
  obtain ⟨g, hg, hr, _⟩ := saa1099_vera_psg_initialize_ready
    saa1099_globals_initial 0x210 SAA1099_CLOCK_7159090_HZ g_saa1099_7mhz_vera_psg_range
    (by decide) (Or.inl ⟨rfl, rfl⟩)
  have h := C27_frequency_clamp g g_saa1099_7mhz_vera_psg_range 1 3 5 hr (by decide) (by decide)
  exact ⟨g, hg, h.2.2.2.1, h.2.2.2.2.2.1 (by decide)⟩

/-- C28: in a state left by initialisation with a supported clock, for every
chip `c`, channel `ch` in 0..5 and word `w`, with `entry` the table entry of
the clamped word and `cached` the cached byte of octave register
`0x10 + (ch >> 1)` of chip `c`: `saa1099_set_frequency` makes exactly two
register writes on chip `c`, first register `0x08 + ch` with `entry & 0xFF`,
then register `0x10 + (ch >> 1)` with a byte whose 3-bit field of `ch` (bits
0-2 for even `ch`, bits 4-6 for odd `ch`) is the octave field
`(entry & 0x0700) >> 8` of the entry, which is its high byte when that is at
most 7, and whose 3-bit field of the other channel is that field of `cached`;
the register cache changes at these two registers only and nothing else of
the state changes. -/
theorem C28_frequency_write (g : saa1099_globals) (p_range : saa1099_verga_psg_range_t)
    (chip_id saa_channel w : Nat) (hr : saa1099_ready g p_range)
    (hchip : chip_id < SAA1099_MAX_CHIPS) (hch : saa_channel < SAA1099_CHANNEL_COUNT) :
    ∃ entry cached octave_data g1,
      g.g_p_vera_psg_to_frequency_table.bind
        (fun table => table[saa1099_clamp_word p_range w - p_range.min_r]?) = some entry ∧
      g.g_cache[SAA1099_GET_CACHE_OFFSET chip_id +
        (SAA1099_ADDRESS_OCTAVE + (saa_channel >>> 1))]? = some cached ∧
      saa1099_set_frequency chip_id saa_channel w g = some g1 ∧
      g1.ports = g.ports ++
        saa1099_write_ports g.g_port_base_address chip_id
          (SAA1099_ADDRESS_FREQUENCY + saa_channel) (entry &&& 0xFF) ++
        saa1099_write_ports g.g_port_base_address chip_id
          (SAA1099_ADDRESS_OCTAVE + (saa_channel >>> 1)) octave_data ∧
      (saa_channel % 2 = 0 →
        octave_data &&& 7 = (entry &&& 0x0700) >>> 8 ∧
        (octave_data >>> 4) &&& 7 = (cached >>> 4) &&& 7) ∧
      (saa_channel % 2 = 1 →
        (octave_data >>> 4) &&& 7 = (entry &&& 0x0700) >>> 8 ∧
        octave_data &&& 7 = cached &&& 7) ∧
      (entry >>> 8 ≤ 7 → (entry &&& 0x0700) >>> 8 = entry >>> 8) ∧
      g1.g_cache =
        (g.g_cache.set (SAA1099_GET_CACHE_OFFSET chip_id +
            (SAA1099_ADDRESS_FREQUENCY + saa_channel)) (entry &&& 0xFF)).set
          (SAA1099_GET_CACHE_OFFSET chip_id + (SAA1099_ADDRESS_OCTAVE + (saa_channel >>> 1)))
          octave_data ∧
      (∀ i, i ≠ SAA1099_GET_CACHE_OFFSET chip_id + (SAA1099_ADDRESS_FREQUENCY + saa_channel) →
        i ≠ SAA1099_GET_CACHE_OFFSET chip_id + (SAA1099_ADDRESS_OCTAVE + (saa_channel >>> 1)) →
        g1.g_cache[i]? = g.g_cache[i]?) ∧
      saa1099_write_frame g g1 := by
  obtain ⟨b1, b2, b3, b4⟩ := saa1099_clamp_word_bounds hr.supported w
  obtain ⟨table, ht, hlen, hget⟩ := frequency_table_getElem? p_range
  have hmax : p_range.max_r < 65536 := by
    rcases frequency_table_supported hr.supported with h | h <;> omega
  have hback : (saa1099_clamp_word p_range w - p_range.min_r + p_range.min_r) % 65536 =
      saa1099_clamp_word p_range w := by omega
  have hlook := hget _ b3
  rw [hback] at hlook
  obtain ⟨cached, hcached, hset⟩ := saa1099_set_frequency_eq hr w hchip hch
  have e1 : SAA1099_GET_CACHE_OFFSET chip_id + (SAA1099_ADDRESS_OCTAVE + (saa_channel >>> 1)) =
      32 * chip_id + (16 + saa_channel / 2) := by
    unfold SAA1099_GET_CACHE_OFFSET SAA1099_ADDRESS_OCTAVE
    rw [Nat.shiftLeft_eq, Nat.shiftRight_eq_div_pow]
    omega
  have e2 : SAA1099_GET_CACHE_OFFSET chip_id + (SAA1099_ADDRESS_FREQUENCY + saa_channel) =
      32 * chip_id + (8 + saa_channel) := by
    unfold SAA1099_GET_CACHE_OFFSET SAA1099_ADDRESS_FREQUENCY
    rw [Nat.shiftLeft_eq]
    omega
  have e3 : SAA1099_ADDRESS_OCTAVE + (saa_channel >>> 1) = 16 + saa_channel / 2 := by
    unfold SAA1099_ADDRESS_OCTAVE
    rw [Nat.shiftRight_eq_div_pow]
  have e4 : SAA1099_ADDRESS_FREQUENCY + saa_channel = 8 + saa_channel := rfl
  rw [e1, e2, e3, e4]
  refine ⟨frequency_table_packed_frequency p_range.clock_ratio (saa1099_clamp_word p_range w),
    cached,
    saa1099_octave_data cached
      (frequency_table_packed_frequency p_range.clock_ratio (saa1099_clamp_word p_range w))
      saa_channel,
    _, ?_, hcached, hset, rfl, ?_, ?_, ?_, rfl, ?_, ?_⟩
  · rw [hr.table, ht, Option.some_bind, hlook]
  · intro h
    exact saa1099_octave_data_even _ _ _ h
  · intro h
    exact saa1099_octave_data_odd _ _ _ h
  · intro h
    generalize frequency_table_packed_frequency p_range.clock_ratio
      (saa1099_clamp_word p_range w) = entry at h
    apply Nat.eq_of_testBit_eq
    intro i
    simp only [Nat.testBit_shiftRight, Nat.testBit_and]
    by_cases hi : i < 3
    · have : (0x0700 : Nat).testBit (8 + i) = true := by
        interval_cases i <;> rfl
      rw [this, Bool.and_true]
    · have hlt : entry >>> 8 < 2 ^ i :=
        lt_of_lt_of_le (by omega : entry >>> 8 < 2 ^ 3)
          (Nat.pow_le_pow_right (by decide) (by omega))
      have hz : (entry >>> 8).testBit i = false := Nat.testBit_lt_two_pow hlt
      rw [Nat.testBit_shiftRight] at hz
      rw [hz, Bool.false_and]
  · intro i h1 h2
    show ((g.g_cache.set _ _).set _ _)[i]? = _
    rw [List.getElem?_set_ne (Ne.symm h2), List.getElem?_set_ne (Ne.symm h1)]
  · exact ⟨rfl, rfl, rfl, rfl, rfl, by simp⟩

theorem C28_frequency_write_witness :
    ∃ g, saa1099_vera_psg_initialize 0x210 SAA1099_CLOCK_8000000_HZ saa1099_globals_initial =
        some g ∧
      ∃ entry octave_data g1,
        saa1099_set_frequency 1 3 440 g = some g1 ∧
        g1.ports = g.ports ++
          saa1099_write_ports g.g_port_base_address 1
            (SAA1099_ADDRESS_FREQUENCY + 3) (entry &&& 0xFF) ++
          saa1099_write_ports g.g_port_base_address 1
            (SAA1099_ADDRESS_OCTAVE + (3 >>> 1)) octave_data := by
  obtain ⟨g, hg, hr, _⟩ := saa1099_vera_psg_initialize_ready
    saa1099_globals_initial 0x210 SAA1099_CLOCK_8000000_HZ g_saa1099_8mhz_vera_psg_range
    (by decide) (Or.inr ⟨rfl, rfl⟩)
  obtain ⟨entry, cached, octave_data, g1, _, _, h3, h4, _⟩ :=
    C28_frequency_write g g_saa1099_8mhz_vera_psg_range 1 3 440 hr (by decide) (by decide)
  exact ⟨g, hg, entry, octave_data, g1, h3, h4⟩

/-- C29: for every virtual channel `v` in 0..11 and data byte `d`, the write
to sub-address 2 of `v` looks up `lookup[d & 0x3F]` and
`mask[(d & 0xC0) >> 6]`, both inside their tables, the second index being
`(d >> 6) & 3`, and makes exactly one register write, to amplitude register
`0x00 + (v mod 6)` of chip `v / 6`, with value `lookup & mask`; that cached
register is the only part of the state that changes. The low nibble of the
value is 0 unless bit 6 of `d` is set, the high nibble is 0 unless bit 7 is
set, and the value is 0 when neither is set. -/
theorem C29_volume_write (g : saa1099_globals) (v d : Nat)
    (hc : g.g_cache.length = SAA1099_REGISTER_COUNT * SAA1099_MAX_CHIPS)
    (hv : v < SAA1099_VERA_PSG_CHANNELS) (hd : d < 256) :
    ∃ volume mask,
      g_vera_psg_volume_to_saa1099_volume[d &&& 0x3F]? = some volume ∧
      g_saa_amplitude_mask[(d >>> 6) &&& 3]? = some mask ∧
      saa1099_vera_psg_write (4 * v + VERA_PSG_OFFSET_RL_VOLUME) d g =
        some { g with
          g_cache := g.g_cache.set (SAA1099_GET_CACHE_OFFSET (v / 6) +
            (SAA1099_ADDRESS_AMPLITUDE + v % 6)) (volume &&& mask),
          ports := g.ports ++
            saa1099_write_ports g.g_port_base_address (v / 6)
              (SAA1099_ADDRESS_AMPLITUDE + v % 6) (volume &&& mask) } ∧
      (d.testBit 6 = false → (volume &&& mask) &&& 0x0F = 0) ∧
      (d.testBit 7 = false → (volume &&& mask) &&& 0xF0 = 0) ∧
      (d.testBit 6 = false → d.testBit 7 = false → volume &&& mask = 0) := by
  have hv12 : v < 12 := hv
  obtain ⟨h1, h2, h3, h4⟩ := volume_lookup d hd
  obtain ⟨volume, hvol⟩ := Option.isSome_iff_exists.mp h1
  obtain ⟨mask, hmask⟩ := Option.isSome_iff_exists.mp h2
  obtain ⟨p1, p2, p3⟩ := h4 volume hvol mask hmask
  obtain ⟨a1, a2⟩ := vera_psg_address v 2 (by decide)
  obtain ⟨c1, c2, c3, c4⟩ := vera_psg_channel_chip hv12
  have hlt : VERA_PSG_ADDRESS_TO_CHANNEL (4 * v + 2) < SAA1099_VERA_PSG_CHANNELS := by
    rw [a1]; exact hv
  have e1 : SAA1099_GET_CACHE_OFFSET (v / 6) + (SAA1099_ADDRESS_AMPLITUDE + v % 6) =
      32 * (v / 6) + (SAA1099_ADDRESS_AMPLITUDE + v % 6) := by
    unfold SAA1099_GET_CACHE_OFFSET
    rw [Nat.shiftLeft_eq]
    omega
  have k0 : SAA1099_ADDRESS_AMPLITUDE + v % 6 < 32 := by
    have : SAA1099_ADDRESS_AMPLITUDE = 0 := rfl
    omega
  refine ⟨volume, mask, hvol, ?_, ?_, p1, p2, p3⟩
  · rw [← h3]; exact hmask
  · have k2 : VERA_PSG_OFFSET_RL_VOLUME = 2 := rfl
    rw [k2, e1]
    unfold saa1099_vera_psg_write
    rw [if_pos hlt]
    simp only [a1, a2, c3, c4]
    rw [hvol, Option.some_bind, hmask, Option.some_bind]
    rw [← c3] at *
    exact saa1099_write_eq hc c1 k0

theorem C29_volume_write_witness :
    ∃ volume mask,
      g_vera_psg_volume_to_saa1099_volume[0xBF &&& 0x3F]? = some volume ∧
      g_saa_amplitude_mask[(0xBF >>> 6) &&& 3]? = some mask ∧
      saa1099_vera_psg_write (4 * 7 + VERA_PSG_OFFSET_RL_VOLUME) 0xBF saa1099_globals_initial =
        some { saa1099_globals_initial with
          g_cache := saa1099_globals_initial.g_cache.set (SAA1099_GET_CACHE_OFFSET (7 / 6) +
            (SAA1099_ADDRESS_AMPLITUDE + 7 % 6)) (volume &&& mask),
          ports := saa1099_globals_initial.ports ++
            saa1099_write_ports saa1099_globals_initial.g_port_base_address (7 / 6)
              (SAA1099_ADDRESS_AMPLITUDE + 7 % 6) (volume &&& mask) } ∧
      ((0xBF : Nat).testBit 6 = false → (volume &&& mask) &&& 0x0F = 0) ∧
      ((0xBF : Nat).testBit 7 = false → (volume &&& mask) &&& 0xF0 = 0) ∧
      ((0xBF : Nat).testBit 6 = false → (0xBF : Nat).testBit 7 = false → volume &&& mask = 0) :=
  C29_volume_write saa1099_globals_initial 7 0xBF (by decide) (by decide) (by decide)

/-- C30, counterexample: in the state left by initialisation (7.15909 MHz
clock, port base 0x210) the cached selector of every channel is 0, so a
waveform write to channel 0 (address 3) with data 0x3F, selector 0, returns
the state unchanged: the first of two such consecutive writes emits no
register write, and the two emit none in total instead of one pair. -/
theorem C30_counterexample_selector_cached :
    ∃ g, saa1099_vera_psg_initialize 0x210 SAA1099_CLOCK_7159090_HZ saa1099_globals_initial =
        some g ∧
      g.g_vera_psg_channel_waveform[0]? = some 0 ∧
      (0x3F &&& VERA_PSG_MASK_WAVEFORM) >>> VERA_PSG_SHIFT_WAVEFORM = 0 ∧
      saa1099_vera_psg_write 3 0x3F g = some g ∧
      (saa1099_vera_psg_write 3 0x3F g).bind (saa1099_vera_psg_write 3 0x3F) = some g := by
  obtain ⟨g, hg, _, _, hw, _⟩ := saa1099_vera_psg_initialize_ready
    saa1099_globals_initial 0x210 SAA1099_CLOCK_7159090_HZ g_saa1099_7mhz_vera_psg_range
    (by decide) (Or.inl ⟨rfl, rfl⟩)
  have hc0 : g.g_vera_psg_channel_waveform[0]? = some 0 := by rw [hw]; rfl
  have h1 : saa1099_vera_psg_write 3 0x3F g = some g :=
    saa1099_vera_psg_write_waveform_same (v := 0) (d := 0x3F) (by decide) hc0
  refine ⟨g, hg, hc0, by decide, h1, ?_⟩
  rw [h1, Option.some_bind, h1]

/-- C30, amended: for every virtual channel `v` in 0..11, every state whose
caches have their declared sizes and all data bytes `d1`, `d2` with the same
selector `s` in bits 7-6, the waveform write of `d1` to `v` returns a state
on which the waveform write of `d2` to `v` changes nothing and emits no
register write; the first write emits exactly two register writes, both on
chip `v / 6`, when `s` differs from the cached selector of `v`, and returns
the state unchanged, emitting none, when `s` equals it. -/
theorem C30_waveform_write_suppression (g : saa1099_globals) (v d1 d2 : Nat)
    (hc : g.g_cache.length = SAA1099_REGISTER_COUNT * SAA1099_MAX_CHIPS)
    (hw : g.g_vera_psg_channel_waveform.length = SAA1099_VERA_PSG_CHANNELS)
    (hv : v < SAA1099_VERA_PSG_CHANNELS)
    (hsel : (d1 &&& VERA_PSG_MASK_WAVEFORM) >>> VERA_PSG_SHIFT_WAVEFORM =
      (d2 &&& VERA_PSG_MASK_WAVEFORM) >>> VERA_PSG_SHIFT_WAVEFORM) :
    ∃ cached g1,
      g.g_vera_psg_channel_waveform[v]? = some cached ∧
      saa1099_vera_psg_write (4 * v + VERA_PSG_OFFSET_WAVEFORM_PULSE_WIDTH) d1 g = some g1 ∧
      saa1099_vera_psg_write (4 * v + VERA_PSG_OFFSET_WAVEFORM_PULSE_WIDTH) d2 g1 = some g1 ∧
      ((d1 &&& VERA_PSG_MASK_WAVEFORM) >>> VERA_PSG_SHIFT_WAVEFORM = cached → g1 = g) ∧
      ((d1 &&& VERA_PSG_MASK_WAVEFORM) >>> VERA_PSG_SHIFT_WAVEFORM ≠ cached →
        ∃ address1 data1 address2 data2,
          g1.ports = g.ports ++
            saa1099_write_ports g.g_port_base_address (v / 6) address1 data1 ++
            saa1099_write_ports g.g_port_base_address (v / 6) address2 data2) := by
  have hv12 : v < 12 := hv
  have hlt : v < g.g_vera_psg_channel_waveform.length := by rw [hw]; exact hv
  have hcached := List.getElem?_eq_getElem hlt
  have k3 : VERA_PSG_OFFSET_WAVEFORM_PULSE_WIDTH = 3 := rfl
  rw [k3]
  by_cases hs : (d1 &&& VERA_PSG_MASK_WAVEFORM) >>> VERA_PSG_SHIFT_WAVEFORM =
      g.g_vera_psg_channel_waveform[v]
  · have hc1 : g.g_vera_psg_channel_waveform[v]? =
        some ((d1 &&& VERA_PSG_MASK_WAVEFORM) >>> VERA_PSG_SHIFT_WAVEFORM) := by
      rw [hcached, hs]
    have hc2 : g.g_vera_psg_channel_waveform[v]? =
        some ((d2 &&& VERA_PSG_MASK_WAVEFORM) >>> VERA_PSG_SHIFT_WAVEFORM) := by
      rw [← hsel]; exact hc1
    exact ⟨_, g, hcached, saa1099_vera_psg_write_waveform_same hv12 hc1,
      saa1099_vera_psg_write_waveform_same hv12 hc2, fun _ => rfl, fun h => absurd hs h⟩
  · obtain ⟨en, di, enabled, disabled, _, _, _, _, hwrite⟩ :=
      saa1099_vera_psg_write_waveform_change hc hv12 hcached hs
    refine ⟨_, _, hcached, hwrite, ?_, fun h => absurd h hs,
      fun _ => ⟨en, _, di, _, rfl⟩⟩
    apply saa1099_vera_psg_write_waveform_same hv12
    show (g.g_vera_psg_channel_waveform.set v _)[v]? = _
    rw [List.getElem?_set_self hlt, hsel]

theorem C30_waveform_write_suppression_witness :
    ∃ cached g1,
      saa1099_globals_initial.g_vera_psg_channel_waveform[5]? = some cached ∧
      saa1099_vera_psg_write (4 * 5 + VERA_PSG_OFFSET_WAVEFORM_PULSE_WIDTH) 0xC0
        saa1099_globals_initial = some g1 ∧
      saa1099_vera_psg_write (4 * 5 + VERA_PSG_OFFSET_WAVEFORM_PULSE_WIDTH) 0xFF g1 = some g1 ∧
      ((0xC0 &&& VERA_PSG_MASK_WAVEFORM) >>> VERA_PSG_SHIFT_WAVEFORM = cached →
        g1 = saa1099_globals_initial) ∧
      ((0xC0 &&& VERA_PSG_MASK_WAVEFORM) >>> VERA_PSG_SHIFT_WAVEFORM ≠ cached →
        ∃ address1 data1 address2 data2,
          g1.ports = saa1099_globals_initial.ports ++
            saa1099_write_ports saa1099_globals_initial.g_port_base_address (5 / 6)
              address1 data1 ++
            saa1099_write_ports saa1099_globals_initial.g_port_base_address (5 / 6)
              address2 data2) :=
  C30_waveform_write_suppression saa1099_globals_initial 5 0xC0 0xFF (by decide) (by decide)
    (by decide) (by decide)

/-! ## Claims on the leading-zero count and on ignored channels -/

/-- C33: for every 16-bit `x`, `nlz5_16 x` is the number of leading zero bits
of `x` as a 16-bit value, 16 for `x = 0` and `15 - floor(log2 x)` otherwise;
and for every frequency word `w` in 64..65535 the octave estimate of the table
generation, `min(9 - nlz5_16(w), 7)` computed in a `uint8_t`, is
`min(floor(log2 w) - 6, 7)`. -/
theorem C33_nlz5_16_leading_zeros (x : Nat) (hx : x < 65536) :
    nlz5_16 x = count_leading_zeros 16 x ∧
    (x = 0 → nlz5_16 x = 16) ∧
    (0 < x → nlz5_16 x = 15 - Nat.log2 x) ∧
    (64 ≤ x →
      frequency_table_octave_estimate x = min (9 - nlz5_16 x) 7 ∧
      frequency_table_octave_estimate x = min (Nat.log2 x - 6) 7) := by
  rcases Nat.eq_zero_or_pos x with h0 | hpos
  · subst h0
    refine ⟨?_, fun _ => nlz5_16_zero, fun h => absurd h (by decide), fun h => absurd h (by decide)⟩
    rw [nlz5_16_zero, count_leading_zeros_zero]
  · obtain ⟨hlo, hhi⟩ := band_of_pos hpos
    have hk := log2_lt_16 hpos hx
    have hn := nlz5_16_band (Nat.log2 x) x hk hlo hhi
    refine ⟨?_, fun h => by omega, fun _ => hn, ?_⟩
    · rw [hn, count_leading_zeros_band hlo hhi 16 (by omega)]
    · intro h64
      have h6 : 6 ≤ Nat.log2 x := by
        by_contra hcon
        have : 2 ^ (Nat.log2 x + 1) ≤ 2 ^ 6 := Nat.pow_le_pow_right (by decide) (by omega)
        have e : (2 : Nat) ^ 6 = 64 := rfl
        omega
      have hest := frequency_table_octave_estimate_band (Nat.log2 x) x h6 hk hlo hhi
      rw [hest, hn]
      constructor
      · split_ifs <;> omega
      · split_ifs <;> omega

theorem C33_nlz5_16_leading_zeros_witness :
    nlz5_16 440 = count_leading_zeros 16 440 ∧
    (440 = 0 → nlz5_16 440 = 16) ∧
    (0 < 440 → nlz5_16 440 = 15 - Nat.log2 440) ∧
    (64 ≤ 440 →
      frequency_table_octave_estimate 440 = min (9 - nlz5_16 440) 7 ∧
      frequency_table_octave_estimate 440 = min (Nat.log2 440 - 6) 7) :=
  C33_nlz5_16_leading_zeros 440 (by decide)

/-- C32: a virtual PSG write whose address selects a channel of 12 or more
(`address >> 2 >= 12`, so the addresses 0x30..0x3F and every larger one)
returns the state as it was, for every data byte and every sub-address: no
`outp` call is logged and the frequency cache, the waveform cache and the
register cache are unchanged. -/
theorem C32_channels_above_11_ignored (address data : Nat) (g : saa1099_globals)
    (hch : SAA1099_VERA_PSG_CHANNELS ≤ VERA_PSG_ADDRESS_TO_CHANNEL address) :
    saa1099_vera_psg_write address data g = some g ∧
    (0x30 ≤ address ↔ SAA1099_VERA_PSG_CHANNELS ≤ VERA_PSG_ADDRESS_TO_CHANNEL address) := by
  constructor
  · unfold saa1099_vera_psg_write
    rw [if_neg (by omega)]
  · unfold VERA_PSG_ADDRESS_TO_CHANNEL SAA1099_VERA_PSG_CHANNELS
    rw [Nat.shiftRight_eq_div_pow]
    have : (2 : Nat) ^ 2 = 4 := rfl
    omega

theorem C32_channels_above_11_ignored_witness :
    saa1099_vera_psg_write 0x3B 0xFF saa1099_globals_initial = some saa1099_globals_initial ∧
    (0x30 ≤ 0x3B ↔ SAA1099_VERA_PSG_CHANNELS ≤ VERA_PSG_ADDRESS_TO_CHANNEL 0x3B) :=
  C32_channels_above_11_ignored 0x3B 0xFF saa1099_globals_initial (by decide)

/-! ## Claims on the divisor range, pitch order and waveform writes -/

/-- C36: for both supported clocks and every frequency word `w` of the
supported range, the scaled value is at least 256 before the two range tests
of the table generation, so the branch that raises a value below 256 is never
taken; the final value lies in 256..511, the stored divisor `511 - value` lies
in 0..255 (its bit 8 is 0) and is the low byte of the packed entry, the byte
that the frequency write sends to the frequency register. -/
theorem C36_value_in_divisor_range (p_range : saa1099_verga_psg_range_t) (w : Nat)
    (hsup : p_range = g_saa1099_7mhz_vera_psg_range ∨ p_range = g_saa1099_8mhz_vera_psg_range)
    (hmin : p_range.min_r ≤ w) (hmax : w ≤ p_range.max_r) :
    ¬ (((frequency_table_ratios p_range.clock_ratio (frequency_table_octave_estimate w) / w) >>>
        FREQ_23_9_FIXED_POINT_SHIFT) % 65536 < FREQ_SAA1099_FREQUENCY_DIV_MAX_VALUE) ∧
    FREQ_SAA1099_FREQUENCY_DIV_MAX_VALUE ≤
      (frequency_table_octave_value p_range.clock_ratio w).2 ∧
    (frequency_table_octave_value p_range.clock_ratio w).2 ≤
      FREQ_SAA1099_FREQUENCY_DIV_MAX_RANGE ∧
    FREQ_SAA1099_FREQUENCY_DIV_MAX_RANGE -
      (frequency_table_octave_value p_range.clock_ratio w).2 ≤ 255 ∧
    (FREQ_SAA1099_FREQUENCY_DIV_MAX_RANGE -
      (frequency_table_octave_value p_range.clock_ratio w).2).testBit 8 = false ∧
    frequency_table_packed_frequency p_range.clock_ratio w &&&
        SAA1099_MASK_PACKED_FREQUENCY_FREQUENCY =
      FREQ_SAA1099_FREQUENCY_DIV_MAX_RANGE -
        (frequency_table_octave_value p_range.clock_ratio w).2 := by
  have k1 : FREQ_SAA1099_FREQUENCY_DIV_MAX_RANGE = 511 := rfl
  have k2 : FREQ_SAA1099_FREQUENCY_DIV_MAX_VALUE = 256 := rfl
  have k3 : SAA1099_MASK_PACKED_FREQUENCY_FREQUENCY = 0xFF := rfl
  have hcr : 128 ≤ p_range.clock_ratio ∧ p_range.clock_ratio < 256 ∧ 64 ≤ w ∧
      w ≤ p_range.clock_ratio * 128 := by
    rcases frequency_table_supported hsup with h | h <;> omega
  have hraw := frequency_table_raw_value_ge p_range.clock_ratio w hcr.1 hcr.2.1 hcr.2.2.1
    hcr.2.2.2
  rw [k1, k2, k3]
  refine ⟨by omega, ?_⟩
  by_cases hslip : p_range = g_saa1099_8mhz_vera_psg_range ∧ w = 82
  · obtain ⟨h8, h82⟩ := hslip
    subst h8; subst h82
    decide
  · obtain ⟨o, ho, hv, ha, hb⟩ := frequency_table_octave_value_supported hsup hmin hmax hslip
    obtain ⟨c1, c2⟩ := frequency_table_value_bounds (by omega : 0 < w) ha hb
    obtain ⟨_, _, p3, _⟩ := frequency_table_packed_frequency_eq hv ho c1 c2
    rw [hv]
    refine ⟨c1, c2, by omega, ?_, p3⟩
    apply Nat.testBit_lt_two_pow
    show 511 - _ < 256
    omega

theorem C36_value_in_divisor_range_witness :
    FREQ_SAA1099_FREQUENCY_DIV_MAX_VALUE ≤
      (frequency_table_octave_value g_saa1099_8mhz_vera_psg_range.clock_ratio 82).2 ∧
    frequency_table_packed_frequency g_saa1099_8mhz_vera_psg_range.clock_ratio 82 &&&
        SAA1099_MASK_PACKED_FREQUENCY_FREQUENCY =
      FREQ_SAA1099_FREQUENCY_DIV_MAX_RANGE -
        (frequency_table_octave_value g_saa1099_8mhz_vera_psg_range.clock_ratio 82).2 :=
  ⟨(C36_value_in_divisor_range g_saa1099_8mhz_vera_psg_range 82 (Or.inr rfl) (by decide)
      (by decide)).2.1,
   (C36_value_in_divisor_range g_saa1099_8mhz_vera_psg_range 82 (Or.inr rfl) (by decide)
      (by decide)).2.2.2.2.2⟩

/-- C40: in the table of the 7.15909 MHz clock (clock ratio 147, words
74..18767), for all words `w1 <= w2` of the range, the entries at indices
`w1 - 74` and `w2 - 74` are the packed entries of `w1` and `w2`, and the pair
(octave `(entry & 0x0700) >> 8`, divisor `entry & 0xFF`) that the frequency
write extracts from the entry of `w1` is lexicographically less than or equal
to the pair it extracts from the entry of `w2`. -/
theorem C40_pitch_monotone_7mhz (w1 w2 : Nat)
    (hmin : SAA1099_7MHZ_VERA_MIN_FREQUENCY ≤ w1) (hle : w1 ≤ w2)
    (hmax : w2 ≤ SAA1099_7MHZ_VERA_MAX_FREQUENCY) :
    ∃ table entry1 entry2,
      saa1099_generate_vera_psg_frequency_table g_saa1099_7mhz_vera_psg_range = some table ∧
      table[w1 - SAA1099_7MHZ_VERA_MIN_FREQUENCY]? = some entry1 ∧
      table[w2 - SAA1099_7MHZ_VERA_MIN_FREQUENCY]? = some entry2 ∧
      ((entry1 &&& SAA1099_MASK_PACKED_FREQUENCY_OCTAVE) >>>
          SAA1099_SHIFT_PACKED_FREQUENCY_OCTAVE <
        (entry2 &&& SAA1099_MASK_PACKED_FREQUENCY_OCTAVE) >>>
          SAA1099_SHIFT_PACKED_FREQUENCY_OCTAVE ∨
       ((entry1 &&& SAA1099_MASK_PACKED_FREQUENCY_OCTAVE) >>>
          SAA1099_SHIFT_PACKED_FREQUENCY_OCTAVE =
        (entry2 &&& SAA1099_MASK_PACKED_FREQUENCY_OCTAVE) >>>
          SAA1099_SHIFT_PACKED_FREQUENCY_OCTAVE ∧
        entry1 &&& SAA1099_MASK_PACKED_FREQUENCY_FREQUENCY ≤
          entry2 &&& SAA1099_MASK_PACKED_FREQUENCY_FREQUENCY)) := by
  have m1 : SAA1099_7MHZ_VERA_MIN_FREQUENCY = 74 := rfl
  have m2 : SAA1099_7MHZ_VERA_MAX_FREQUENCY = 18767 := rfl
  have k1 : SAA1099_MASK_PACKED_FREQUENCY_OCTAVE = 0x0700 := rfl
  have k2 : SAA1099_SHIFT_PACKED_FREQUENCY_OCTAVE = 8 := rfl
  have k3 : SAA1099_MASK_PACKED_FREQUENCY_FREQUENCY = 0xFF := rfl
  rw [m1] at hmin ⊢
  rw [m2] at hmax
  obtain ⟨table, ht, _, hget⟩ := frequency_table_getElem? g_saa1099_7mhz_vera_psg_range
  have r1 : g_saa1099_7mhz_vera_psg_range.range = 18694 := rfl
  have r2 : g_saa1099_7mhz_vera_psg_range.min_r = 74 := rfl
  have r3 : g_saa1099_7mhz_vera_psg_range.clock_ratio = 147 := rfl
  have g1 := hget (w1 - 74) (by omega)
  have g2 := hget (w2 - 74) (by omega)
  rw [r2, r3] at g1 g2
  have b1 : (w1 - 74 + 74) % 65536 = w1 := by omega
  have b2 : (w2 - 74 + 74) % 65536 = w2 := by omega
  rw [b1] at g1
  rw [b2] at g2
  obtain ⟨o1, ho1, hv1, ha1, hb1⟩ :=
    frequency_table_octave_value_spec 147 w1 (by decide) (by decide) (by omega) (by omega)
  obtain ⟨o2, ho2, hv2, ha2, hb2⟩ :=
    frequency_table_octave_value_spec 147 w2 (by decide) (by decide) (by omega) (by omega)
  obtain ⟨c1, c2⟩ := frequency_table_value_bounds (by omega : 0 < w1) ha1 hb1
  obtain ⟨c3, c4⟩ := frequency_table_value_bounds (by omega : 0 < w2) ha2 hb2
  have hoo : o1 ≤ o2 := by
    by_contra hcon
    have h21 : o2 + 1 ≤ o1 := by omega
    have hp : 2 ^ (o2 + 1) ≤ 2 ^ o1 := Nat.pow_le_pow_right (by decide) h21
    rw [pow_succ] at hp
    nlinarith
  have hmono : o1 = o2 → 147 * 2 ^ (o2 + 8) / w2 ≤ 147 * 2 ^ (o1 + 8) / w1 := by
    intro heq
    rw [heq]
    exact Nat.div_le_div_left hle (by omega)
  generalize 147 * 2 ^ (o1 + 8) / w1 = v1 at hv1 c1 c2 hmono
  generalize 147 * 2 ^ (o2 + 8) / w2 = v2 at hv2 c3 c4 hmono
  obtain ⟨_, _, p3, p4⟩ := frequency_table_packed_frequency_eq hv1 ho1 c1 c2
  obtain ⟨_, _, q3, q4⟩ := frequency_table_packed_frequency_eq hv2 ho2 c3 c4
  refine ⟨table, _, _, ht, g1, g2, ?_⟩
  rw [k1, k2, k3, p3, p4, q3, q4]
  rcases Nat.lt_or_ge o1 o2 with hlt | hge
  · exact Or.inl hlt
  · right
    have heq : o1 = o2 := by omega
    have := hmono heq
    exact ⟨heq, by omega⟩

theorem C40_pitch_monotone_7mhz_witness :
    ∃ table entry1 entry2,
      saa1099_generate_vera_psg_frequency_table g_saa1099_7mhz_vera_psg_range = some table ∧
      table[147 - SAA1099_7MHZ_VERA_MIN_FREQUENCY]? = some entry1 ∧
      table[148 - SAA1099_7MHZ_VERA_MIN_FREQUENCY]? = some entry2 ∧
      ((entry1 &&& SAA1099_MASK_PACKED_FREQUENCY_OCTAVE) >>>
          SAA1099_SHIFT_PACKED_FREQUENCY_OCTAVE <
        (entry2 &&& SAA1099_MASK_PACKED_FREQUENCY_OCTAVE) >>>
          SAA1099_SHIFT_PACKED_FREQUENCY_OCTAVE ∨
       ((entry1 &&& SAA1099_MASK_PACKED_FREQUENCY_OCTAVE) >>>
          SAA1099_SHIFT_PACKED_FREQUENCY_OCTAVE =
        (entry2 &&& SAA1099_MASK_PACKED_FREQUENCY_OCTAVE) >>>
          SAA1099_SHIFT_PACKED_FREQUENCY_OCTAVE ∧
        entry1 &&& SAA1099_MASK_PACKED_FREQUENCY_FREQUENCY ≤
          entry2 &&& SAA1099_MASK_PACKED_FREQUENCY_FREQUENCY)) :=
  C40_pitch_monotone_7mhz 147 148 (by decide) (by decide) (by decide)

/-- C31: for every virtual channel `v` in 0..11 (channel `ch = v mod 6` of
chip `v / 6`) and every data byte whose selector `s` (bits 7-6) differs from
the cached selector of `v`, the waveform write makes exactly two register
writes on that chip: first to register 0x15 when `s = 3` and to register 0x14
otherwise, with the cached byte of that register OR `1 << ch`; then to the
other of the two registers, with its cached byte AND NOT `1 << ch`. Bit `ch`
is set in the first byte and clear in the second, every other bit below 8
keeps its cached value, the register cache changes at these two registers
only, the cached selector of `v` becomes `s` and no other cached selector
changes. -/
theorem C31_waveform_write (g : saa1099_globals) (v d cached : Nat)
    (hc : g.g_cache.length = SAA1099_REGISTER_COUNT * SAA1099_MAX_CHIPS)
    (hv : v < SAA1099_VERA_PSG_CHANNELS)
    (hcached : g.g_vera_psg_channel_waveform[v]? = some cached)
    (hne : (d &&& VERA_PSG_MASK_WAVEFORM) >>> VERA_PSG_SHIFT_WAVEFORM ≠ cached) :
    ∃ enable_index disable_index enabled disabled enable_data disable_data g1,
      enable_index =
        (if (d &&& VERA_PSG_MASK_WAVEFORM) >>> VERA_PSG_SHIFT_WAVEFORM = 3
          then SAA1099_ADDRESS_NOISE_ENABLE else SAA1099_ADDRESS_FREQUENCY_ENABLE) ∧
      disable_index =
        (if (d &&& VERA_PSG_MASK_WAVEFORM) >>> VERA_PSG_SHIFT_WAVEFORM = 3
          then SAA1099_ADDRESS_FREQUENCY_ENABLE else SAA1099_ADDRESS_NOISE_ENABLE) ∧
      g.g_cache[SAA1099_GET_CACHE_OFFSET (v / 6) + enable_index]? = some enabled ∧
      g.g_cache[SAA1099_GET_CACHE_OFFSET (v / 6) + disable_index]? = some disabled ∧
      enable_data = enabled ||| (1 <<< (v % 6)) ∧
      (∀ i, disable_data.testBit i =
        (disabled.testBit i && decide (i < 8) && !decide (v % 6 = i))) ∧
      (∀ i, enable_data.testBit i = (enabled.testBit i || decide (v % 6 = i))) ∧
      saa1099_vera_psg_write (4 * v + VERA_PSG_OFFSET_WAVEFORM_PULSE_WIDTH) d g = some g1 ∧
      g1.ports = g.ports ++
        saa1099_write_ports g.g_port_base_address (v / 6) enable_index enable_data ++
        saa1099_write_ports g.g_port_base_address (v / 6) disable_index disable_data ∧
      g1.g_cache =
        (g.g_cache.set (SAA1099_GET_CACHE_OFFSET (v / 6) + enable_index) enable_data).set
          (SAA1099_GET_CACHE_OFFSET (v / 6) + disable_index) disable_data ∧
      g1.g_vera_psg_channel_waveform =
        g.g_vera_psg_channel_waveform.set v
          ((d &&& VERA_PSG_MASK_WAVEFORM) >>> VERA_PSG_SHIFT_WAVEFORM) ∧
      g1.g_vera_psg_channel_frequency = g.g_vera_psg_channel_frequency ∧
      g1.g_p_saa1099_vera_psg_range = g.g_p_saa1099_vera_psg_range ∧
      g1.g_p_vera_psg_to_frequency_table = g.g_p_vera_psg_to_frequency_table ∧
      g1.g_port_base_address = g.g_port_base_address := by
  have hv12 : v < 12 := hv
  obtain ⟨en, di, enabled, disabled, h1, h2, h3, h4, hwrite⟩ :=
    saa1099_vera_psg_write_waveform_change hc hv12 hcached hne
  have hoff : SAA1099_GET_CACHE_OFFSET (v / 6) = 32 * (v / 6) := by
    unfold SAA1099_GET_CACHE_OFFSET
    rw [Nat.shiftLeft_eq]
    omega
  have hbits := saa_bits_eq (by omega : v % 6 < 6)
  rw [hbits] at hwrite
  have k3 : VERA_PSG_OFFSET_WAVEFORM_PULSE_WIDTH = 3 := rfl
  rw [hoff, k3]
  refine ⟨en, di, enabled, disabled, enabled ||| 2 ^ (v % 6),
    disabled &&& (2 ^ (v % 6) ^^^ 0xFF), _, h1, h2, h3, h4, ?_, ?_, ?_, hwrite,
    rfl, rfl, rfl, rfl, rfl, rfl, rfl⟩
  · rw [Nat.one_shiftLeft]
  · intro i
    exact testBit_and_not_saa_bits disabled (v % 6) i (by omega)
  · intro i
    exact testBit_or_saa_bits enabled (v % 6) i

theorem C31_waveform_write_witness :
    ∃ enable_index disable_index enabled disabled enable_data disable_data g1,
      enable_index = SAA1099_ADDRESS_NOISE_ENABLE ∧
      disable_index = SAA1099_ADDRESS_FREQUENCY_ENABLE ∧
      saa1099_globals_initial.g_cache[SAA1099_GET_CACHE_OFFSET (8 / 6) + enable_index]? =
        some enabled ∧
      saa1099_globals_initial.g_cache[SAA1099_GET_CACHE_OFFSET (8 / 6) + disable_index]? =
        some disabled ∧
      enable_data = enabled ||| (1 <<< (8 % 6)) ∧
      saa1099_vera_psg_write (4 * 8 + VERA_PSG_OFFSET_WAVEFORM_PULSE_WIDTH) 0xC0
        saa1099_globals_initial = some g1 ∧
      g1.ports = saa1099_globals_initial.ports ++
        saa1099_write_ports saa1099_globals_initial.g_port_base_address (8 / 6)
          enable_index enable_data ++
        saa1099_write_ports saa1099_globals_initial.g_port_base_address (8 / 6)
          disable_index disable_data := by
  obtain ⟨en, di, enabled, disabled, ed, dd, g1, h1, h2, h3, h4, h5, _, _, h8, h9, _⟩ :=
    C31_waveform_write saa1099_globals_initial 8 0xC0 0 (by decide) (by decide) (by decide)
      (by decide)
  exact ⟨en, di, enabled, disabled, ed, dd, g1, h1, h2, h3, h4, h5, h8, h9⟩

/-! ## Claims on the frequency bytes and the enable invariant -/

/-- C35: in a state left by initialisation with a supported clock, for every
virtual channel `v` in 0..11 with cached frequency word `f` and every data
byte `d`: the write to sub-address 0 performs `saa1099_set_frequency` on chip
`v / 6`, channel `v mod 6` for the word `(f & 0xFF00) | d` and caches that
word; the write to sub-address 1 does the same for `(d << 8) | (f & 0x00FF)`.
Writing low byte `a` and then high byte `b` leaves the cached word
`b * 256 + a`, and the cached word of every other channel as it was. -/
theorem C35_frequency_bytes (g : saa1099_globals) (p_range : saa1099_verga_psg_range_t)
    (v d f : Nat) (hr : saa1099_ready g p_range) (hv : v < SAA1099_VERA_PSG_CHANNELS)
    (hd : d < 256) (hf : g.g_vera_psg_channel_frequency[v]? = some f) :
    (∃ g_lo,
      saa1099_set_frequency (v / 6) (v % 6) ((f &&& 0xFF00) ||| d) g = some g_lo ∧
      saa1099_vera_psg_write (4 * v + VERA_PSG_OFFSET_FREQ_LO) d g =
        some { g_lo with g_vera_psg_channel_frequency :=
          g.g_vera_psg_channel_frequency.set v ((f &&& 0xFF00) ||| d) }) ∧
    (∃ g_hi,
      saa1099_set_frequency (v / 6) (v % 6) ((d <<< 8) ||| (f &&& 0x00FF)) g = some g_hi ∧
      saa1099_vera_psg_write (4 * v + VERA_PSG_OFFSET_FREQ_HI) d g =
        some { g_hi with g_vera_psg_channel_frequency :=
          g.g_vera_psg_channel_frequency.set v ((d <<< 8) ||| (f &&& 0x00FF)) }) ∧
    (∀ a b, a < 256 → b < 256 →
      ∃ g2,
        (saa1099_vera_psg_write (4 * v + VERA_PSG_OFFSET_FREQ_LO) a g).bind
          (saa1099_vera_psg_write (4 * v + VERA_PSG_OFFSET_FREQ_HI) b) = some g2 ∧
        g2.g_vera_psg_channel_frequency[v]? = some (b * 256 + a) ∧
        ∀ u, u ≠ v →
          g2.g_vera_psg_channel_frequency[u]? = g.g_vera_psg_channel_frequency[u]?) := by
  have hv12 : v < 12 := hv
  have hchip : v / 6 < 2 := by omega
  have hch : v % 6 < 6 := by omega
  have k0 : VERA_PSG_OFFSET_FREQ_LO = 0 := rfl
  have k1 : VERA_PSG_OFFSET_FREQ_HI = 1 := rfl
  have m1 : VERA_PSG_MASK_FREQ_HI = 0xFF00 := rfl
  have m2 : VERA_PSG_MASK_FREQ_LO = 0xFF := rfl
  have m3 : VERA_PSG_SHIFT_FREQ_HI = 8 := rfl
  have hlen : v < g.g_vera_psg_channel_frequency.length := by rw [hr.frequency]; exact hv
  have hshift : ∀ x, x < 256 → (x <<< 8) % 65536 = x <<< 8 := by
    intro x hx
    rw [Nat.shiftLeft_eq]
    have : (2 : Nat) ^ 8 = 256 := rfl
    omega
  rw [k0, k1]
  refine ⟨?_, ?_, ?_⟩
  · obtain ⟨g1, h1, _, h3, _⟩ :=
      saa1099_set_frequency_ready hr ((f &&& 0xFF00) ||| d) hchip hch
    refine ⟨g1, h1, ?_⟩
    rw [saa1099_vera_psg_write_freq_lo d hv12 hf, m1, h1, Option.map, h3]
  · obtain ⟨g1, h1, _, h3, _⟩ :=
      saa1099_set_frequency_ready hr ((d <<< 8) ||| (f &&& 0x00FF)) hchip hch
    refine ⟨g1, h1, ?_⟩
    rw [saa1099_vera_psg_write_freq_hi d hv12 hf, m2, m3, hshift d hd, h1, Option.map, h3]
  · intro a b ha hb
    obtain ⟨g1, h1, r1, h3, _⟩ :=
      saa1099_set_frequency_ready hr ((f &&& VERA_PSG_MASK_FREQ_HI) ||| a) hchip hch
    have hlen1 : v < g1.g_vera_psg_channel_frequency.length := by rw [h3]; exact hlen
    have hfa : ({ g1 with g_vera_psg_channel_frequency :=
        g1.g_vera_psg_channel_frequency.set v ((f &&& VERA_PSG_MASK_FREQ_HI) ||| a) } :
        saa1099_globals).g_vera_psg_channel_frequency[v]? =
        some ((f &&& VERA_PSG_MASK_FREQ_HI) ||| a) := List.getElem?_set_self hlen1
    have r2 := saa1099_ready_set_frequency_cache r1 v ((f &&& VERA_PSG_MASK_FREQ_HI) ||| a)
    obtain ⟨g2, h2, _, h4, _⟩ :=
      saa1099_set_frequency_ready r2
        (((b <<< VERA_PSG_SHIFT_FREQ_HI) % 65536) |||
          (((f &&& VERA_PSG_MASK_FREQ_HI) ||| a) &&& VERA_PSG_MASK_FREQ_LO)) hchip hch
    refine ⟨{ g2 with g_vera_psg_channel_frequency :=
      (g2.g_vera_psg_channel_frequency.set v
        (((b <<< VERA_PSG_SHIFT_FREQ_HI) % 65536) |||
          (((f &&& VERA_PSG_MASK_FREQ_HI) ||| a) &&& VERA_PSG_MASK_FREQ_LO))) }, ?_, ?_, ?_⟩
    · rw [saa1099_vera_psg_write_freq_lo a hv12 hf, h1, Option.map, Option.some_bind,
        saa1099_vera_psg_write_freq_hi b hv12 hfa, h2, Option.map]
    · show (g2.g_vera_psg_channel_frequency.set v _)[v]? = _
      rw [List.getElem?_set_self (by rw [h4]; simpa using hlen1),
        freq_low_then_high f a b ha hb]
    · intro u hu
      show (g2.g_vera_psg_channel_frequency.set v _)[u]? = _
      rw [List.getElem?_set_ne (Ne.symm hu), h4]
      show (g1.g_vera_psg_channel_frequency.set v _)[u]? = _
      rw [List.getElem?_set_ne (Ne.symm hu), h3]

theorem C35_frequency_bytes_witness :
    ∃ g, saa1099_vera_psg_initialize 0x210 SAA1099_CLOCK_7159090_HZ saa1099_globals_initial =
        some g ∧
      ∃ g2,
        (saa1099_vera_psg_write (4 * 3 + VERA_PSG_OFFSET_FREQ_LO) 0xB8 g).bind
          (saa1099_vera_psg_write (4 * 3 + VERA_PSG_OFFSET_FREQ_HI) 0x01) = some g2 ∧
        g2.g_vera_psg_channel_frequency[3]? = some (0x01 * 256 + 0xB8) := by
  obtain ⟨g, hg, hr, hf, _⟩ := saa1099_vera_psg_initialize_ready
    saa1099_globals_initial 0x210 SAA1099_CLOCK_7159090_HZ g_saa1099_7mhz_vera_psg_range
    (by decide) (Or.inl ⟨rfl, rfl⟩)
  have hf3 : g.g_vera_psg_channel_frequency[3]? = some 0 := by rw [hf]; rfl
  obtain ⟨g2, h1, h2, _⟩ :=
    (C35_frequency_bytes g g_saa1099_7mhz_vera_psg_range 3 0 0 hr (by decide) (by decide)
      hf3).2.2 0xB8 0x01 (by decide) (by decide)
  exact ⟨g, hg, g2, h1, h2⟩

/-- C39: after `saa1099_vera_psg_initialize` with a supported clock, from any
earlier state, and any sequence of virtual PSG writes of data bytes, every
write returns and the final state has the enable invariant: for every virtual
channel `v` in 0..11, bit `v mod 6` of the cached register 0x15 of chip
`v / 6` is set exactly when the cached selector of `v` is 3 and bit `v mod 6`
of the cached register 0x14 exactly when it is not 3, so exactly one of the
two bits is set. -/
theorem C39_enable_invariant (g0 : saa1099_globals) (port_base_address : Nat) (clock : Int)
    (writes : List (Nat × Nat))
    (hc : g0.g_cache.length = SAA1099_REGISTER_COUNT * SAA1099_MAX_CHIPS)
    (hclock : clock = SAA1099_CLOCK_7159090_HZ ∨ clock = SAA1099_CLOCK_8000000_HZ)
    (hd : ∀ write ∈ writes, write.2 < 256) :
    ∃ g gn,
      saa1099_vera_psg_initialize port_base_address clock g0 = some g ∧
      saa1099_vera_psg_write_all writes g = some gn ∧
      saa1099_enable_invariant gn ∧
      ∀ v, v < SAA1099_VERA_PSG_CHANNELS →
        ∃ noise_enable frequency_enable,
          gn.g_cache[SAA1099_GET_CACHE_OFFSET (v / SAA1099_CHANNEL_COUNT) +
            SAA1099_ADDRESS_NOISE_ENABLE]? = some noise_enable ∧
          gn.g_cache[SAA1099_GET_CACHE_OFFSET (v / SAA1099_CHANNEL_COUNT) +
            SAA1099_ADDRESS_FREQUENCY_ENABLE]? = some frequency_enable ∧
          (noise_enable.testBit (v % SAA1099_CHANNEL_COUNT) = true ↔
            ¬ frequency_enable.testBit (v % SAA1099_CHANNEL_COUNT) = true) := by
  obtain ⟨p_range, hp⟩ : ∃ p_range,
      (clock = SAA1099_CLOCK_7159090_HZ ∧ p_range = g_saa1099_7mhz_vera_psg_range) ∨
      (clock = SAA1099_CLOCK_8000000_HZ ∧ p_range = g_saa1099_8mhz_vera_psg_range) := by
    rcases hclock with h | h
    · exact ⟨_, Or.inl ⟨h, rfl⟩⟩
    · exact ⟨_, Or.inr ⟨h, rfl⟩⟩
  obtain ⟨g, hg, hr, hinv⟩ :=
    saa1099_vera_psg_initialize_invariant g0 port_base_address clock p_range hc hp
  obtain ⟨gn, hn, _, hinvn⟩ := saa1099_vera_psg_write_all_invariant writes p_range g hr hinv hd
  refine ⟨g, gn, hg, hn, hinvn, ?_⟩
  intro v hv
  obtain ⟨s, ne, fe, _, a2, a3, a4, a5⟩ := hinvn v hv
  refine ⟨ne, fe, a2, a3, ?_⟩
  rw [a4, a5]
  exact not_not.symm

theorem C39_enable_invariant_witness :
    ∃ g gn,
      saa1099_vera_psg_initialize 0x210 SAA1099_CLOCK_8000000_HZ saa1099_globals_initial =
        some g ∧
      saa1099_vera_psg_write_all [(3, 0xC0), (7, 0x80), (0, 0x52), (3, 0x40)] g = some gn ∧
      saa1099_enable_invariant gn := by
  obtain ⟨g, gn, h1, h2, h3, _⟩ :=
    C39_enable_invariant saa1099_globals_initial 0x210 SAA1099_CLOCK_8000000_HZ
      [(3, 0xC0), (7, 0x80), (0, 0x52), (3, 0x40)] (by decide) (Or.inr rfl) (by decide)
  exact ⟨g, gn, h1, h2, h3⟩

/-! ## Claims on the player invariant, the writer hooks and termination -/

/-- C37: in every state reached from the initial one through calls of
`zsm_initialize`, `zsm_start`, `zsm_stop` and `zsm_update`, the delay counter
is in 0..127; and whenever `zsm_update` returns from such a state, the player
is stopped or the delay counter is in 1..127. -/
theorem C37_player_invariant (calls : List zsm_call) (g : zsm_globals)
    (h : zsm_calls_run calls zsm_globals_initial = some g) :
    g.g_delay_ticks ≤ 127 ∧
    ∀ fuel g1, zsm_update fuel g = some g1 →
      g1.g_play_stream = false ∨ (1 ≤ g1.g_delay_ticks ∧ g1.g_delay_ticks ≤ 127) := by
  have hd : g.g_delay_ticks ≤ 127 :=
    zsm_calls_run_delay calls h (by show 0 ≤ 127; omega)
  refine ⟨hd, ?_⟩
  intro fuel g1 hu
  have h1 := zsm_update_delay fuel hu hd
  rcases h1.2 with hp | hp
  · exact Or.inl hp
  · exact Or.inr ⟨hp, h1.1⟩

/-- Witness for C37: initialise on the sample stream with a PSG writer, start,
and tick once; the tick runs the PSG write and the delay command and
returns playing with delay 1. -/
theorem C37_player_invariant_witness :
    zsm_calls_run
        [zsm_call.call_init (some sample_stream_store) none (some (vera_psg_write_func_t.func 7)),
         zsm_call.call_start 0, zsm_call.call_update 8]
        zsm_globals_initial =
      some { zsm_start 0 sample_stream_ready with
             g_ram_bank := cursor_at 19,
             calls := [write_call.vera_psg (vera_psg_write_func_t.func 7) 0 5] } ∧
    ({ zsm_start 0 sample_stream_ready with
         g_ram_bank := cursor_at 19,
         calls := [write_call.vera_psg (vera_psg_write_func_t.func 7) 0 5] } :
       zsm_globals).g_delay_ticks ≤ 127 ∧
    ∀ fuel g1,
      zsm_update fuel
          { zsm_start 0 sample_stream_ready with
            g_ram_bank := cursor_at 19,
            calls := [write_call.vera_psg (vera_psg_write_func_t.func 7) 0 5] } = some g1 →
      g1.g_play_stream = false ∨ (1 ≤ g1.g_delay_ticks ∧ g1.g_delay_ticks ≤ 127) :=
  ⟨by decide,
    C37_player_invariant
      [zsm_call.call_init (some sample_stream_store) none (some (vera_psg_write_func_t.func 7)),
       zsm_call.call_start 0, zsm_call.call_update 8]
      _ (by decide)⟩

/-- C38: after `zsm_initialize` returned `ZSM_SUCCESS` once, a second
`zsm_initialize` on a loaded version-1 stream, with both writers null or with
both channel masks of the stream zero, returns `ZSM_SUCCESS` again; a caller's
FM (PSG) writer that the first call was given together with a non-zero FM
(PSG) mask is still the hook, and while the second stream plays every FM
write command calls the FM hook of the first call once per pair and every PSG
write command calls the PSG hook of the first call. -/
theorem C38_hooks_never_reset (bytes2 : List (Fin 256)) (r1 r2 : ram) (g0 g1 : zsm_globals)
    (fm1 fm2 : Option ym2151_write_func_t) (psg1 psg2 : Option vera_psg_write_func_t)
    (m lo hi : Nat)
    (hfirst : zsm_initialize (some r1) fm1 psg1 g0 = some (e_zsm_result_t.ZSM_SUCCESS, g1))
    (hload : ram_load_file (some bytes2) = (e_ram_result_t.RAM_LOAD_SUCCESS, some r2))
    (hversion : ram_byte_at r2 2 = some ZSM_VERSION_01)
    (h9 : ram_byte_at r2 9 = some m) (h10 : ram_byte_at r2 10 = some lo)
    (h11 : ram_byte_at r2 11 = some hi)
    (hsecond : (fm2 = none ∧ psg2 = none) ∨ (m = 0 ∧ lo = 0 ∧ hi = 0)) :
    ∃ g2, zsm_initialize (some r2) fm2 psg2 g1 = some (e_zsm_result_t.ZSM_SUCCESS, g2) ∧
      g2.g_p_zsm_ram_handle = some r2 ∧
      (∀ f m1, fm1 = some f → ram_byte_at r1 9 = some m1 → m1 ≠ 0 →
        g2.g_p_ym2151_write_func = f) ∧
      (∀ f lo1 hi1, psg1 = some f → ram_byte_at r1 10 = some lo1 →
        ram_byte_at r1 11 = some hi1 → lo1 + 256 * hi1 ≠ 0 →
        g2.g_p_vera_psg_write_func = f) ∧
      ∀ zsm_repeat k g3 g4 c, zsm_run (zsm_start zsm_repeat g2) k g3 →
        zsm_current_command g3 = some c → zsm_update_body g3 = some g4 →
        (0x41 ≤ c ∧ c ≤ 0x7F → ∃ pairs : List (Nat × Nat), pairs.length = c &&& 0x3F ∧
          g4.calls = g3.calls ++
            pairs.map (fun ad => write_call.ym2151 g1.g_p_ym2151_write_func ad.1 ad.2)) ∧
        (c < 0x40 → ∃ data,
          g4.calls = g3.calls ++
            [write_call.vera_psg g1.g_p_vera_psg_write_func (c &&& 0x3F) data]) := by
  obtain ⟨hhook, hfm, hpsg⟩ := zsm_initialize_installs hfirst
  refine ⟨_, zsm_initialize_keeps_hooks (ram_load_file_wf hload) g1 fm2 psg2 hversion h9 h10 h11
    hsecond hhook, rfl, hfm, hpsg, ?_⟩
  intro zsm_repeat k g3 g4 c hrun hc hb
  obtain ⟨e1, e2⟩ := zsm_run_hooks hrun
  obtain ⟨_, _, c1, c2, _⟩ := zsm_update_body_calls hb hc
  rw [e1, e2] at *
  exact ⟨c2, c1⟩

/-- Witness for C38: the first call installs the writers 9 and 7 on the
sample loop stream; the second call passes no writer on the sample stream. -/
theorem C38_hooks_never_reset_witness :
    ∃ g2, zsm_initialize (some sample_stream_store) none none sample_loop_ready =
        some (e_zsm_result_t.ZSM_SUCCESS, g2) ∧
      g2.g_p_zsm_ram_handle = some sample_stream_store ∧
      (∀ f m1, some (ym2151_write_func_t.func 9) = some f →
        ram_byte_at sample_loop_store 9 = some m1 → m1 ≠ 0 →
        g2.g_p_ym2151_write_func = f) ∧
      (∀ f lo1 hi1, some (vera_psg_write_func_t.func 7) = some f →
        ram_byte_at sample_loop_store 10 = some lo1 →
        ram_byte_at sample_loop_store 11 = some hi1 → lo1 + 256 * hi1 ≠ 0 →
        g2.g_p_vera_psg_write_func = f) ∧
      ∀ zsm_repeat k g3 g4 c, zsm_run (zsm_start zsm_repeat g2) k g3 →
        zsm_current_command g3 = some c → zsm_update_body g3 = some g4 →
        (0x41 ≤ c ∧ c ≤ 0x7F → ∃ pairs : List (Nat × Nat), pairs.length = c &&& 0x3F ∧
          g4.calls = g3.calls ++
            pairs.map (fun ad =>
              write_call.ym2151 sample_loop_ready.g_p_ym2151_write_func ad.1 ad.2)) ∧
        (c < 0x40 → ∃ data,
          g4.calls = g3.calls ++
            [write_call.vera_psg sample_loop_ready.g_p_vera_psg_write_func (c &&& 0x3F) data]) :=
  C38_hooks_never_reset sample_stream_file sample_loop_store sample_stream_store
    zsm_globals_initial sample_loop_ready
    (some (ym2151_write_func_t.func 9)) none (some (vera_psg_write_func_t.func 7)) none
    0 1 0 (by decide) (by decide) (by decide) (by decide) (by decide) (by decide)
    (Or.inl ⟨rfl, rfl⟩)

/-- Counterexample to C34: the stream `sample_wrap_file` loads into a store
of 16 banks; with the repeat-forever bit clear, a playing player with its
cursor at position 16 never leaves the command loop of `zsm_update` and no
iteration aborts, because the iteration at position 524284 (an extension
command skipping 18 bytes) brings the cursor back to position 16 with the
delay, the playing flag and the repeat count unchanged. -/
theorem C34_counterexample_skip_wraps :
    ∃ r, ram_load_file (some sample_wrap_file) = (e_ram_result_t.RAM_LOAD_SUCCESS, some r) ∧
      r.number_of_banks = 16 ∧
      (sample_player r 16 0 0).g_zsm_repeat &&& ZSM_REPEAT_FOREVER = 0 ∧
      zsm_update_body (sample_player r 524284 0 0) = some (sample_player r 16 0 0) ∧
      (∀ n, zsm_update_halts n (sample_player r 16 0 0) = false) ∧
      ∀ fuel, zsm_update fuel (sample_player r 16 0 0) = none := by
  obtain ⟨r, hload, hnb⟩ := ram_load_file_small sample_wrap_file
    (by rw [sample_wrap_file_length]; omega) (by rw [sample_wrap_file_length])
  rw [sample_wrap_file_length] at hnb
  have hnb16 : r.number_of_banks = 16 := hnb
  have hloop : ∀ n, zsm_update_loop_halts n (sample_player r 16 0 0) = false := fun n =>
    sample_wrap_never_halts hload hnb16 n (by omega) (by omega) (by omega)
  refine ⟨r, hload, hnb16, (by decide : 0 &&& ZSM_REPEAT_FOREVER = 0), ?_, ?_, ?_⟩
  · exact sample_wrap_step hload hnb16 (p := 524284) (by omega) (by omega) (by omega)
  · intro n
    exact hloop n
  · intro fuel
    exact zsm_update_loop_halts_false fuel (hloop fuel)

/-- C34 (amended): on a loaded store of at most 15 banks, with the cursor at
a position `p` inside the store and the repeat-forever bit clear, every call
of `zsm_update` is over within `(g_repeat_count + 1) * size` iterations of
its command loop, `size` the size of the store, and more fuel than that does
not change its result; each iteration that returns sets a non-zero delay, or
stops the player, or leaves the cursor inside the store with a lower repeat
count, or with the same repeat count and the cursor at a greater position, so
that the pair of the repeat count and the bytes left after the cursor
decreases lexicographically. -/
theorem C34_update_terminates (bytes : List (Fin 256)) (r : ram) (g : zsm_globals) (p : Nat)
    (hload : ram_load_file (some bytes) = (e_ram_result_t.RAM_LOAD_SUCCESS, some r))
    (hbanks : r.number_of_banks ≤ 15)
    (hhandle : g.g_p_zsm_ram_handle = some r)
    (hcursor : g.g_ram_bank = cursor_at p) (hp : p < r.number_of_banks * RAM_BANK_SIZE)
    (hforever : g.g_zsm_repeat &&& ZSM_REPEAT_FOREVER = 0) :
    (∀ g1, g.g_play_stream = true → g.g_delay_ticks = 0 → zsm_update_body g = some g1 →
      g1.g_delay_ticks ≠ 0 ∨ g1.g_play_stream = false ∨
      ∃ q, g1.g_ram_bank = cursor_at q ∧ q < r.number_of_banks * RAM_BANK_SIZE ∧
        (g1.g_repeat_count < g.g_repeat_count ∨
          (g1.g_repeat_count = g.g_repeat_count ∧ p < q ∧
            r.number_of_banks * RAM_BANK_SIZE - q < r.number_of_banks * RAM_BANK_SIZE - p))) ∧
    zsm_update_halts ((g.g_repeat_count + 1) * (r.number_of_banks * RAM_BANK_SIZE)) g = true ∧
    ∀ fuel, (g.g_repeat_count + 1) * (r.number_of_banks * RAM_BANK_SIZE) ≤ fuel →
      zsm_update fuel g =
        zsm_update ((g.g_repeat_count + 1) * (r.number_of_banks * RAM_BANK_SIZE)) g := by
  have hr := ram_load_file_wf hload
  rw [bank_size_eq] at hp ⊢
  have hhalt := zsm_update_halts_bound hr hbanks hhandle hcursor hp hforever
  refine ⟨?_, hhalt, fun fuel hf => zsm_update_halts_fuel _ hhalt fuel hf⟩
  intro g1 _ _ hb
  obtain ⟨_, _, hcases⟩ := zsm_update_body_progress hr hbanks hhandle hcursor hp hforever hb
  rcases hcases with hd | hs | ⟨q, hq1, hq2, _, _, hlex⟩
  · exact Or.inl hd
  · exact Or.inr (Or.inl hs)
  · refine Or.inr (Or.inr ⟨q, hq1, hq2, ?_⟩)
    rcases hlex with hlt | ⟨heq, hpq⟩
    · exact Or.inl hlt
    · exact Or.inr ⟨heq, hpq, by omega⟩

/-- Witness for C34: the sample loop stream, one bank, the cursor at the
first command and no repeat. -/
theorem C34_update_terminates_witness :
    (∀ g1, (sample_player sample_loop_store 16 0 0).g_play_stream = true →
      (sample_player sample_loop_store 16 0 0).g_delay_ticks = 0 →
      zsm_update_body (sample_player sample_loop_store 16 0 0) = some g1 →
      g1.g_delay_ticks ≠ 0 ∨ g1.g_play_stream = false ∨
      ∃ q, g1.g_ram_bank = cursor_at q ∧
        q < sample_loop_store.number_of_banks * RAM_BANK_SIZE ∧
        (g1.g_repeat_count < (sample_player sample_loop_store 16 0 0).g_repeat_count ∨
          (g1.g_repeat_count = (sample_player sample_loop_store 16 0 0).g_repeat_count ∧
            16 < q ∧
            sample_loop_store.number_of_banks * RAM_BANK_SIZE - q <
              sample_loop_store.number_of_banks * RAM_BANK_SIZE - 16))) ∧
    zsm_update_halts
      (((sample_player sample_loop_store 16 0 0).g_repeat_count + 1) *
        (sample_loop_store.number_of_banks * RAM_BANK_SIZE))
      (sample_player sample_loop_store 16 0 0) = true ∧
    ∀ fuel,
      ((sample_player sample_loop_store 16 0 0).g_repeat_count + 1) *
        (sample_loop_store.number_of_banks * RAM_BANK_SIZE) ≤ fuel →
      zsm_update fuel (sample_player sample_loop_store 16 0 0) =
        zsm_update
          (((sample_player sample_loop_store 16 0 0).g_repeat_count + 1) *
            (sample_loop_store.number_of_banks * RAM_BANK_SIZE))
          (sample_player sample_loop_store 16 0 0) :=
  C34_update_terminates sample_loop_file sample_loop_store (sample_player sample_loop_store 16 0 0)
    16 (by decide) (by decide) rfl rfl (by decide) (by decide)

end PCZSM
